import Mathlib

/-!
# Reconciliation passes and the scheduling sub-protocol of onecloud

A shallow embedding of

* `pkg/compute/models/loadbalancers.go`, `zones.go`, `loadbalancerlistenerrules.go`,
  `loadbalancernetworks.go` (the sync passes and their per-item helpers), and
* `pkg/compute/tasks/schedule.go` (the scheduling sub-protocol).

Stateful code is written in explicit state-passing style over a `World` holding the
tables the code reads and writes together with a trace of the effects it performs.
Outcomes of calls into packages that are outside the embedded files (database
failures, name generation, lookups in other tables) are supplied by an `Env`.
-/

set_option autoImplicit false

namespace Onecloud

/-- Go `error` values are represented by their message. -/
abbrev Err := String

/-! ## Package `compare` -/

namespace compare

/-- Modelled from the spec: `compare.SyncResult` (package `yunion.io/x/pkg/util/compare`,
not part of the embedded sources), the accumulator
`{added, updated, deleted, addErrors, updateErrors, deleteErrors}` of a pass together
with the errors recorded during the pass. -/
structure SyncResult where
  Added : Nat
  AddErrors : Nat
  Updated : Nat
  UpdateErrors : Nat
  Deleted : Nat
  DeleteErrors : Nat
  errors : List Err
  deriving DecidableEq, Repr

namespace SyncResult

/-- The zero value `compare.SyncResult{}`. -/
def empty : SyncResult :=
  { Added := 0, AddErrors := 0, Updated := 0, UpdateErrors := 0,
    Deleted := 0, DeleteErrors := 0, errors := [] }

/-- Modelled from the spec: `SyncResult.Error(err)` records an error without counting. -/
def Error (r : SyncResult) (err : Err) : SyncResult :=
  { r with errors := r.errors ++ [err] }

/-- Modelled from the spec: `SyncResult.Add()`. -/
def Add (r : SyncResult) : SyncResult := { r with Added := r.Added + 1 }

/-- Modelled from the spec: `SyncResult.AddError(err)`. -/
def AddError (r : SyncResult) (err : Err) : SyncResult :=
  { r with AddErrors := r.AddErrors + 1, errors := r.errors ++ [err] }

/-- Modelled from the spec: `SyncResult.Update()`. -/
def Update (r : SyncResult) : SyncResult := { r with Updated := r.Updated + 1 }

/-- Modelled from the spec: `SyncResult.UpdateError(err)`. -/
def UpdateError (r : SyncResult) (err : Err) : SyncResult :=
  { r with UpdateErrors := r.UpdateErrors + 1, errors := r.errors ++ [err] }

/-- Modelled from the spec: `SyncResult.Delete()`. -/
def Delete (r : SyncResult) : SyncResult := { r with Deleted := r.Deleted + 1 }

/-- Modelled from the spec: `SyncResult.DeleteError(err)`. -/
def DeleteError (r : SyncResult) (err : Err) : SyncResult :=
  { r with DeleteErrors := r.DeleteErrors + 1, errors := r.errors ++ [err] }

/-- The three sums the count invariant speaks about: `(Added + AddErrors,
Updated + UpdateErrors, Deleted + DeleteErrors)`. -/
def totals (r : SyncResult) : Nat × Nat × Nat :=
  (r.Added + r.AddErrors, r.Updated + r.UpdateErrors, r.Deleted + r.DeleteErrors)

end SyncResult

/-- The four output slices of `compare.CompareSets`. `commondb` and `commonext` are
parallel: entry `i` of one is paired with entry `i` of the other. -/
structure Partition (α β : Type) where
  removed : List α
  commondb : List α
  commonext : List β
  added : List β

/-- The pairs `(L, R)` with `dbKey L = extKey R`, locals in input order and, for each
local, its remotes in input order. -/
def commonPairs {α β : Type} (dbKey : α → String) (extKey : β → String) :
    List α → List β → List (α × β)
  | [], _ => []
  | l :: ls, ext =>
    (ext.filter (fun r => extKey r == dbKey l)).map (fun r => (l, r))
      ++ commonPairs dbKey extKey ls ext

/-- Modelled from the spec: `compare.CompareSets` (package `yunion.io/x/pkg/util/compare`,
not part of the embedded sources). The matching key is
`local.externalId == remote.globalId`; the partition is *removed* (local with no remote
match), *commonLocal/commonRemote* (paired) and *added* (remote with no local match).
The spec names no failure of the partition, so the model always returns `ok`. -/
def CompareSets {α β : Type} (dbKey : α → String) (extKey : β → String)
    (dbSet : List α) (extSet : List β) : Except Err (Partition α β) :=
  let common := commonPairs dbKey extKey dbSet extSet
  .ok
    { removed := dbSet.filter (fun l => !(extSet.any (fun r => extKey r == dbKey l)))
      commondb := common.map Prod.fst
      commonext := common.map Prod.snd
      added := extSet.filter (fun r => !(dbSet.any (fun l => extKey r == dbKey l))) }

end compare

/-! ## Package `models`: data -/

namespace models

open compare

/-- A `*jsonutils.JSONDict` of metadata; the sync code only copies it. -/
abbrev JSONDict := List (String × String)

/-- Value of `api.LB_STATUS_UNKNOWN` (package `apis/compute`). -/
def LB_STATUS_UNKNOWN : String := "unknown"

def ZONE_INIT : String := "init"
def ZONE_ENABLE : String := "enable"
def ZONE_DISABLE : String := "disable"
def ZONE_SOLDOUT : String := "soldout"

/-- The fields of `SCloudprovider` read by the sync code. -/
structure SCloudprovider where
  Id : String
  ProjectId : String
  deriving DecidableEq, Repr

/-- The fields of `SCloudregion` read by the sync code. -/
structure SCloudregion where
  Id : String
  deriving DecidableEq, Repr

/-- The fields of `SLoadbalancerListener` read by the sync code. -/
structure SLoadbalancerListener where
  Id : String
  Name : String
  ManagerId : String
  LoadbalancerId : String
  CloudregionId : String
  deriving DecidableEq, Repr

/-- `SLoadbalancer`: `db.SVirtualResourceBase` (Id, Name, ExternalId, Status, ProjectId,
Deleted), `SManagedResourceBase` (ManagerId) and the fields of the struct itself. -/
structure SLoadbalancer where
  Id : String
  Name : String
  ExternalId : String
  Status : String
  ProjectId : String
  Deleted : Bool
  ManagerId : String
  Address : String
  AddressType : String
  NetworkType : String
  NetworkId : String
  VpcId : String
  ZoneId : String
  CloudregionId : String
  ChargeType : String
  LoadbalancerSpec : String
  BackendGroupId : String
  LBInfo : Option JSONDict
  deriving DecidableEq, Repr

/-- The zero value `SLoadbalancer{}`. -/
def SLoadbalancer.zero : SLoadbalancer :=
  { Id := "", Name := "", ExternalId := "", Status := "", ProjectId := "", Deleted := false,
    ManagerId := "", Address := "", AddressType := "", NetworkType := "", NetworkId := "",
    VpcId := "", ZoneId := "", CloudregionId := "", ChargeType := "", LoadbalancerSpec := "",
    BackendGroupId := "", LBInfo := none }

/-- What the getters of a `cloudprovider.ICloudLoadbalancer` return. -/
structure ICloudLoadbalancer where
  GetId : String
  GetName : String
  GetGlobalId : String
  GetStatus : String
  IsEmulated : Bool
  GetMetadata : Option JSONDict
  GetProjectId : String
  GetAddress : String
  GetAddressType : String
  GetNetworkType : String
  GetNetworkId : String
  GetVpcId : String
  GetZoneId : String
  GetLoadbalancerSpec : String
  GetChargeType : String
  deriving DecidableEq, Repr

/-- `SZone`: `db.SStatusStandaloneResourceBase` (Id, Name, ExternalId, Status, IsEmulated,
Deleted) and the fields of the struct itself. -/
structure SZone where
  Id : String
  Name : String
  ExternalId : String
  Status : String
  IsEmulated : Bool
  Deleted : Bool
  Location : String
  Contacts : String
  NameCn : String
  ManagerUri : String
  CloudregionId : String
  deriving DecidableEq, Repr

/-- The zero value `SZone{}`. -/
def SZone.zero : SZone :=
  { Id := "", Name := "", ExternalId := "", Status := "", IsEmulated := false,
    Deleted := false, Location := "", Contacts := "", NameCn := "", ManagerUri := "",
    CloudregionId := "" }

/-- What the getters of a `cloudprovider.ICloudZone` return. -/
structure ICloudZone where
  GetId : String
  GetName : String
  GetGlobalId : String
  GetStatus : String
  IsEmulated : Bool
  GetMetadata : Option JSONDict
  deriving DecidableEq, Repr

/-- `SLoadbalancerListenerRule`: `db.SVirtualResourceBase`, `SManagedResourceBase` and
the fields of the struct itself (health-check and rate-limiter fields are not touched by
the sync code and are left out). -/
structure SLoadbalancerListenerRule where
  Id : String
  Name : String
  ExternalId : String
  Status : String
  ProjectId : String
  Deleted : Bool
  PendingDeleted : Bool
  ManagerId : String
  CloudregionId : String
  ListenerId : String
  BackendGroupId : String
  Domain : String
  Path : String
  deriving DecidableEq, Repr

/-- The zero value `SLoadbalancerListenerRule{}`. -/
def SLoadbalancerListenerRule.zero : SLoadbalancerListenerRule :=
  { Id := "", Name := "", ExternalId := "", Status := "", ProjectId := "", Deleted := false,
    PendingDeleted := false, ManagerId := "", CloudregionId := "", ListenerId := "",
    BackendGroupId := "", Domain := "", Path := "" }

/-- What the getters of a `cloudprovider.ICloudLoadbalancerListenerRule` return. -/
structure ICloudLoadbalancerListenerRule where
  GetId : String
  GetName : String
  GetGlobalId : String
  GetStatus : String
  IsEmulated : Bool
  GetMetadata : Option JSONDict
  GetProjectId : String
  GetDomain : String
  GetPath : String
  GetBackendGroupId : String
  deriving DecidableEq, Repr

/-- The fields of `SLoadbalancerBackendGroup` read by the sync code. -/
structure SLoadbalancerBackendGroup where
  Id : String
  Name : String
  ExternalId : String
  LoadbalancerId : String
  deriving DecidableEq, Repr

/-- `SLoadbalancerNetwork`, a row of `loadbalancernetworks_tbl`. -/
structure SLoadbalancerNetwork where
  RowId : Nat
  LoadbalancerId : String
  NetworkId : String
  IpAddr : String
  Deleted : Bool
  deriving DecidableEq, Repr

/-- Effects performed by the embedded code, in the order they happen. -/
inductive Event where
  | LockClass (manager ownerId : String)
  | ReleaseClass (manager ownerId : String)
  | LockObject (keyword id : String)
  | ReleaseObject (keyword id : String)
  | SetStatus (keyword id status reason : String)
  | Delete (keyword id : String)
  | Update (keyword id : String)
  | Insert (keyword externalId : String)
  | LogEvent (keyword id action : String)
  | LogSyncUpdate (keyword id : String)
  | SyncCloudProject (keyword id projectId : String)
  | syncMetadata (keyword id externalId : String)
  | SetExternalId (keyword id externalId : String)
  | NewTask (taskName keyword id : String)
  | ScheduleRun (taskName id : String)
  deriving DecidableEq, Repr

/-- The tables read and written by the embedded code and the trace of its effects. -/
structure World where
  loadbalancers_tbl : List SLoadbalancer
  zones_tbl : List SZone
  loadbalancerlistenerrules_tbl : List SLoadbalancerListenerRule
  loadbalancernetworks_tbl : List SLoadbalancerNetwork
  trace : List Event
  deriving DecidableEq, Repr

/-- A world with empty tables and an empty trace. -/
def World.empty : World :=
  { loadbalancers_tbl := [], zones_tbl := [], loadbalancerlistenerrules_tbl := [],
    loadbalancernetworks_tbl := [], trace := [] }

/-- Append one effect to the trace. -/
def World.emit (w : World) (e : Event) : World := { w with trace := w.trace ++ [e] }

/-- Three-valued `tristate.TriState`. -/
inductive TriState where
  | None
  | True
  | False
  deriving DecidableEq, Repr

/-- Outcomes of the calls that leave the embedded files. Every outcome may depend on the
current world (tables and the trace so far), so an operation may succeed for one item and
fail for the next, or fail the second time it is tried. -/
structure Env where
  /-- Error of `db.FetchModelObjects` on the table of a manager, if any. -/
  FetchModelObjectsErr : World → String → Option Err
  /-- The inherited `ValidateDeleteCondition` of the resource base structs. -/
  ValidateDeleteCondition : World → String → String → Option Err
  /-- Error of the status write of `SetStatus`, if any. -/
  SetStatusErr : World → String → String → Option Err
  /-- Error of `db.DeleteModel`, if any. -/
  DeleteErr : World → String → String → Option Err
  /-- Error of the write of `db.Update` / `db.UpdateWithLock`, if any. -/
  UpdateErr : World → String → String → Option Err
  /-- Error of `TableSpec().Insert`, if any (keyed by keyword and external id). -/
  InsertErr : World → String → String → Option Err
  /-- The id given to a record by `BeforeInsert`. -/
  NewId : World → String → String
  /-- `db.GenerateName(manager, ownerId, hint)`. -/
  GenerateName : World → String → String → String → String
  /-- `Manager.FetchByExternalId(externalId)`: the local id, or `none` on error. -/
  FetchByExternalId : World → String → String → Option String
  /-- `LoadbalancerBackendGroupManager.FetchById(id)`: `none` on error. -/
  BackendGroupFetchById : World → String → Option SLoadbalancerBackendGroup
  /-- `LoadbalancerListenerManager.FetchById(id)`: `none` on error. -/
  ListenerFetchById : World → String → Option SLoadbalancerListener
  /-- The owner project `SyncCloudProject` writes to the record (`none`: nothing written). -/
  SyncCloudProjectOwner : World → String → String → String → String → String → Option String
  /-- `q.Count()` of the host query of `SZone.HostCount`. -/
  HostQueryCount : World → String → String → String → TriState → String → TriState → Nat
  /-- `q.Count()` of the wire query of `SZone.getWireCount`. -/
  WireQueryCount : World → String → Nat
  /-- `q.Count()` of the storage query of `SZone.getStorageCount`. -/
  StorageQueryCount : World → String → Nat
  /-- `getNetworkCount(nil, zone)`. -/
  NetworkQueryCount : World → String → Nat
  /-- `NetworkManager.FetchById(id)` succeeds. -/
  NetworkExists : World → String → Bool
  /-- `netutils.NewIPV4Addr(addr)` succeeds. -/
  ValidIPv4 : String → Bool
  /-- `network.isAddressInRange(ip)`. -/
  AddressInRange : World → String → String → Bool

/-! ## Package `models`: database primitives -/

/-- Apply `f` to the rows of a table whose id is `id`. -/
def updateRows {α : Type} (getId : α → String) (tbl : List α) (id : String) (f : α → α) :
    List α :=
  tbl.map (fun r => if getId r == id then f r else r)

/-- The state threaded through the three loops of a pass that returns the local and the
remote list (`localLbs`, `remoteLbs`, `syncResult` and the world). -/
structure SyncAcc (α β : Type) where
  w : World
  localObjs : List α
  remoteObjs : List β
  syncResult : SyncResult

/-! ## `loadbalancernetworks.go` -/

/-- `SLoadbalancerNetworkRequestData`. -/
structure SLoadbalancerNetworkRequestData where
  Loadbalancer : SLoadbalancer
  NetworkId : String
  Address : String

/-- `SLoadbalancerNetwork.Delete`: `db.DeleteModel` on the row. -/
def SLoadbalancerNetwork.Delete (env : Env) (w : World) (ln : SLoadbalancerNetwork) :
    World × Option Err :=
  let w := w.emit (.Delete "loadbalancernetwork" ln.LoadbalancerId)
  match env.DeleteErr w "loadbalancernetwork" ln.LoadbalancerId with
  | some err => (w, some err)
  | none =>
    ({ w with loadbalancernetworks_tbl := (w.loadbalancernetworks_tbl.map
          (fun r => if r.RowId == ln.RowId then { r with Deleted := true } else r)) }, none)

/-- `SLoadbalancernetworkManager.syncLoadbalancerNetwork`. -/
def SLoadbalancernetworkManager.syncLoadbalancerNetwork (env : Env) (w : World)
    (req : SLoadbalancerNetworkRequestData) : World × Option Err :=
  if !env.NetworkExists w req.NetworkId then (w, some "network not found")
  else if !env.ValidIPv4 req.Address then (w, some "invalid ipv4 address")
  else if !env.AddressInRange w req.NetworkId req.Address then
    (w, some "address is not in the range of network")
  else
    match env.FetchModelObjectsErr w "loadbalancernetwork" with
    | some err => (w, some err)
    | none =>
      let lns := w.loadbalancernetworks_tbl.filter (fun ln =>
        !ln.Deleted && ln.LoadbalancerId == req.Loadbalancer.Id && ln.NetworkId == req.NetworkId)
      match lns with
      | [] =>
        let w := w.emit (.Insert "loadbalancernetwork" req.Loadbalancer.Id)
        match env.InsertErr w "loadbalancernetwork" req.Loadbalancer.Id with
        | some err => (w, some err)
        | none =>
          ({ w with loadbalancernetworks_tbl := (w.loadbalancernetworks_tbl ++
              [{ RowId := w.loadbalancernetworks_tbl.length,
                 LoadbalancerId := req.Loadbalancer.Id, NetworkId := req.NetworkId,
                 IpAddr := req.Address, Deleted := false }]) }, none)
      | first :: rest =>
        let w :=
          if first.IpAddr != req.Address then
            let w := w.emit (.Update "loadbalancernetwork" first.LoadbalancerId)
            match env.UpdateErr w "loadbalancernetwork" first.LoadbalancerId with
            | some _ => w
            | none =>
              { w with loadbalancernetworks_tbl := (w.loadbalancernetworks_tbl.map
                  (fun r => if r.RowId == first.RowId then { r with IpAddr := req.Address }
                            else r)) }
          else w
        (rest.foldl (fun w ln => (ln.Delete env w).1) w, none)

/-- The loadbalancer-network records that exist for a (load balancer, network) pair. -/
def SLoadbalancernetworkManager.pairRecords (w : World) (loadbalancerId networkId : String) :
    List SLoadbalancerNetwork :=
  w.loadbalancernetworks_tbl.filter (fun ln =>
    !ln.Deleted && ln.LoadbalancerId == loadbalancerId && ln.NetworkId == networkId)

/-! ## `loadbalancers.go` -/

/-- The inherited `ValidateDeleteCondition` of `SLoadbalancer` (`db.SVirtualResourceBase`). -/
def SLoadbalancer.ValidateDeleteCondition (env : Env) (w : World) (lb : SLoadbalancer) :
    Option Err :=
  env.ValidateDeleteCondition w "loadbalancer" lb.Id

/-- Modelled from the spec: `SetStatus` of the resource base (package `cloudcommon/db`, not
part of the embedded sources) writes the status of the record and reports the error of
that write. -/
def SLoadbalancer.SetStatus (env : Env) (w : World) (lb : SLoadbalancer)
    (status reason : String) : World × Option Err :=
  let w := w.emit (.SetStatus "loadbalancer" lb.Id status reason)
  match env.SetStatusErr w "loadbalancer" lb.Id with
  | some err => (w, some err)
  | none =>
    ({ w with loadbalancers_tbl := (updateRows (fun r => r.Id) w.loadbalancers_tbl lb.Id
          (fun r => { r with Status := status })) }, none)

/-- `SLoadbalancer.Delete`: returns `nil` and does nothing. -/
def SLoadbalancer.Delete (w : World) (_lb : SLoadbalancer) : World × Option Err :=
  (w, none)

/-- Modelled from the spec: `db.Update` (package `cloudcommon/db`, not part of the embedded
sources), the read-modify-write of one record: the closure is run on the record in
memory, and the row is rewritten unless the write fails. -/
def SLoadbalancer.dbUpdate (env : Env) (w : World) (lb : SLoadbalancer)
    (f : SLoadbalancer → SLoadbalancer) : World × SLoadbalancer × Option Err :=
  let w := w.emit (.Update "loadbalancer" lb.Id)
  match env.UpdateErr w "loadbalancer" lb.Id with
  | some err => (w, f lb, some err)
  | none =>
    ({ w with loadbalancers_tbl := updateRows (fun r => r.Id) w.loadbalancers_tbl lb.Id f },
      f lb, none)

/-- Modelled from the spec: `SyncCloudProject` (package `models`, not part of the embedded
sources) propagates ownership/project metadata from remote to local. -/
def SLoadbalancer.SyncCloudProject (env : Env) (w : World) (lb : SLoadbalancer)
    (projectId extProjectId managerId : String) : World × SLoadbalancer :=
  let w := w.emit (.SyncCloudProject "loadbalancer" lb.Id projectId)
  match env.SyncCloudProjectOwner w "loadbalancer" lb.Id projectId extProjectId managerId with
  | none => (w, lb)
  | some owner =>
    ({ w with loadbalancers_tbl := (updateRows (fun r => r.Id) w.loadbalancers_tbl lb.Id
          (fun r => { r with ProjectId := owner })) }, { lb with ProjectId := owner })

/-- `SLoadbalancerManager.getLoadbalancersByRegion`. -/
def getLoadbalancersByRegion (env : Env) (w : World) (region : SCloudregion)
    (provider : SCloudprovider) : Except Err (List SLoadbalancer) :=
  match env.FetchModelObjectsErr w "loadbalancer" with
  | some err => .error err
  | none =>
    .ok (w.loadbalancers_tbl.filter (fun lb =>
      !lb.Deleted && lb.CloudregionId == region.Id && lb.ManagerId == provider.Id))

/-- `SLoadbalancer.syncLoadbalancerNetwork`. -/
def SLoadbalancer.syncLoadbalancerNetwork (env : Env) (w : World) (lb : SLoadbalancer) :
    World :=
  if lb.NetworkId.length > 0 then
    (SLoadbalancernetworkManager.syncLoadbalancerNetwork env w
      { Loadbalancer := lb, NetworkId := lb.NetworkId, Address := lb.Address }).1
  else w

/-- `SLoadbalancer.syncRemoveCloudLoadbalancer`. -/
def SLoadbalancer.syncRemoveCloudLoadbalancer (env : Env) (w : World) (lb : SLoadbalancer) :
    World × Option Err :=
  let w := w.emit (.LockObject "loadbalancer" lb.Id)
  let r :=
    match lb.ValidateDeleteCondition env w with
    | some _ => lb.SetStatus env w LB_STATUS_UNKNOWN "sync to delete"
    | none => lb.Delete w
  (r.1.emit (.ReleaseObject "loadbalancer" lb.Id), r.2)

/-- The closure passed to `db.Update` by `SyncWithCloudLoadbalancer`. -/
def SLoadbalancer.copyFromCloud (extLb : ICloudLoadbalancer) (lb : SLoadbalancer) :
    SLoadbalancer :=
  let lb := { lb with
    Address := extLb.GetAddress
    Status := extLb.GetStatus
    LoadbalancerSpec := extLb.GetLoadbalancerSpec
    ChargeType := extLb.GetChargeType }
  match extLb.GetMetadata with
  | some md => { lb with LBInfo := some md }
  | none => lb

/-- `SLoadbalancer.SyncWithCloudLoadbalancer`: returns the record in memory and the error
of `db.Update`. -/
def SLoadbalancer.SyncWithCloudLoadbalancer (env : Env) (w : World) (lb : SLoadbalancer)
    (extLb : ICloudLoadbalancer) (projectId : String) : World × SLoadbalancer × Option Err :=
  let w := w.emit (.LockObject "loadbalancer" lb.Id)
  let u := lb.dbUpdate env w (SLoadbalancer.copyFromCloud extLb)
  let w := u.1.emit (.LogSyncUpdate "loadbalancer" lb.Id)
  let p := u.2.1.SyncCloudProject env w projectId extLb.GetProjectId u.2.1.ManagerId
  let w := p.2.syncLoadbalancerNetwork env p.1
  (w.emit (.ReleaseObject "loadbalancer" lb.Id), p.2, u.2.2)

/-- The record `newFromCloudLoadbalancer` fills in before it is inserted. -/
def newFromCloudLoadbalancer.build (env : Env) (w : World) (provider : SCloudprovider)
    (extLb : ICloudLoadbalancer) (region : SCloudregion) (projectId : String) :
    SLoadbalancer :=
  let lb : SLoadbalancer := { SLoadbalancer.zero with
    ManagerId := provider.Id
    CloudregionId := region.Id
    Address := extLb.GetAddress
    AddressType := extLb.GetAddressType
    NetworkType := extLb.GetNetworkType
    Name := env.GenerateName w "loadbalancer" projectId extLb.GetName
    Status := extLb.GetStatus
    LoadbalancerSpec := extLb.GetLoadbalancerSpec
    ChargeType := extLb.GetChargeType
    ExternalId := extLb.GetGlobalId }
  let lb :=
    if extLb.GetNetworkId.length > 0 then
      match env.FetchByExternalId w "network" extLb.GetNetworkId with
      | some id => { lb with NetworkId := id }
      | none => lb
    else lb
  let lb :=
    if extLb.GetVpcId.length > 0 then
      match env.FetchByExternalId w "vpc" extLb.GetVpcId with
      | some id => { lb with VpcId := id }
      | none => lb
    else lb
  let lb :=
    if extLb.GetZoneId.length > 0 then
      match env.FetchByExternalId w "zone" extLb.GetZoneId with
      | some id => { lb with ZoneId := id }
      | none => lb
    else lb
  match extLb.GetMetadata with
  | some md => { lb with LBInfo := some md }
  | none => lb

/-- `SLoadbalancerManager.newFromCloudLoadbalancer`. -/
def newFromCloudLoadbalancer (env : Env) (w : World) (provider : SCloudprovider)
    (extLb : ICloudLoadbalancer) (region : SCloudregion) (projectId : String) :
    World × Except Err SLoadbalancer :=
  let lb := newFromCloudLoadbalancer.build env w provider extLb region projectId
  let w := w.emit (.Insert "loadbalancer" lb.ExternalId)
  match env.InsertErr w "loadbalancer" lb.ExternalId with
  | some err => (w, .error err)
  | none =>
    let lb := { lb with Id := env.NewId w "loadbalancer" }
    let w := { w with loadbalancers_tbl := (w.loadbalancers_tbl ++ [lb]) }
    let p := lb.SyncCloudProject env w projectId extLb.GetProjectId lb.ManagerId
    let w := p.1.emit (.LogEvent "loadbalancer" p.2.Id "create")
    let w := p.2.syncLoadbalancerNetwork env w
    (w, .ok p.2)

/-- One iteration of the loop over `removed` in `SyncLoadbalancers`. -/
def SyncLoadbalancers.removeStep (env : Env)
    (acc : SyncAcc SLoadbalancer ICloudLoadbalancer) (lb : SLoadbalancer) :
    SyncAcc SLoadbalancer ICloudLoadbalancer :=
  let r := lb.syncRemoveCloudLoadbalancer env acc.w
  match r.2 with
  | some err => { acc with w := r.1, syncResult := acc.syncResult.DeleteError err }
  | none => { acc with w := r.1, syncResult := acc.syncResult.Delete }

/-- One iteration of the loop over `commondb` in `SyncLoadbalancers`. -/
def SyncLoadbalancers.updateStep (env : Env) (provider : SCloudprovider)
    (acc : SyncAcc SLoadbalancer ICloudLoadbalancer)
    (c : SLoadbalancer × ICloudLoadbalancer) :
    SyncAcc SLoadbalancer ICloudLoadbalancer :=
  let r := c.1.SyncWithCloudLoadbalancer env acc.w c.2 provider.ProjectId
  match r.2.2 with
  | some err => { acc with w := r.1, syncResult := acc.syncResult.UpdateError err }
  | none =>
    { w := r.1.emit (.syncMetadata "loadbalancer" r.2.1.Id c.2.GetGlobalId)
      localObjs := acc.localObjs ++ [r.2.1]
      remoteObjs := acc.remoteObjs ++ [c.2]
      syncResult := acc.syncResult.Update }

/-- One iteration of the loop over `added` in `SyncLoadbalancers`. -/
def SyncLoadbalancers.addStep (env : Env) (provider : SCloudprovider) (region : SCloudregion)
    (acc : SyncAcc SLoadbalancer ICloudLoadbalancer) (extLb : ICloudLoadbalancer) :
    SyncAcc SLoadbalancer ICloudLoadbalancer :=
  let r := newFromCloudLoadbalancer env acc.w provider extLb region provider.ProjectId
  match r.2 with
  | .error err => { acc with w := r.1, syncResult := acc.syncResult.AddError err }
  | .ok new =>
    { w := r.1.emit (.syncMetadata "loadbalancer" new.Id extLb.GetGlobalId)
      localObjs := acc.localObjs ++ [new]
      remoteObjs := acc.remoteObjs ++ [extLb]
      syncResult := acc.syncResult.Add }

/-- The three `for` loops of `SyncLoadbalancers` (over `removed`, over the pairs
`commondb[i]`, `commonext[i]`, over `added`), started in world `w` with empty lists and
an empty `syncResult`. -/
def SyncLoadbalancers.loops (env : Env) (provider : SCloudprovider) (region : SCloudregion)
    (p : Partition SLoadbalancer ICloudLoadbalancer) (w : World) :
    SyncAcc SLoadbalancer ICloudLoadbalancer :=
  let acc : SyncAcc SLoadbalancer ICloudLoadbalancer :=
    { w := w, localObjs := [], remoteObjs := [], syncResult := SyncResult.empty }
  let acc := p.removed.foldl (SyncLoadbalancers.removeStep env) acc
  let acc := (p.commondb.zip p.commonext).foldl
    (SyncLoadbalancers.updateStep env provider) acc
  p.added.foldl (SyncLoadbalancers.addStep env provider region) acc

/-- `SLoadbalancerManager.SyncLoadbalancers`. The deferred `ReleaseClass` runs on every
return path. On the two early returns the lists are `nil`. -/
def SyncLoadbalancers (env : Env) (w : World) (provider : SCloudprovider)
    (region : SCloudregion) (lbs : List ICloudLoadbalancer) :
    World × List SLoadbalancer × List ICloudLoadbalancer × SyncResult :=
  let ownerProjId := provider.ProjectId
  let w := w.emit (.LockClass "loadbalancer" ownerProjId)
  match getLoadbalancersByRegion env w region provider with
  | .error err =>
    (w.emit (.ReleaseClass "loadbalancer" ownerProjId), [], [], SyncResult.empty.Error err)
  | .ok dbLbs =>
    match CompareSets (fun l : SLoadbalancer => l.ExternalId)
        (fun r : ICloudLoadbalancer => r.GetGlobalId) dbLbs lbs with
    | .error err =>
      (w.emit (.ReleaseClass "loadbalancer" ownerProjId), [], [], SyncResult.empty.Error err)
    | .ok p =>
      let acc := SyncLoadbalancers.loops env provider region p w
      (acc.w.emit (.ReleaseClass "loadbalancer" ownerProjId),
        acc.localObjs, acc.remoteObjs, acc.syncResult)

/-! ## `zones.go` -/

/-- `ZoneGeneralUsage`. -/
structure ZoneGeneralUsage where
  Hosts : Nat
  HostsEnabled : Nat
  Baremetals : Nat
  BaremetalsEnabled : Nat
  Wires : Nat
  Networks : Nat
  Storages : Nat
  deriving DecidableEq, Repr

/-- `ZoneGeneralUsage.isEmpty`. -/
def ZoneGeneralUsage.isEmpty (usage : ZoneGeneralUsage) : Bool :=
  if usage.Hosts > 0 then false
  else if usage.Wires > 0 then false
  else if usage.Networks > 0 then false
  else if usage.Storages > 0 then false
  else true

/-- `SZone.HostCount`: the count of the host query built from the arguments. -/
def SZone.HostCount (env : Env) (w : World) (zone : SZone) (status hostStatus : String)
    (enabled : TriState) (hostType : String) (isBaremetal : TriState) : Nat :=
  env.HostQueryCount w zone.Id status hostStatus enabled hostType isBaremetal

/-- `SZone.getWireCount`. -/
def SZone.getWireCount (env : Env) (w : World) (zone : SZone) : Nat :=
  env.WireQueryCount w zone.Id

/-- `SZone.getStorageCount`. -/
def SZone.getStorageCount (env : Env) (w : World) (zone : SZone) : Nat :=
  env.StorageQueryCount w zone.Id

/-- `SZone.getNetworkCount`. -/
def SZone.getNetworkCount (env : Env) (w : World) (zone : SZone) : Nat :=
  env.NetworkQueryCount w zone.Id

/-- `SZone.GeneralUsage`. -/
def SZone.GeneralUsage (env : Env) (w : World) (zone : SZone) : ZoneGeneralUsage :=
  { Hosts := zone.HostCount env w "" "" TriState.None "" TriState.None
    HostsEnabled := zone.HostCount env w "" "" TriState.True "" TriState.None
    Baremetals := zone.HostCount env w "" "" TriState.None "" TriState.True
    BaremetalsEnabled := zone.HostCount env w "" "" TriState.True "" TriState.True
    Wires := zone.getWireCount env w
    Networks := zone.getNetworkCount env w
    Storages := zone.getStorageCount env w }

/-- `SZone.ValidateDeleteCondition`. -/
def SZone.ValidateDeleteCondition (env : Env) (w : World) (zone : SZone) : Option Err :=
  if !(zone.GeneralUsage env w).isEmpty then some "not empty zone"
  else env.ValidateDeleteCondition w "zone" zone.Id

/-- Modelled from the spec: `SetStatus` of the resource base (package `cloudcommon/db`, not
part of the embedded sources) writes the status of the record and reports the error of
that write. -/
def SZone.SetStatus (env : Env) (w : World) (zone : SZone) (status reason : String) :
    World × Option Err :=
  let w := w.emit (.SetStatus "zone" zone.Id status reason)
  match env.SetStatusErr w "zone" zone.Id with
  | some err => (w, some err)
  | none =>
    ({ w with zones_tbl := (updateRows (fun r => r.Id) w.zones_tbl zone.Id
          (fun r => { r with Status := status })) }, none)

/-- Modelled from the spec: the inherited `Delete` of `SZone` (`db.DeleteModel`, package
`cloudcommon/db`, not part of the embedded sources) attempts the deletion of the record:
the row is marked deleted unless the write fails. -/
def SZone.Delete (env : Env) (w : World) (zone : SZone) : World × Option Err :=
  let w := w.emit (.Delete "zone" zone.Id)
  match env.DeleteErr w "zone" zone.Id with
  | some err => (w, some err)
  | none =>
    ({ w with zones_tbl := (updateRows (fun r => r.Id) w.zones_tbl zone.Id
          (fun r => { r with Deleted := true })) }, none)

/-- `SZoneManager.GetZonesByRegion`. -/
def GetZonesByRegion (env : Env) (w : World) (region : SCloudregion) :
    Except Err (List SZone) :=
  match env.FetchModelObjectsErr w "zone" with
  | some err => .error err
  | none => .ok (w.zones_tbl.filter (fun z => !z.Deleted && z.CloudregionId == region.Id))

/-- `SZone.syncRemoveCloudZone`. -/
def SZone.syncRemoveCloudZone (env : Env) (w : World) (zone : SZone) : World × Option Err :=
  let w := w.emit (.LockObject "zone" zone.Id)
  let r :=
    match zone.ValidateDeleteCondition env w with
    | some _ => zone.SetStatus env w ZONE_DISABLE "sync to delete"
    | none => zone.Delete env w
  (r.1.emit (.ReleaseObject "zone" zone.Id), r.2)

/-- The closure passed to `db.UpdateWithLock` by `syncWithCloudZone`. -/
def SZone.copyFromCloud (extZone : ICloudZone) (region : SCloudregion) (zone : SZone) :
    SZone :=
  { zone with
    Name := extZone.GetName
    Status := extZone.GetStatus
    IsEmulated := extZone.IsEmulated
    CloudregionId := region.Id }

/-- Modelled from the spec: `db.UpdateWithLock` (package `cloudcommon/db`, not part of the
embedded sources), the read-modify-write of one record under its object lock. -/
def SZone.dbUpdateWithLock (env : Env) (w : World) (zone : SZone) (f : SZone → SZone) :
    World × SZone × Option Err :=
  let w := w.emit (.LockObject "zone" zone.Id)
  let w := w.emit (.Update "zone" zone.Id)
  match env.UpdateErr w "zone" zone.Id with
  | some err => (w.emit (.ReleaseObject "zone" zone.Id), f zone, some err)
  | none =>
    (({ w with zones_tbl := (updateRows (fun r => r.Id) w.zones_tbl zone.Id f) } : World).emit
        (.ReleaseObject "zone" zone.Id), f zone, none)

/-- `SZone.syncWithCloudZone`. -/
def SZone.syncWithCloudZone (env : Env) (w : World) (zone : SZone) (extZone : ICloudZone)
    (region : SCloudregion) : World × SZone × Option Err :=
  let u := zone.dbUpdateWithLock env w (SZone.copyFromCloud extZone region)
  match u.2.2 with
  | some err => (u.1, u.2.1, some err)
  | none => (u.1.emit (.LogSyncUpdate "zone" zone.Id), u.2.1, none)

/-- `SZoneManager.newFromCloudZone`; `ownerId` is `manager.GetOwnerId(userCred)`. -/
def newFromCloudZone (env : Env) (w : World) (ownerId : String) (extZone : ICloudZone)
    (region : SCloudregion) : World × Except Err SZone :=
  let zone : SZone := { SZone.zero with
    Name := env.GenerateName w "zone" ownerId extZone.GetName
    Status := extZone.GetStatus
    ExternalId := extZone.GetGlobalId
    IsEmulated := extZone.IsEmulated
    CloudregionId := region.Id }
  let w := w.emit (.Insert "zone" zone.ExternalId)
  match env.InsertErr w "zone" zone.ExternalId with
  | some err => (w, .error err)
  | none =>
    let zone := { zone with Id := env.NewId w "zone" }
    let w := { w with zones_tbl := (w.zones_tbl ++ [zone]) }
    (w.emit (.LogEvent "zone" zone.Id "create"), .ok zone)

/-- One iteration of the loop over `removed` in `SyncZones`. -/
def SyncZones.removeStep (env : Env) (acc : SyncAcc SZone ICloudZone) (zone : SZone) :
    SyncAcc SZone ICloudZone :=
  let r := zone.syncRemoveCloudZone env acc.w
  match r.2 with
  | some err => { acc with w := r.1, syncResult := acc.syncResult.DeleteError err }
  | none => { acc with w := r.1, syncResult := acc.syncResult.Delete }

/-- One iteration of the loop over `commondb` in `SyncZones`. -/
def SyncZones.updateStep (env : Env) (region : SCloudregion)
    (acc : SyncAcc SZone ICloudZone) (c : SZone × ICloudZone) : SyncAcc SZone ICloudZone :=
  let r := c.1.syncWithCloudZone env acc.w c.2 region
  match r.2.2 with
  | some err => { acc with w := r.1, syncResult := acc.syncResult.UpdateError err }
  | none =>
    { w := r.1.emit (.syncMetadata "zone" r.2.1.Id c.2.GetGlobalId)
      localObjs := acc.localObjs ++ [r.2.1]
      remoteObjs := acc.remoteObjs ++ [c.2]
      syncResult := acc.syncResult.Update }

/-- One iteration of the loop over `added` in `SyncZones`. -/
def SyncZones.addStep (env : Env) (ownerId : String) (region : SCloudregion)
    (acc : SyncAcc SZone ICloudZone) (extZone : ICloudZone) : SyncAcc SZone ICloudZone :=
  let r := newFromCloudZone env acc.w ownerId extZone region
  match r.2 with
  | .error err => { acc with w := r.1, syncResult := acc.syncResult.AddError err }
  | .ok new =>
    { w := r.1.emit (.syncMetadata "zone" new.Id extZone.GetGlobalId)
      localObjs := acc.localObjs ++ [new]
      remoteObjs := acc.remoteObjs ++ [extZone]
      syncResult := acc.syncResult.Add }

/-- The three `for` loops of `SyncZones` (over `removed`, over the pairs `commondb[i]`,
`commonext[i]`, over `added`), started in world `w` with empty lists and an empty
`syncResult`. -/
def SyncZones.loops (env : Env) (ownerId : String) (region : SCloudregion)
    (p : Partition SZone ICloudZone) (w : World) : SyncAcc SZone ICloudZone :=
  let acc : SyncAcc SZone ICloudZone :=
    { w := w, localObjs := [], remoteObjs := [], syncResult := SyncResult.empty }
  let acc := p.removed.foldl (SyncZones.removeStep env) acc
  let acc := (p.commondb.zip p.commonext).foldl (SyncZones.updateStep env region) acc
  p.added.foldl (SyncZones.addStep env ownerId region) acc

/-- `SZoneManager.SyncZones`; `ownerId` is `manager.GetOwnerId(userCred)`. The deferred
`ReleaseClass` runs on every return path. -/
def SyncZones (env : Env) (w : World) (ownerId : String) (region : SCloudregion)
    (zones : List ICloudZone) : World × List SZone × List ICloudZone × SyncResult :=
  let w := w.emit (.LockClass "zone" ownerId)
  match GetZonesByRegion env w region with
  | .error err =>
    (w.emit (.ReleaseClass "zone" ownerId), [], [], SyncResult.empty.Error err)
  | .ok dbZones =>
    match CompareSets (fun l : SZone => l.ExternalId)
        (fun r : ICloudZone => r.GetGlobalId) dbZones zones with
    | .error err =>
      (w.emit (.ReleaseClass "zone" ownerId), [], [], SyncResult.empty.Error err)
    | .ok p =>
      let acc := SyncZones.loops env ownerId region p w
      (acc.w.emit (.ReleaseClass "zone" ownerId),
        acc.localObjs, acc.remoteObjs, acc.syncResult)

/-! ## `loadbalancerlistenerrules.go`

A Go panic (a failed type assertion, a nil dereference) is the result `none`. -/

/-- The inherited `ValidateDeleteCondition` of `SLoadbalancerListenerRule`
(`db.SVirtualResourceBase`). -/
def SLoadbalancerListenerRule.ValidateDeleteCondition (env : Env) (w : World)
    (lbr : SLoadbalancerListenerRule) : Option Err :=
  env.ValidateDeleteCondition w "loadbalancerlistenerrule" lbr.Id

/-- Modelled from the spec: `SetStatus` of the resource base (package `cloudcommon/db`, not
part of the embedded sources) writes the status of the record and reports the error of
that write. -/
def SLoadbalancerListenerRule.SetStatus (env : Env) (w : World)
    (lbr : SLoadbalancerListenerRule) (status reason : String) : World × Option Err :=
  let w := w.emit (.SetStatus "loadbalancerlistenerrule" lbr.Id status reason)
  match env.SetStatusErr w "loadbalancerlistenerrule" lbr.Id with
  | some err => (w, some err)
  | none =>
    ({ w with loadbalancerlistenerrules_tbl :=
          (updateRows (fun r => r.Id) w.loadbalancerlistenerrules_tbl lbr.Id
            (fun r => { r with Status := status })) }, none)

/-- `SLoadbalancerListenerRule.Delete`: returns `nil` and does nothing. -/
def SLoadbalancerListenerRule.Delete (w : World) (_lbr : SLoadbalancerListenerRule) :
    World × Option Err :=
  (w, none)

/-- `SLoadbalancerListenerRule.GetLoadbalancerListener`: `nil` when the fetch fails. -/
def SLoadbalancerListenerRule.GetLoadbalancerListener (env : Env) (w : World)
    (lbr : SLoadbalancerListenerRule) : Option SLoadbalancerListener :=
  env.ListenerFetchById w lbr.ListenerId

/-- Modelled from the spec: `SyncCloudProject` (package `models`, not part of the embedded
sources) propagates ownership/project metadata from remote to local. -/
def SLoadbalancerListenerRule.SyncCloudProject (env : Env) (w : World)
    (lbr : SLoadbalancerListenerRule) (projectId extProjectId managerId : String) :
    World × SLoadbalancerListenerRule :=
  let w := w.emit (.SyncCloudProject "loadbalancerlistenerrule" lbr.Id projectId)
  match env.SyncCloudProjectOwner w "loadbalancerlistenerrule" lbr.Id projectId extProjectId
      managerId with
  | none => (w, lbr)
  | some owner =>
    ({ w with loadbalancerlistenerrules_tbl :=
          (updateRows (fun r => r.Id) w.loadbalancerlistenerrules_tbl lbr.Id
            (fun r => { r with ProjectId := owner })) }, { lbr with ProjectId := owner })

/-- `SLoadbalancerListenerRuleManager.getLoadbalancerListenerRulesByListener`. -/
def getLoadbalancerListenerRulesByListener (env : Env) (w : World)
    (listener : SLoadbalancerListener) : Except Err (List SLoadbalancerListenerRule) :=
  match env.FetchModelObjectsErr w "loadbalancerlistenerrule" with
  | some err => .error err
  | none =>
    .ok (w.loadbalancerlistenerrules_tbl.filter (fun r =>
      !r.Deleted && r.ListenerId == listener.Id))

/-- `SLoadbalancerListenerRule.constructFieldsFromCloudListenerRule`. The type assertion
`ilbbg.(*SLoadbalancerBackendGroup)` is evaluated before `err` is looked at, so it panics
when `FetchById` returned an error and no model. -/
def SLoadbalancerListenerRule.constructFieldsFromCloudListenerRule (env : Env) (w : World)
    (lbr : SLoadbalancerListenerRule) (extRule : ICloudLoadbalancerListenerRule) :
    Option (World × SLoadbalancerListenerRule) :=
  let lbr := { lbr with Domain := extRule.GetDomain, Path := extRule.GetPath }
  let groupId := extRule.GetBackendGroupId
  if groupId.length > 0 then
    let r : Option World :=
      if groupId.length > 0 && lbr.BackendGroupId.length > 0 then
        match env.BackendGroupFetchById w lbr.BackendGroupId with
        | none => none
        | some lbbg =>
          if lbbg.ExternalId.length == 0 || lbbg.ExternalId != groupId then
            some (w.emit (.SetExternalId "loadbalancerbackendgroup" lbbg.Id groupId))
          else some w
      else some w
    match r with
    | none => none
    | some w =>
      match env.FetchByExternalId w "loadbalancerbackendgroup" groupId with
      | some id => some (w, { lbr with BackendGroupId := id })
      | none => some (w, lbr)
  else some (w, lbr)

/-- `SLoadbalancerListenerRuleManager.newFromCloudLoadbalancerListenerRule`. -/
def newFromCloudLoadbalancerListenerRule (env : Env) (w : World)
    (listener : SLoadbalancerListener) (extRule : ICloudLoadbalancerListenerRule)
    (projectId : String) : Option (World × Except Err SLoadbalancerListenerRule) :=
  let lbr : SLoadbalancerListenerRule := { SLoadbalancerListenerRule.zero with
    ExternalId := extRule.GetGlobalId
    ListenerId := listener.Id
    ManagerId := listener.ManagerId
    Name := env.GenerateName w "loadbalancerlistenerrule" projectId extRule.GetName }
  match lbr.constructFieldsFromCloudListenerRule env w extRule with
  | none => none
  | some (w, lbr) =>
    let w := w.emit (.Insert "loadbalancerlistenerrule" lbr.ExternalId)
    match env.InsertErr w "loadbalancerlistenerrule" lbr.ExternalId with
    | some err => some (w, .error err)
    | none =>
      let lbr := { lbr with Id := env.NewId w "loadbalancerlistenerrule" }
      let w := { w with loadbalancerlistenerrules_tbl :=
        (w.loadbalancerlistenerrules_tbl ++ [lbr]) }
      let p := lbr.SyncCloudProject env w projectId extRule.GetProjectId listener.ManagerId
      some (p.1.emit (.LogEvent "loadbalancerlistenerrule" p.2.Id "create"), .ok p.2)

/-- `SLoadbalancerListenerRule.syncRemoveCloudLoadbalancerListenerRule`. -/
def SLoadbalancerListenerRule.syncRemoveCloudLoadbalancerListenerRule (env : Env)
    (w : World) (lbr : SLoadbalancerListenerRule) : World × Option Err :=
  let w := w.emit (.LockObject "loadbalancerlistenerrule" lbr.Id)
  let r :=
    match lbr.ValidateDeleteCondition env w with
    | some _ => lbr.SetStatus env w LB_STATUS_UNKNOWN "sync to delete"
    | none => lbr.Delete w
  (r.1.emit (.ReleaseObject "loadbalancerlistenerrule" lbr.Id), r.2)

/-- `SLoadbalancerListenerRule.SyncWithCloudLoadbalancerListenerRule`. The closure run by
`db.UpdateWithLock` dereferences `listener`, which is `nil` when the listener could not be
fetched. -/
def SLoadbalancerListenerRule.SyncWithCloudLoadbalancerListenerRule (env : Env) (w : World)
    (lbr : SLoadbalancerListenerRule) (extRule : ICloudLoadbalancerListenerRule)
    (projectId : String) : Option (World × SLoadbalancerListenerRule × Option Err) :=
  let listener := lbr.GetLoadbalancerListener env w
  let w := w.emit (.LockObject "loadbalancerlistenerrule" lbr.Id)
  match lbr.constructFieldsFromCloudListenerRule env w extRule with
  | none => none
  | some (w, lbr1) =>
    match listener with
    | none => none
    | some listener =>
      let lbr2 := { lbr1 with ManagerId := listener.ManagerId }
      let w := w.emit (.Update "loadbalancerlistenerrule" lbr.Id)
      match env.UpdateErr w "loadbalancerlistenerrule" lbr.Id with
      | some err =>
        some (w.emit (.ReleaseObject "loadbalancerlistenerrule" lbr.Id), lbr2, some err)
      | none =>
        let w : World := { w with loadbalancerlistenerrules_tbl :=
          (updateRows (fun r => r.Id) w.loadbalancerlistenerrules_tbl lbr.Id
            (fun r => { r with Domain := lbr2.Domain, Path := lbr2.Path,
                               BackendGroupId := lbr2.BackendGroupId,
                               ManagerId := lbr2.ManagerId })) }
        let w := w.emit (.ReleaseObject "loadbalancerlistenerrule" lbr.Id)
        let w := w.emit (.LogSyncUpdate "loadbalancerlistenerrule" lbr.Id)
        let p := lbr2.SyncCloudProject env w projectId extRule.GetProjectId listener.ManagerId
        some (p.1, p.2, none)

/-- One iteration of the loop over `removed` in `SyncLoadbalancerListenerRules`. -/
def SyncLoadbalancerListenerRules.removeStep (env : Env) (acc : World × SyncResult)
    (lbr : SLoadbalancerListenerRule) : Option (World × SyncResult) :=
  let r := lbr.syncRemoveCloudLoadbalancerListenerRule env acc.1
  match r.2 with
  | some err => some (r.1, acc.2.DeleteError err)
  | none => some (r.1, acc.2.Delete)

/-- One iteration of the loop over `commondb` in `SyncLoadbalancerListenerRules`. -/
def SyncLoadbalancerListenerRules.updateStep (env : Env) (provider : SCloudprovider)
    (acc : World × SyncResult)
    (c : SLoadbalancerListenerRule × ICloudLoadbalancerListenerRule) :
    Option (World × SyncResult) :=
  match c.1.SyncWithCloudLoadbalancerListenerRule env acc.1 c.2 provider.ProjectId with
  | none => none
  | some r =>
    match r.2.2 with
    | some err => some (r.1, acc.2.UpdateError err)
    | none =>
      some (r.1.emit (.syncMetadata "loadbalancerlistenerrule" r.2.1.Id c.2.GetGlobalId),
        acc.2.Update)

/-- One iteration of the loop over `added` in `SyncLoadbalancerListenerRules`. -/
def SyncLoadbalancerListenerRules.addStep (env : Env) (provider : SCloudprovider)
    (listener : SLoadbalancerListener) (acc : World × SyncResult)
    (extRule : ICloudLoadbalancerListenerRule) : Option (World × SyncResult) :=
  match newFromCloudLoadbalancerListenerRule env acc.1 listener extRule provider.ProjectId with
  | none => none
  | some r =>
    match r.2 with
    | .error err => some (r.1, acc.2.AddError err)
    | .ok new =>
      some (r.1.emit (.syncMetadata "loadbalancerlistenerrule" new.Id extRule.GetGlobalId),
        acc.2.Add)

/-- The three `for` loops of `SyncLoadbalancerListenerRules` (over `removed`, over the
pairs `commondb[i]`, `commonext[i]`, over `added`), started in world `w` with an empty
`syncResult`; `none` when an iteration panics. -/
def SyncLoadbalancerListenerRules.loops (env : Env) (provider : SCloudprovider)
    (listener : SLoadbalancerListener)
    (p : Partition SLoadbalancerListenerRule ICloudLoadbalancerListenerRule) (w : World) :
    Option (World × SyncResult) :=
  match p.removed.foldlM (SyncLoadbalancerListenerRules.removeStep env)
      (w, SyncResult.empty) with
  | none => none
  | some acc =>
    match (p.commondb.zip p.commonext).foldlM
        (SyncLoadbalancerListenerRules.updateStep env provider) acc with
    | none => none
    | some acc =>
      p.added.foldlM (SyncLoadbalancerListenerRules.addStep env provider listener) acc

/-- `SLoadbalancerListenerRuleManager.SyncLoadbalancerListenerRules`; `none` when the pass
panics. -/
def SyncLoadbalancerListenerRules (env : Env) (w : World) (provider : SCloudprovider)
    (listener : SLoadbalancerListener) (rules : List ICloudLoadbalancerListenerRule) :
    Option (World × SyncResult) :=
  let syncOwnerId := provider.ProjectId
  let w := w.emit (.LockClass "loadbalancerlistenerrule" syncOwnerId)
  match getLoadbalancerListenerRulesByListener env w listener with
  | .error err =>
    some (w.emit (.ReleaseClass "loadbalancerlistenerrule" syncOwnerId),
      SyncResult.empty.Error err)
  | .ok dbRules =>
    match CompareSets (fun l : SLoadbalancerListenerRule => l.ExternalId)
        (fun r : ICloudLoadbalancerListenerRule => r.GetGlobalId) dbRules rules with
    | .error err =>
      some (w.emit (.ReleaseClass "loadbalancerlistenerrule" syncOwnerId),
        SyncResult.empty.Error err)
    | .ok p =>
      match SyncLoadbalancerListenerRules.loops env provider listener p w with
      | none => none
      | some acc =>
        some (acc.1.emit (.ReleaseClass "loadbalancerlistenerrule" syncOwnerId), acc.2)

/-! ## The lists a pass is to return -/

/-- The items of a loop, each with the state the loop has reached when it comes to that
item. -/
def statesBefore {σ ι : Type} (f : σ → ι → σ) : σ → List ι → List (ι × σ)
  | _, [] => []
  | s, x :: xs => (x, s) :: statesBefore f (f s x) xs

/-- The pairs a loop of a pass is to hand back: for every item, in order, what `outcome`
gives for it on the state the loop has reached (the local record with its remote when
the item succeeded, nothing when it failed). -/
def keptPairs {σ ι α β : Type} (f : σ → ι → σ) (outcome : σ → ι → Option (α × β)) (s : σ)
    (l : List ι) : List (α × β) :=
  (statesBefore f s l).filterMap (fun xs => outcome xs.2 xs.1)

/-- The state of `SyncLoadbalancers` when its loop over the common pairs starts. -/
def SyncLoadbalancers.afterRemoved (env : Env)
    (p : Partition SLoadbalancer ICloudLoadbalancer) (w : World) :
    SyncAcc SLoadbalancer ICloudLoadbalancer :=
  p.removed.foldl (SyncLoadbalancers.removeStep env)
    { w := w, localObjs := [], remoteObjs := [], syncResult := SyncResult.empty }

/-- The state of `SyncLoadbalancers` when its loop over the added remotes starts. -/
def SyncLoadbalancers.afterCommon (env : Env) (provider : SCloudprovider)
    (p : Partition SLoadbalancer ICloudLoadbalancer) (w : World) :
    SyncAcc SLoadbalancer ICloudLoadbalancer :=
  (p.commondb.zip p.commonext).foldl (SyncLoadbalancers.updateStep env provider)
    (SyncLoadbalancers.afterRemoved env p w)

/-- What the update of a common pair hands back: nothing when
`SyncWithCloudLoadbalancer` returns an error, the updated record with its remote when it
returns `nil`. -/
def SyncLoadbalancers.updateOutcome (env : Env) (provider : SCloudprovider)
    (acc : SyncAcc SLoadbalancer ICloudLoadbalancer)
    (c : SLoadbalancer × ICloudLoadbalancer) : Option (SLoadbalancer × ICloudLoadbalancer) :=
  match (c.1.SyncWithCloudLoadbalancer env acc.w c.2 provider.ProjectId).2.2 with
  | some _ => none
  | none => some ((c.1.SyncWithCloudLoadbalancer env acc.w c.2 provider.ProjectId).2.1, c.2)

/-- What the insert of an added remote hands back: nothing when
`newFromCloudLoadbalancer` returns an error, the new record with its remote otherwise. -/
def SyncLoadbalancers.addOutcome (env : Env) (provider : SCloudprovider)
    (region : SCloudregion) (acc : SyncAcc SLoadbalancer ICloudLoadbalancer)
    (extLb : ICloudLoadbalancer) : Option (SLoadbalancer × ICloudLoadbalancer) :=
  match (newFromCloudLoadbalancer env acc.w provider extLb region provider.ProjectId).2 with
  | .error _ => none
  | .ok new => some (new, extLb)

/-- The state of `SyncZones` when its loop over the common pairs starts. -/
def SyncZones.afterRemoved (env : Env) (p : Partition SZone ICloudZone) (w : World) :
    SyncAcc SZone ICloudZone :=
  p.removed.foldl (SyncZones.removeStep env)
    { w := w, localObjs := [], remoteObjs := [], syncResult := SyncResult.empty }

/-- The state of `SyncZones` when its loop over the added remotes starts. -/
def SyncZones.afterCommon (env : Env) (region : SCloudregion)
    (p : Partition SZone ICloudZone) (w : World) : SyncAcc SZone ICloudZone :=
  (p.commondb.zip p.commonext).foldl (SyncZones.updateStep env region)
    (SyncZones.afterRemoved env p w)

/-- What the update of a common pair of zones hands back: nothing when `syncWithCloudZone`
returns an error, the updated zone with its remote when it returns `nil`. -/
def SyncZones.updateOutcome (env : Env) (region : SCloudregion)
    (acc : SyncAcc SZone ICloudZone) (c : SZone × ICloudZone) : Option (SZone × ICloudZone) :=
  match (c.1.syncWithCloudZone env acc.w c.2 region).2.2 with
  | some _ => none
  | none => some ((c.1.syncWithCloudZone env acc.w c.2 region).2.1, c.2)

/-- What the insert of an added remote zone hands back: nothing when `newFromCloudZone`
returns an error, the new zone with its remote otherwise. -/
def SyncZones.addOutcome (env : Env) (ownerId : String) (region : SCloudregion)
    (acc : SyncAcc SZone ICloudZone) (extZone : ICloudZone) : Option (SZone × ICloudZone) :=
  match (newFromCloudZone env acc.w ownerId extZone region).2 with
  | .error _ => none
  | .ok new => some (new, extZone)

/-! ## Lock discipline of a pass -/

/-- What the lock-discipline check of a trace keeps track of: whether the class lock of
the pass is held, and the objects `(keyword, id)` whose lock is held. -/
structure LockState where
  classHeld : Bool
  held : List (String × String)
  deriving DecidableEq, Repr

/-- A write to a record of the manager `kw` (`SetStatus`, `Delete`, `db.Update`) needs the
class lock and the lock of that record; writes to records of other managers are not
constrained. -/
def lockStep.write (kw : String) (s : LockState) (keyword id : String) : Option LockState :=
  if keyword == kw then
    if s.classHeld && decide ((keyword, id) ∈ s.held) then some s else none
  else some s

/-- One step of the lock-discipline check of a trace of a pass of the manager `kw`.
`none` is a violation: a class lock taken twice or released while not held or while an
object lock is still held, an object lock released while not held, or a write to a record
of the manager made without the class lock and the lock of that record. With `ownership`
the propagation of the owner project to a record (`SyncCloudProject`) counts as a write
to that record. -/
def lockStep (ownership : Bool) (kw : String) (s : LockState) : Event → Option LockState
  | .LockClass _ _ => if s.classHeld then none else some { s with classHeld := true }
  | .ReleaseClass _ _ =>
    if s.classHeld && s.held.isEmpty then some { s with classHeld := false } else none
  | .LockObject keyword id => some { s with held := (keyword, id) :: s.held }
  | .ReleaseObject keyword id =>
    if (keyword, id) ∈ s.held then some { s with held := s.held.erase (keyword, id) }
    else none
  | .SetStatus keyword id _ _ => lockStep.write kw s keyword id
  | .Delete keyword id => lockStep.write kw s keyword id
  | .Update keyword id => lockStep.write kw s keyword id
  | .SyncCloudProject keyword id _ =>
    if ownership then lockStep.write kw s keyword id else some s
  | _ => some s

/-- The lock-discipline check of a list of events of a pass of the manager `kw`. -/
def lockDiscipline (ownership : Bool) (kw : String) (s : LockState) (events : List Event) :
    Option LockState :=
  events.foldlM (lockStep ownership kw) s

/-- Events that take no part in the lock discipline of a pass of the manager `kw`: no
lock event and no write to a record of that manager. -/
def neutral (ownership : Bool) (kw : String) : Event → Bool
  | .LockClass _ _ => false
  | .ReleaseClass _ _ => false
  | .LockObject _ _ => false
  | .ReleaseObject _ _ => false
  | .SetStatus keyword _ _ _ => keyword != kw
  | .Delete keyword _ => keyword != kw
  | .Update keyword _ => keyword != kw
  | .SyncCloudProject keyword _ _ => !ownership || keyword != kw
  | _ => true

/-- Events that pass the lock-discipline check from every state in which the class lock
is held, and leave the state as it was: every object lock they take is released, and
every write to a record of the manager is made under the lock of that record. -/
def Balanced (ownership : Bool) (kw : String) (events : List Event) : Prop :=
  ∀ s : LockState, s.classHeld = true → lockDiscipline ownership kw s events = some s

/-- Events that pass the lock-discipline check from every state in which the class lock
and the lock of the record `id` of the manager are held, and leave the state as it was. -/
def BalancedIn (ownership : Bool) (kw id : String) (events : List Event) : Prop :=
  ∀ s : LockState, s.classHeld = true → (kw, id) ∈ s.held →
    lockDiscipline ownership kw s events = some s

/-- The world `w2` continues `w1` by balanced events. -/
def Extends (ownership : Bool) (kw : String) (w1 w2 : World) : Prop :=
  ∃ events, w2.trace = w1.trace ++ events ∧ Balanced ownership kw events

/-! ## `loadbalancerlistenerrules.go`: validation of a create request -/

/-- The kinds of error `ValidateCreateData` returns: the `httperrors` constructors it
calls, and `GeneralError` for a plain `fmt.Errorf`. -/
inductive ErrorClass where
  | InputParameterError
  | ConflictError
  | ResourceNotFoundError
  | GeneralError
  deriving DecidableEq, Repr

/-- An error with its kind. -/
structure HttpError where
  kind : ErrorClass
  msg : String
  deriving DecidableEq, Repr

/-- Value of `api.LB_LISTENER_TYPE_HTTP` (package `apis/compute`). -/
def LB_LISTENER_TYPE_HTTP : String := "http"

/-- Value of `api.LB_LISTENER_TYPE_HTTPS` (package `apis/compute`). -/
def LB_LISTENER_TYPE_HTTPS : String := "https"

/-- Value of `api.CLOUD_PROVIDER_QCLOUD` (package `apis/compute`). -/
def CLOUD_PROVIDER_QCLOUD : String := "Qcloud"

/-- Value of `api.LB_CREATING` (package `apis/compute`). -/
def LB_CREATING : String := "creating"

/-- `loadbalancerListenerRuleCheckUniqueness`. `Query()` leaves out the deleted rows;
`q.First(&lblsr)` fills `lblsr` with the first matching row and leaves it zero when there
is none (the error of `First` is discarded by the source). -/
def loadbalancerListenerRuleCheckUniqueness (w : World) (lbls : SLoadbalancerListener)
    (domain path : String) : Option HttpError :=
  let q := w.loadbalancerlistenerrules_tbl.filter (fun r =>
    !r.Deleted && !r.PendingDeleted && r.ListenerId == lbls.Id && r.Domain == domain
      && r.Path == path)
  let lblsr : SLoadbalancerListenerRule :=
    match q.head? with
    | some r => r
    | none => SLoadbalancerListenerRule.zero
  if lblsr.Id.length > 0 then
    some { kind := .ConflictError,
           msg := "rule " ++ domain ++ "/" ++ path ++ " already occupied by rule "
             ++ lblsr.Name ++ "(" ++ lblsr.Id ++ ")" }
  else none

/-- What the validators of `ValidateCreateData` resolve from the request: the listener
model (with its `ListenerType` and `GetProviderName()`), the backend group model (`none`
when the type assertion on `backendGroupV.Model` fails), the domain and the path. -/
structure RuleCreateInput where
  listener : SLoadbalancerListener
  listenerType : String
  providerName : String
  backendGroup : Option SLoadbalancerBackendGroup
  domain : String
  path : String

/-- Outcomes of the calls of `ValidateCreateData` and `PostCreate` that leave the file. -/
structure RuleCreateEnv where
  /-- The loop over the validators `keyV`: the error of the first validator that fails,
  or what they resolved. -/
  validators : World → JSONDict → Except HttpError RuleCreateInput
  /-- `lbbg.RefCount()`. -/
  RefCount : World → String → Nat
  /-- Error of `SVirtualResourceBaseManager.ValidateCreateData`, if any. -/
  baseValidateCreateData : World → JSONDict → Option HttpError
  /-- `listener.GetRegion()`: `none` when the region is not found. -/
  GetRegion : World → SLoadbalancerListener → Option SCloudregion
  /-- `region.GetDriver().ValidateCreateLoadbalancerListenerRuleData(...)`. -/
  driverValidate : World → SCloudregion → JSONDict → Except HttpError JSONDict
  /-- Error of `taskman.TaskManager.NewTask`, if any. -/
  NewTaskErr : World → String → String → Option Err

/-- `data.Set(key, value)` on a dictionary. -/
def JSONDict.Set (data : JSONDict) (key value : String) : JSONDict :=
  (key, value) :: data.filter (fun kv => kv.1 != key)

/-- `SLoadbalancerListenerRuleManager.ValidateCreateData`. It reads and writes no table
and starts no task, so the world it returns is the world it was given; the result is
`none` when it panics (`lbbg.RefCount()` on a nil backend group). -/
def SLoadbalancerListenerRuleManager.ValidateCreateData (venv : RuleCreateEnv) (w : World)
    (data : JSONDict) : World × Option (Except HttpError JSONDict) :=
  match venv.validators w data with
  | .error err => (w, some (.error err))
  | .ok input =>
    let listener := input.listener
    let data := JSONDict.Set data "cloudregion_id" listener.CloudregionId
    let data := JSONDict.Set data "manager_id" listener.ManagerId
    let listenerType := input.listenerType
    if listenerType != LB_LISTENER_TYPE_HTTP && listenerType != LB_LISTENER_TYPE_HTTPS then
      (w, some (.error { kind := .GeneralError,
                         msg := "listener type must be http/https, got " ++ listenerType }))
    else
      let checked : Option (Option HttpError) :=
        match input.backendGroup with
        | some lbbg =>
          if lbbg.LoadbalancerId != listener.LoadbalancerId then
            some (some { kind := .InputParameterError,
                         msg := "backend group " ++ lbbg.Name ++ "(" ++ lbbg.Id
                           ++ ") belongs to loadbalancer " ++ lbbg.LoadbalancerId
                           ++ " instead of " ++ listener.LoadbalancerId })
          else if input.providerName == CLOUD_PROVIDER_QCLOUD then
            if venv.RefCount w lbbg.Id > 0 then
              some (some { kind := .GeneralError,
                           msg := "backendgroup already related with other listener/rule" })
            else some none
          else some none
        | none =>
          if input.providerName == CLOUD_PROVIDER_QCLOUD then none else some none
      match checked with
      | none => (w, none)
      | some (some err) => (w, some (.error err))
      | some none =>
        match loadbalancerListenerRuleCheckUniqueness w listener input.domain input.path with
        | some err => (w, some (.error err))
        | none =>
          match venv.baseValidateCreateData w data with
          | some err => (w, some (.error err))
          | none =>
            match venv.GetRegion w listener with
            | none =>
              (w, some (.error { kind := .ResourceNotFoundError,
                                 msg := "failed to find region for loadbalancer listener "
                                   ++ listener.Name }))
            | some region => (w, some (venv.driverValidate w region data))

/-- `SLoadbalancerListenerRule.StartLoadBalancerListenerRuleCreateTask`. -/
def SLoadbalancerListenerRule.StartLoadBalancerListenerRuleCreateTask (venv : RuleCreateEnv)
    (w : World) (lbr : SLoadbalancerListenerRule) : World × Option Err :=
  let w := w.emit (.NewTask "LoadbalancerListenerRuleCreateTask" "loadbalancerlistenerrule"
    lbr.Id)
  match venv.NewTaskErr w "LoadbalancerListenerRuleCreateTask" lbr.Id with
  | some err => (w, some err)
  | none => (w.emit (.ScheduleRun "LoadbalancerListenerRuleCreateTask" lbr.Id), none)

/-- `SLoadbalancerListenerRule.PostCreate` (the inherited `PostCreate` of the resource
base has no effect on the tables of the embedding). -/
def SLoadbalancerListenerRule.PostCreate (env : Env) (venv : RuleCreateEnv) (w : World)
    (lbr : SLoadbalancerListenerRule) : World :=
  let w := (lbr.SetStatus env w LB_CREATING "").1
  (lbr.StartLoadBalancerListenerRuleCreateTask venv w).1

end models

/-! ## Package `tasks`: `schedule.go` -/

namespace tasks

/-- Value of `models.VM_SCHEDULE`. -/
def SCHEDULE : String := "schedule"

/-- Value of `models.VM_SCHEDULE_FAILED`. -/
def SCHEDULE_FAILED : String := "sched_fail"

/-- A `jsonutils.JSONObject`, as far as the scheduling code looks into one. -/
inductive JSONObject where
  | JSONNull
  | JSONString (s : String)
  | JSONDict (kvs : List (String × JSONObject))

/-- `JSONObject.Get(key)`: the value under `key` of a dictionary. -/
def JSONObject.Get : JSONObject → String → Option JSONObject
  | .JSONDict kvs, key => (kvs.find? (fun kv => kv.1 == key)).map Prod.snd
  | _, _ => none

/-- `JSONObject.Contains(key)`. -/
def JSONObject.Contains (o : JSONObject) (key : String) : Bool :=
  (o.Get key).isSome

/-- `JSONObject.GetString(key1, key2)` with the error dropped: the empty string when the
path does not lead to a string. -/
def JSONObject.GetString2 (o : JSONObject) (key1 key2 : String) : String :=
  match o.Get key1 with
  | some inner =>
    match inner.Get key2 with
    | some (.JSONString s) => s
    | _ => ""
  | none => ""

/-- `JSONObject.GetString(key)` with the error dropped. -/
def JSONObject.GetString1 (o : JSONObject) (key : String) : String :=
  match o.Get key with
  | some (.JSONString s) => s
  | _ => ""

/-- The fields of `models.SQuota` used by the scheduling code. -/
structure SQuota where
  Cpu : Nat
  Memory : Nat
  Storage : Nat
  deriving DecidableEq, Repr

/-- An object handed to the scheduler (`IScheduleModel`): its id and name. Its status
lives in the world. -/
structure IScheduleModel where
  Id : String
  Name : String
  deriving DecidableEq, Repr

/-- A task handed to the sub-protocol (`IScheduleTask`): what `GetParams()` returns. Calls
of the other methods of the interface are recorded in the trace. -/
structure IScheduleTask where
  Params : JSONObject

/-- Effects performed by the scheduling sub-protocol, in the order they happen. -/
inductive Event where
  | LogEvent (objId action : String)
  | SetStatus (objId status reason : String)
  | SetStage (stageName : String)
  | SetStageFailed (reason : String)
  | DoSchedule (count : Nat)
  | LockObject (objId : String)
  | ReleaseObject (objId : String)
  | NotifySystemError (objId name status reason : String)
  | OnScheduleFailCallback (objId : String)
  | SaveScheduleResult (objId hostId : String)
  | ClearSchedDescCache (hostId : String)
  | GetPendingUsage
  | CancelPendingUsage (ownerProjectId : String) (usage : SQuota)
  | CancelDiskPendingUsage (projectId : String) (pendingUsage quota : SQuota)
  | SetPendingUsage
  | StartDiskCreateTask (diskId : String)
  | SetStageComplete
  | RealDelete (objId : String)
  | BaremetalSyncRequest (method url : String)
  deriving DecidableEq, Repr

/-- The status of the scheduled objects (by id), the trace of effects, and the ids of the
objects that were really deleted. -/
structure World where
  status : List (String × String)
  trace : List Event
  deleted : List String := []
  deriving DecidableEq, Repr

/-- Append one effect to the trace. -/
def World.emit (w : World) (e : Event) : World := { w with trace := w.trace ++ [e] }

/-- The status recorded for an object, if any. -/
def World.statusOf (w : World) (objId : String) : Option String :=
  (w.status.find? (fun kv => kv.1 == objId)).map Prod.snd

/-- Outcomes of the calls that leave `schedule.go`; each may depend on the world so far. -/
structure Env where
  /-- Error of the status write of `SetStatus`, if any. -/
  SetStatusErr : World → String → Option Err
  /-- `modules.SchedManager.DoSchedule(s, params, count)`. -/
  DoSchedule : World → Nat → Except Err (List JSONObject)
  /-- `task.GetPendingUsage(&pendingUsage)`. -/
  GetPendingUsage : World → Except Err SQuota
  /-- How `fmt.Sprintf("%s", o)` renders a JSON object. -/
  render : JSONObject → String

/-- Modelled from the spec: `SetStatus` of the scheduled model (package `cloudcommon/db`,
not part of the embedded sources) writes the status of the object and reports the error
of that write. -/
def IScheduleModel.SetStatus (env : Env) (w : World) (obj : IScheduleModel)
    (status reason : String) : World × Option Err :=
  let w := w.emit (.SetStatus obj.Id status reason)
  match env.SetStatusErr w obj.Id with
  | some err => (w, some err)
  | none =>
    ({ w with status := (obj.Id, status) :: w.status.filter (fun kv => kv.1 != obj.Id) },
      none)

/-- `cancelPendingUsage`. -/
def cancelPendingUsage (env : Env) (w : World) (task : IScheduleTask) : World :=
  let w := w.emit .GetPendingUsage
  match env.GetPendingUsage w with
  | .error _ => w
  | .ok pendingUsage =>
    let ownerProjectId := task.Params.GetString1 "owner_tenant_id"
    w.emit (.CancelPendingUsage ownerProjectId pendingUsage)

/-- `onScheduleFail`. -/
def onScheduleFail (env : Env) (w : World) (_task : IScheduleTask) (obj : IScheduleModel)
    (msg : String) : World :=
  let w := w.emit (.LockObject obj.Id)
  let reason := "No matching resources"
  let reason := if msg.length > 0 then reason ++ ": " ++ msg else reason
  let w := (obj.SetStatus env w SCHEDULE_FAILED reason).1
  let w := w.emit (.LogEvent obj.Id "alloc_fail")
  let w := w.emit (.NotifySystemError obj.Id obj.Name SCHEDULE_FAILED reason)
  let w := w.emit (.OnScheduleFailCallback obj.Id)
  w.emit (.ReleaseObject obj.Id)

/-- `onScheduleSucc`. -/
def onScheduleSucc (w : World) (_task : IScheduleTask) (obj : IScheduleModel)
    (hostId : String) : World :=
  let w := w.emit (.LockObject obj.Id)
  let w := w.emit (.SaveScheduleResult obj.Id hostId)
  let w := w.emit (.ClearSchedDescCache hostId)
  w.emit (.ReleaseObject obj.Id)

/-- `onSchedulerRequestFail`. -/
def onSchedulerRequestFail (env : Env) (w : World) (task : IScheduleTask)
    (objs : List IScheduleModel) (reason : String) : World :=
  let w := objs.foldl (fun w obj => onScheduleFail env w task obj reason) w
  let w := w.emit (.SetStageFailed ("Schedule failed: " ++ reason))
  cancelPendingUsage env w task

/-- Number of invocations of `cancelPendingUsage` recorded in a trace: every invocation
starts with one `task.GetPendingUsage` call, and the sub-protocol calls it nowhere else. -/
def cancelPendingUsageCalls (trace : List Event) : Nat :=
  trace.count .GetPendingUsage

/-- Number of `QuotaManager.CancelPendingUsage` calls recorded in a trace. -/
def quotaCancelCalls (trace : List Event) : Nat :=
  (trace.filter (fun e =>
    match e with
    | .CancelPendingUsage _ _ => true
    | _ => false)).length

/-- Number of times an object went through `onScheduleSucc` (one `SaveScheduleResult`
call each) in a trace. -/
def succCalls (trace : List Event) (objId : String) : Nat :=
  (trace.filter (fun e =>
    match e with
    | .SaveScheduleResult id _ => id == objId
    | _ => false)).length

/-- Number of times an object went through `onScheduleFail` (one
`OnScheduleFailCallback` call each) in a trace. -/
def failCalls (trace : List Event) (objId : String) : Nat :=
  trace.count (.OnScheduleFailCallback objId)

/-- How the loop of `onSchedulerResults` ended: the world, `succCount`, and whether the
loop was left by the `return` of its last branch. -/
structure LoopExit where
  w : World
  succCount : Nat
  returned : Bool

/-- The `for` loop of `onSchedulerResults`, from index `idx` on, over the objects not yet
visited. `none` is the index-out-of-range panic of `results[idx]`. -/
def onSchedulerResults.loop (env : Env) (task : IScheduleTask) (results : List JSONObject) :
    List IScheduleModel → Nat → Nat → World → Option LoopExit
  | [], _, succCount, w => some { w := w, succCount := succCount, returned := false }
  | obj :: rest, idx, succCount, w =>
    match results[idx]? with
    | none => none
    | some result =>
      if result.Contains "candidate" then
        let hostId := result.GetString2 "candidate" "id"
        onSchedulerResults.loop env task results rest (idx + 1) (succCount + 1)
          (onScheduleSucc w task obj hostId)
      else if result.Contains "error" then
        let msg := match result.Get "error" with
          | some m => env.render m
          | none => ""
        onSchedulerResults.loop env task results rest (idx + 1) succCount
          (onScheduleFail env w task obj msg)
      else
        let msg := "Unknown scheduler result " ++ env.render result
        some { w := onScheduleFail env w task obj msg, succCount := succCount,
               returned := true }

/-- `onSchedulerResults`. -/
def onSchedulerResults (env : Env) (w : World) (task : IScheduleTask)
    (objs : List IScheduleModel) (results : List JSONObject) : Option World :=
  match onSchedulerResults.loop env task results objs 0 0 w with
  | none => none
  | some ex =>
    if ex.returned then some ex.w
    else
      let w := if ex.succCount == 0 then ex.w.emit (.SetStageFailed "Schedule failed")
               else ex.w
      some (cancelPendingUsage env w task)

/-- `doScheduleObjects`. -/
def doScheduleObjects (env : Env) (w : World) (task : IScheduleTask)
    (objs : List IScheduleModel) : Option World :=
  let w := w.emit (.SetStage "OnScheduleComplete")
  let w := w.emit (.DoSchedule objs.length)
  match env.DoSchedule w objs.length with
  | .error err => some (onSchedulerRequestFail env w task objs ("Scheduler fail: " ++ err))
  | .ok results => onSchedulerResults env w task objs results

/-- `StartScheduleObjects`. -/
def StartScheduleObjects (env : Env) (w : World) (task : IScheduleTask)
    (objs : List IScheduleModel) : Option World :=
  let w := objs.foldl (fun w obj =>
    (obj.SetStatus env (w.emit (.LogEvent obj.Id "allocating")) SCHEDULE "").1) w
  doScheduleObjects env w task objs

/-! ### `disk_batch_create_task.go` -/

/-- Value of `models.DISK_ALLOC_FAILED` (the constant is declared outside the embedded
sources). -/
def DISK_ALLOC_FAILED : String := "alloc_failed"

/-- The fields of `models.SDisk` used by the disk batch task. -/
structure SDisk where
  Id : String
  Name : String
  ProjectId : String
  StorageId : String
  DiskSize : Nat
  deriving DecidableEq, Repr

/-- A disk as a scheduled model. -/
def SDisk.toModel (disk : SDisk) : IScheduleModel := { Id := disk.Id, Name := disk.Name }

/-- A disk of a `schedapi.CandidateResource`. -/
structure CandidateDisk where
  StorageId : String
  deriving DecidableEq, Repr

/-- The fields of `schedapi.CandidateResource` used by the disk batch task. -/
structure CandidateResource where
  HostId : String
  Disks : List CandidateDisk
  deriving DecidableEq, Repr

/-- Outcomes of the calls of `DiskBatchCreateTask` that leave the file. `schedule.go`
hands `SaveScheduleResult` the id of the candidate while
`DiskBatchCreateTask.SaveScheduleResult` takes the candidate itself; `candidate` is the
candidate a scheduler result stands for. -/
structure DiskEnv where
  /-- Error of `self.GetFirstDisk()`, if any. -/
  GetFirstDiskErr : World → Option Err
  /-- Error of `disk.SetStorage(storageId, diskConfig)`, if any. -/
  SetStorageErr : World → String → String → Option Err
  /-- The candidate of a scheduler result. -/
  candidate : JSONObject → CandidateResource

/-- The usage read by `self.GetPendingUsage(&pendingUsage)`: the zero quota when the call
fails (the error is only logged). -/
def DiskBatchCreateTask.readPendingUsage (env : Env) (w : World) : World × SQuota :=
  let w := w.emit .GetPendingUsage
  match env.GetPendingUsage w with
  | .error _ => (w, { Cpu := 0, Memory := 0, Storage := 0 })
  | .ok pendingUsage => (w, pendingUsage)

/-- `DiskBatchCreateTask.startCreateDisk`. What `CancelPendingUsage` leaves in
`pendingUsage` is stored on the task by `SetPendingUsage`. -/
def DiskBatchCreateTask.startCreateDisk (env : Env) (w : World) (disk : SDisk) : World :=
  let r := DiskBatchCreateTask.readPendingUsage env w
  let quotaStorage : SQuota := { Cpu := 0, Memory := 0, Storage := disk.DiskSize }
  let w := r.1.emit (.CancelDiskPendingUsage disk.ProjectId r.2 quotaStorage)
  let w := w.emit .SetPendingUsage
  w.emit (.StartDiskCreateTask disk.Id)

/-- The error handling of `DiskBatchCreateTask.SaveScheduleResult` (the closure `onError`
and its copy in the `SetStorage` branch). -/
def DiskBatchCreateTask.onError (env : Env) (w : World) (disk : SDisk)
    (pendingUsage : SQuota) (err : Err) : World :=
  let quotaStorage : SQuota := { Cpu := 0, Memory := 0, Storage := disk.DiskSize }
  let w := w.emit (.CancelDiskPendingUsage disk.ProjectId pendingUsage quotaStorage)
  let w := (disk.toModel.SetStatus env w DISK_ALLOC_FAILED err).1
  let w := w.emit (.SetStageFailed err)
  let w := w.emit (.LogEvent disk.Id "alloc_fail")
  w.emit (.NotifySystemError disk.Id disk.Name DISK_ALLOC_FAILED err)

/-- `DiskBatchCreateTask.SaveScheduleResult`; `none` is the index-out-of-range panic of
`candidate.Disks[0]`. -/
def DiskBatchCreateTask.SaveScheduleResult (env : Env) (denv : DiskEnv) (w : World)
    (disk : SDisk) (candidate : CandidateResource) : Option World :=
  let r := DiskBatchCreateTask.readPendingUsage env w
  match denv.GetFirstDiskErr r.1 with
  | some err => some (DiskBatchCreateTask.onError env r.1 disk r.2 err)
  | none =>
    match candidate.Disks.head? with
    | none => none
    | some cd =>
      match denv.SetStorageErr r.1 disk.Id cd.StorageId with
      | some err => some (DiskBatchCreateTask.onError env r.1 disk r.2 err)
      | none => some (DiskBatchCreateTask.startCreateDisk env r.1 disk)

/-- `onScheduleSucc` with a `DiskBatchCreateTask` as the task: the call of
`task.SaveScheduleResult` runs `DiskBatchCreateTask.SaveScheduleResult`. -/
def DiskBatchCreateTask.onScheduleSucc (env : Env) (denv : DiskEnv) (w : World)
    (disk : SDisk) (result : JSONObject) : Option World :=
  let hostId := result.GetString2 "candidate" "id"
  let w := w.emit (.LockObject disk.Id)
  let w := w.emit (.SaveScheduleResult disk.Id hostId)
  match DiskBatchCreateTask.SaveScheduleResult env denv w disk (denv.candidate result) with
  | none => none
  | some w => some ((w.emit (.ClearSchedDescCache hostId)).emit (.ReleaseObject disk.Id))

/-- The `for` loop of `onSchedulerResults` with a `DiskBatchCreateTask` as the task. -/
def DiskBatchCreateTask.onSchedulerResults.loop (env : Env) (denv : DiskEnv)
    (task : IScheduleTask) (results : List JSONObject) :
    List SDisk → Nat → Nat → World → Option LoopExit
  | [], _, succCount, w => some { w := w, succCount := succCount, returned := false }
  | disk :: rest, idx, succCount, w =>
    match results[idx]? with
    | none => none
    | some result =>
      if result.Contains "candidate" then
        match DiskBatchCreateTask.onScheduleSucc env denv w disk result with
        | none => none
        | some w =>
          DiskBatchCreateTask.onSchedulerResults.loop env denv task results rest (idx + 1)
            (succCount + 1) w
      else if result.Contains "error" then
        let msg := match result.Get "error" with
          | some m => env.render m
          | none => ""
        DiskBatchCreateTask.onSchedulerResults.loop env denv task results rest (idx + 1)
          succCount (onScheduleFail env w task disk.toModel msg)
      else
        let msg := "Unknown scheduler result " ++ env.render result
        some { w := onScheduleFail env w task disk.toModel msg, succCount := succCount,
               returned := true }

/-- `onSchedulerResults` with a `DiskBatchCreateTask` as the task. -/
def DiskBatchCreateTask.onSchedulerResults (env : Env) (denv : DiskEnv) (w : World)
    (task : IScheduleTask) (disks : List SDisk) (results : List JSONObject) :
    Option World :=
  match DiskBatchCreateTask.onSchedulerResults.loop env denv task results disks 0 0 w with
  | none => none
  | some ex =>
    if ex.returned then some ex.w
    else
      let w := if ex.succCount == 0 then ex.w.emit (.SetStageFailed "Schedule failed")
               else ex.w
      some (cancelPendingUsage env w task)

/-- `StartScheduleObjects` and `doScheduleObjects` with a `DiskBatchCreateTask` as the
task: the disks are marked, the scheduler is asked once, and its answer is applied by
`onSchedulerResults` (or `onSchedulerRequestFail`). -/
def DiskBatchCreateTask.StartScheduleObjects (env : Env) (denv : DiskEnv) (w : World)
    (task : IScheduleTask) (disks : List SDisk) : Option World :=
  let objs := disks.map SDisk.toModel
  let w := objs.foldl (fun w obj =>
    (obj.SetStatus env (w.emit (.LogEvent obj.Id "allocating")) SCHEDULE "").1) w
  let w := w.emit (.SetStage "OnScheduleComplete")
  let w := w.emit (.DoSchedule objs.length)
  match env.DoSchedule w objs.length with
  | .error err => some (onSchedulerRequestFail env w task objs ("Scheduler fail: " ++ err))
  | .ok results => DiskBatchCreateTask.onSchedulerResults env denv w task disks results

/-- `DiskBatchCreateTask.getNeedScheduleDisks`. -/
def DiskBatchCreateTask.getNeedScheduleDisks (objs : List SDisk) : List SDisk :=
  objs.foldl (fun toSchedDisks disk =>
    if disk.StorageId == "" then toSchedDisks ++ [disk] else toSchedDisks) []

/-- `DiskBatchCreateTask.OnInit`. -/
def DiskBatchCreateTask.OnInit (env : Env) (denv : DiskEnv) (w : World)
    (task : IScheduleTask) (objs : List SDisk) : Option World :=
  let toSchedDisks := DiskBatchCreateTask.getNeedScheduleDisks objs
  if toSchedDisks.length == 0 then
    let w := w.emit (.SetStage "OnScheduleComplete")
    some (objs.foldl (fun w disk => DiskBatchCreateTask.startCreateDisk env w disk) w)
  else
    DiskBatchCreateTask.StartScheduleObjects env denv w task toSchedDisks

/-- Number of `disk.StartDiskCreateTask` calls for a disk recorded in a trace. -/
def startedCalls (trace : List Event) (diskId : String) : Nat :=
  trace.count (.StartDiskCreateTask diskId)

/-- Number of times an object was marked Scheduling (submitted to the scheduler) in a
trace. -/
def submittedCalls (trace : List Event) (objId : String) : Nat :=
  trace.count (.SetStatus objId SCHEDULE "")

/-- Number of `QuotaManager.CancelPendingUsage` calls of the disk batch task for a
project recorded in a trace, with the cancelled quota. -/
def diskCancelCalls (trace : List Event) (projectId : String) (quota : SQuota) : Nat :=
  (trace.filter (fun e =>
    match e with
    | .CancelDiskPendingUsage p _ q => p == projectId && decide (q = quota)
    | _ => false)).length

/-- Number of `task.SetPendingUsage` calls recorded in a trace. -/
def setPendingUsageCalls (trace : List Event) : Nat :=
  trace.count .SetPendingUsage

/-! ### `baremetal_delete_task.go` -/

/-- Value of `models.BAREMETAL_DELETE`. -/
def BAREMETAL_DELETE : String := "deleting"

/-- Value of `models.BAREMETAL_DELETE_FAIL`. -/
def BAREMETAL_DELETE_FAIL : String := "delete_fail"

/-- The fields of `models.SHost` used by the baremetal delete task. -/
structure SHost where
  Id : String
  Name : String
  deriving DecidableEq, Repr

/-- The error of `baremetal.BaremetalSyncRequest`: a `*httputils.JSONClientError` with
its code, or any other error. -/
inductive RequestError where
  | JSONClientError (code : Nat) (details : String)
  | other (msg : String)
  deriving DecidableEq, Repr

/-- Outcomes of the calls of `BaremetalDeleteTask` that leave the file. -/
structure BaremetalEnv where
  /-- `baremetal.IsBaremetalAgentReady()`. -/
  IsBaremetalAgentReady : World → SHost → Bool
  /-- Error of `baremetal.BaremetalSyncRequest(ctx, method, url, headers, nil)`, if any. -/
  BaremetalSyncRequest : World → String → String → Option RequestError
  /-- Error of `baremetal.RealDelete`, if any. -/
  RealDeleteErr : World → String → Option Err

/-- A host as a model with an id, a name and a status. -/
def SHost.toModel (host : SHost) : IScheduleModel := { Id := host.Id, Name := host.Name }

/-- The `SetStatus` of the host: the status write of the resource base, as for the
scheduled models. -/
def SHost.SetStatus (env : Env) (w : World) (host : SHost) (status reason : String) :
    World × Option Err :=
  host.toModel.SetStatus env w status reason

/-- Modelled from the spec: `SHost.RealDelete` (package `models`, not part of the embedded
sources) deletes the host record and reports the error of that write. -/
def SHost.RealDelete (benv : BaremetalEnv) (w : World) (host : SHost) : World × Option Err :=
  let w := w.emit (.RealDelete host.Id)
  match benv.RealDeleteErr w host.Id with
  | some err => (w, some err)
  | none => ({ w with deleted := host.Id :: w.deleted }, none)

/-- `BaremetalDeleteTask.OnDeleteBaremetalComplete`. -/
def BaremetalDeleteTask.OnDeleteBaremetalComplete (benv : BaremetalEnv) (w : World)
    (baremetal : SHost) : World :=
  let w := (baremetal.RealDelete benv w).1
  w.emit .SetStageComplete

/-- `BaremetalDeleteTask.OnFailure`. -/
def BaremetalDeleteTask.OnFailure (env : Env) (w : World) (baremetal : SHost) : World :=
  let w := (baremetal.SetStatus env w BAREMETAL_DELETE_FAIL "").1
  w.emit (.SetStageFailed "")

/-- `BaremetalDeleteTask.OnInit`. -/
def BaremetalDeleteTask.OnInit (env : Env) (benv : BaremetalEnv) (w : World)
    (baremetal : SHost) : World :=
  let w := (baremetal.SetStatus env w BAREMETAL_DELETE "").1
  if !benv.IsBaremetalAgentReady w baremetal then
    BaremetalDeleteTask.OnDeleteBaremetalComplete benv w baremetal
  else
    let url := "/baremetals/" ++ baremetal.Id ++ "/delete"
    let w := w.emit (.SetStage "OnDeleteBaremetalComplete")
    let w := w.emit (.BaremetalSyncRequest "POST" url)
    match benv.BaremetalSyncRequest w "POST" url with
    | none => w
    | some (.JSONClientError code _) =>
      if code == 404 then BaremetalDeleteTask.OnDeleteBaremetalComplete benv w baremetal
      else BaremetalDeleteTask.OnFailure env w baremetal
    | some (.other _) => BaremetalDeleteTask.OnFailure env w baremetal

/-- Number of `task.SetStageComplete` calls recorded in a trace. -/
def stageCompleteCalls (trace : List Event) : Nat :=
  trace.count .SetStageComplete

/-- One step of the lock-discipline check of a trace of the sub-protocol: `held` are the
objects whose lock is held. A status change of an object (`SetStatus`) and a binding of an
object to a candidate (`SaveScheduleResult`) need the lock of that object; a release needs
the lock to be held. `none` is a violation. -/
def lockStep (held : List String) : Event → Option (List String)
  | .LockObject objId => some (objId :: held)
  | .ReleaseObject objId => if objId ∈ held then some (held.erase objId) else none
  | .SetStatus objId _ _ => if objId ∈ held then some held else none
  | .SaveScheduleResult objId _ => if objId ∈ held then some held else none
  | _ => some held

/-- The lock-discipline check of a list of events, started with the locks `held`: the
locks held at the end, or `none` when some event violates the discipline. -/
def lockDiscipline (held : List String) (events : List Event) : Option (List String) :=
  events.foldlM lockStep held

/-- Events that may follow the scheduler request in a run of `StartScheduleObjects`:
anything but a further `DoSchedule` request or a further status change to Scheduling. -/
def afterStart : Event → Bool
  | .DoSchedule _ => false
  | .SetStatus _ status _ => status != SCHEDULE
  | _ => true

/-- Number of `task.SetStageFailed` calls recorded in a trace. -/
def stageFailedCalls (trace : List Event) : Nat :=
  (trace.filter (fun e =>
    match e with
    | .SetStageFailed _ => true
    | _ => false)).length

/-- A property of event lists that holds of the empty list, is kept by concatenation and
holds of the events of every single step of the sub-protocol (`onScheduleSucc`,
`onScheduleFail`, `SetStageFailed`, `cancelPendingUsage`). Such a property holds of
everything the sub-protocol emits after the scheduler request. -/
structure TraceClosed (P : List Event → Prop) : Prop where
  nil : P []
  append : ∀ a b, P a → P b → P (a ++ b)
  succ : ∀ objId hostId, P [.LockObject objId, .SaveScheduleResult objId hostId,
    .ClearSchedDescCache hostId, .ReleaseObject objId]
  fail : ∀ objId name reason, P [.LockObject objId, .SetStatus objId SCHEDULE_FAILED reason,
    .LogEvent objId "alloc_fail", .NotifySystemError objId name SCHEDULE_FAILED reason,
    .OnScheduleFailCallback objId, .ReleaseObject objId]
  stageFailed : ∀ reason, P [.SetStageFailed reason]
  getPending : P [.GetPendingUsage]
  cancel : ∀ owner usage, P [.GetPendingUsage, .CancelPendingUsage owner usage]

/-- The reason `onScheduleFail` records for a message. -/
def failReason (msg : String) : String :=
  if msg.length > 0 then "No matching resources" ++ ": " ++ msg else "No matching resources"

end tasks

/-! ## Package `hostdrivers`: `base.go` -/

namespace hostdrivers

/-- Value of `baremetal.DISK_CONF_RAID10` (package `compute/baremetal`). -/
def DISK_CONF_RAID10 : String := "raid10"

/-- Value of `baremetal.DISK_CONF_RAID1` (package `compute/baremetal`). -/
def DISK_CONF_RAID1 : String := "raid1"

/-- Value of `baremetal.DISK_CONF_RAID5` (package `compute/baremetal`). -/
def DISK_CONF_RAID5 : String := "raid5"

/-- Value of `baremetal.DISK_CONF_RAID0` (package `compute/baremetal`). -/
def DISK_CONF_RAID0 : String := "raid0"

/-- Value of `baremetal.DISK_CONF_NONE` (package `compute/baremetal`). -/
def DISK_CONF_NONE : String := "none"

/-- The field of `models.SHost` read by `GetRaidScheme`. -/
structure SHost where
  StorageInfo : String
  deriving DecidableEq, Repr

/-- An `api.BaremetalDiskConfig`, as parsed from a raid string. -/
structure BaremetalDiskConfig where
  Conf : String
  deriving DecidableEq, Repr

/-- Outcomes of the calls of `GetRaidScheme` that leave the file. -/
structure Env where
  /-- `baremetal.ParseDiskConfig(raid)`. -/
  ParseDiskConfig : String → Except Err BaremetalDiskConfig
  /-- `models.ConvertStorageInfo2BaremetalStorages(storageInfo)`: `none` is `nil`. -/
  ConvertStorageInfo2BaremetalStorages : String → Option (List String)
  /-- Error of `baremetal.CalculateLayout(conf, storages)`, if any. -/
  CalculateLayout : List BaremetalDiskConfig → List String → Option Err

/-- `utils.IsInStringArray`. -/
def IsInStringArray (ele : String) (array : List String) : Bool :=
  array.any (fun a => a == ele)

/-- The candidates `GetRaidScheme` tries for a requested raid string. -/
def GetRaidScheme.candidates (raid : String) : List String :=
  if raid.length == 0 then
    [DISK_CONF_RAID10, DISK_CONF_RAID1, DISK_CONF_RAID5, DISK_CONF_RAID0, DISK_CONF_NONE]
  else if IsInStringArray raid [DISK_CONF_RAID10, DISK_CONF_RAID1] then
    [DISK_CONF_RAID10, DISK_CONF_RAID1]
  else [raid]

/-- The `for` loop of `GetRaidScheme` over the candidates not yet tried: an error when the
body returns one, otherwise the value of the variable `raid` when the loop is left (by
`break`, or at the end of the candidates). -/
def GetRaidScheme.loop (env : Env) (host : SHost) (raid : String) :
    List String → Except Err String
  | [] => .ok raid
  | candidate :: rest =>
    let conf : Except Err (List BaremetalDiskConfig) :=
      if candidate == DISK_CONF_NONE then .ok []
      else
        match env.ParseDiskConfig candidate with
        | .error err => .error err
        | .ok parsedConf => .ok [parsedConf]
    match conf with
    | .error err => .error err
    | .ok conf =>
      match env.ConvertStorageInfo2BaremetalStorages host.StorageInfo with
      | none => .error "Convert storage info error"
      | some baremetalStorage =>
        match env.CalculateLayout conf baremetalStorage with
        | some _ => GetRaidScheme.loop env host raid rest
        | none => .ok candidate

/-- `SBaseHostDriver.GetRaidScheme`. -/
def GetRaidScheme (env : Env) (host : SHost) (raid : String) : Except Err String :=
  match GetRaidScheme.loop env host raid (GetRaidScheme.candidates raid) with
  | .error err => .error err
  | .ok raid =>
    if raid.length == 0 then .error "Disk misconfiguration" else .ok raid

/-- Whether `CalculateLayout` succeeds for a candidate on the storage of the host: the
candidate parses (or is `none`), the storage converts, and the layout is computed. -/
def layoutFound (env : Env) (host : SHost) (candidate : String) : Bool :=
  let conf : Option (List BaremetalDiskConfig) :=
    if candidate == DISK_CONF_NONE then some []
    else
      match env.ParseDiskConfig candidate with
      | .error _ => none
      | .ok parsedConf => some [parsedConf]
  match conf, env.ConvertStorageInfo2BaremetalStorages host.StorageInfo with
  | some conf, some baremetalStorage => (env.CalculateLayout conf baremetalStorage).isNone
  | _, _ => false

end hostdrivers

/-! ## Package `qcloud`: `instance.go` -/

namespace qcloud

/-- Value of `models.VM_RUNNING` (package `compute/models`). -/
def VM_RUNNING : String := "running"

/-- Value of `models.VM_READY` (package `compute/models`). -/
def VM_READY : String := "ready"

/-- Value of `models.VM_DEPLOYING` (package `compute/models`). -/
def VM_DEPLOYING : String := "deploying"

/-- Value of `models.VM_DEPLOY_FAILED` (package `compute/models`). -/
def VM_DEPLOY_FAILED : String := "deploy_fail"

/-- Value of `models.VM_STARTING` (package `compute/models`). -/
def VM_STARTING : String := "starting"

/-- Value of `models.VM_STOPPING` (package `compute/models`). -/
def VM_STOPPING : String := "stopping"

/-- Value of `models.VM_DEALLOCATED` (package `compute/models`). -/
def VM_DEALLOCATED : String := "deallocated"

/-- Value of `models.VM_DELETING` (package `compute/models`). -/
def VM_DELETING : String := "deleting"

/-- Value of `models.VM_UNKNOWN` (package `compute/models`). -/
def VM_UNKNOWN : String := "unknown"

/-- Value of `InstanceStatusStopped` (declared in another file of the package). -/
def InstanceStatusStopped : String := "STOPPED"

/-- `cloudprovider.ErrTimeout`. -/
def ErrTimeout : Err := "timeout"

/-- `cloudprovider.ErrNotFound`. -/
def ErrNotFound : Err := "not found"

/-- `cloudprovider.ErrInvalidStatus`. -/
def ErrInvalidStatus : Err := "invalid status"

/-- The fields of `SInstance` used by the embedded functions. -/
structure SInstance where
  InstanceId : String
  InstanceState : String
  deriving DecidableEq, Repr

/-- The field of `SInstanceType` used by `ChangeVMConfig`. -/
structure SInstanceType where
  InstanceType : String
  deriving DecidableEq, Repr

/-- Calls that leave `instance.go`, and `time.Sleep`, in the order they happen. -/
inductive Event where
  | GetInstances (ids : List String)
  | Update (instanceId : String)
  | GetInstanceStatus (instanceId : String)
  | instanceOperation (instanceId opname : String) (params : List (String × String))
  | Sleep (seconds : Nat)
  | WaitDeleted (instanceId : String)
  | GetMatchInstanceTypes (ncpu vmem gpu : Nat) (zoneId : String)
  deriving DecidableEq, Repr

/-- The reading of the clock, in seconds, and the trace of the calls made. -/
structure World where
  now : Nat
  trace : List Event
  deriving DecidableEq, Repr

/-- Outcomes of the calls that leave `instance.go`; each may depend on the world so far,
so a request may fail any number of times and then succeed. -/
structure Env where
  /-- `self.GetInstances("", ids, 0, 1)`. -/
  GetInstances : World → List String → Except Err (List SInstance)
  /-- Error of `jsonutils.Update(self, new)`, if any. -/
  UpdateErr : World → Option Err
  /-- `self.GetInstanceStatus(instanceId)`. -/
  GetInstanceStatus : World → String → Except Err String
  /-- Error of `self.instanceOperation(instanceId, opname, params)`, if any. -/
  instanceOperation : World → String → String → List (String × String) → Option Err
  /-- Error of `cloudprovider.WaitDeleted(self, interval, timeout)`, if any. -/
  WaitDeleted : World → String → Option Err
  /-- `self.GetMatchInstanceTypes(ncpu, vmem, gpu, zoneId)`. -/
  GetMatchInstanceTypes : World → Nat → Nat → Nat → String → Except Err (List SInstanceType)
  /-- The seconds that pass during the call recorded last (beyond the requested time, for
  a sleep). -/
  elapsed : World → Nat

/-- Record a call; the clock goes on by the time the call takes. -/
def World.call (env : Env) (w : World) (e : Event) : World :=
  let w : World := { w with trace := w.trace ++ [e] }
  { w with now := w.now + env.elapsed w }

/-- `time.Sleep(d)`: the clock goes on by at least `d` seconds. -/
def World.Sleep (env : Env) (w : World) (d : Nat) : World :=
  let w : World := { w with trace := w.trace ++ [.Sleep d] }
  { w with now := w.now + d + env.elapsed w }

/-- `SInstance.GetStatus`. -/
def SInstance.GetStatus (self : SInstance) : String :=
  if self.InstanceState == "PENDING" then VM_DEPLOYING
  else if self.InstanceState == "LAUNCH_FAILED" then VM_DEPLOY_FAILED
  else if self.InstanceState == "RUNNING" then VM_RUNNING
  else if self.InstanceState == "STOPPED" then VM_READY
  else if self.InstanceState == "STARTING" || self.InstanceState == "REBOOTING" then
    VM_STARTING
  else if self.InstanceState == "STOPPING" then VM_STOPPING
  else if self.InstanceState == "SHUTDOWN" then VM_DEALLOCATED
  else if self.InstanceState == "TERMINATING" then VM_DELETING
  else VM_UNKNOWN

/-- `SRegion.GetInstance`. -/
def SRegion.GetInstance (env : Env) (w : World) (instanceId : String) :
    World × Except Err SInstance :=
  let w := w.call env (.GetInstances [instanceId])
  match env.GetInstances w [instanceId] with
  | .error err => (w, .error err)
  | .ok [] => (w, .error ErrNotFound)
  | .ok (first :: _) => (w, .ok first)

/-- `SInstance.Refresh`: the instance in memory is overwritten with the fetched one. -/
def SInstance.Refresh (env : Env) (w : World) (self : SInstance) :
    World × SInstance × Option Err :=
  match SRegion.GetInstance env w self.InstanceId with
  | (w, .error err) => (w, self, some err)
  | (w, .ok new) =>
    let w := w.call env (.Update self.InstanceId)
    match env.UpdateErr w with
    | some err => (w, self, some err)
    | none => (w, new, none)

/-- The request `SRegion.instanceOperation`, which leaves the file. -/
def SRegion.instanceOperation (env : Env) (w : World) (instanceId opname : String)
    (params : List (String × String)) : World × Option Err :=
  let w := w.call env (.instanceOperation instanceId opname params)
  (w, env.instanceOperation w instanceId opname params)

/-- `SRegion.doStartVM`. -/
def SRegion.doStartVM (env : Env) (w : World) (instanceId : String) : World × Option Err :=
  SRegion.instanceOperation env w instanceId "StartInstances" []

/-- `SRegion.doDeleteVM`. -/
def SRegion.doDeleteVM (env : Env) (w : World) (instanceId : String) : World × Option Err :=
  SRegion.instanceOperation env w instanceId "TerminateInstances" []

/-- `SRegion.StartVM`. -/
def SRegion.StartVM (env : Env) (w : World) (instanceId : String) : World × Option Err :=
  let w := w.call env (.GetInstanceStatus instanceId)
  match env.GetInstanceStatus w instanceId with
  | .error err => (w, some err)
  | .ok status =>
    if status != InstanceStatusStopped then (w, some ErrInvalidStatus)
    else SRegion.doStartVM env w instanceId

/-- `SRegion.DeleteVM`. -/
def SRegion.DeleteVM (env : Env) (w : World) (instanceId : String) : World × Option Err :=
  let w := w.call env (.GetInstanceStatus instanceId)
  match env.GetInstanceStatus w instanceId with
  | .error err => (w, some err)
  | .ok _ => SRegion.doDeleteVM env w instanceId

/-- The `for` loop of `SInstance.StartVM`, with `timeout` 300 and `interval` 15 seconds:
`fuel` bounds the number of times the loop condition is evaluated, and `none` means the
loop is still running after that many. -/
def SInstance.StartVM.loop (env : Env) (startTime : Nat) :
    Nat → World → SInstance → Option (World × SInstance × Option Err)
  | 0, _, _ => none
  | fuel + 1, w, self =>
    if w.now - startTime < 300 then
      match self.Refresh env w with
      | (w, self, some err) => some (w, self, some err)
      | (w, self, none) =>
        if self.GetStatus == VM_RUNNING then some (w, self, none)
        else
          let r : World × Option Err :=
            if self.GetStatus == VM_READY then SRegion.StartVM env w self.InstanceId
            else (w, none)
          match r with
          | (w, some err) => some (w, self, some err)
          | (w, none) => SInstance.StartVM.loop env startTime fuel (w.Sleep env 15) self
    else some (w, self, some ErrTimeout)

/-- `SInstance.StartVM`. -/
def SInstance.StartVM (env : Env) (fuel : Nat) (w : World) (self : SInstance) :
    Option (World × SInstance × Option Err) :=
  let startTime := w.now
  SInstance.StartVM.loop env startTime fuel w self

/-- The `for` loop of `SInstance.DeleteVM`: `fuel` bounds the number of delete requests,
and `none` means the loop is still running after that many. The branch for a failed
request is empty, so the request is repeated at once. -/
def SInstance.DeleteVM.loop (env : Env) (self : SInstance) : Nat → World → Option World
  | 0, _ => none
  | fuel + 1, w =>
    match SRegion.DeleteVM env w self.InstanceId with
    | (w, some _) => SInstance.DeleteVM.loop env self fuel w
    | (w, none) => some w

/-- `SInstance.DeleteVM`. -/
def SInstance.DeleteVM (env : Env) (fuel : Nat) (w : World) (self : SInstance) :
    Option (World × Option Err) :=
  match SInstance.DeleteVM.loop env self fuel w with
  | none => none
  | some w =>
    let w := w.call env (.WaitDeleted self.InstanceId)
    some (w, env.WaitDeleted w self.InstanceId)

/-- Number of delete requests (`TerminateInstances`) recorded in a trace. -/
def deleteRequests (trace : List Event) (instanceId : String) : Nat :=
  trace.count (.instanceOperation instanceId "TerminateInstances" [])

/-- The `for ... range instanceTypes` loop of `SRegion.ChangeVMConfig`: the world, and
whether the body returned (it returns `nil` at the end of its first run). -/
def SRegion.ChangeVMConfig.loop (env : Env) (instanceId : String) :
    List SInstanceType → World → World × Bool
  | [], w => (w, false)
  | instancetype :: _, w =>
    let params := [("InstanceType", instancetype.InstanceType)]
    let r := SRegion.instanceOperation env w instanceId "ResetInstancesType" params
    (r.1, true)

/-- `SRegion.ChangeVMConfig`. -/
def SRegion.ChangeVMConfig (env : Env) (w : World) (zoneId instanceId : String)
    (ncpu vmem : Nat) : World × Option Err :=
  let w := w.call env (.GetMatchInstanceTypes ncpu vmem 0 zoneId)
  match env.GetMatchInstanceTypes w ncpu vmem 0 zoneId with
  | .error e => (w, some e)
  | .ok instanceTypes =>
    match SRegion.ChangeVMConfig.loop env instanceId instanceTypes w with
    | (w, true) => (w, none)
    | (w, false) =>
      (w, some "Failed to change vm config, specification not supported")

/-- The `ResetInstancesType` requests recorded in a trace, with the instance type asked
for. -/
def resetTypeRequests (trace : List Event) : List String :=
  trace.filterMap (fun e =>
    match e with
    | .instanceOperation _ "ResetInstancesType" [(_, instanceType)] => some instanceType
    | _ => none)

end qcloud

/-! ## Concrete inputs -/

namespace examples

open models compare

/-- An environment in which every database call succeeds, every delete guard passes, no
lookup in another table finds anything and no owner is propagated. -/
def quietEnv : models.Env :=
  { FetchModelObjectsErr := fun _ _ => none
    ValidateDeleteCondition := fun _ _ _ => none
    SetStatusErr := fun _ _ _ => none
    DeleteErr := fun _ _ _ => none
    UpdateErr := fun _ _ _ => none
    InsertErr := fun _ _ _ => none
    NewId := fun _ _ => "new-id"
    GenerateName := fun _ _ _ hint => hint
    FetchByExternalId := fun _ _ _ => none
    BackendGroupFetchById := fun _ _ => none
    ListenerFetchById := fun _ _ => none
    SyncCloudProjectOwner := fun _ _ _ _ _ _ => none
    HostQueryCount := fun _ _ _ _ _ _ _ => 0
    WireQueryCount := fun _ _ => 0
    StorageQueryCount := fun _ _ => 0
    NetworkQueryCount := fun _ _ => 0
    NetworkExists := fun _ _ => false
    ValidIPv4 := fun _ => false
    AddressInRange := fun _ _ _ => false }

/-- The provider of the examples. -/
def provider1 : SCloudprovider := { Id := "mgr-1", ProjectId := "proj-1" }

/-- The region of the examples. -/
def region1 : SCloudregion := { Id := "region-1" }

/-- A local load balancer of `provider1` in `region1` with external id `ext-1`, whose
remote-authoritative fields agree with `extLb "ext-1"`. -/
def lb1 : SLoadbalancer :=
  { SLoadbalancer.zero with
    Id := "lb-1", Name := "lb-one", ExternalId := "ext-1", Status := "enabled",
    ProjectId := "proj-1", ManagerId := "mgr-1", CloudregionId := "region-1",
    Address := "10.0.0.1", AddressType := "intranet", NetworkType := "vpc" }

/-- A remote load balancer with the given global id. -/
def extLb (globalId : String) : ICloudLoadbalancer :=
  { GetId := globalId, GetName := "remote-lb", GetGlobalId := globalId,
    GetStatus := "enabled", IsEmulated := false, GetMetadata := none, GetProjectId := "",
    GetAddress := "10.0.0.1", GetAddressType := "intranet", GetNetworkType := "vpc",
    GetNetworkId := "", GetVpcId := "", GetZoneId := "", GetLoadbalancerSpec := "",
    GetChargeType := "" }

/-- A world whose only record is `lb1`. -/
def worldLb1 : models.World := { models.World.empty with loadbalancers_tbl := [lb1] }

/-- The listener of the examples. -/
def listener1 : SLoadbalancerListener :=
  { Id := "lis-1", Name := "listener-one", ManagerId := "mgr-1", LoadbalancerId := "lb-1",
    CloudregionId := "region-1" }

/-- The backend group of the examples. -/
def group1 : SLoadbalancerBackendGroup :=
  { Id := "grp-1", Name := "group-one", ExternalId := "ext-grp-1", LoadbalancerId := "lb-1" }

/-- The environment `quietEnv` in which, in addition, the listener and the backend group
of a rule can always be fetched. -/
def rulesEnv : models.Env :=
  { quietEnv with
    BackendGroupFetchById := fun _ _ => some group1
    ListenerFetchById := fun _ _ => some listener1 }

/-- A local rule of `listener1` with external id `ext-r1`. -/
def rule1 : SLoadbalancerListenerRule :=
  { SLoadbalancerListenerRule.zero with
    Id := "rule-1", Name := "rule-one", ExternalId := "ext-r1", Status := "enabled",
    ProjectId := "proj-1", ManagerId := "mgr-1", ListenerId := "lis-1",
    BackendGroupId := "grp-1" }

/-- A remote rule with the given global id and backend group id. -/
def extRule (globalId groupId : String) : ICloudLoadbalancerListenerRule :=
  { GetId := globalId, GetName := "remote-rule", GetGlobalId := globalId,
    GetStatus := "enabled", IsEmulated := false, GetMetadata := none, GetProjectId := "",
    GetDomain := "example.org", GetPath := "/", GetBackendGroupId := groupId }

/-- A world whose only record is `rule1`. -/
def worldRule1 : models.World :=
  { models.World.empty with loadbalancerlistenerrules_tbl := [rule1] }

/-- The environment `rulesEnv` in which the backend group `grp-gone` cannot be fetched
(`FetchById` returns an error and no model). -/
def lostGroupEnv : models.Env :=
  { rulesEnv with
    BackendGroupFetchById := fun _ id => if id == "grp-gone" then none else some group1 }

/-- A local rule of `listener1` with external id `ext-r0` whose backend group is
`grp-gone`. -/
def ruleLost : SLoadbalancerListenerRule :=
  { rule1 with Id := "rule-0", Name := "rule-zero", ExternalId := "ext-r0",
               BackendGroupId := "grp-gone" }

/-- A world whose records are `ruleLost` and `rule1`. -/
def worldTwoRules : models.World :=
  { models.World.empty with loadbalancerlistenerrules_tbl := [ruleLost, rule1] }

/-- The environment `quietEnv` in which every inherited delete guard reports an error
(the record has dependents). -/
def dependentsEnv : models.Env :=
  { quietEnv with ValidateDeleteCondition := fun _ _ _ => some "not empty" }

/-- The environment `quietEnv` in which every zone has one host. -/
def hostsEnv : models.Env :=
  { quietEnv with HostQueryCount := fun _ _ _ _ _ _ _ => 1 }

/-- A local zone of `region1` with external id `ext-z1`. -/
def zone1 : SZone :=
  { SZone.zero with
    Id := "zone-1", Name := "zone-one", ExternalId := "ext-z1", Status := "enable",
    CloudregionId := "region-1" }

/-- A world whose only record is `zone1`. -/
def worldZone1 : models.World := { models.World.empty with zones_tbl := [zone1] }

/-- A remote zone with the given global id. -/
def extZone (globalId : String) : ICloudZone :=
  { GetId := globalId, GetName := "remote-zone", GetGlobalId := globalId,
    GetStatus := "enable", IsEmulated := false, GetMetadata := none }

/-- The environment `quietEnv` in which `SyncCloudProject` resolves every record to the
owner project `proj-2`. -/
def ownerEnv : models.Env :=
  { quietEnv with SyncCloudProjectOwner := fun _ _ _ _ _ _ => some "proj-2" }

end examples

namespace examples

open tasks

/-- A scheduler result `{"candidate": {"id": hostId}}`. -/
def candidateResult (hostId : String) : JSONObject :=
  .JSONDict [("candidate", .JSONDict [("id", .JSONString hostId)])]

/-- A scheduler result `{"error": msg}`. -/
def errorResult (msg : String) : JSONObject :=
  .JSONDict [("error", .JSONString msg)]

/-- A scheduler result with neither `candidate` nor `error`: `{}`. -/
def unknownResult : JSONObject := .JSONDict []

/-- An environment in which every status write succeeds, the pending usage of the task
can be read, and the scheduler answers the given results. -/
def schedEnv (results : List JSONObject) : tasks.Env :=
  { SetStatusErr := fun _ _ => none
    DoSchedule := fun _ _ => .ok results
    GetPendingUsage := fun _ => .ok { Cpu := 0, Memory := 0, Storage := 20 }
    render := fun o =>
      match o with
      | .JSONString s => s
      | _ => "{}" }

/-- The task of the examples. -/
def task1 : IScheduleTask :=
  { Params := .JSONDict [("owner_tenant_id", .JSONString "proj-1")] }

/-- First disk of the batch. -/
def disk1 : IScheduleModel := { Id := "disk-1", Name := "disk-one" }

/-- Second disk of the batch. -/
def disk2 : IScheduleModel := { Id := "disk-2", Name := "disk-two" }

/-- Third disk of the batch. -/
def disk3 : IScheduleModel := { Id := "disk-3", Name := "disk-three" }

/-- A world with no status recorded and an empty trace. -/
def schedWorld : tasks.World := { status := [], trace := [] }

/-- A disk of size 10 of project `proj-1` that has no storage yet. -/
def sdisk (id name : String) : SDisk :=
  { Id := id, Name := name, ProjectId := "proj-1", StorageId := "", DiskSize := 10 }

/-- An environment of the disk batch task in which the disk configuration of the task can
be read, every candidate offers the storage `sto-1` and `SetStorage` fails for the disks
whose id is in `failing`. -/
def storageEnv (failing : List String) : DiskEnv :=
  { GetFirstDiskErr := fun _ => none
    SetStorageErr := fun _ diskId _ => if diskId ∈ failing then some "storage gone" else none
    candidate := fun result =>
      { HostId := result.GetString2 "candidate" "id", Disks := [{ StorageId := "sto-1" }] } }

/-- The baremetal host of the examples. -/
def host1 : SHost := { Id := "host-1", Name := "host-one" }

/-- An environment of the baremetal delete task: whether the agent is ready, what the
delete request answers; `RealDelete` succeeds. -/
def agentEnv (ready : Bool) (answer : Option RequestError) : BaremetalEnv :=
  { IsBaremetalAgentReady := fun _ _ => ready
    BaremetalSyncRequest := fun _ _ _ => answer
    RealDeleteErr := fun _ _ => none }

/-- The environment `agentEnv` in which `RealDelete` fails. -/
def keptHostEnv (ready : Bool) (answer : Option RequestError) : BaremetalEnv :=
  { agentEnv ready answer with RealDeleteErr := fun _ _ => some "db down" }

/-- The environment `schedEnv []` in which the status writes fail once the delete request
has been sent to the agent. -/
def lateFailEnv : tasks.Env :=
  { schedEnv [] with
    SetStatusErr := fun w _ =>
      if w.trace.any (fun e =>
          match e with
          | .BaremetalSyncRequest _ _ => true
          | _ => false) then some "db down"
      else none }

end examples
namespace examples

open models compare

/-- A backend group that belongs to the load balancer `lb-2`. -/
def group2 : SLoadbalancerBackendGroup :=
  { Id := "grp-2", Name := "group-two", ExternalId := "ext-grp-2", LoadbalancerId := "lb-2" }

/-- An environment of a create request whose validators resolve the listener `listener1`
(an http listener) and the given backend group, with domain `example.org` and path `/`;
every other check passes. -/
def createEnv (group : SLoadbalancerBackendGroup) : RuleCreateEnv :=
  { validators := fun _ _ =>
      .ok { listener := listener1, listenerType := "http", providerName := "Aliyun",
            backendGroup := some group, domain := "example.org", path := "/" }
    RefCount := fun _ _ => 0
    baseValidateCreateData := fun _ _ => none
    GetRegion := fun _ _ => some region1
    driverValidate := fun _ _ data => .ok data
    NewTaskErr := fun _ _ _ => none }

/-- A rule of `listener1` for the domain `example.org` and the path `/`. -/
def ruleOrg : SLoadbalancerListenerRule :=
  { rule1 with Domain := "example.org", Path := "/" }

/-- A world whose only record is `ruleOrg`. -/
def worldRuleOrg : models.World :=
  { models.World.empty with loadbalancerlistenerrules_tbl := [ruleOrg] }

/-- A world whose only record is `ruleOrg`, pending deletion. -/
def worldRuleOrgPending : models.World :=
  { models.World.empty with
    loadbalancerlistenerrules_tbl := [{ ruleOrg with PendingDeleted := true }] }

/-- The environment `rulesEnv` in which `SyncCloudProject` resolves every record to the
owner project `proj-2`. -/
def rulesOwnerEnv : models.Env :=
  { rulesEnv with SyncCloudProjectOwner := fun _ _ _ _ _ _ => some "proj-2" }

end examples

namespace examples

open tasks

/-- A disk of size 10 of project `proj-1` whose storage is already set. -/
def sdiskOn (id name storageId : String) : SDisk :=
  { Id := id, Name := name, ProjectId := "proj-1", StorageId := storageId, DiskSize := 10 }

/-- An environment of the disk batch task in which the disk configuration of the task
cannot be read. -/
def noConfigEnv : DiskEnv :=
  { storageEnv [] with GetFirstDiskErr := fun _ => some "no disk config" }

end examples
namespace examples

open hostdrivers

/-- A host with some storage. -/
def raidHost : hostdrivers.SHost := { StorageInfo := "[disk, disk]" }

/-- An environment in which every raid string parses and the storage converts, and a
layout is found exactly for the raid strings in `fitting` (an empty configuration, for
`none`, fits when `"none"` is in `fitting`). -/
def raidEnv (fitting : List String) : hostdrivers.Env :=
  { ParseDiskConfig := fun raid => .ok { Conf := raid }
    ConvertStorageInfo2BaremetalStorages := fun _ => some ["disk", "disk"]
    CalculateLayout := fun conf _ =>
      match conf with
      | [] => if "none" ∈ fitting then none else some "no layout"
      | c :: _ => if c.Conf ∈ fitting then none else some "no layout" }

end examples
namespace examples

open qcloud

/-- The instance of the examples. -/
def ins1 : SInstance := { InstanceId := "ins-1", InstanceState := "STOPPED" }

/-- A world whose clock reads 0, with an empty trace. -/
def clock0 : qcloud.World := { now := 0, trace := [] }

/-- An environment in which the status of the instance can be read, the first `failures`
delete requests fail and the next one succeeds; calls take no time. -/
def flakyEnv (failures : Nat) : qcloud.Env :=
  { GetInstances := fun _ _ => .ok [ins1]
    UpdateErr := fun _ => none
    GetInstanceStatus := fun _ _ => .ok "STOPPED"
    instanceOperation := fun w instanceId _ _ =>
      if deleteRequests w.trace instanceId ≤ failures then some "InternalError" else none
    WaitDeleted := fun _ _ => none
    GetMatchInstanceTypes := fun _ _ _ _ _ => .ok []
    elapsed := fun _ => 0 }

/-- An environment in which every request fails, whatever was tried before, and the
matching instance types are `types`. -/
def downEnv (types : List SInstanceType) : qcloud.Env :=
  { GetInstances := fun _ _ => .ok [ins1]
    UpdateErr := fun _ => none
    GetInstanceStatus := fun _ _ => .ok "STOPPED"
    instanceOperation := fun _ _ _ _ => some "InternalError"
    WaitDeleted := fun _ _ => none
    GetMatchInstanceTypes := fun _ _ _ _ _ => .ok types
    elapsed := fun _ => 0 }

end examples
namespace examples

open models compare

/-- The environment `quietEnv` in which every `db.Update` fails, while the network of a
load balancer is found and of the right range. -/
def brokenUpdateEnv : models.Env :=
  { rulesEnv with
    UpdateErr := fun _ _ _ => some "db down"
    NetworkExists := fun _ _ => true
    ValidIPv4 := fun _ => true
    AddressInRange := fun _ _ _ => true }

/-- The load balancer `lb1` on the network `net-1`. -/
def lbNet : SLoadbalancer := { lb1 with NetworkId := "net-1" }

/-- The environment `quietEnv` in which the network of a request is found and the address
is in its range. -/
def networkEnv : models.Env :=
  { quietEnv with
    NetworkExists := fun _ _ => true
    ValidIPv4 := fun _ => true
    AddressInRange := fun _ _ _ => true }

/-- A loadbalancer-network record of `lb-1` on `net-1`. -/
def lbnet (rowId : Nat) (ipAddr : String) : SLoadbalancerNetwork :=
  { RowId := rowId, LoadbalancerId := "lb-1", NetworkId := "net-1", IpAddr := ipAddr,
    Deleted := false }

/-- A world whose loadbalancer-network records are `rows`. -/
def worldNets (rows : List SLoadbalancerNetwork) : models.World :=
  { models.World.empty with loadbalancernetworks_tbl := rows }

/-- The request to put `lb-1` on `net-1` with the address `10.0.0.9`. -/
def netReq : SLoadbalancerNetworkRequestData :=
  { Loadbalancer := lb1, NetworkId := "net-1", Address := "10.0.0.9" }

/-- The environment `quietEnv` in which every `db.Update` fails and the insert of the
record with external id `ext-3` fails. -/
def failedWritesEnv : models.Env :=
  { quietEnv with
    UpdateErr := fun _ _ _ => some "db down"
    InsertErr := fun _ _ externalId => if externalId == "ext-3" then some "db down" else none }

end examples

/-! # Theorems -/

/-! ## Loops -/

theorem foldlM_isSome {σ α : Type} (f : σ → α → Option σ)
    (h : ∀ s a, (f s a).isSome) (l : List α) (s : σ) : (l.foldlM f s).isSome := by
  induction l generalizing s with
  | nil => simp
  | cons a l ih =>
    simp only [List.foldlM_cons, Option.bind_eq_bind]
    cases hfa : f s a with
    | none => have := h s a; simp [hfa] at this
    | some t => simpa using ih t

theorem foldl_totals {σ α : Type} (f : σ → α → σ) (m : σ → Nat × Nat × Nat)
    (d : Nat × Nat × Nat)
    (h : ∀ s a, m (f s a) = ((m s).1 + d.1, (m s).2.1 + d.2.1, (m s).2.2 + d.2.2))
    (l : List α) (s : σ) :
    m (l.foldl f s)
      = ((m s).1 + d.1 * l.length, (m s).2.1 + d.2.1 * l.length,
          (m s).2.2 + d.2.2 * l.length) := by
  induction l generalizing s with
  | nil => simp
  | cons a l ih =>
    simp only [List.foldl_cons, List.length_cons, ih, h, Prod.mk.injEq]
    refine ⟨?_, ?_, ?_⟩ <;> ring

theorem foldlM_totals {σ α : Type} (f : σ → α → Option σ) (m : σ → Nat × Nat × Nat)
    (d : Nat × Nat × Nat)
    (h : ∀ s a s', f s a = some s' →
      m s' = ((m s).1 + d.1, (m s).2.1 + d.2.1, (m s).2.2 + d.2.2))
    (l : List α) (s s' : σ) (hs : l.foldlM f s = some s') :
    m s' = ((m s).1 + d.1 * l.length, (m s).2.1 + d.2.1 * l.length,
          (m s).2.2 + d.2.2 * l.length) := by
  induction l generalizing s with
  | nil => simp at hs; subst hs; simp
  | cons a l ih =>
    simp only [List.foldlM_cons, Option.bind_eq_bind] at hs
    cases hfa : f s a with
    | none => simp [hfa] at hs
    | some t =>
      rw [hfa] at hs
      rw [ih t hs, h s a t hfa]
      simp only [List.length_cons, Prod.mk.injEq]
      refine ⟨?_, ?_, ?_⟩ <;> ring

/-! ## Counters of the passes -/

namespace models

open compare

theorem SyncLoadbalancers_removeStep_totals (env : Env)
    (acc : SyncAcc SLoadbalancer ICloudLoadbalancer) (lb : SLoadbalancer) :
    (SyncLoadbalancers.removeStep env acc lb).syncResult.totals
      = (acc.syncResult.totals.1, acc.syncResult.totals.2.1, acc.syncResult.totals.2.2 + 1) := by
  unfold SyncLoadbalancers.removeStep
  dsimp only
  split <;> simp [SyncResult.totals, SyncResult.DeleteError, SyncResult.Delete] <;> omega

theorem SyncLoadbalancers_updateStep_totals (env : Env) (provider : SCloudprovider)
    (acc : SyncAcc SLoadbalancer ICloudLoadbalancer)
    (c : SLoadbalancer × ICloudLoadbalancer) :
    (SyncLoadbalancers.updateStep env provider acc c).syncResult.totals
      = (acc.syncResult.totals.1, acc.syncResult.totals.2.1 + 1, acc.syncResult.totals.2.2) := by
  unfold SyncLoadbalancers.updateStep
  dsimp only
  split <;> simp [SyncResult.totals, SyncResult.UpdateError, SyncResult.Update] <;> omega

theorem SyncLoadbalancers_addStep_totals (env : Env) (provider : SCloudprovider)
    (region : SCloudregion) (acc : SyncAcc SLoadbalancer ICloudLoadbalancer)
    (extLb : ICloudLoadbalancer) :
    (SyncLoadbalancers.addStep env provider region acc extLb).syncResult.totals
      = (acc.syncResult.totals.1 + 1, acc.syncResult.totals.2.1, acc.syncResult.totals.2.2) := by
  unfold SyncLoadbalancers.addStep
  dsimp only
  split <;> simp [SyncResult.totals, SyncResult.AddError, SyncResult.Add] <;> omega

/-- The pass body of `SyncLoadbalancers` once the local records were fetched and
partitioned. -/
theorem SyncLoadbalancers_eq (env : Env) (w : World) (provider : SCloudprovider)
    (region : SCloudregion) (lbs : List ICloudLoadbalancer) (dbLbs : List SLoadbalancer)
    (p : Partition SLoadbalancer ICloudLoadbalancer)
    (hf : getLoadbalancersByRegion env (w.emit (.LockClass "loadbalancer" provider.ProjectId))
      region provider = .ok dbLbs)
    (hc : CompareSets (fun l : SLoadbalancer => l.ExternalId)
      (fun r : ICloudLoadbalancer => r.GetGlobalId) dbLbs lbs = .ok p) :
    SyncLoadbalancers env w provider region lbs =
      ((SyncLoadbalancers.loops env provider region p
          (w.emit (.LockClass "loadbalancer" provider.ProjectId))).w.emit
          (.ReleaseClass "loadbalancer" provider.ProjectId),
       (SyncLoadbalancers.loops env provider region p
          (w.emit (.LockClass "loadbalancer" provider.ProjectId))).localObjs,
       (SyncLoadbalancers.loops env provider region p
          (w.emit (.LockClass "loadbalancer" provider.ProjectId))).remoteObjs,
       (SyncLoadbalancers.loops env provider region p
          (w.emit (.LockClass "loadbalancer" provider.ProjectId))).syncResult) := by
  unfold SyncLoadbalancers
  simp only [hf, hc]

theorem SyncLoadbalancers_loops_totals (env : Env) (provider : SCloudprovider)
    (region : SCloudregion) (p : Partition SLoadbalancer ICloudLoadbalancer) (w : World) :
    (SyncLoadbalancers.loops env provider region p w).syncResult.totals
      = (p.added.length, (p.commondb.zip p.commonext).length, p.removed.length) := by
  unfold SyncLoadbalancers.loops
  dsimp only
  rw [foldl_totals (SyncLoadbalancers.addStep env provider region)
        (fun a => a.syncResult.totals) (1, 0, 0)
        (fun s a => by simp [SyncLoadbalancers_addStep_totals]),
      foldl_totals (SyncLoadbalancers.updateStep env provider)
        (fun a => a.syncResult.totals) (0, 1, 0)
        (fun s a => by simp [SyncLoadbalancers_updateStep_totals]),
      foldl_totals (SyncLoadbalancers.removeStep env)
        (fun a => a.syncResult.totals) (0, 0, 1)
        (fun s a => by simp [SyncLoadbalancers_removeStep_totals])]
  simp [SyncResult.totals, SyncResult.empty]

theorem SyncZones_removeStep_totals (env : Env) (acc : SyncAcc SZone ICloudZone)
    (zone : SZone) :
    (SyncZones.removeStep env acc zone).syncResult.totals
      = (acc.syncResult.totals.1, acc.syncResult.totals.2.1, acc.syncResult.totals.2.2 + 1) := by
  unfold SyncZones.removeStep
  dsimp only
  split <;> simp [SyncResult.totals, SyncResult.DeleteError, SyncResult.Delete] <;> omega

theorem SyncZones_updateStep_totals (env : Env) (region : SCloudregion)
    (acc : SyncAcc SZone ICloudZone) (c : SZone × ICloudZone) :
    (SyncZones.updateStep env region acc c).syncResult.totals
      = (acc.syncResult.totals.1, acc.syncResult.totals.2.1 + 1, acc.syncResult.totals.2.2) := by
  unfold SyncZones.updateStep
  dsimp only
  split <;> simp [SyncResult.totals, SyncResult.UpdateError, SyncResult.Update] <;> omega

theorem SyncZones_addStep_totals (env : Env) (ownerId : String) (region : SCloudregion)
    (acc : SyncAcc SZone ICloudZone) (extZone : ICloudZone) :
    (SyncZones.addStep env ownerId region acc extZone).syncResult.totals
      = (acc.syncResult.totals.1 + 1, acc.syncResult.totals.2.1, acc.syncResult.totals.2.2) := by
  unfold SyncZones.addStep
  dsimp only
  split <;> simp [SyncResult.totals, SyncResult.AddError, SyncResult.Add] <;> omega

/-- The pass body of `SyncZones` once the local records were fetched and partitioned. -/
theorem SyncZones_eq (env : Env) (w : World) (ownerId : String) (region : SCloudregion)
    (zones : List ICloudZone) (dbZones : List SZone) (p : Partition SZone ICloudZone)
    (hf : GetZonesByRegion env (w.emit (.LockClass "zone" ownerId)) region = .ok dbZones)
    (hc : CompareSets (fun l : SZone => l.ExternalId)
      (fun r : ICloudZone => r.GetGlobalId) dbZones zones = .ok p) :
    SyncZones env w ownerId region zones =
      ((SyncZones.loops env ownerId region p (w.emit (.LockClass "zone" ownerId))).w.emit
          (.ReleaseClass "zone" ownerId),
       (SyncZones.loops env ownerId region p (w.emit (.LockClass "zone" ownerId))).localObjs,
       (SyncZones.loops env ownerId region p (w.emit (.LockClass "zone" ownerId))).remoteObjs,
       (SyncZones.loops env ownerId region p (w.emit (.LockClass "zone" ownerId))).syncResult)
    := by
  unfold SyncZones
  simp only [hf, hc]

theorem SyncZones_loops_totals (env : Env) (ownerId : String) (region : SCloudregion)
    (p : Partition SZone ICloudZone) (w : World) :
    (SyncZones.loops env ownerId region p w).syncResult.totals
      = (p.added.length, (p.commondb.zip p.commonext).length, p.removed.length) := by
  unfold SyncZones.loops
  dsimp only
  rw [foldl_totals (SyncZones.addStep env ownerId region)
        (fun a => a.syncResult.totals) (1, 0, 0)
        (fun s a => by simp [SyncZones_addStep_totals]),
      foldl_totals (SyncZones.updateStep env region)
        (fun a => a.syncResult.totals) (0, 1, 0)
        (fun s a => by simp [SyncZones_updateStep_totals]),
      foldl_totals (SyncZones.removeStep env)
        (fun a => a.syncResult.totals) (0, 0, 1)
        (fun s a => by simp [SyncZones_removeStep_totals])]
  simp [SyncResult.totals, SyncResult.empty]

theorem SyncLoadbalancerListenerRules_removeStep_totals (env : Env)
    (acc acc' : World × SyncResult) (lbr : SLoadbalancerListenerRule)
    (h : SyncLoadbalancerListenerRules.removeStep env acc lbr = some acc') :
    acc'.2.totals = (acc.2.totals.1 + 0, acc.2.totals.2.1 + 0, acc.2.totals.2.2 + 1) := by
  unfold SyncLoadbalancerListenerRules.removeStep at h
  dsimp only at h
  split at h <;> simp at h <;> subst h <;>
    simp [SyncResult.totals, SyncResult.DeleteError, SyncResult.Delete] <;> omega

theorem SyncLoadbalancerListenerRules_updateStep_totals (env : Env)
    (provider : SCloudprovider) (acc acc' : World × SyncResult)
    (c : SLoadbalancerListenerRule × ICloudLoadbalancerListenerRule)
    (h : SyncLoadbalancerListenerRules.updateStep env provider acc c = some acc') :
    acc'.2.totals = (acc.2.totals.1 + 0, acc.2.totals.2.1 + 1, acc.2.totals.2.2 + 0) := by
  unfold SyncLoadbalancerListenerRules.updateStep at h
  split at h
  · simp at h
  · split at h <;> simp at h <;> subst h <;>
      simp [SyncResult.totals, SyncResult.UpdateError, SyncResult.Update] <;> omega

theorem SyncLoadbalancerListenerRules_addStep_totals (env : Env)
    (provider : SCloudprovider) (listener : SLoadbalancerListener)
    (acc acc' : World × SyncResult) (extRule : ICloudLoadbalancerListenerRule)
    (h : SyncLoadbalancerListenerRules.addStep env provider listener acc extRule = some acc') :
    acc'.2.totals = (acc.2.totals.1 + 1, acc.2.totals.2.1 + 0, acc.2.totals.2.2 + 0) := by
  unfold SyncLoadbalancerListenerRules.addStep at h
  split at h
  · simp at h
  · split at h <;> simp at h <;> subst h <;>
      simp [SyncResult.totals, SyncResult.AddError, SyncResult.Add] <;> omega

theorem SyncLoadbalancerListenerRules_loops_totals (env : Env) (provider : SCloudprovider)
    (listener : SLoadbalancerListener)
    (p : Partition SLoadbalancerListenerRule ICloudLoadbalancerListenerRule) (w : World)
    (acc : World × SyncResult)
    (h : SyncLoadbalancerListenerRules.loops env provider listener p w = some acc) :
    acc.2.totals
      = (p.added.length, (p.commondb.zip p.commonext).length, p.removed.length) := by
  unfold SyncLoadbalancerListenerRules.loops at h
  split at h
  · simp at h
  · rename_i a1 h1
    split at h
    · simp at h
    · rename_i a2 h2
      rw [foldlM_totals _ (fun a : World × SyncResult => a.2.totals) (1, 0, 0)
            (fun s a s' => SyncLoadbalancerListenerRules_addStep_totals env provider listener
              s s' a) _ _ _ h,
          foldlM_totals _ (fun a : World × SyncResult => a.2.totals) (0, 1, 0)
            (fun s a s' => SyncLoadbalancerListenerRules_updateStep_totals env provider
              s s' a) _ _ _ h2,
          foldlM_totals _ (fun a : World × SyncResult => a.2.totals) (0, 0, 1)
            (fun s a s' => SyncLoadbalancerListenerRules_removeStep_totals env
              s s' a) _ _ _ h1]
      simp [SyncResult.totals, SyncResult.empty]

/-- The pass body of `SyncLoadbalancerListenerRules` once the local records were fetched
and partitioned. -/
theorem SyncLoadbalancerListenerRules_eq (env : Env) (w : World) (provider : SCloudprovider)
    (listener : SLoadbalancerListener) (rules : List ICloudLoadbalancerListenerRule)
    (dbRules : List SLoadbalancerListenerRule)
    (p : Partition SLoadbalancerListenerRule ICloudLoadbalancerListenerRule)
    (hf : getLoadbalancerListenerRulesByListener env
      (w.emit (.LockClass "loadbalancerlistenerrule" provider.ProjectId)) listener
        = .ok dbRules)
    (hc : CompareSets (fun l : SLoadbalancerListenerRule => l.ExternalId)
      (fun r : ICloudLoadbalancerListenerRule => r.GetGlobalId) dbRules rules = .ok p) :
    SyncLoadbalancerListenerRules env w provider listener rules =
      (SyncLoadbalancerListenerRules.loops env provider listener p
        (w.emit (.LockClass "loadbalancerlistenerrule" provider.ProjectId))).map
        (fun acc =>
          (acc.1.emit (.ReleaseClass "loadbalancerlistenerrule" provider.ProjectId), acc.2))
    := by
  unfold SyncLoadbalancerListenerRules
  simp only [hf, hc]
  cases SyncLoadbalancerListenerRules.loops env provider listener p
      (w.emit (.LockClass "loadbalancerlistenerrule" provider.ProjectId)) <;> rfl

end models

/-! ## The partition -/

namespace compare

theorem CompareSets_ok {α β : Type} (dbKey : α → String) (extKey : β → String)
    (dbSet : List α) (extSet : List β) (p : Partition α β)
    (h : CompareSets dbKey extKey dbSet extSet = .ok p) :
    p.removed = dbSet.filter (fun l => !(extSet.any (fun r => extKey r == dbKey l)))
    ∧ p.commondb = (commonPairs dbKey extKey dbSet extSet).map Prod.fst
    ∧ p.commonext = (commonPairs dbKey extKey dbSet extSet).map Prod.snd
    ∧ p.added = extSet.filter (fun r => !(dbSet.any (fun l => extKey r == dbKey l))) := by
  unfold CompareSets at h
  simp only [Except.ok.injEq] at h
  subst h
  exact ⟨rfl, rfl, rfl, rfl⟩

theorem CompareSets_zip {α β : Type} (dbKey : α → String) (extKey : β → String)
    (dbSet : List α) (extSet : List β) (p : Partition α β)
    (h : CompareSets dbKey extKey dbSet extSet = .ok p) :
    p.commondb.zip p.commonext = commonPairs dbKey extKey dbSet extSet := by
  obtain ⟨_, h2, h3, _⟩ := CompareSets_ok dbKey extKey dbSet extSet p h
  exact (List.zip_of_prod h2.symm h3.symm).symm

theorem CompareSets_zip_length {α β : Type} (dbKey : α → String) (extKey : β → String)
    (dbSet : List α) (extSet : List β) (p : Partition α β)
    (h : CompareSets dbKey extKey dbSet extSet = .ok p) :
    (p.commondb.zip p.commonext).length = p.commondb.length
    ∧ p.commonext.length = p.commondb.length := by
  obtain ⟨_, h2, h3, _⟩ := CompareSets_ok dbKey extKey dbSet extSet p h
  rw [CompareSets_zip dbKey extKey dbSet extSet p h, h2, h3]
  simp

theorem mem_commonPairs {α β : Type} (dbKey : α → String) (extKey : β → String)
    (dbSet : List α) (extSet : List β) (L : α) (R : β) :
    (L, R) ∈ commonPairs dbKey extKey dbSet extSet
      ↔ L ∈ dbSet ∧ R ∈ extSet ∧ dbKey L = extKey R := by
  induction dbSet with
  | nil => simp [commonPairs]
  | cons l ls ih =>
    simp only [commonPairs, List.mem_append, List.mem_map, List.mem_filter, beq_iff_eq,
      Prod.mk.injEq, ih, List.mem_cons]
    constructor
    · rintro (⟨r, ⟨hr, hk⟩, hl, hrR⟩ | ⟨h1, h2, h3⟩)
      · subst hl; subst hrR
        exact ⟨Or.inl rfl, hr, hk.symm⟩
      · exact ⟨Or.inr h1, h2, h3⟩
    · rintro ⟨hL | hL, hR, hk⟩
      · subst hL
        exact Or.inl ⟨R, ⟨hR, hk.symm⟩, rfl, rfl⟩
      · exact Or.inr ⟨hL, hR, hk⟩

theorem commonPairs_map {α β : Type} (dbKey : α → String) (extKey : β → String)
    (f : α → α) (g : β → β) (hf : ∀ l, dbKey (f l) = dbKey l)
    (hg : ∀ r, extKey (g r) = extKey r) (dbSet : List α) (extSet : List β) :
    commonPairs dbKey extKey (dbSet.map f) (extSet.map g)
      = (commonPairs dbKey extKey dbSet extSet).map (fun c => (f c.1, g c.2)) := by
  induction dbSet with
  | nil => simp [commonPairs]
  | cons l ls ih =>
    simp only [List.map_cons, commonPairs, ih, List.map_append, List.map_map, List.filter_map]
    congr 1
    have : ((fun r => extKey r == dbKey (f l)) ∘ g) = (fun r => extKey r == dbKey l) := by
      funext r
      simp [hf, hg]
    rw [this]
    rfl

theorem commonPairs_length {α β : Type} (dbKey : α → String) (extKey : β → String)
    (dbSet : List α) (extSet : List β)
    (h1 : ∀ l ∈ dbSet, (extSet.filter (fun r => extKey r == dbKey l)).length = 1) :
    (commonPairs dbKey extKey dbSet extSet).length = dbSet.length := by
  induction dbSet with
  | nil => simp [commonPairs]
  | cons l ls ih =>
    simp only [commonPairs, List.length_append, List.length_map, List.length_cons]
    rw [h1 l (List.mem_cons_self _ _), ih (fun l' hl' => h1 l' (List.mem_cons_of_mem _ hl'))]
    omega

theorem CompareSets_unchanged {α β : Type} (dbKey : α → String) (extKey : β → String)
    (dbSet : List α) (extSet : List β) (p : Partition α β)
    (h : CompareSets dbKey extKey dbSet extSet = .ok p)
    (h1 : ∀ l ∈ dbSet, (extSet.filter (fun r => extKey r == dbKey l)).length = 1)
    (h2 : ∀ r ∈ extSet, ∃ l ∈ dbSet, dbKey l = extKey r) :
    p.removed = [] ∧ p.added = [] ∧ p.commondb.length = dbSet.length := by
  obtain ⟨e1, e2, _, e4⟩ := CompareSets_ok dbKey extKey dbSet extSet p h
  refine ⟨?_, ?_, ?_⟩
  · rw [e1, List.filter_eq_nil_iff]
    intro l hl
    have hlen := h1 l hl
    cases hf : extSet.filter (fun r => extKey r == dbKey l) with
    | nil => rw [hf] at hlen; simp at hlen
    | cons r rs =>
      have hr : r ∈ extSet.filter (fun r => extKey r == dbKey l) := by
        rw [hf]; exact List.mem_cons_self _ _
      rw [List.mem_filter] at hr
      simp only [Bool.not_eq_true', Bool.not_eq_false, List.any_eq_true]
      exact ⟨r, hr.1, hr.2⟩
  · rw [e4, List.filter_eq_nil_iff]
    intro r hr
    obtain ⟨l, hl, hk⟩ := h2 r hr
    simp only [Bool.not_eq_true', Bool.not_eq_false, List.any_eq_true, beq_iff_eq]
    exact ⟨l, hl, hk.symm⟩
  · rw [e2, List.length_map]
    exact commonPairs_length dbKey extKey dbSet extSet h1

theorem CompareSets_total {α β : Type} (dbKey : α → String) (extKey : β → String)
    (dbSet : List α) (extSet : List β) :
    ∃ p, CompareSets dbKey extKey dbSet extSet = .ok p :=
  ⟨_, rfl⟩

end compare

/-! ## Panics of the listener-rule pass -/

namespace models

open compare

theorem constructFieldsFromCloudListenerRule_isSome (env : Env)
    (hg : ∀ w id, (env.BackendGroupFetchById w id).isSome) (w : World)
    (lbr : SLoadbalancerListenerRule) (extRule : ICloudLoadbalancerListenerRule) :
    (lbr.constructFieldsFromCloudListenerRule env w extRule).isSome := by
  unfold SLoadbalancerListenerRule.constructFieldsFromCloudListenerRule
  dsimp only
  split
  · split
    · rename_i h
      split at h
      · split at h
        · rename_i hn
          have := hg w lbr.BackendGroupId
          rw [hn] at this
          simp at this
        · split at h <;> simp at h
      · simp at h
    · split <;> simp
  · simp

theorem SyncWithCloudLoadbalancerListenerRule_isSome (env : Env)
    (hg : ∀ w id, (env.BackendGroupFetchById w id).isSome)
    (hl : ∀ w id, (env.ListenerFetchById w id).isSome) (w : World)
    (lbr : SLoadbalancerListenerRule) (extRule : ICloudLoadbalancerListenerRule)
    (projectId : String) :
    (lbr.SyncWithCloudLoadbalancerListenerRule env w extRule projectId).isSome := by
  unfold SLoadbalancerListenerRule.SyncWithCloudLoadbalancerListenerRule
  dsimp only
  split
  · rename_i h
    have := constructFieldsFromCloudListenerRule_isSome env hg
      (w.emit (.LockObject "loadbalancerlistenerrule" lbr.Id)) lbr extRule
    rw [h] at this
    simp at this
  · split
    · rename_i h
      have := hl w lbr.ListenerId
      unfold SLoadbalancerListenerRule.GetLoadbalancerListener at h
      rw [h] at this
      simp at this
    · split <;> simp

theorem newFromCloudLoadbalancerListenerRule_isSome (env : Env)
    (hg : ∀ w id, (env.BackendGroupFetchById w id).isSome) (w : World)
    (listener : SLoadbalancerListener) (extRule : ICloudLoadbalancerListenerRule)
    (projectId : String) :
    (newFromCloudLoadbalancerListenerRule env w listener extRule projectId).isSome := by
  unfold newFromCloudLoadbalancerListenerRule
  dsimp only
  split
  · rename_i h
    have := congrArg Option.isSome h
    rw [constructFieldsFromCloudListenerRule_isSome env hg] at this
    simp at this
  · split <;> simp

theorem SyncLoadbalancerListenerRules_loops_isSome (env : Env)
    (hg : ∀ w id, (env.BackendGroupFetchById w id).isSome)
    (hl : ∀ w id, (env.ListenerFetchById w id).isSome) (provider : SCloudprovider)
    (listener : SLoadbalancerListener)
    (p : Partition SLoadbalancerListenerRule ICloudLoadbalancerListenerRule) (w : World) :
    (SyncLoadbalancerListenerRules.loops env provider listener p w).isSome := by
  have h1 : ∀ s a, (SyncLoadbalancerListenerRules.removeStep env s a).isSome := by
    intro s a
    unfold SyncLoadbalancerListenerRules.removeStep
    dsimp only
    split <;> simp
  have h2 : ∀ s a, (SyncLoadbalancerListenerRules.updateStep env provider s a).isSome := by
    intro s a
    unfold SyncLoadbalancerListenerRules.updateStep
    split
    · rename_i h
      have := SyncWithCloudLoadbalancerListenerRule_isSome env hg hl s.1 a.1 a.2
        provider.ProjectId
      rw [h] at this
      simp at this
    · split <;> simp
  have h3 : ∀ s a,
      (SyncLoadbalancerListenerRules.addStep env provider listener s a).isSome := by
    intro s a
    unfold SyncLoadbalancerListenerRules.addStep
    split
    · rename_i h
      have := newFromCloudLoadbalancerListenerRule_isSome env hg s.1 listener a
        provider.ProjectId
      rw [h] at this
      simp at this
    · split <;> simp
  unfold SyncLoadbalancerListenerRules.loops
  split
  · rename_i h
    have := congrArg Option.isSome h
    rw [foldlM_isSome _ h1] at this
    simp at this
  · split
    · rename_i h
      have := congrArg Option.isSome h
      rw [foldlM_isSome _ h2] at this
      simp at this
    · exact foldlM_isSome _ h3 _ _

theorem SyncLoadbalancerListenerRules_isSome (env : Env)
    (hg : ∀ w id, (env.BackendGroupFetchById w id).isSome)
    (hl : ∀ w id, (env.ListenerFetchById w id).isSome) (w : World)
    (provider : SCloudprovider) (listener : SLoadbalancerListener)
    (rules : List ICloudLoadbalancerListenerRule) :
    (SyncLoadbalancerListenerRules env w provider listener rules).isSome := by
  unfold SyncLoadbalancerListenerRules
  dsimp only
  split
  · simp
  · split
    · simp
    · split
      · rename_i h
        have := congrArg Option.isSome h
        rw [SyncLoadbalancerListenerRules_loops_isSome env hg hl] at this
        simp at this
      · simp

end models

/-! ## Claims -/

open models compare in
/-- C1: count invariant of a reconciliation pass. For every run of `SyncLoadbalancers`,
`SyncZones` and `SyncLoadbalancerListenerRules` in which the local records were fetched
and partitioned, whatever the outcomes of the per-item operations, the returned
`SyncResult` satisfies `Added + AddErrors = |add-candidates|`,
`Updated + UpdateErrors = |common pairs|` and `Deleted + DeleteErrors = |delete-candidates|`.
The first two passes always return; the listener-rule pass returns whenever the
backend-group and listener lookups of its updates succeed. -/
theorem C1_count_invariant :
    (∀ (env : models.Env) (w : models.World) (provider : SCloudprovider)
        (region : SCloudregion) (lbs : List ICloudLoadbalancer) (dbLbs : List SLoadbalancer)
        (p : Partition SLoadbalancer ICloudLoadbalancer),
        getLoadbalancersByRegion env (w.emit (.LockClass "loadbalancer" provider.ProjectId))
          region provider = .ok dbLbs →
        CompareSets (fun l : SLoadbalancer => l.ExternalId)
          (fun r : ICloudLoadbalancer => r.GetGlobalId) dbLbs lbs = .ok p →
        (SyncLoadbalancers env w provider region lbs).2.2.2.Added
            + (SyncLoadbalancers env w provider region lbs).2.2.2.AddErrors = p.added.length
        ∧ (SyncLoadbalancers env w provider region lbs).2.2.2.Updated
            + (SyncLoadbalancers env w provider region lbs).2.2.2.UpdateErrors
            = p.commondb.length
        ∧ p.commonext.length = p.commondb.length
        ∧ (SyncLoadbalancers env w provider region lbs).2.2.2.Deleted
            + (SyncLoadbalancers env w provider region lbs).2.2.2.DeleteErrors
            = p.removed.length)
    ∧ (∀ (env : models.Env) (w : models.World) (ownerId : String) (region : SCloudregion)
        (zones : List ICloudZone) (dbZones : List SZone) (p : Partition SZone ICloudZone),
        GetZonesByRegion env (w.emit (.LockClass "zone" ownerId)) region = .ok dbZones →
        CompareSets (fun l : SZone => l.ExternalId)
          (fun r : ICloudZone => r.GetGlobalId) dbZones zones = .ok p →
        (SyncZones env w ownerId region zones).2.2.2.Added
            + (SyncZones env w ownerId region zones).2.2.2.AddErrors = p.added.length
        ∧ (SyncZones env w ownerId region zones).2.2.2.Updated
            + (SyncZones env w ownerId region zones).2.2.2.UpdateErrors = p.commondb.length
        ∧ p.commonext.length = p.commondb.length
        ∧ (SyncZones env w ownerId region zones).2.2.2.Deleted
            + (SyncZones env w ownerId region zones).2.2.2.DeleteErrors = p.removed.length)
    ∧ (∀ (env : models.Env) (w : models.World) (provider : SCloudprovider)
        (listener : SLoadbalancerListener) (rules : List ICloudLoadbalancerListenerRule)
        (dbRules : List SLoadbalancerListenerRule)
        (p : Partition SLoadbalancerListenerRule ICloudLoadbalancerListenerRule)
        (w' : models.World) (r : SyncResult),
        getLoadbalancerListenerRulesByListener env
          (w.emit (.LockClass "loadbalancerlistenerrule" provider.ProjectId)) listener
            = .ok dbRules →
        CompareSets (fun l : SLoadbalancerListenerRule => l.ExternalId)
          (fun r : ICloudLoadbalancerListenerRule => r.GetGlobalId) dbRules rules = .ok p →
        SyncLoadbalancerListenerRules env w provider listener rules = some (w', r) →
        r.Added + r.AddErrors = p.added.length
        ∧ r.Updated + r.UpdateErrors = p.commondb.length
        ∧ p.commonext.length = p.commondb.length
        ∧ r.Deleted + r.DeleteErrors = p.removed.length)
    ∧ (∀ (env : models.Env) (w : models.World) (provider : SCloudprovider)
        (listener : SLoadbalancerListener) (rules : List ICloudLoadbalancerListenerRule),
        (∀ w id, (env.BackendGroupFetchById w id).isSome) →
        (∀ w id, (env.ListenerFetchById w id).isSome) →
        (SyncLoadbalancerListenerRules env w provider listener rules).isSome) := by
  refine ⟨?_, ?_, ?_, ?_⟩
  · intro env w provider region lbs dbLbs p hf hc
    have ht := SyncLoadbalancers_loops_totals env provider region p
      (w.emit (.LockClass "loadbalancer" provider.ProjectId))
    have hz := CompareSets_zip_length _ _ _ _ p hc
    rw [SyncLoadbalancers_eq env w provider region lbs dbLbs p hf hc]
    simp only [SyncResult.totals, Prod.mk.injEq] at ht
    obtain ⟨h1, h2, h3⟩ := ht
    exact ⟨h1, by rw [h2, hz.1], hz.2, h3⟩
  · intro env w ownerId region zones dbZones p hf hc
    have ht := SyncZones_loops_totals env ownerId region p (w.emit (.LockClass "zone" ownerId))
    have hz := CompareSets_zip_length _ _ _ _ p hc
    rw [SyncZones_eq env w ownerId region zones dbZones p hf hc]
    simp only [SyncResult.totals, Prod.mk.injEq] at ht
    obtain ⟨h1, h2, h3⟩ := ht
    exact ⟨h1, by rw [h2, hz.1], hz.2, h3⟩
  · intro env w provider listener rules dbRules p w' r hf hc hs
    have hz := CompareSets_zip_length _ _ _ _ p hc
    rw [SyncLoadbalancerListenerRules_eq env w provider listener rules dbRules p hf hc] at hs
    simp only [Option.map_eq_some', Prod.mk.injEq] at hs
    obtain ⟨acc, hacc, -, hr⟩ := hs
    have ht := SyncLoadbalancerListenerRules_loops_totals env provider listener p _ acc hacc
    rw [hr] at ht
    simp only [SyncResult.totals, Prod.mk.injEq] at ht
    obtain ⟨h1, h2, h3⟩ := ht
    exact ⟨h1, by rw [h2, hz.1], hz.2, h3⟩
  · intro env w provider listener rules hg hl
    exact SyncLoadbalancerListenerRules_isSome env hg hl w provider listener rules

open models compare examples in
/-- C1 at concrete passes: a load-balancer pass with one delete-candidate and one
add-candidate, and a listener-rule pass with one common pair. -/
theorem C1_count_invariant_witness :
    ((SyncLoadbalancers quietEnv worldLb1 provider1 region1 [extLb "ext-2"]).2.2.2.Added
        + (SyncLoadbalancers quietEnv worldLb1 provider1 region1
            [extLb "ext-2"]).2.2.2.AddErrors = 1
      ∧ (SyncLoadbalancers quietEnv worldLb1 provider1 region1 [extLb "ext-2"]).2.2.2.Deleted
        + (SyncLoadbalancers quietEnv worldLb1 provider1 region1
            [extLb "ext-2"]).2.2.2.DeleteErrors = 1)
    ∧ (SyncLoadbalancerListenerRules rulesEnv worldRule1 provider1 listener1
        [extRule "ext-r1" ""]).isSome := by
  have h := C1_count_invariant.1 quietEnv worldLb1 provider1 region1 [extLb "ext-2"] [lb1]
    { removed := [lb1], commondb := [], commonext := [], added := [extLb "ext-2"] }
    rfl rfl
  exact ⟨⟨h.1, h.2.2.2⟩,
    C1_count_invariant.2.2.2 rulesEnv worldRule1 provider1 listener1 [extRule "ext-r1" ""]
      (fun _ _ => rfl) (fun _ _ => rfl)⟩

open models compare in
/-- C2: matching correctness. For every local list and remote list handed to the
partition of a pass (`CompareSets`, called with the keys `ExternalId` and `GetGlobalId`),
a local `L` and a remote `R` occur as a common pair `(commondb[i], commonext[i])` if and
only if the key of `L` equals the key of `R`; the delete-candidates are exactly the locals
with no such remote, the add-candidates exactly the remotes with no such local; and
changing names or any other field while keeping the keys changes nothing in the pairing
(the partition of the changed lists is the changed partition). -/
theorem C2_matching_correctness {α β : Type} (dbKey : α → String) (extKey : β → String)
    (dbSet : List α) (extSet : List β) (p : Partition α β)
    (h : CompareSets dbKey extKey dbSet extSet = .ok p) :
    (∀ L R, (L, R) ∈ p.commondb.zip p.commonext
        ↔ L ∈ dbSet ∧ R ∈ extSet ∧ dbKey L = extKey R)
    ∧ p.commondb.length = p.commonext.length
    ∧ (∀ L, L ∈ p.removed ↔ L ∈ dbSet ∧ ∀ R ∈ extSet, dbKey L ≠ extKey R)
    ∧ (∀ R, R ∈ p.added ↔ R ∈ extSet ∧ ∀ L ∈ dbSet, dbKey L ≠ extKey R)
    ∧ (∀ (f : α → α) (g : β → β), (∀ l, dbKey (f l) = dbKey l) →
        (∀ r, extKey (g r) = extKey r) →
        CompareSets dbKey extKey (dbSet.map f) (extSet.map g)
          = .ok { removed := p.removed.map f, commondb := p.commondb.map f,
                  commonext := p.commonext.map g, added := p.added.map g }) := by
  obtain ⟨h1, h2, h3, h4⟩ := CompareSets_ok dbKey extKey dbSet extSet p h
  refine ⟨?_, ?_, ?_, ?_, ?_⟩
  · intro L R
    rw [CompareSets_zip dbKey extKey dbSet extSet p h]
    exact mem_commonPairs dbKey extKey dbSet extSet L R
  · exact (CompareSets_zip_length dbKey extKey dbSet extSet p h).2.symm
  · intro L
    rw [h1]
    simp only [List.mem_filter, Bool.not_eq_true', List.any_eq_false, beq_iff_eq]
    constructor
    · rintro ⟨hL, hn⟩
      exact ⟨hL, fun R hR hk => hn R hR hk.symm⟩
    · rintro ⟨hL, hn⟩
      exact ⟨hL, fun R hR hk => hn R hR hk.symm⟩
  · intro R
    rw [h4]
    simp only [List.mem_filter, Bool.not_eq_true', List.any_eq_false, beq_iff_eq]
    constructor
    · rintro ⟨hR, hn⟩
      exact ⟨hR, fun L hL hk => hn L hL hk.symm⟩
    · rintro ⟨hR, hn⟩
      exact ⟨hR, fun L hL hk => hn L hL hk.symm⟩
  · intro f g hf hg
    unfold CompareSets
    simp only [Except.ok.injEq]
    rw [commonPairs_map dbKey extKey f g hf hg, h1, h2, h3, h4]
    simp only [List.map_map, List.filter_map, List.any_map]
    have e1 : ((fun l => !(extSet.any ((fun r => extKey r == dbKey l) ∘ g))) ∘ f)
        = (fun l => !(extSet.any (fun r => extKey r == dbKey l))) := by
      funext l
      have : ((fun r => extKey r == dbKey (f l)) ∘ g) = (fun r => extKey r == dbKey l) := by
        funext r
        simp [hf, hg]
      simp only [Function.comp_apply, this]
    have e2 : ((fun r => !(dbSet.any ((fun l => extKey r == dbKey l) ∘ f))) ∘ g)
        = (fun r => !(dbSet.any (fun l => extKey r == dbKey l))) := by
      funext r
      have : ((fun l => extKey (g r) == dbKey l) ∘ f) = (fun l => extKey r == dbKey l) := by
        funext l
        simp [hf, hg]
      simp only [Function.comp_apply, this]
    rw [e1, e2]
    rfl

open models compare examples in
/-- C2 at a concrete partition: `lb1` (external id `ext-1`) against the remotes `ext-1`
and `ext-2`. -/
theorem C2_matching_correctness_witness :
    ((lb1, extLb "ext-1") ∈ List.zip [lb1] [extLb "ext-1"]
        ↔ lb1 ∈ [lb1] ∧ extLb "ext-1" ∈ [extLb "ext-1", extLb "ext-2"]
          ∧ lb1.ExternalId = (extLb "ext-1").GetGlobalId)
    ∧ (extLb "ext-2" ∈ [extLb "ext-2"]
        ↔ extLb "ext-2" ∈ [extLb "ext-1", extLb "ext-2"]
          ∧ ∀ L ∈ [lb1], L.ExternalId ≠ (extLb "ext-2").GetGlobalId) := by
  have h := C2_matching_correctness (fun l : SLoadbalancer => l.ExternalId)
    (fun r : ICloudLoadbalancer => r.GetGlobalId) [lb1] [extLb "ext-1", extLb "ext-2"]
    { removed := [], commondb := [lb1], commonext := [extLb "ext-1"],
      added := [extLb "ext-2"] } rfl
  exact ⟨h.1 lb1 (extLb "ext-1"), h.2.2.2.1 (extLb "ext-2")⟩

open models compare examples in
/-- C3, as stated, fails: a pass over one load balancer that is matched by one remote
with identical remote-authoritative fields leaves the table as it was and still reports
`Updated = 1`. -/
theorem C3_idempotence_counterexample :
    getLoadbalancersByRegion quietEnv
        (worldLb1.emit (.LockClass "loadbalancer" provider1.ProjectId)) region1 provider1
      = .ok [lb1]
    ∧ lb1.ExternalId = (extLb "ext-1").GetGlobalId
    ∧ SLoadbalancer.copyFromCloud (extLb "ext-1") lb1 = lb1
    ∧ (SyncLoadbalancers quietEnv worldLb1 provider1 region1
          [extLb "ext-1"]).1.loadbalancers_tbl = worldLb1.loadbalancers_tbl
    ∧ (SyncLoadbalancers quietEnv worldLb1 provider1 region1 [extLb "ext-1"]).2.2.2.Updated = 1
    ∧ (SyncLoadbalancers quietEnv worldLb1 provider1 region1 [extLb "ext-1"]).2.2.2.Updated
        ≠ 0 := by
  refine ⟨rfl, rfl, rfl, ?_, ?_, ?_⟩ <;> decide

open models compare in
/-- C3, amended: when every local record is matched by exactly one remote snapshot and no
remote is unmatched, `SyncLoadbalancers`, `SyncZones` and `SyncLoadbalancerListenerRules`
return a `SyncResult` with zero added and zero deleted (and no add or delete errors);
every matched pair is still run through the update and counted, so
`Updated + UpdateErrors` is the number of local records. -/
theorem C3_idempotence_amended :
    (∀ (env : models.Env) (w : models.World) (provider : SCloudprovider)
        (region : SCloudregion) (lbs : List ICloudLoadbalancer) (dbLbs : List SLoadbalancer),
        getLoadbalancersByRegion env (w.emit (.LockClass "loadbalancer" provider.ProjectId))
          region provider = .ok dbLbs →
        (∀ l ∈ dbLbs, (lbs.filter (fun r => r.GetGlobalId == l.ExternalId)).length = 1) →
        (∀ r ∈ lbs, ∃ l ∈ dbLbs, l.ExternalId = r.GetGlobalId) →
        (SyncLoadbalancers env w provider region lbs).2.2.2.Added = 0
        ∧ (SyncLoadbalancers env w provider region lbs).2.2.2.AddErrors = 0
        ∧ (SyncLoadbalancers env w provider region lbs).2.2.2.Deleted = 0
        ∧ (SyncLoadbalancers env w provider region lbs).2.2.2.DeleteErrors = 0
        ∧ (SyncLoadbalancers env w provider region lbs).2.2.2.Updated
            + (SyncLoadbalancers env w provider region lbs).2.2.2.UpdateErrors
            = dbLbs.length)
    ∧ (∀ (env : models.Env) (w : models.World) (ownerId : String) (region : SCloudregion)
        (zones : List ICloudZone) (dbZones : List SZone),
        GetZonesByRegion env (w.emit (.LockClass "zone" ownerId)) region = .ok dbZones →
        (∀ l ∈ dbZones, (zones.filter (fun r => r.GetGlobalId == l.ExternalId)).length = 1) →
        (∀ r ∈ zones, ∃ l ∈ dbZones, l.ExternalId = r.GetGlobalId) →
        (SyncZones env w ownerId region zones).2.2.2.Added = 0
        ∧ (SyncZones env w ownerId region zones).2.2.2.AddErrors = 0
        ∧ (SyncZones env w ownerId region zones).2.2.2.Deleted = 0
        ∧ (SyncZones env w ownerId region zones).2.2.2.DeleteErrors = 0
        ∧ (SyncZones env w ownerId region zones).2.2.2.Updated
            + (SyncZones env w ownerId region zones).2.2.2.UpdateErrors = dbZones.length)
    ∧ (∀ (env : models.Env) (w : models.World) (provider : SCloudprovider)
        (listener : SLoadbalancerListener) (rules : List ICloudLoadbalancerListenerRule)
        (dbRules : List SLoadbalancerListenerRule) (w' : models.World) (r : SyncResult),
        getLoadbalancerListenerRulesByListener env
          (w.emit (.LockClass "loadbalancerlistenerrule" provider.ProjectId)) listener
            = .ok dbRules →
        (∀ l ∈ dbRules, (rules.filter (fun r => r.GetGlobalId == l.ExternalId)).length = 1) →
        (∀ r ∈ rules, ∃ l ∈ dbRules, l.ExternalId = r.GetGlobalId) →
        SyncLoadbalancerListenerRules env w provider listener rules = some (w', r) →
        r.Added = 0 ∧ r.AddErrors = 0 ∧ r.Deleted = 0 ∧ r.DeleteErrors = 0
        ∧ r.Updated + r.UpdateErrors = dbRules.length) := by
  refine ⟨?_, ?_, ?_⟩
  · intro env w provider region lbs dbLbs hf h1 h2
    obtain ⟨p, hc⟩ := CompareSets_total (fun l : SLoadbalancer => l.ExternalId)
      (fun r : ICloudLoadbalancer => r.GetGlobalId) dbLbs lbs
    obtain ⟨hr, ha, hl⟩ := CompareSets_unchanged _ _ _ _ p hc h1 h2
    have ht := SyncLoadbalancers_loops_totals env provider region p
      (w.emit (.LockClass "loadbalancer" provider.ProjectId))
    have hz := CompareSets_zip_length _ _ _ _ p hc
    rw [SyncLoadbalancers_eq env w provider region lbs dbLbs p hf hc]
    simp only [SyncResult.totals, Prod.mk.injEq, hr, ha, List.length_nil, hz.1, hl] at ht
    obtain ⟨t1, t2, t3⟩ := ht
    dsimp only
    refine ⟨?_, ?_, ?_, ?_, t2⟩ <;> omega
  · intro env w ownerId region zones dbZones hf h1 h2
    obtain ⟨p, hc⟩ := CompareSets_total (fun l : SZone => l.ExternalId)
      (fun r : ICloudZone => r.GetGlobalId) dbZones zones
    obtain ⟨hr, ha, hl⟩ := CompareSets_unchanged _ _ _ _ p hc h1 h2
    have ht := SyncZones_loops_totals env ownerId region p (w.emit (.LockClass "zone" ownerId))
    have hz := CompareSets_zip_length _ _ _ _ p hc
    rw [SyncZones_eq env w ownerId region zones dbZones p hf hc]
    simp only [SyncResult.totals, Prod.mk.injEq, hr, ha, List.length_nil, hz.1, hl] at ht
    obtain ⟨t1, t2, t3⟩ := ht
    dsimp only
    refine ⟨?_, ?_, ?_, ?_, t2⟩ <;> omega
  · intro env w provider listener rules dbRules w' r hf h1 h2 hs
    obtain ⟨p, hc⟩ := CompareSets_total (fun l : SLoadbalancerListenerRule => l.ExternalId)
      (fun r : ICloudLoadbalancerListenerRule => r.GetGlobalId) dbRules rules
    obtain ⟨hr, ha, hl⟩ := CompareSets_unchanged _ _ _ _ p hc h1 h2
    have hz := CompareSets_zip_length _ _ _ _ p hc
    rw [SyncLoadbalancerListenerRules_eq env w provider listener rules dbRules p hf hc] at hs
    simp only [Option.map_eq_some', Prod.mk.injEq] at hs
    obtain ⟨acc, hacc, -, hres⟩ := hs
    have ht := SyncLoadbalancerListenerRules_loops_totals env provider listener p _ acc hacc
    rw [hres] at ht
    simp only [SyncResult.totals, Prod.mk.injEq, hr, ha, List.length_nil, hz.1, hl] at ht
    obtain ⟨t1, t2, t3⟩ := ht
    refine ⟨?_, ?_, ?_, ?_, t2⟩ <;> omega

open models compare examples in
/-- C3, amended, at the unchanged pass over `lb1` and the remote `ext-1`. -/
theorem C3_idempotence_amended_witness :
    (SyncLoadbalancers quietEnv worldLb1 provider1 region1 [extLb "ext-1"]).2.2.2.Added = 0
    ∧ (SyncLoadbalancers quietEnv worldLb1 provider1 region1 [extLb "ext-1"]).2.2.2.Deleted = 0
    ∧ (SyncLoadbalancers quietEnv worldLb1 provider1 region1 [extLb "ext-1"]).2.2.2.Updated
        + (SyncLoadbalancers quietEnv worldLb1 provider1 region1
            [extLb "ext-1"]).2.2.2.UpdateErrors = 1 := by
  have h := C3_idempotence_amended.1 quietEnv worldLb1 provider1 region1 [extLb "ext-1"]
    [lb1] rfl (by decide) (by decide)
  exact ⟨h.1, h.2.2.1, h.2.2.2.2⟩

open models compare examples in
/-- C4 at a failing input: in a listener-rule pass over two matched rules, the update of
the first rule cannot fetch the rule's backend group and panics, so the pass is aborted:
it returns no `SyncResult` and the second rule is never processed. With the backend group
fetchable, the same pass processes both rules. -/
theorem C4_rules_pass_aborted_by_one_item :
    getLoadbalancerListenerRulesByListener lostGroupEnv
        (worldTwoRules.emit (.LockClass "loadbalancerlistenerrule" provider1.ProjectId))
        listener1 = .ok [ruleLost, rule1]
    ∧ lostGroupEnv.BackendGroupFetchById worldTwoRules ruleLost.BackendGroupId = none
    ∧ SyncLoadbalancerListenerRules lostGroupEnv worldTwoRules provider1 listener1
        [extRule "ext-r0" "ext-grp-0", extRule "ext-r1" "ext-grp-1"] = none
    ∧ (SyncLoadbalancerListenerRules rulesEnv worldTwoRules provider1 listener1
        [extRule "ext-r0" "ext-grp-0", extRule "ext-r1" "ext-grp-1"]).map
          (fun r => r.2.Updated) = some 2 := by
  refine ⟨rfl, rfl, ?_, ?_⟩ <;> decide

open models compare in
/-- C5: soft-mark of a removed load balancer or listener rule. When the delete guard
`ValidateDeleteCondition` reports an error, `syncRemoveCloudLoadbalancer` /
`syncRemoveCloudLoadbalancerListenerRule` performs, under the object lock, exactly one
write, `SetStatus(LB_STATUS_UNKNOWN, "sync to delete")`, and no delete; it returns the
error of that write; and when the write succeeds the record has status Unknown, the
function returns nil and the pass counts the item under `Deleted`, not `DeleteErrors`. -/
theorem C5_soft_mark_removed :
    (∀ (env : models.Env) (w : models.World) (lb : SLoadbalancer) (e : Err),
        lb.ValidateDeleteCondition env (w.emit (.LockObject "loadbalancer" lb.Id)) = some e →
        (lb.syncRemoveCloudLoadbalancer env w).1.trace
            = w.trace ++ [.LockObject "loadbalancer" lb.Id,
                .SetStatus "loadbalancer" lb.Id LB_STATUS_UNKNOWN "sync to delete",
                .ReleaseObject "loadbalancer" lb.Id]
        ∧ (lb.syncRemoveCloudLoadbalancer env w).2
            = (lb.SetStatus env (w.emit (.LockObject "loadbalancer" lb.Id))
                LB_STATUS_UNKNOWN "sync to delete").2
        ∧ ((lb.syncRemoveCloudLoadbalancer env w).2 ≠ none →
            (lb.syncRemoveCloudLoadbalancer env w).1.loadbalancers_tbl = w.loadbalancers_tbl)
        ∧ ((lb.syncRemoveCloudLoadbalancer env w).2 = none →
            (lb.syncRemoveCloudLoadbalancer env w).1.loadbalancers_tbl
              = updateRows (fun r => r.Id) w.loadbalancers_tbl lb.Id
                  (fun r => { r with Status := LB_STATUS_UNKNOWN })
            ∧ ∀ acc : SyncAcc SLoadbalancer ICloudLoadbalancer, acc.w = w →
                (SyncLoadbalancers.removeStep env acc lb).syncResult.Deleted
                    = acc.syncResult.Deleted + 1
                ∧ (SyncLoadbalancers.removeStep env acc lb).syncResult.DeleteErrors
                    = acc.syncResult.DeleteErrors))
    ∧ (∀ (env : models.Env) (w : models.World) (lbr : SLoadbalancerListenerRule) (e : Err),
        lbr.ValidateDeleteCondition env
            (w.emit (.LockObject "loadbalancerlistenerrule" lbr.Id)) = some e →
        (lbr.syncRemoveCloudLoadbalancerListenerRule env w).1.trace
            = w.trace ++ [.LockObject "loadbalancerlistenerrule" lbr.Id,
                .SetStatus "loadbalancerlistenerrule" lbr.Id LB_STATUS_UNKNOWN "sync to delete",
                .ReleaseObject "loadbalancerlistenerrule" lbr.Id]
        ∧ (lbr.syncRemoveCloudLoadbalancerListenerRule env w).2
            = (lbr.SetStatus env (w.emit (.LockObject "loadbalancerlistenerrule" lbr.Id))
                LB_STATUS_UNKNOWN "sync to delete").2
        ∧ ((lbr.syncRemoveCloudLoadbalancerListenerRule env w).2 ≠ none →
            (lbr.syncRemoveCloudLoadbalancerListenerRule env w).1.loadbalancerlistenerrules_tbl
              = w.loadbalancerlistenerrules_tbl)
        ∧ ((lbr.syncRemoveCloudLoadbalancerListenerRule env w).2 = none →
            (lbr.syncRemoveCloudLoadbalancerListenerRule env w).1.loadbalancerlistenerrules_tbl
              = updateRows (fun r => r.Id) w.loadbalancerlistenerrules_tbl lbr.Id
                  (fun r => { r with Status := LB_STATUS_UNKNOWN })
            ∧ ∀ acc : models.World × SyncResult, acc.1 = w →
                (SyncLoadbalancerListenerRules.removeStep env acc lbr).map
                    (fun a => (a.2.Deleted, a.2.DeleteErrors))
                  = some (acc.2.Deleted + 1, acc.2.DeleteErrors))) := by
  constructor
  · intro env w lb e h
    have key : lb.syncRemoveCloudLoadbalancer env w
        = (((lb.SetStatus env (w.emit (.LockObject "loadbalancer" lb.Id))
              LB_STATUS_UNKNOWN "sync to delete").1).emit (.ReleaseObject "loadbalancer" lb.Id),
            (lb.SetStatus env (w.emit (.LockObject "loadbalancer" lb.Id))
              LB_STATUS_UNKNOWN "sync to delete").2) := by
      unfold SLoadbalancer.syncRemoveCloudLoadbalancer
      simp only [h]
    refine ⟨?_, ?_, ?_, ?_⟩
    · rw [key]
      unfold SLoadbalancer.SetStatus
      dsimp only
      split <;> simp [World.emit]
    · rw [key]
    · rw [key]
      unfold SLoadbalancer.SetStatus
      dsimp only
      split <;> simp [World.emit]
    · intro hn
      constructor
      · rw [key] at hn ⊢
        unfold SLoadbalancer.SetStatus at hn ⊢
        dsimp only at hn ⊢
        split at hn
        · simp at hn
        · rename_i hs
          simp [hs, World.emit]
      · intro acc hacc
        unfold SyncLoadbalancers.removeStep
        subst hacc
        simp [hn, SyncResult.Delete]
  · intro env w lbr e h
    have key : lbr.syncRemoveCloudLoadbalancerListenerRule env w
        = (((lbr.SetStatus env (w.emit (.LockObject "loadbalancerlistenerrule" lbr.Id))
              LB_STATUS_UNKNOWN "sync to delete").1).emit
                (.ReleaseObject "loadbalancerlistenerrule" lbr.Id),
            (lbr.SetStatus env (w.emit (.LockObject "loadbalancerlistenerrule" lbr.Id))
              LB_STATUS_UNKNOWN "sync to delete").2) := by
      unfold SLoadbalancerListenerRule.syncRemoveCloudLoadbalancerListenerRule
      simp only [h]
    refine ⟨?_, ?_, ?_, ?_⟩
    · rw [key]
      unfold SLoadbalancerListenerRule.SetStatus
      dsimp only
      split <;> simp [World.emit]
    · rw [key]
    · rw [key]
      unfold SLoadbalancerListenerRule.SetStatus
      dsimp only
      split <;> simp [World.emit]
    · intro hn
      constructor
      · rw [key] at hn ⊢
        unfold SLoadbalancerListenerRule.SetStatus at hn ⊢
        dsimp only at hn ⊢
        split at hn
        · simp at hn
        · rename_i hs
          simp [hs, World.emit]
      · intro acc hacc
        unfold SyncLoadbalancerListenerRules.removeStep
        subst hacc
        simp [hn, SyncResult.Delete]

open models compare examples in
/-- C5 at Scenario A: the local load balancer `ext-1` has dependents and the remote
returns only `ext-2`. The pass reports `Deleted = 1`, `Added = 1`, and the record of
`ext-1` is kept with status Unknown. -/
theorem C5_soft_mark_removed_witness :
    (lb1.syncRemoveCloudLoadbalancer dependentsEnv worldLb1).2 = none
    ∧ (lb1.syncRemoveCloudLoadbalancer dependentsEnv worldLb1).1.loadbalancers_tbl
        = [{ lb1 with Status := "unknown" }]
    ∧ (SyncLoadbalancers dependentsEnv worldLb1 provider1 region1 [extLb "ext-2"]).2.2.2
        = { Added := 1, AddErrors := 0, Updated := 0, UpdateErrors := 0,
            Deleted := 1, DeleteErrors := 0, errors := [] } := by
  have h := C5_soft_mark_removed.1 dependentsEnv worldLb1 lb1 "not empty" rfl
  exact ⟨by decide, (h.2.2.2 (by decide)).1, by decide⟩

open models compare examples in
/-- C6, as stated, fails: a removed zone that still has a host is soft-marked with the
status `ZONE_DISABLE` ("disable"), not with a status Unknown. -/
theorem C6_zone_soft_mark_counterexample :
    (zone1.GeneralUsage hostsEnv (worldZone1.emit (.LockObject "zone" zone1.Id))).Hosts = 1
    ∧ (zone1.syncRemoveCloudZone hostsEnv worldZone1).2 = none
    ∧ (zone1.syncRemoveCloudZone hostsEnv worldZone1).1.zones_tbl
        = [{ zone1 with Status := "disable" }]
    ∧ (zone1.syncRemoveCloudZone hostsEnv worldZone1).1.trace
        = [.LockObject "zone" "zone-1", .SetStatus "zone" "zone-1" "disable" "sync to delete",
            .ReleaseObject "zone" "zone-1"]
    ∧ ZONE_DISABLE ≠ LB_STATUS_UNKNOWN := by
  refine ⟨rfl, ?_, ?_, ?_, ?_⟩ <;> decide

open models compare in
/-- C6, amended: for every zone in the removed partition of `SyncZones` that still has
hosts, wires, networks or storages, `syncRemoveCloudZone` performs, under the object lock,
exactly one write, `SetStatus(ZONE_DISABLE, "sync to delete")`, and no delete; it returns
the error of that write; when the write succeeds the zone has status `ZONE_DISABLE` and
the pass counts it under `Deleted`; when it fails the zone is unchanged and the pass
counts it under `DeleteErrors` and goes on. -/
theorem C6_zone_soft_mark_amended (env : models.Env) (w : models.World) (zone : SZone)
    (h : 0 < (zone.GeneralUsage env (w.emit (.LockObject "zone" zone.Id))).Hosts
      ∨ 0 < (zone.GeneralUsage env (w.emit (.LockObject "zone" zone.Id))).Wires
      ∨ 0 < (zone.GeneralUsage env (w.emit (.LockObject "zone" zone.Id))).Networks
      ∨ 0 < (zone.GeneralUsage env (w.emit (.LockObject "zone" zone.Id))).Storages) :
    zone.ValidateDeleteCondition env (w.emit (.LockObject "zone" zone.Id))
      = some "not empty zone"
    ∧ (zone.syncRemoveCloudZone env w).1.trace
        = w.trace ++ [.LockObject "zone" zone.Id,
            .SetStatus "zone" zone.Id ZONE_DISABLE "sync to delete",
            .ReleaseObject "zone" zone.Id]
    ∧ (zone.syncRemoveCloudZone env w).2
        = (zone.SetStatus env (w.emit (.LockObject "zone" zone.Id))
            ZONE_DISABLE "sync to delete").2
    ∧ ((zone.syncRemoveCloudZone env w).2 = none →
        (zone.syncRemoveCloudZone env w).1.zones_tbl
          = updateRows (fun r => r.Id) w.zones_tbl zone.Id
              (fun r => { r with Status := ZONE_DISABLE })
        ∧ ∀ acc : SyncAcc SZone ICloudZone, acc.w = w →
            (SyncZones.removeStep env acc zone).syncResult.Deleted
                = acc.syncResult.Deleted + 1
            ∧ (SyncZones.removeStep env acc zone).syncResult.DeleteErrors
                = acc.syncResult.DeleteErrors)
    ∧ ((zone.syncRemoveCloudZone env w).2 ≠ none →
        (zone.syncRemoveCloudZone env w).1.zones_tbl = w.zones_tbl
        ∧ ∀ acc : SyncAcc SZone ICloudZone, acc.w = w →
            (SyncZones.removeStep env acc zone).syncResult.Deleted = acc.syncResult.Deleted
            ∧ (SyncZones.removeStep env acc zone).syncResult.DeleteErrors
                = acc.syncResult.DeleteErrors + 1) := by
  have hv : zone.ValidateDeleteCondition env (w.emit (.LockObject "zone" zone.Id))
      = some "not empty zone" := by
    unfold SZone.ValidateDeleteCondition ZoneGeneralUsage.isEmpty
    rcases h with h | h | h | h
    · simp [h]
    · simp [h]
    · simp [h]
    · simp [h]
  have key : zone.syncRemoveCloudZone env w
      = (((zone.SetStatus env (w.emit (.LockObject "zone" zone.Id))
            ZONE_DISABLE "sync to delete").1).emit (.ReleaseObject "zone" zone.Id),
          (zone.SetStatus env (w.emit (.LockObject "zone" zone.Id))
            ZONE_DISABLE "sync to delete").2) := by
    unfold SZone.syncRemoveCloudZone
    simp only [hv]
  refine ⟨hv, ?_, ?_, ?_, ?_⟩
  · rw [key]
    unfold SZone.SetStatus
    dsimp only
    split <;> simp [World.emit]
  · rw [key]
  · intro hn
    constructor
    · rw [key] at hn ⊢
      unfold SZone.SetStatus at hn ⊢
      dsimp only at hn ⊢
      split at hn
      · simp at hn
      · rename_i hs
        simp [hs, World.emit]
    · intro acc hacc
      unfold SyncZones.removeStep
      subst hacc
      simp [hn, SyncResult.Delete]
  · intro hn
    constructor
    · rw [key] at hn ⊢
      unfold SZone.SetStatus at hn ⊢
      dsimp only at hn ⊢
      split at hn
      · rename_i hs
        simp [hs, World.emit]
      · simp at hn
    · intro acc hacc
      unfold SyncZones.removeStep
      subst hacc
      cases hr : (zone.syncRemoveCloudZone env acc.w).2 with
      | none => exact absurd hr hn
      | some err => simp [hr, SyncResult.DeleteError]

open models compare examples in
/-- C6, amended, at `zone1` with one host. -/
theorem C6_zone_soft_mark_amended_witness :
    0 < (zone1.GeneralUsage hostsEnv (worldZone1.emit (.LockObject "zone" zone1.Id))).Hosts
    ∧ (zone1.syncRemoveCloudZone hostsEnv worldZone1).1.trace
        = worldZone1.trace ++ [.LockObject "zone" zone1.Id,
            .SetStatus "zone" zone1.Id ZONE_DISABLE "sync to delete",
            .ReleaseObject "zone" zone1.Id] :=
  ⟨by decide, (C6_zone_soft_mark_amended hostsEnv worldZone1 zone1 (Or.inl (by decide))).2.1⟩

/-! ## Records built for add-candidates -/

theorem foldl_keep {σ α τ : Type} (f : σ → α → σ) (m : σ → τ)
    (h : ∀ s a, m (f s a) = m s) (l : List α) (s : σ) :
    m (l.foldl f s) = m s := by
  induction l generalizing s with
  | nil => rfl
  | cons a l ih => simp only [List.foldl_cons, ih, h]

namespace models

open compare

theorem map_updateRows {α γ : Type} (getId : α → String) (tbl : List α) (id : String)
    (f : α → α) (g : α → γ) (h : ∀ r, g (f r) = g r) :
    (updateRows getId tbl id f).map g = tbl.map g := by
  unfold updateRows
  rw [List.map_map]
  apply List.map_congr_left
  intro r _
  simp only [Function.comp_apply]
  split <;> simp [h]

theorem SLoadbalancerNetwork.Delete_loadbalancers_tbl (env : Env) (w : World)
    (ln : SLoadbalancerNetwork) :
    (ln.Delete env w).1.loadbalancers_tbl = w.loadbalancers_tbl := by
  unfold SLoadbalancerNetwork.Delete
  dsimp only
  split <;> simp [World.emit]

theorem SLoadbalancernetworkManager_syncLoadbalancerNetwork_loadbalancers_tbl (env : Env)
    (w : World) (req : SLoadbalancerNetworkRequestData) :
    (SLoadbalancernetworkManager.syncLoadbalancerNetwork env w req).1.loadbalancers_tbl
      = w.loadbalancers_tbl := by
  unfold SLoadbalancernetworkManager.syncLoadbalancerNetwork
  split
  · rfl
  · split
    · rfl
    · split
      · rfl
      · split
        · rfl
        · dsimp only
          split
          · split <;> simp [World.emit]
          · rw [foldl_keep (fun w ln => (SLoadbalancerNetwork.Delete env w ln).1)
              (fun w => w.loadbalancers_tbl)
              (fun s a => SLoadbalancerNetwork.Delete_loadbalancers_tbl env s a)]
            split
            · split <;> simp [World.emit]
            · rfl

theorem SLoadbalancer_syncLoadbalancerNetwork_loadbalancers_tbl (env : Env) (w : World)
    (lb : SLoadbalancer) :
    (lb.syncLoadbalancerNetwork env w).loadbalancers_tbl = w.loadbalancers_tbl := by
  unfold SLoadbalancer.syncLoadbalancerNetwork
  split
  · exact SLoadbalancernetworkManager_syncLoadbalancerNetwork_loadbalancers_tbl env w _
  · rfl

theorem newFromCloudLoadbalancer.build_keys (env : Env) (w : World)
    (provider : SCloudprovider) (extLb : ICloudLoadbalancer) (region : SCloudregion)
    (projectId : String) :
    (newFromCloudLoadbalancer.build env w provider extLb region projectId).ExternalId
        = extLb.GetGlobalId
    ∧ (newFromCloudLoadbalancer.build env w provider extLb region projectId).ManagerId
        = provider.Id
    ∧ (newFromCloudLoadbalancer.build env w provider extLb region projectId).CloudregionId
        = region.Id
    ∧ (newFromCloudLoadbalancer.build env w provider extLb region projectId).Deleted
        = false := by
  unfold newFromCloudLoadbalancer.build
  dsimp only
  refine ⟨?_, ?_, ?_, ?_⟩ <;> (repeat' split) <;> rfl

theorem CompareSets_pair_present {α β : Type} (dbKey : α → String) (extKey : β → String)
    (dbSet : List α) (extSet : List β) (p : Partition α β)
    (h : CompareSets dbKey extKey dbSet extSet = .ok p) (L : α) (R : β)
    (hL : L ∈ dbSet) (hR : R ∈ extSet) (hk : dbKey L = extKey R) :
    R ∉ p.added ∧ (L, R) ∈ p.commondb.zip p.commonext := by
  obtain ⟨_, _, _, e4⟩ := CompareSets_ok dbKey extKey dbSet extSet p h
  constructor
  · rw [e4]
    simp only [List.mem_filter, Bool.not_eq_true', List.any_eq_false, beq_iff_eq, not_and,
      not_forall, Classical.not_imp, Decidable.not_not]
    intro _
    exact ⟨L, hL, hk.symm⟩
  · rw [CompareSets_zip dbKey extKey dbSet extSet p h]
    exact (mem_commonPairs dbKey extKey dbSet extSet L R).2 ⟨hL, hR, hk⟩

theorem newFromCloudLoadbalancer_ok (env : Env) (w : World) (provider : SCloudprovider)
    (extLb : ICloudLoadbalancer) (region : SCloudregion) (projectId : String) (w' : World)
    (lb : SLoadbalancer)
    (h : newFromCloudLoadbalancer env w provider extLb region projectId = (w', .ok lb)) :
    lb.ExternalId = extLb.GetGlobalId ∧ lb.ManagerId = provider.Id
    ∧ lb.CloudregionId = region.Id ∧ lb.Deleted = false
    ∧ w'.loadbalancers_tbl.map
          (fun r => (r.Id, r.ExternalId, r.ManagerId, r.CloudregionId, r.Deleted))
        = (w.loadbalancers_tbl ++ [lb]).map
          (fun r => (r.Id, r.ExternalId, r.ManagerId, r.CloudregionId, r.Deleted)) := by
  obtain ⟨k1, k2, k3, k4⟩ := newFromCloudLoadbalancer.build_keys env w provider extLb region
    projectId
  unfold newFromCloudLoadbalancer at h
  dsimp only at h
  split at h
  · simp at h
  · simp only [Prod.mk.injEq, Except.ok.injEq] at h
    obtain ⟨hw, hlb⟩ := h
    subst hw
    rw [SLoadbalancer_syncLoadbalancerNetwork_loadbalancers_tbl]
    unfold SLoadbalancer.SyncCloudProject at hlb ⊢
    dsimp only at hlb ⊢
    split at hlb
    · rename_i ho
      simp only [ho]
      subst hlb
      simp [World.emit, k1, k2, k3, k4]
    · rename_i owner ho
      simp only [ho]
      subst hlb
      simp only [World.emit, k1, k2, k3, k4, true_and]
      rw [map_updateRows (fun r : SLoadbalancer => r.Id) _ _
        (fun r : SLoadbalancer => { r with ProjectId := owner })
        (fun r : SLoadbalancer => (r.Id, r.ExternalId, r.ManagerId, r.CloudregionId, r.Deleted))
        (fun _ => rfl)]
      simp [k1, k2, k3, k4]

theorem newFromCloudZone_ok (env : Env) (w : World) (ownerId : String)
    (extZone : ICloudZone) (region : SCloudregion) (w' : World) (zone : SZone)
    (h : newFromCloudZone env w ownerId extZone region = (w', .ok zone)) :
    zone.ExternalId = extZone.GetGlobalId ∧ zone.CloudregionId = region.Id
    ∧ zone.Deleted = false ∧ w'.zones_tbl = w.zones_tbl ++ [zone] := by
  unfold newFromCloudZone at h
  dsimp only at h
  split at h
  · simp at h
  · simp only [Prod.mk.injEq, Except.ok.injEq] at h
    obtain ⟨hw, hz⟩ := h
    subst hw
    subst hz
    simp [World.emit, SZone.zero]

theorem constructFieldsFromCloudListenerRule_frame (env : Env) (w w2 : World)
    (lbr lbr2 : SLoadbalancerListenerRule) (extRule : ICloudLoadbalancerListenerRule)
    (h : lbr.constructFieldsFromCloudListenerRule env w extRule = some (w2, lbr2)) :
    lbr2.Id = lbr.Id ∧ lbr2.ExternalId = lbr.ExternalId ∧ lbr2.ListenerId = lbr.ListenerId
    ∧ lbr2.Deleted = lbr.Deleted ∧ lbr2.Name = lbr.Name ∧ lbr2.ManagerId = lbr.ManagerId
    ∧ lbr2.Domain = extRule.GetDomain ∧ lbr2.Path = extRule.GetPath
    ∧ w2.loadbalancerlistenerrules_tbl = w.loadbalancerlistenerrules_tbl := by
  unfold SLoadbalancerListenerRule.constructFieldsFromCloudListenerRule at h
  dsimp only at h
  split at h
  · split at h
    · simp at h
    · rename_i w3 hw3
      have hw : w3.loadbalancerlistenerrules_tbl = w.loadbalancerlistenerrules_tbl := by
        split at hw3
        · split at hw3
          · simp at hw3
          · split at hw3 <;> simp at hw3 <;> subst hw3 <;> simp [World.emit]
        · simp at hw3
          subst hw3
          rfl
      split at h <;> simp at h <;> obtain ⟨h1, h2⟩ := h <;> subst h1 <;> subst h2 <;>
        simp [hw]
  · simp at h
    obtain ⟨h1, h2⟩ := h
    subst h1
    subst h2
    simp

theorem newFromCloudLoadbalancerListenerRule_total (env : Env) (w : World)
    (listener : SLoadbalancerListener) (extRule : ICloudLoadbalancerListenerRule)
    (projectId : String) :
    (newFromCloudLoadbalancerListenerRule env w listener extRule projectId).isSome := by
  unfold newFromCloudLoadbalancerListenerRule
  dsimp only
  split
  · rename_i h
    unfold SLoadbalancerListenerRule.constructFieldsFromCloudListenerRule at h
    simp [SLoadbalancerListenerRule.zero] at h
    split at h
    · split at h <;> simp at h
    · simp at h
  · split <;> simp

theorem newFromCloudLoadbalancerListenerRule_ok (env : Env) (w : World)
    (listener : SLoadbalancerListener) (extRule : ICloudLoadbalancerListenerRule)
    (projectId : String) (w' : World) (lbr : SLoadbalancerListenerRule)
    (h : newFromCloudLoadbalancerListenerRule env w listener extRule projectId
      = some (w', .ok lbr)) :
    lbr.ExternalId = extRule.GetGlobalId ∧ lbr.ListenerId = listener.Id
    ∧ lbr.Deleted = false
    ∧ w'.loadbalancerlistenerrules_tbl.map
          (fun r => (r.Id, r.ExternalId, r.ListenerId, r.Deleted))
        = (w.loadbalancerlistenerrules_tbl ++ [lbr]).map
          (fun r => (r.Id, r.ExternalId, r.ListenerId, r.Deleted)) := by
  unfold newFromCloudLoadbalancerListenerRule at h
  dsimp only at h
  split at h
  · simp at h
  · rename_i w2 lbr2 hc
    obtain ⟨c1, c2, c3, c4, -, -, -, -, c9⟩ :=
      constructFieldsFromCloudListenerRule_frame env w w2 _ lbr2 extRule hc
    simp only [SLoadbalancerListenerRule.zero] at c1 c2 c3 c4
    split at h
    · simp at h
    · simp only [Option.some.injEq, Prod.mk.injEq, Except.ok.injEq] at h
      obtain ⟨hw, hl⟩ := h
      subst hw
      unfold SLoadbalancerListenerRule.SyncCloudProject at hl ⊢
      dsimp only at hl ⊢
      split at hl
      · rename_i ho
        simp only [ho]
        subst hl
        simp [World.emit, c2, c3, c4, c9]
      · rename_i owner ho
        simp only [ho]
        subst hl
        simp only [World.emit, c2, c3, c4, c9, true_and]
        rw [map_updateRows (fun r : SLoadbalancerListenerRule => r.Id) _ _
          (fun r : SLoadbalancerListenerRule => { r with ProjectId := owner })
          (fun r : SLoadbalancerListenerRule => (r.Id, r.ExternalId, r.ListenerId, r.Deleted))
          (fun _ => rfl)]
        simp [c2, c3, c4]

theorem getLoadbalancersByRegion_mem (env : Env) (w : World) (region : SCloudregion)
    (provider : SCloudprovider) (dbLbs : List SLoadbalancer)
    (h : getLoadbalancersByRegion env w region provider = .ok dbLbs) (L : SLoadbalancer)
    (hL : L ∈ w.loadbalancers_tbl) (hd : L.Deleted = false)
    (hr : L.CloudregionId = region.Id) (hm : L.ManagerId = provider.Id) : L ∈ dbLbs := by
  unfold getLoadbalancersByRegion at h
  split at h
  · simp at h
  · simp only [Except.ok.injEq] at h
    subst h
    simp [List.mem_filter, hL, hd, hr, hm]

theorem GetZonesByRegion_mem (env : Env) (w : World) (region : SCloudregion)
    (dbZones : List SZone) (h : GetZonesByRegion env w region = .ok dbZones) (L : SZone)
    (hL : L ∈ w.zones_tbl) (hd : L.Deleted = false) (hr : L.CloudregionId = region.Id) :
    L ∈ dbZones := by
  unfold GetZonesByRegion at h
  split at h
  · simp at h
  · simp only [Except.ok.injEq] at h
    subst h
    simp [List.mem_filter, hL, hd, hr]

theorem getLoadbalancerListenerRulesByListener_mem (env : Env) (w : World)
    (listener : SLoadbalancerListener) (dbRules : List SLoadbalancerListenerRule)
    (h : getLoadbalancerListenerRulesByListener env w listener = .ok dbRules)
    (L : SLoadbalancerListenerRule) (hL : L ∈ w.loadbalancerlistenerrules_tbl)
    (hd : L.Deleted = false) (hr : L.ListenerId = listener.Id) : L ∈ dbRules := by
  unfold getLoadbalancerListenerRulesByListener at h
  split at h
  · simp at h
  · simp only [Except.ok.injEq] at h
    subst h
    simp [List.mem_filter, hL, hd, hr]

theorem newFromCloudLoadbalancer_inserts (env : Env) (w : World) (provider : SCloudprovider)
    (extLb : ICloudLoadbalancer) (region : SCloudregion) (projectId : String)
    (hI : env.InsertErr (w.emit (.Insert "loadbalancer" extLb.GetGlobalId)) "loadbalancer"
      extLb.GetGlobalId = none) :
    ∃ w' lb, newFromCloudLoadbalancer env w provider extLb region projectId = (w', .ok lb) := by
  obtain ⟨k1, -, -, -⟩ := newFromCloudLoadbalancer.build_keys env w provider extLb region
    projectId
  unfold newFromCloudLoadbalancer
  simp only [k1, hI]
  exact ⟨_, _, rfl⟩

theorem newFromCloudLoadbalancer_insert_fails (env : Env) (w : World)
    (provider : SCloudprovider) (extLb : ICloudLoadbalancer) (region : SCloudregion)
    (projectId : String) (err : Err)
    (hI : env.InsertErr (w.emit (.Insert "loadbalancer" extLb.GetGlobalId)) "loadbalancer"
      extLb.GetGlobalId = some err) :
    newFromCloudLoadbalancer env w provider extLb region projectId
      = (w.emit (.Insert "loadbalancer" extLb.GetGlobalId), .error err) := by
  obtain ⟨k1, -, -, -⟩ := newFromCloudLoadbalancer.build_keys env w provider extLb region
    projectId
  unfold newFromCloudLoadbalancer
  simp only [k1, hI]

theorem newFromCloudZone_inserts (env : Env) (w : World) (ownerId : String)
    (extZone : ICloudZone) (region : SCloudregion)
    (hI : env.InsertErr (w.emit (.Insert "zone" extZone.GetGlobalId)) "zone"
      extZone.GetGlobalId = none) :
    ∃ w' zone, newFromCloudZone env w ownerId extZone region = (w', .ok zone) := by
  unfold newFromCloudZone
  simp only [hI]
  exact ⟨_, _, rfl⟩

theorem newFromCloudZone_insert_fails (env : Env) (w : World) (ownerId : String)
    (extZone : ICloudZone) (region : SCloudregion) (err : Err)
    (hI : env.InsertErr (w.emit (.Insert "zone" extZone.GetGlobalId)) "zone"
      extZone.GetGlobalId = some err) :
    newFromCloudZone env w ownerId extZone region
      = (w.emit (.Insert "zone" extZone.GetGlobalId), .error err) := by
  unfold newFromCloudZone
  simp only [hI]

/-- On the record `newFromCloudLoadbalancerListenerRule` starts from (no backend group
yet), `constructFieldsFromCloudListenerRule` returns, leaves the world as it is and keeps
the external id. -/
theorem constructFieldsFromCloudListenerRule_fresh (env : Env) (w : World)
    (lbr : SLoadbalancerListenerRule) (extRule : ICloudLoadbalancerListenerRule)
    (hg : lbr.BackendGroupId = "") :
    ∃ lbr2, lbr.constructFieldsFromCloudListenerRule env w extRule = some (w, lbr2)
      ∧ lbr2.ExternalId = lbr.ExternalId := by
  unfold SLoadbalancerListenerRule.constructFieldsFromCloudListenerRule
  simp only [hg]
  split
  · simp only [String.length, List.length_nil, gt_iff_lt, lt_self_iff_false, decide_False,
      Bool.and_false, Bool.false_eq_true, ↓reduceIte]
    split
    · exact ⟨_, rfl, rfl⟩
    · exact ⟨_, rfl, rfl⟩
  · exact ⟨_, rfl, rfl⟩

theorem newFromCloudLoadbalancerListenerRule_inserts (env : Env) (w : World)
    (listener : SLoadbalancerListener) (extRule : ICloudLoadbalancerListenerRule)
    (projectId : String)
    (hI : env.InsertErr (w.emit (.Insert "loadbalancerlistenerrule" extRule.GetGlobalId))
      "loadbalancerlistenerrule" extRule.GetGlobalId = none) :
    ∃ w' lbr, newFromCloudLoadbalancerListenerRule env w listener extRule projectId
      = some (w', .ok lbr) := by
  obtain ⟨lbr2, hc, he⟩ := constructFieldsFromCloudListenerRule_fresh env w
    { SLoadbalancerListenerRule.zero with
      ExternalId := extRule.GetGlobalId
      ListenerId := listener.Id
      ManagerId := listener.ManagerId
      Name := env.GenerateName w "loadbalancerlistenerrule" projectId extRule.GetName }
    extRule rfl
  unfold newFromCloudLoadbalancerListenerRule
  simp only [hc, he, hI]
  exact ⟨_, _, rfl⟩

theorem newFromCloudLoadbalancerListenerRule_insert_fails (env : Env) (w : World)
    (listener : SLoadbalancerListener) (extRule : ICloudLoadbalancerListenerRule)
    (projectId : String) (err : Err)
    (hI : env.InsertErr (w.emit (.Insert "loadbalancerlistenerrule" extRule.GetGlobalId))
      "loadbalancerlistenerrule" extRule.GetGlobalId = some err) :
    newFromCloudLoadbalancerListenerRule env w listener extRule projectId
      = some (w.emit (.Insert "loadbalancerlistenerrule" extRule.GetGlobalId),
          .error err) := by
  obtain ⟨lbr2, hc, he⟩ := constructFieldsFromCloudListenerRule_fresh env w
    { SLoadbalancerListenerRule.zero with
      ExternalId := extRule.GetGlobalId
      ListenerId := listener.Id
      ManagerId := listener.ManagerId
      Name := env.GenerateName w "loadbalancerlistenerrule" projectId extRule.GetName }
    extRule rfl
  unfold newFromCloudLoadbalancerListenerRule
  simp only [hc, he, hI]

end models

open models compare in
/-- C7: record built for an add-candidate. For a remote snapshot `R` whose insert succeeds
(`TableSpec().Insert` returns no error), `newFromCloudLoadbalancer`, `newFromCloudZone` and
`newFromCloudLoadbalancerListenerRule` return a record and no error, exactly one record is
appended to the table (the identity fields of the rows that were there are untouched), its
`ExternalId` is `R.GetGlobalId()` (for a load balancer its `ManagerId` is the provider id
and its `CloudregionId` the region id), and a following pass over any remote set
containing `R` pairs this record with `R` and does not add `R` again. When the insert
fails, the error of the insert is returned and the table is left as it was. -/
theorem C7_record_for_add_candidate :
    (∀ (env : models.Env) (w : models.World) (provider : SCloudprovider)
        (extLb : ICloudLoadbalancer) (region : SCloudregion) (projectId : String),
        (env.InsertErr (w.emit (.Insert "loadbalancer" extLb.GetGlobalId)) "loadbalancer"
            extLb.GetGlobalId = none →
          ∃ (w' : models.World) (lb : SLoadbalancer),
            newFromCloudLoadbalancer env w provider extLb region projectId = (w', .ok lb)
            ∧ lb.ExternalId = extLb.GetGlobalId ∧ lb.ManagerId = provider.Id
            ∧ lb.CloudregionId = region.Id
            ∧ w'.loadbalancers_tbl.map
                  (fun r => (r.Id, r.ExternalId, r.ManagerId, r.CloudregionId, r.Deleted))
                = (w.loadbalancers_tbl ++ [lb]).map
                  (fun r => (r.Id, r.ExternalId, r.ManagerId, r.CloudregionId, r.Deleted))
            ∧ ∀ (env2 : models.Env) (lbs : List ICloudLoadbalancer)
                (dbLbs : List SLoadbalancer)
                (p : Partition SLoadbalancer ICloudLoadbalancer), extLb ∈ lbs →
                getLoadbalancersByRegion env2
                  (w'.emit (.LockClass "loadbalancer" provider.ProjectId)) region provider
                    = .ok dbLbs →
                CompareSets (fun l : SLoadbalancer => l.ExternalId)
                  (fun r : ICloudLoadbalancer => r.GetGlobalId) dbLbs lbs = .ok p →
                extLb ∉ p.added
                ∧ ∃ L, L.Id = lb.Id ∧ (L, extLb) ∈ p.commondb.zip p.commonext)
        ∧ (∀ err, env.InsertErr (w.emit (.Insert "loadbalancer" extLb.GetGlobalId))
              "loadbalancer" extLb.GetGlobalId = some err →
            (newFromCloudLoadbalancer env w provider extLb region projectId).2 = .error err
            ∧ (newFromCloudLoadbalancer env w provider extLb region
                projectId).1.loadbalancers_tbl = w.loadbalancers_tbl))
    ∧ (∀ (env : models.Env) (w : models.World) (ownerId : String) (extZone : ICloudZone)
        (region : SCloudregion),
        (env.InsertErr (w.emit (.Insert "zone" extZone.GetGlobalId)) "zone"
            extZone.GetGlobalId = none →
          ∃ (w' : models.World) (zone : SZone),
            newFromCloudZone env w ownerId extZone region = (w', .ok zone)
            ∧ zone.ExternalId = extZone.GetGlobalId
            ∧ w'.zones_tbl = w.zones_tbl ++ [zone]
            ∧ ∀ (env2 : models.Env) (zones : List ICloudZone) (dbZones : List SZone)
                (p : Partition SZone ICloudZone), extZone ∈ zones →
                GetZonesByRegion env2 (w'.emit (.LockClass "zone" ownerId)) region
                  = .ok dbZones →
                CompareSets (fun l : SZone => l.ExternalId)
                  (fun r : ICloudZone => r.GetGlobalId) dbZones zones = .ok p →
                extZone ∉ p.added ∧ (zone, extZone) ∈ p.commondb.zip p.commonext)
        ∧ (∀ err, env.InsertErr (w.emit (.Insert "zone" extZone.GetGlobalId)) "zone"
              extZone.GetGlobalId = some err →
            (newFromCloudZone env w ownerId extZone region).2 = .error err
            ∧ (newFromCloudZone env w ownerId extZone region).1.zones_tbl = w.zones_tbl))
    ∧ (∀ (env : models.Env) (w : models.World) (listener : SLoadbalancerListener)
        (extRule : ICloudLoadbalancerListenerRule) (projectId : String),
        (env.InsertErr (w.emit (.Insert "loadbalancerlistenerrule" extRule.GetGlobalId))
            "loadbalancerlistenerrule" extRule.GetGlobalId = none →
          ∃ (w' : models.World) (lbr : SLoadbalancerListenerRule),
            newFromCloudLoadbalancerListenerRule env w listener extRule projectId
              = some (w', .ok lbr)
            ∧ lbr.ExternalId = extRule.GetGlobalId
            ∧ w'.loadbalancerlistenerrules_tbl.map
                  (fun r => (r.Id, r.ExternalId, r.ListenerId, r.Deleted))
                = (w.loadbalancerlistenerrules_tbl ++ [lbr]).map
                  (fun r => (r.Id, r.ExternalId, r.ListenerId, r.Deleted))
            ∧ ∀ (env2 : models.Env) (provider : SCloudprovider)
                (rules : List ICloudLoadbalancerListenerRule)
                (dbRules : List SLoadbalancerListenerRule)
                (p : Partition SLoadbalancerListenerRule ICloudLoadbalancerListenerRule),
                extRule ∈ rules →
                getLoadbalancerListenerRulesByListener env2
                  (w'.emit (.LockClass "loadbalancerlistenerrule" provider.ProjectId))
                  listener = .ok dbRules →
                CompareSets (fun l : SLoadbalancerListenerRule => l.ExternalId)
                  (fun r : ICloudLoadbalancerListenerRule => r.GetGlobalId) dbRules rules
                    = .ok p →
                extRule ∉ p.added
                ∧ ∃ L, L.Id = lbr.Id ∧ (L, extRule) ∈ p.commondb.zip p.commonext)
        ∧ (∀ err, env.InsertErr
              (w.emit (.Insert "loadbalancerlistenerrule" extRule.GetGlobalId))
              "loadbalancerlistenerrule" extRule.GetGlobalId = some err →
            (newFromCloudLoadbalancerListenerRule env w listener extRule projectId).map
                (fun out => (out.1.loadbalancerlistenerrules_tbl, out.2))
              = some (w.loadbalancerlistenerrules_tbl, .error err))) := by
  refine ⟨?_, ?_, ?_⟩
  · intro env w provider extLb region projectId
    refine ⟨fun hI => ?_, fun err hI => ?_⟩
    · obtain ⟨w', lb, h⟩ :=
        newFromCloudLoadbalancer_inserts env w provider extLb region projectId hI
      obtain ⟨k1, k2, k3, k4, k5⟩ :=
        newFromCloudLoadbalancer_ok env w provider extLb region projectId w' lb h
      refine ⟨w', lb, h, k1, k2, k3, k5, ?_⟩
      intro env2 lbs dbLbs p hmem hf hc
      have hin : (lb.Id, lb.ExternalId, lb.ManagerId, lb.CloudregionId, lb.Deleted)
          ∈ w'.loadbalancers_tbl.map
            (fun r => (r.Id, r.ExternalId, r.ManagerId, r.CloudregionId, r.Deleted)) := by
        rw [k5]
        simp
      obtain ⟨L, hL, hkey⟩ := List.mem_map.1 hin
      simp only [Prod.mk.injEq] at hkey
      obtain ⟨e1, e2, e3, e4, e5⟩ := hkey
      have hLdb : L ∈ dbLbs :=
        getLoadbalancersByRegion_mem env2 _ region provider dbLbs hf L hL (by rw [e5, k4])
          (by rw [e4, k3]) (by rw [e3, k2])
      obtain ⟨h1, h2⟩ := CompareSets_pair_present _ _ dbLbs lbs p hc L extLb hLdb hmem
        (by simp only [e2, k1])
      exact ⟨h1, L, e1, h2⟩
    · rw [newFromCloudLoadbalancer_insert_fails env w provider extLb region projectId err hI]
      exact ⟨rfl, rfl⟩
  · intro env w ownerId extZone region
    refine ⟨fun hI => ?_, fun err hI => ?_⟩
    · obtain ⟨w', zone, h⟩ := newFromCloudZone_inserts env w ownerId extZone region hI
      obtain ⟨k1, k2, k3, k4⟩ := newFromCloudZone_ok env w ownerId extZone region w' zone h
      refine ⟨w', zone, h, k1, k4, ?_⟩
      intro env2 zones dbZones p hmem hf hc
      have hLdb : zone ∈ dbZones :=
        GetZonesByRegion_mem env2 _ region dbZones hf zone
          (by simp [World.emit, k4]) k3 k2
      exact CompareSets_pair_present _ _ dbZones zones p hc zone extZone hLdb hmem k1
    · rw [newFromCloudZone_insert_fails env w ownerId extZone region err hI]
      exact ⟨rfl, rfl⟩
  · intro env w listener extRule projectId
    refine ⟨fun hI => ?_, fun err hI => ?_⟩
    · obtain ⟨w', lbr, h⟩ :=
        newFromCloudLoadbalancerListenerRule_inserts env w listener extRule projectId hI
      obtain ⟨k1, k2, k3, k5⟩ :=
        newFromCloudLoadbalancerListenerRule_ok env w listener extRule projectId w' lbr h
      refine ⟨w', lbr, h, k1, k5, ?_⟩
      intro env2 provider rules dbRules p hmem hf hc
      have hin : (lbr.Id, lbr.ExternalId, lbr.ListenerId, lbr.Deleted)
          ∈ w'.loadbalancerlistenerrules_tbl.map
            (fun r => (r.Id, r.ExternalId, r.ListenerId, r.Deleted)) := by
        rw [k5]
        simp
      obtain ⟨L, hL, hkey⟩ := List.mem_map.1 hin
      simp only [Prod.mk.injEq] at hkey
      obtain ⟨e1, e2, e3, e4⟩ := hkey
      have hLdb : L ∈ dbRules :=
        getLoadbalancerListenerRulesByListener_mem env2 _ listener dbRules hf L hL
          (by rw [e4, k3]) (by rw [e3, k2])
      obtain ⟨h1, h2⟩ := CompareSets_pair_present _ _ dbRules rules p hc L extRule hLdb hmem
        (by simp only [e2, k1])
      exact ⟨h1, L, e1, h2⟩
    · rw [newFromCloudLoadbalancerListenerRule_insert_fails env w listener extRule projectId
        err hI]
      rfl

open models compare examples in
/-- C7 at an add-candidate of each manager (the load balancer `ext-2` next to `lb1`, the
zone `ext-z2` next to `zone1`, the rule `ext-r2` next to `rule1`): the insert succeeds, a
record with the external id of the remote is returned and appended as the second row of
the table, and the next pass over both remotes updates two records and adds none. -/
theorem C7_record_for_add_candidate_witness :
    (quietEnv.InsertErr (worldLb1.emit (.Insert "loadbalancer" (extLb "ext-2").GetGlobalId))
        "loadbalancer" (extLb "ext-2").GetGlobalId = none
      ∧ ∃ (w' : models.World) (lb : SLoadbalancer),
          newFromCloudLoadbalancer quietEnv worldLb1 provider1 (extLb "ext-2") region1
            "proj-1" = (w', .ok lb)
          ∧ lb.ExternalId = "ext-2" ∧ lb.ManagerId = "mgr-1" ∧ lb.CloudregionId = "region-1")
    ∧ (newFromCloudLoadbalancer quietEnv worldLb1 provider1 (extLb "ext-2") region1
          "proj-1").1.loadbalancers_tbl.map (fun r => r.ExternalId) = ["ext-1", "ext-2"]
    ∧ (SyncLoadbalancers quietEnv
          (newFromCloudLoadbalancer quietEnv worldLb1 provider1 (extLb "ext-2") region1
            "proj-1").1 provider1 region1 [extLb "ext-1", extLb "ext-2"]).2.2.2
        = { SyncResult.empty with Updated := 2 }
    ∧ (quietEnv.InsertErr (worldZone1.emit (.Insert "zone" (extZone "ext-z2").GetGlobalId))
        "zone" (extZone "ext-z2").GetGlobalId = none
      ∧ ∃ (w' : models.World) (zone : SZone),
          newFromCloudZone quietEnv worldZone1 "" (extZone "ext-z2") region1 = (w', .ok zone)
          ∧ zone.ExternalId = "ext-z2" ∧ w'.zones_tbl = worldZone1.zones_tbl ++ [zone])
    ∧ (newFromCloudZone quietEnv worldZone1 "" (extZone "ext-z2")
          region1).1.zones_tbl.map (fun r => r.ExternalId) = ["ext-z1", "ext-z2"]
    ∧ (SyncZones quietEnv
          (newFromCloudZone quietEnv worldZone1 "" (extZone "ext-z2") region1).1 "" region1
          [extZone "ext-z1", extZone "ext-z2"]).2.2.2
        = { SyncResult.empty with Updated := 2 }
    ∧ (rulesEnv.InsertErr
          (worldRule1.emit
            (.Insert "loadbalancerlistenerrule" (extRule "ext-r2" "").GetGlobalId))
          "loadbalancerlistenerrule" (extRule "ext-r2" "").GetGlobalId = none
      ∧ ∃ (w' : models.World) (lbr : SLoadbalancerListenerRule),
          newFromCloudLoadbalancerListenerRule rulesEnv worldRule1 listener1
            (extRule "ext-r2" "") "proj-1" = some (w', .ok lbr)
          ∧ lbr.ExternalId = "ext-r2")
    ∧ (newFromCloudLoadbalancerListenerRule rulesEnv worldRule1 listener1
          (extRule "ext-r2" "") "proj-1").map
        (fun out => out.1.loadbalancerlistenerrules_tbl.map (fun r => r.ExternalId))
        = some ["ext-r1", "ext-r2"]
    ∧ ((newFromCloudLoadbalancerListenerRule rulesEnv worldRule1 listener1
          (extRule "ext-r2" "") "proj-1").bind (fun out =>
        (SyncLoadbalancerListenerRules rulesEnv out.1 provider1 listener1
          [extRule "ext-r1" "", extRule "ext-r2" ""]).map (fun r => r.2))
        = some { SyncResult.empty with Updated := 2 }) := by
  refine ⟨⟨rfl, ?_⟩, by decide, by decide, ⟨rfl, ?_⟩, by decide, by decide, ⟨rfl, ?_⟩,
    by decide, by decide⟩
  · obtain ⟨w', lb, h, h1, h2, h3, -, -⟩ :=
      (C7_record_for_add_candidate.1 quietEnv worldLb1 provider1 (extLb "ext-2") region1
        "proj-1").1 rfl
    exact ⟨w', lb, h, h1, h2, h3⟩
  · obtain ⟨w', zone, h, h1, h2, -⟩ :=
      (C7_record_for_add_candidate.2.1 quietEnv worldZone1 "" (extZone "ext-z2") region1).1 rfl
    exact ⟨w', zone, h, h1, h2⟩
  · obtain ⟨w', lbr, h, h1, -, -⟩ :=
      (C7_record_for_add_candidate.2.2 rulesEnv worldRule1 listener1 (extRule "ext-r2" "")
        "proj-1").1 rfl
    exact ⟨w', lbr, h, h1⟩

/-! ## Frame of the update of a load balancer -/

namespace models

theorem SLoadbalancer.SyncWithCloudLoadbalancer_record (env : Env) (w : World)
    (lb : SLoadbalancer) (extLb : ICloudLoadbalancer) (projectId : String) :
    (lb.SyncWithCloudLoadbalancer env w extLb projectId).2.1
      = { SLoadbalancer.copyFromCloud extLb lb with
          ProjectId := (lb.SyncWithCloudLoadbalancer env w extLb projectId).2.1.ProjectId } := by
  unfold SLoadbalancer.SyncWithCloudLoadbalancer SLoadbalancer.SyncCloudProject
    SLoadbalancer.dbUpdate
  dsimp only
  split <;> split <;> rfl

theorem SLoadbalancer.copyFromCloud_frame (extLb : ICloudLoadbalancer) (lb : SLoadbalancer) :
    (fun r : SLoadbalancer => (r.Id, r.Name, r.ExternalId, r.Deleted, r.ManagerId,
        r.AddressType, r.NetworkType, r.NetworkId, r.VpcId, r.ZoneId, r.CloudregionId,
        r.BackendGroupId, r.ProjectId)) (SLoadbalancer.copyFromCloud extLb lb)
      = (lb.Id, lb.Name, lb.ExternalId, lb.Deleted, lb.ManagerId, lb.AddressType,
          lb.NetworkType, lb.NetworkId, lb.VpcId, lb.ZoneId, lb.CloudregionId,
          lb.BackendGroupId, lb.ProjectId) := by
  unfold SLoadbalancer.copyFromCloud
  dsimp only
  split <;> rfl

theorem World.emit_loadbalancers_tbl (w : World) (e : Event) :
    (w.emit e).loadbalancers_tbl = w.loadbalancers_tbl := rfl

theorem SLoadbalancer.dbUpdate_table {γ : Type} (env : Env) (w : World) (lb : SLoadbalancer)
    (f : SLoadbalancer → SLoadbalancer) (g : SLoadbalancer → γ) (h : ∀ r, g (f r) = g r) :
    (lb.dbUpdate env w f).1.loadbalancers_tbl.map g = w.loadbalancers_tbl.map g := by
  unfold SLoadbalancer.dbUpdate
  dsimp only
  split
  · rfl
  · simp only [World.emit_loadbalancers_tbl]
    exact map_updateRows _ _ _ f g h

theorem SLoadbalancer.SyncCloudProject_table {γ : Type} (env : Env) (w : World)
    (lb : SLoadbalancer) (projectId extProjectId managerId : String) (g : SLoadbalancer → γ)
    (h : ∀ (r : SLoadbalancer) (owner : String), g { r with ProjectId := owner } = g r) :
    (lb.SyncCloudProject env w projectId extProjectId managerId).1.loadbalancers_tbl.map g
      = w.loadbalancers_tbl.map g := by
  unfold SLoadbalancer.SyncCloudProject
  dsimp only
  split
  · rfl
  · rename_i owner _
    simp only [World.emit_loadbalancers_tbl]
    exact map_updateRows _ _ _ _ g (fun r => h r owner)

theorem SLoadbalancer.SyncWithCloudLoadbalancer_table (env : Env) (w : World)
    (lb : SLoadbalancer) (extLb : ICloudLoadbalancer) (projectId : String) :
    (lb.SyncWithCloudLoadbalancer env w extLb projectId).1.loadbalancers_tbl.map
        (fun r => (r.Id, r.Name, r.ExternalId, r.Deleted, r.ManagerId, r.AddressType,
          r.NetworkType, r.NetworkId, r.VpcId, r.ZoneId, r.CloudregionId, r.BackendGroupId))
      = w.loadbalancers_tbl.map
        (fun r => (r.Id, r.Name, r.ExternalId, r.Deleted, r.ManagerId, r.AddressType,
          r.NetworkType, r.NetworkId, r.VpcId, r.ZoneId, r.CloudregionId, r.BackendGroupId)) := by
  have hc : ∀ r : SLoadbalancer,
      (fun r : SLoadbalancer => (r.Id, r.Name, r.ExternalId, r.Deleted, r.ManagerId,
        r.AddressType, r.NetworkType, r.NetworkId, r.VpcId, r.ZoneId, r.CloudregionId,
        r.BackendGroupId)) (SLoadbalancer.copyFromCloud extLb r)
      = (fun r : SLoadbalancer => (r.Id, r.Name, r.ExternalId, r.Deleted, r.ManagerId,
        r.AddressType, r.NetworkType, r.NetworkId, r.VpcId, r.ZoneId, r.CloudregionId,
        r.BackendGroupId)) r := by
    intro r
    have := SLoadbalancer.copyFromCloud_frame extLb r
    simp only [Prod.mk.injEq] at this ⊢
    obtain ⟨a1, a2, a3, a4, a5, a6, a7, a8, a9, a10, a11, a12, -⟩ := this
    exact ⟨a1, a2, a3, a4, a5, a6, a7, a8, a9, a10, a11, a12⟩
  have hp : ∀ (r : SLoadbalancer) (owner : String),
      (fun r : SLoadbalancer => (r.Id, r.Name, r.ExternalId, r.Deleted, r.ManagerId,
        r.AddressType, r.NetworkType, r.NetworkId, r.VpcId, r.ZoneId, r.CloudregionId,
        r.BackendGroupId)) { r with ProjectId := owner }
      = (fun r : SLoadbalancer => (r.Id, r.Name, r.ExternalId, r.Deleted, r.ManagerId,
        r.AddressType, r.NetworkType, r.NetworkId, r.VpcId, r.ZoneId, r.CloudregionId,
        r.BackendGroupId)) r := fun _ _ => rfl
  unfold SLoadbalancer.SyncWithCloudLoadbalancer
  dsimp only
  rw [World.emit_loadbalancers_tbl, SLoadbalancer_syncLoadbalancerNetwork_loadbalancers_tbl,
    SLoadbalancer.SyncCloudProject_table env _ _ _ _ _ _ hp,
    World.emit_loadbalancers_tbl, SLoadbalancer.dbUpdate_table env _ _ _ _ hc,
    World.emit_loadbalancers_tbl]

end models

open models compare examples in
/-- C8, as stated, fails: besides the five remote-authoritative fields,
`SyncWithCloudLoadbalancer` also rewrites the owner project of the record, through
`SyncCloudProject`: here the record of project `proj-1` ends up in project `proj-2`. -/
theorem C8_update_frame_counterexample :
    lb1.ProjectId = "proj-1"
    ∧ (lb1.SyncWithCloudLoadbalancer ownerEnv worldLb1 (extLb "ext-1") "proj-1").2.2 = none
    ∧ (lb1.SyncWithCloudLoadbalancer ownerEnv worldLb1 (extLb "ext-1") "proj-1").2.1.ProjectId
        = "proj-2"
    ∧ (lb1.SyncWithCloudLoadbalancer ownerEnv worldLb1 (extLb "ext-1")
          "proj-1").1.loadbalancers_tbl = [{ lb1 with ProjectId := "proj-2" }]
    ∧ (lb1.SyncWithCloudLoadbalancer ownerEnv worldLb1 (extLb "ext-1") "proj-1").2.1.ProjectId
        ≠ lb1.ProjectId := by
  refine ⟨rfl, ?_, ?_, ?_, ?_⟩ <;> decide

open models compare in
/-- C8, amended: for every load balancer record and every remote snapshot,
`SyncWithCloudLoadbalancer` changes only the remote-authoritative fields `Address`,
`Status`, `LoadbalancerSpec`, `ChargeType` and `LBInfo` (`LBInfo` only when the remote
metadata is non-nil) and the owner project id propagated by `SyncCloudProject`; the local
id, `ExternalId`, `Name`, `ManagerId`, `CloudregionId` and the network/vpc/zone references
are left unchanged, in the record in memory and in every row of the table, so an update
never alters how the record is matched on the next pass. -/
theorem C8_update_frame_amended (env : models.Env) (w : models.World) (lb : SLoadbalancer)
    (extLb : ICloudLoadbalancer) (projectId : String) :
    (lb.SyncWithCloudLoadbalancer env w extLb projectId).2.1
      = { lb with
          Address := extLb.GetAddress
          Status := extLb.GetStatus
          LoadbalancerSpec := extLb.GetLoadbalancerSpec
          ChargeType := extLb.GetChargeType
          LBInfo := (match extLb.GetMetadata with
            | some md => some md
            | none => lb.LBInfo)
          ProjectId := (lb.SyncWithCloudLoadbalancer env w extLb projectId).2.1.ProjectId }
    ∧ (lb.SyncWithCloudLoadbalancer env w extLb projectId).1.loadbalancers_tbl.map
        (fun r => (r.Id, r.Name, r.ExternalId, r.Deleted, r.ManagerId, r.AddressType,
          r.NetworkType, r.NetworkId, r.VpcId, r.ZoneId, r.CloudregionId, r.BackendGroupId))
      = w.loadbalancers_tbl.map
        (fun r => (r.Id, r.Name, r.ExternalId, r.Deleted, r.ManagerId, r.AddressType,
          r.NetworkType, r.NetworkId, r.VpcId, r.ZoneId, r.CloudregionId, r.BackendGroupId)) := by
  refine ⟨?_, SLoadbalancer.SyncWithCloudLoadbalancer_table env w lb extLb projectId⟩
  have h := SLoadbalancer.SyncWithCloudLoadbalancer_record env w lb extLb projectId
  rw [h]
  unfold SLoadbalancer.copyFromCloud
  dsimp only
  cases extLb.GetMetadata <;> rfl

open tasks examples in
/-- C9 at a failing input: a batch of two disks whose scheduler answer has the right
length, the first result containing neither `candidate` nor `error`. The first disk goes
through `onScheduleFail`; the loop then returns, so the second disk, whose result carries
a candidate, goes through neither `onScheduleSucc` nor `onScheduleFail` and is left in
status Scheduling. -/
theorem C9_unknown_result_skips_the_rest :
    [unknownResult, candidateResult "host-1"].length = [disk1, disk2].length
    ∧ (StartScheduleObjects (schedEnv [unknownResult, candidateResult "host-1"]) schedWorld
          task1 [disk1, disk2]).map (fun w => w.trace)
        = some [.LogEvent "disk-1" "allocating", .SetStatus "disk-1" SCHEDULE "",
            .LogEvent "disk-2" "allocating", .SetStatus "disk-2" SCHEDULE "",
            .SetStage "OnScheduleComplete", .DoSchedule 2,
            .LockObject "disk-1",
            .SetStatus "disk-1" SCHEDULE_FAILED
              "No matching resources: Unknown scheduler result {}",
            .LogEvent "disk-1" "alloc_fail",
            .NotifySystemError "disk-1" "disk-one" SCHEDULE_FAILED
              "No matching resources: Unknown scheduler result {}",
            .OnScheduleFailCallback "disk-1", .ReleaseObject "disk-1"]
    ∧ (StartScheduleObjects (schedEnv [unknownResult, candidateResult "host-1"]) schedWorld
          task1 [disk1, disk2]).map
          (fun w => (succCalls w.trace "disk-2", failCalls w.trace "disk-2",
            w.statusOf "disk-2"))
        = some (0, 0, some SCHEDULE) := by
  refine ⟨rfl, ?_, ?_⟩ <;> decide

open tasks examples in
/-- C10 at a failing input: a batch of one disk whose single scheduler result contains
neither `candidate` nor `error`. `onSchedulerResults` returns from inside the loop, so
`cancelPendingUsage` is not invoked at all and the pending usage of the task is never
cancelled; with an `error` result instead, it is invoked exactly once. -/
theorem C10_unknown_result_skips_cancel :
    [unknownResult].length = [disk1].length
    ∧ (doScheduleObjects (schedEnv [unknownResult]) schedWorld task1 [disk1]).map
          (fun w => (cancelPendingUsageCalls w.trace, quotaCancelCalls w.trace))
        = some (0, 0)
    ∧ (doScheduleObjects (schedEnv [errorResult "no host"]) schedWorld task1 [disk1]).map
          (fun w => (cancelPendingUsageCalls w.trace, quotaCancelCalls w.trace))
        = some (1, 1) := by
  refine ⟨rfl, ?_, ?_⟩ <;> decide

/-! ## Traces of the scheduling sub-protocol -/

namespace tasks

theorem IScheduleModel.SetStatus_trace (env : Env) (w : World) (obj : IScheduleModel)
    (status reason : String) :
    (obj.SetStatus env w status reason).1.trace
      = w.trace ++ [.SetStatus obj.Id status reason] := by
  unfold IScheduleModel.SetStatus
  dsimp only
  split <;> rfl

theorem onScheduleFail_trace (env : Env) (w : World) (task : IScheduleTask)
    (obj : IScheduleModel) (msg : String) :
    (onScheduleFail env w task obj msg).trace
      = w.trace ++ [.LockObject obj.Id, .SetStatus obj.Id SCHEDULE_FAILED (failReason msg),
          .LogEvent obj.Id "alloc_fail",
          .NotifySystemError obj.Id obj.Name SCHEDULE_FAILED (failReason msg),
          .OnScheduleFailCallback obj.Id, .ReleaseObject obj.Id] := by
  unfold onScheduleFail
  simp only [World.emit, IScheduleModel.SetStatus_trace, failReason, List.append_assoc,
    List.singleton_append, List.cons_append, List.nil_append]

theorem onScheduleSucc_trace (w : World) (task : IScheduleTask) (obj : IScheduleModel)
    (hostId : String) :
    (onScheduleSucc w task obj hostId).trace
      = w.trace ++ [.LockObject obj.Id, .SaveScheduleResult obj.Id hostId,
          .ClearSchedDescCache hostId, .ReleaseObject obj.Id] := by
  unfold onScheduleSucc
  simp [World.emit]

theorem cancelPendingUsage_trace (env : Env) (w : World) (task : IScheduleTask) :
    (cancelPendingUsage env w task).trace = w.trace ++ [.GetPendingUsage]
    ∨ ∃ owner usage, (cancelPendingUsage env w task).trace
        = w.trace ++ [.GetPendingUsage, .CancelPendingUsage owner usage] := by
  unfold cancelPendingUsage
  dsimp only
  split
  · left
    rfl
  · right
    rename_i pendingUsage _
    exact ⟨task.Params.GetString1 "owner_tenant_id", pendingUsage, by simp [World.emit]⟩

theorem World.statusOf_emit (w : World) (e : Event) (objId : String) :
    (w.emit e).statusOf objId = w.statusOf objId := rfl

theorem IScheduleModel.SetStatus_statusOf (env : Env) (w : World) (obj : IScheduleModel)
    (status reason : String)
    (h : env.SetStatusErr (w.emit (.SetStatus obj.Id status reason)) obj.Id = none) :
    (obj.SetStatus env w status reason).1.statusOf obj.Id = some status := by
  unfold IScheduleModel.SetStatus
  simp [h, World.statusOf]

theorem onSchedulerResults_loop_ext (P : List Event → Prop) (hP : TraceClosed P) (env : Env)
    (task : IScheduleTask) (results : List JSONObject) (objs : List IScheduleModel) :
    ∀ (idx succCount : Nat) (w : World) (ex : LoopExit),
      onSchedulerResults.loop env task results objs idx succCount w = some ex →
      ∃ ev, ex.w.trace = w.trace ++ ev ∧ P ev := by
  induction objs with
  | nil =>
    intro idx succCount w ex h
    simp only [onSchedulerResults.loop, Option.some.injEq] at h
    subst h
    exact ⟨[], by simp, hP.nil⟩
  | cons obj rest ih =>
    intro idx succCount w ex h
    unfold onSchedulerResults.loop at h
    split at h
    · simp at h
    · split at h
      · obtain ⟨ev, hev, hp⟩ := ih _ _ _ _ h
        exact ⟨_, by rw [hev, onScheduleSucc_trace, List.append_assoc],
          hP.append _ _ (hP.succ obj.Id _) hp⟩
      · split at h
        · obtain ⟨ev, hev, hp⟩ := ih _ _ _ _ h
          exact ⟨_, by rw [hev, onScheduleFail_trace, List.append_assoc],
            hP.append _ _ (hP.fail obj.Id obj.Name _) hp⟩
        · simp only [Option.some.injEq] at h
          subst h
          exact ⟨_, onScheduleFail_trace env w task obj _, hP.fail obj.Id obj.Name _⟩

theorem cancelPendingUsage_ext (P : List Event → Prop) (hP : TraceClosed P) (env : Env)
    (w : World) (task : IScheduleTask) :
    ∃ ev, (cancelPendingUsage env w task).trace = w.trace ++ ev ∧ P ev := by
  rcases cancelPendingUsage_trace env w task with h | ⟨o, u, h⟩
  · exact ⟨_, h, hP.getPending⟩
  · exact ⟨_, h, hP.cancel o u⟩

theorem onSchedulerResults_ext (P : List Event → Prop) (hP : TraceClosed P) (env : Env)
    (w w' : World) (task : IScheduleTask) (objs : List IScheduleModel)
    (results : List JSONObject) (h : onSchedulerResults env w task objs results = some w') :
    ∃ ev, w'.trace = w.trace ++ ev ∧ P ev := by
  unfold onSchedulerResults at h
  split at h
  · simp at h
  · rename_i ex hex
    obtain ⟨ev, hev, hp⟩ := onSchedulerResults_loop_ext P hP env task results objs 0 0 w ex hex
    split at h
    · simp only [Option.some.injEq] at h
      subst h
      exact ⟨ev, hev, hp⟩
    · simp only [Option.some.injEq] at h
      subst h
      split
      · obtain ⟨ev2, hev2, hp2⟩ := cancelPendingUsage_ext P hP env
          (ex.w.emit (.SetStageFailed "Schedule failed")) task
        refine ⟨ev ++ ([.SetStageFailed "Schedule failed"] ++ ev2), ?_,
          hP.append _ _ hp (hP.append _ _ (hP.stageFailed _) hp2)⟩
        rw [hev2]
        simp [World.emit, hev]
      · obtain ⟨ev2, hev2, hp2⟩ := cancelPendingUsage_ext P hP env ex.w task
        refine ⟨ev ++ ev2, ?_, hP.append _ _ hp hp2⟩
        rw [hev2, hev, List.append_assoc]

theorem onScheduleFail_foldl_ext (P : List Event → Prop) (hP : TraceClosed P) (env : Env)
    (task : IScheduleTask) (reason : String) (objs : List IScheduleModel) :
    ∀ w : World, ∃ ev,
      (objs.foldl (fun w obj => onScheduleFail env w task obj reason) w).trace
        = w.trace ++ ev ∧ P ev := by
  induction objs with
  | nil => intro w; exact ⟨[], by simp, hP.nil⟩
  | cons obj rest ih =>
    intro w
    obtain ⟨ev, hev, hp⟩ := ih (onScheduleFail env w task obj reason)
    exact ⟨_, by rw [List.foldl_cons, hev, onScheduleFail_trace, List.append_assoc],
      hP.append _ _ (hP.fail obj.Id obj.Name _) hp⟩

theorem onSchedulerRequestFail_ext (P : List Event → Prop) (hP : TraceClosed P) (env : Env)
    (w : World) (task : IScheduleTask) (objs : List IScheduleModel) (reason : String) :
    ∃ ev, (onSchedulerRequestFail env w task objs reason).trace = w.trace ++ ev ∧ P ev := by
  unfold onSchedulerRequestFail
  dsimp only
  obtain ⟨ev, hev, hp⟩ := onScheduleFail_foldl_ext P hP env task reason objs w
  obtain ⟨ev2, hev2, hp2⟩ := cancelPendingUsage_ext P hP env
    ((objs.foldl (fun w obj => onScheduleFail env w task obj reason) w).emit
      (.SetStageFailed ("Schedule failed: " ++ reason))) task
  refine ⟨ev ++ ([.SetStageFailed ("Schedule failed: " ++ reason)] ++ ev2), ?_,
    hP.append _ _ hp (hP.append _ _ (hP.stageFailed _) hp2)⟩
  rw [hev2]
  simp [World.emit, hev]

theorem doScheduleObjects_ext (P : List Event → Prop) (hP : TraceClosed P) (env : Env)
    (w w' : World) (task : IScheduleTask) (objs : List IScheduleModel)
    (h : doScheduleObjects env w task objs = some w') :
    ∃ ev, w'.trace
        = w.trace ++ [.SetStage "OnScheduleComplete", .DoSchedule objs.length] ++ ev
      ∧ P ev := by
  unfold doScheduleObjects at h
  dsimp only at h
  split at h
  · simp only [Option.some.injEq] at h
    subst h
    obtain ⟨ev, hev, hp⟩ := onSchedulerRequestFail_ext P hP env
      ((w.emit (.SetStage "OnScheduleComplete")).emit (.DoSchedule objs.length)) task objs _
    exact ⟨ev, by rw [hev]; simp [World.emit], hp⟩
  · obtain ⟨ev, hev, hp⟩ := onSchedulerResults_ext P hP env _ w' task objs _ h
    exact ⟨ev, by rw [hev]; simp [World.emit], hp⟩

theorem StartScheduleObjects_marking_trace (env : Env) (objs : List IScheduleModel) :
    ∀ w : World,
      (objs.foldl (fun w obj =>
          (obj.SetStatus env (w.emit (.LogEvent obj.Id "allocating")) SCHEDULE "").1) w).trace
        = w.trace ++ objs.flatMap (fun obj =>
            [.LogEvent obj.Id "allocating", .SetStatus obj.Id SCHEDULE ""]) := by
  induction objs with
  | nil => intro w; simp
  | cons obj rest ih =>
    intro w
    rw [List.foldl_cons, ih, IScheduleModel.SetStatus_trace]
    simp [World.emit, List.flatMap_cons]

theorem StartScheduleObjects_ext (P : List Event → Prop) (hP : TraceClosed P) (env : Env)
    (w w' : World) (task : IScheduleTask) (objs : List IScheduleModel)
    (h : StartScheduleObjects env w task objs = some w') :
    ∃ ev, w'.trace
        = w.trace ++ objs.flatMap (fun obj =>
            [.LogEvent obj.Id "allocating", .SetStatus obj.Id SCHEDULE ""])
          ++ [.SetStage "OnScheduleComplete", .DoSchedule objs.length] ++ ev
      ∧ P ev := by
  unfold StartScheduleObjects at h
  dsimp only at h
  obtain ⟨ev, hev, hp⟩ := doScheduleObjects_ext P hP env _ w' task objs h
  exact ⟨ev, by rw [hev, StartScheduleObjects_marking_trace], hp⟩

theorem onSchedulerResults_loop_isSome (env : Env) (task : IScheduleTask)
    (results : List JSONObject) (objs : List IScheduleModel) :
    ∀ (idx succCount : Nat) (w : World), idx + objs.length ≤ results.length →
      (onSchedulerResults.loop env task results objs idx succCount w).isSome := by
  induction objs with
  | nil => intro idx succCount w _; simp [onSchedulerResults.loop]
  | cons obj rest ih =>
    intro idx succCount w hlen
    unfold onSchedulerResults.loop
    simp only [List.length_cons] at hlen
    have hidx : idx < results.length := by omega
    rw [List.getElem?_eq_getElem hidx]
    dsimp only
    split
    · exact ih _ _ _ (by omega)
    · split
      · exact ih _ _ _ (by omega)
      · simp

theorem StartScheduleObjects_isSome (env : Env) (w : World) (task : IScheduleTask)
    (objs : List IScheduleModel)
    (h : ∀ (w : World) (results : List JSONObject),
      env.DoSchedule w objs.length = .ok results → objs.length ≤ results.length) :
    (StartScheduleObjects env w task objs).isSome := by
  unfold StartScheduleObjects doScheduleObjects
  dsimp only
  split
  · simp
  · rename_i results hr
    unfold onSchedulerResults
    have := onSchedulerResults_loop_isSome env task results objs 0 0
      (((objs.foldl (fun w obj =>
          (obj.SetStatus env (w.emit (.LogEvent obj.Id "allocating")) SCHEDULE "").1) w).emit
          (.SetStage "OnScheduleComplete")).emit (.DoSchedule objs.length))
      (by have := h _ results hr; omega)
    split
    · rename_i hn
      rw [hn] at this
      simp at this
    · split <;> simp


theorem afterStart_closed : TraceClosed (fun ev => ∀ e ∈ ev, afterStart e = true) where
  nil := by simp
  append := by
    intro a b ha hb e he
    rcases List.mem_append.1 he with h | h
    · exact ha e h
    · exact hb e h
  succ := by intro objId hostId e he; simp at he; rcases he with h | h | h | h <;> subst h <;> rfl
  fail := by
    intro objId name reason e he
    simp at he
    rcases he with h | h | h | h | h | h <;> subst h <;> rfl
  stageFailed := by intro r e he; simp at he; subst he; rfl
  getPending := by intro e he; simp at he; subst he; rfl
  cancel := by intro o u e he; simp at he; rcases he with h | h <;> subst h <;> rfl

theorem lockDiscipline_closed :
    TraceClosed (fun ev => ∀ held, lockDiscipline held ev = some held) where
  nil := by intro held; rfl
  append := by
    intro a b ha hb held
    unfold lockDiscipline at ha hb ⊢
    rw [List.foldlM_append, ha held]
    exact hb held
  succ := by intro objId hostId held; simp [lockDiscipline, lockStep]
  fail := by intro objId name reason held; simp [lockDiscipline, lockStep]
  stageFailed := by intro r held; simp [lockDiscipline, lockStep]
  getPending := by intro held; simp [lockDiscipline, lockStep]
  cancel := by intro o u held; simp [lockDiscipline, lockStep]

end tasks

theorem String_length_pos_iff (s : String) : 0 < s.length ↔ s ≠ "" := by
  constructor
  · intro h hs
    subst hs
    simp at h
  · intro h
    rcases s with ⟨l⟩
    cases l with
    | nil => exact absurd rfl h
    | cons c cs => simp [String.length]

open tasks examples in
/-- C11 at a failing input: a batch of two disks whose scheduler answer has the right
length; the first result carries an error, the second neither `candidate` nor `error`.
No disk is bound to a candidate, yet the loop of `onSchedulerResults` returns before the
`succCount == 0` test, so `task.SetStageFailed` is never invoked. With two `error`
results it is invoked once. -/
theorem C11_unknown_result_leaves_task_unfailed :
    [errorResult "no host", unknownResult].length = [disk1, disk2].length
    ∧ (doScheduleObjects (schedEnv [errorResult "no host", unknownResult]) schedWorld task1
          [disk1, disk2]).map
          (fun w => (succCalls w.trace "disk-1", succCalls w.trace "disk-2",
            stageFailedCalls w.trace)) = some (0, 0, 0)
    ∧ (doScheduleObjects (schedEnv [errorResult "no host", errorResult "no host"]) schedWorld
          task1 [disk1, disk2]).map
          (fun w => (succCalls w.trace "disk-1", succCalls w.trace "disk-2",
            stageFailedCalls w.trace)) = some (0, 0, 1) := by
  refine ⟨rfl, ?_, ?_⟩ <;> decide

open tasks examples in
/-- C12 at a failing input: a batch of three disks whose scheduler answer has the right
length; the results at index 0 and 2 carry a candidate, the result at index 1 neither
`candidate` nor `error`. The loop returns at index 1, so `SaveScheduleResult` is never
invoked for the disk at index 2 although its result carries a candidate. With an `error`
at index 1 instead (Scenario B) each disk is handled with its own result, in index
order. -/
theorem C12_unknown_result_breaks_correspondence :
    [candidateResult "host-1", unknownResult, candidateResult "host-3"].length
      = [disk1, disk2, disk3].length
    ∧ (doScheduleObjects
          (schedEnv [candidateResult "host-1", unknownResult, candidateResult "host-3"])
          schedWorld task1 [disk1, disk2, disk3]).map
          (fun w => (succCalls w.trace "disk-1", failCalls w.trace "disk-2",
            succCalls w.trace "disk-3", failCalls w.trace "disk-3")) = some (1, 1, 0, 0)
    ∧ (doScheduleObjects
          (schedEnv [candidateResult "host-1", errorResult "no host", candidateResult "host-3"])
          schedWorld task1 [disk1, disk2, disk3]).map
          (fun w => w.trace.filter (fun e =>
            match e with
            | .SaveScheduleResult _ _ => true
            | .SetStatus _ _ _ => true
            | _ => false))
        = some [.SaveScheduleResult "disk-1" "host-1",
            .SetStatus "disk-2" SCHEDULE_FAILED "No matching resources: no host",
            .SaveScheduleResult "disk-3" "host-3"] := by
  refine ⟨rfl, ?_, ?_⟩ <;> decide

open tasks in
/-- C13: start of scheduling. Whenever `StartScheduleObjects` returns, its trace is: for
every object of `objs`, in input order, one `SetStatus(SCHEDULE, "")` (preceded by the
allocating log entry); then `SetStage` and one `DoSchedule` request with count
`len(objs)`; then events among which there is no further `DoSchedule` and no further
status change to Scheduling. It returns whenever the scheduler fails or answers at least
`len(objs)` results. -/
theorem C13_start_of_scheduling (env : tasks.Env) (w : tasks.World) (task : IScheduleTask)
    (objs : List IScheduleModel) :
    (∀ w', StartScheduleObjects env w task objs = some w' →
      ∃ rest, w'.trace
          = w.trace ++ objs.flatMap (fun obj =>
              [.LogEvent obj.Id "allocating", .SetStatus obj.Id SCHEDULE ""])
            ++ [.SetStage "OnScheduleComplete", .DoSchedule objs.length] ++ rest
        ∧ ∀ e ∈ rest, afterStart e = true)
    ∧ ((∀ (w : tasks.World) (results : List JSONObject),
          env.DoSchedule w objs.length = .ok results → objs.length ≤ results.length) →
        (StartScheduleObjects env w task objs).isSome) :=
  ⟨fun w' h => StartScheduleObjects_ext _ afterStart_closed env w w' task objs h,
   StartScheduleObjects_isSome env w task objs⟩

open tasks examples in
/-- C13 at a batch of two disks: the first six events of the run. -/
theorem C13_start_of_scheduling_witness :
    (StartScheduleObjects (schedEnv [candidateResult "host-1", errorResult "no host"])
        schedWorld task1 [disk1, disk2]).isSome
    ∧ (StartScheduleObjects (schedEnv [candidateResult "host-1", errorResult "no host"])
        schedWorld task1 [disk1, disk2]).map (fun w => w.trace.take 6)
      = some [.LogEvent "disk-1" "allocating", .SetStatus "disk-1" SCHEDULE "",
          .LogEvent "disk-2" "allocating", .SetStatus "disk-2" SCHEDULE "",
          .SetStage "OnScheduleComplete", .DoSchedule 2] :=
  ⟨(C13_start_of_scheduling (schedEnv [candidateResult "host-1", errorResult "no host"])
      schedWorld task1 [disk1, disk2]).2 (fun _ _ h => by
        simp only [schedEnv, Except.ok.injEq] at h
        subst h
        decide),
    by decide⟩

open tasks in
/-- C14: handling of one schedule error. For every object and message, `onScheduleFail`
performs, between taking and releasing the object's lock: one
`SetStatus(SCHEDULE_FAILED, reason)` with the reason "No matching resources" when the
message is empty and "No matching resources: " followed by the message otherwise, the
allocation-failure log entry, exactly one `NotifySystemError` with the object's id, name,
the status ScheduleFailed and that same reason, and exactly one
`OnScheduleFailCallback` for the object; when the status write succeeds the object's
status is ScheduleFailed. -/
theorem C14_onScheduleFail (env : tasks.Env) (w : tasks.World) (task : IScheduleTask)
    (obj : IScheduleModel) (msg : String) :
    (msg = "" →
      (onScheduleFail env w task obj msg).trace
        = w.trace ++ [.LockObject obj.Id,
            .SetStatus obj.Id SCHEDULE_FAILED "No matching resources",
            .LogEvent obj.Id "alloc_fail",
            .NotifySystemError obj.Id obj.Name SCHEDULE_FAILED "No matching resources",
            .OnScheduleFailCallback obj.Id, .ReleaseObject obj.Id])
    ∧ (msg ≠ "" →
      (onScheduleFail env w task obj msg).trace
        = w.trace ++ [.LockObject obj.Id,
            .SetStatus obj.Id SCHEDULE_FAILED ("No matching resources: " ++ msg),
            .LogEvent obj.Id "alloc_fail",
            .NotifySystemError obj.Id obj.Name SCHEDULE_FAILED
              ("No matching resources: " ++ msg),
            .OnScheduleFailCallback obj.Id, .ReleaseObject obj.Id])
    ∧ (env.SetStatusErr
          ((w.emit (.LockObject obj.Id)).emit
            (.SetStatus obj.Id SCHEDULE_FAILED (failReason msg))) obj.Id = none →
        (onScheduleFail env w task obj msg).statusOf obj.Id = some SCHEDULE_FAILED) := by
  refine ⟨?_, ?_, ?_⟩
  · intro h
    subst h
    rw [onScheduleFail_trace]
    rfl
  · intro h
    rw [onScheduleFail_trace]
    have : failReason msg = "No matching resources: " ++ msg := by
      unfold failReason
      rw [if_pos ((String_length_pos_iff msg).2 h)]
      exact congrArg (fun p => p ++ msg)
        (by decide : "No matching resources" ++ ": " = "No matching resources: ")
    rw [this]
  · intro h
    unfold onScheduleFail
    simp only [World.statusOf_emit]
    exact IScheduleModel.SetStatus_statusOf env _ obj _ _ h

open tasks examples in
/-- C20 at a failing input: in a run of `StartScheduleObjects` over one disk the status
change to Scheduling is the second event of the trace, made before any lock is taken, so
the lock-discipline check of the whole trace reports a violation. The binding of the disk
to its candidate, later in the same trace, is made between `LockObject` and
`ReleaseObject`. -/
theorem C20_marking_without_object_lock :
    (StartScheduleObjects (schedEnv [candidateResult "host-1"]) schedWorld task1
        [disk1]).map (fun w => w.trace)
      = some [.LogEvent "disk-1" "allocating", .SetStatus "disk-1" SCHEDULE "",
          .SetStage "OnScheduleComplete", .DoSchedule 1,
          .LockObject "disk-1", .SaveScheduleResult "disk-1" "host-1",
          .ClearSchedDescCache "host-1", .ReleaseObject "disk-1",
          .GetPendingUsage, .CancelPendingUsage "proj-1" { Cpu := 0, Memory := 0, Storage := 20 }]
    ∧ (StartScheduleObjects (schedEnv [candidateResult "host-1"]) schedWorld task1
        [disk1]).map (fun w => lockDiscipline [] w.trace) = some none := by
  refine ⟨?_, ?_⟩ <;> decide

open tasks in
/-- Everything the scheduling sub-protocol does from the scheduler request on
(`doScheduleObjects`) keeps the lock discipline: every status change to ScheduleFailed
(`onScheduleFail`) and every binding of an object to a candidate (`SaveScheduleResult` in
`onScheduleSucc`) is made while that object's lock is held, and every lock that is
acquired is released before the function returns. In a run of `StartScheduleObjects`
these events come after the status changes to Scheduling. -/
theorem doScheduleObjects_lock_discipline (env : tasks.Env) (w : tasks.World)
    (task : IScheduleTask) (objs : List IScheduleModel) :
    (∀ w', doScheduleObjects env w task objs = some w' →
      ∃ ev, w'.trace = w.trace ++ [.SetStage "OnScheduleComplete", .DoSchedule objs.length]
          ++ ev
        ∧ ∀ held, lockDiscipline held ev = some held)
    ∧ (∀ w', StartScheduleObjects env w task objs = some w' →
      ∃ ev, w'.trace
          = w.trace ++ objs.flatMap (fun obj =>
              [.LogEvent obj.Id "allocating", .SetStatus obj.Id SCHEDULE ""])
            ++ [.SetStage "OnScheduleComplete", .DoSchedule objs.length] ++ ev
        ∧ ∀ held, lockDiscipline held ev = some held) :=
  ⟨fun w' h => doScheduleObjects_ext _ lockDiscipline_closed env w w' task objs h,
   fun w' h => StartScheduleObjects_ext _ lockDiscipline_closed env w w' task objs h⟩

namespace tasks

theorem SHost_SetStatus_trace (env : Env) (w : World) (host : SHost)
    (status reason : String) :
    (host.SetStatus env w status reason).1.trace
      = w.trace ++ [.SetStatus host.Id status reason] :=
  IScheduleModel.SetStatus_trace env w host.toModel status reason

theorem SHost_RealDelete_trace (benv : BaremetalEnv) (w : World) (host : SHost) :
    (host.RealDelete benv w).1.trace = w.trace ++ [.RealDelete host.Id] := by
  unfold SHost.RealDelete
  dsimp only
  split <;> rfl

theorem SHost_RealDelete_statusOf (benv : BaremetalEnv) (w : World) (host : SHost)
    (objId : String) :
    (host.RealDelete benv w).1.statusOf objId = w.statusOf objId := by
  unfold SHost.RealDelete
  dsimp only
  split <;> rfl

theorem OnDeleteBaremetalComplete_trace (benv : BaremetalEnv) (w : World)
    (baremetal : SHost) :
    (BaremetalDeleteTask.OnDeleteBaremetalComplete benv w baremetal).trace
      = w.trace ++ [.RealDelete baremetal.Id, .SetStageComplete] := by
  unfold BaremetalDeleteTask.OnDeleteBaremetalComplete
  simp [World.emit, SHost_RealDelete_trace]

theorem OnFailure_trace (env : Env) (w : World) (baremetal : SHost) :
    (BaremetalDeleteTask.OnFailure env w baremetal).trace
      = w.trace ++ [.SetStatus baremetal.Id BAREMETAL_DELETE_FAIL "", .SetStageFailed ""] := by
  unfold BaremetalDeleteTask.OnFailure
  simp [World.emit, SHost_SetStatus_trace]

theorem SHost_SetStatus_statusOf (env : Env) (w : World) (host : SHost)
    (status reason : String)
    (h : env.SetStatusErr (w.emit (.SetStatus host.Id status reason)) host.Id = none) :
    (host.SetStatus env w status reason).1.statusOf host.Id = some status :=
  IScheduleModel.SetStatus_statusOf env w host.toModel status reason h

theorem SHost_RealDelete_deleted (benv : BaremetalEnv) (w : World) (host : SHost)
    (h : benv.RealDeleteErr (w.emit (.RealDelete host.Id)) host.Id = none) :
    host.Id ∈ (host.RealDelete benv w).1.deleted := by
  unfold SHost.RealDelete
  simp [h]

theorem OnDeleteBaremetalComplete_statusOf (benv : BaremetalEnv) (w : World)
    (baremetal : SHost) (objId : String) :
    (BaremetalDeleteTask.OnDeleteBaremetalComplete benv w baremetal).statusOf objId
      = w.statusOf objId := by
  unfold BaremetalDeleteTask.OnDeleteBaremetalComplete
  simp only [World.statusOf_emit, SHost_RealDelete_statusOf]

theorem OnDeleteBaremetalComplete_deleted (benv : BaremetalEnv) (w : World)
    (baremetal : SHost)
    (h : benv.RealDeleteErr (w.emit (.RealDelete baremetal.Id)) baremetal.Id = none) :
    baremetal.Id ∈ (BaremetalDeleteTask.OnDeleteBaremetalComplete benv w baremetal).deleted := by
  unfold BaremetalDeleteTask.OnDeleteBaremetalComplete
  exact SHost_RealDelete_deleted benv w baremetal h

theorem OnFailure_statusOf (env : Env) (w : World) (baremetal : SHost)
    (h : env.SetStatusErr (w.emit (.SetStatus baremetal.Id BAREMETAL_DELETE_FAIL ""))
      baremetal.Id = none) :
    (BaremetalDeleteTask.OnFailure env w baremetal).statusOf baremetal.Id
      = some BAREMETAL_DELETE_FAIL := by
  unfold BaremetalDeleteTask.OnFailure
  simp only [World.statusOf_emit]
  exact SHost_SetStatus_statusOf env w baremetal _ _ h

end tasks

open tasks examples in
/-- C15 at a failing input: a batch of two disks, both with a candidate, for which
`SetStorage` fails. `onSchedulerResults` calls `SaveScheduleResult` for each disk and each
call invokes `SetStageFailed`: twice in total, the second time on a task that is already
failed. When `SetStorage` fails for the first disk only, the task is failed and then
still stores a pending usage and starts the creation of the second disk. When no
`SetStorage` fails, `SetStageFailed` is not invoked. -/
theorem C15_disk_batch_fails_task_twice :
    (DiskBatchCreateTask.onSchedulerResults
        (schedEnv [candidateResult "host-1", candidateResult "host-2"])
        (storageEnv ["disk-1", "disk-2"]) schedWorld task1
        [sdisk "disk-1" "disk-one", sdisk "disk-2" "disk-two"]
        [candidateResult "host-1", candidateResult "host-2"]).map
        (fun w => w.trace.filter (fun e =>
          match e with
          | .SaveScheduleResult _ _ => true
          | .SetStageFailed _ => true
          | _ => false))
      = some [.SaveScheduleResult "disk-1" "host-1", .SetStageFailed "storage gone",
          .SaveScheduleResult "disk-2" "host-2", .SetStageFailed "storage gone"]
    ∧ (DiskBatchCreateTask.onSchedulerResults
        (schedEnv [candidateResult "host-1", candidateResult "host-2"])
        (storageEnv ["disk-1", "disk-2"]) schedWorld task1
        [sdisk "disk-1" "disk-one", sdisk "disk-2" "disk-two"]
        [candidateResult "host-1", candidateResult "host-2"]).map
        (fun w => stageFailedCalls w.trace) = some 2
    ∧ (DiskBatchCreateTask.onSchedulerResults
        (schedEnv [candidateResult "host-1", candidateResult "host-2"])
        (storageEnv ["disk-1"]) schedWorld task1
        [sdisk "disk-1" "disk-one", sdisk "disk-2" "disk-two"]
        [candidateResult "host-1", candidateResult "host-2"]).map
        (fun w => w.trace.filter (fun e =>
          match e with
          | .SetStageFailed _ => true
          | .SetPendingUsage => true
          | .StartDiskCreateTask _ => true
          | _ => false))
      = some [.SetStageFailed "storage gone", .SetPendingUsage,
          .StartDiskCreateTask "disk-2"]
    ∧ (DiskBatchCreateTask.onSchedulerResults
        (schedEnv [candidateResult "host-1", candidateResult "host-2"])
        (storageEnv []) schedWorld task1
        [sdisk "disk-1" "disk-one", sdisk "disk-2" "disk-two"]
        [candidateResult "host-1", candidateResult "host-2"]).map
        (fun w => stageFailedCalls w.trace) = some 0 := by
  refine ⟨?_, ?_, ?_, ?_⟩ <;> decide

open tasks examples in
/-- C16, as stated, fails: the status does not always agree with the outcome. When the
status write of `OnFailure` fails, the task is failed (`SetStageFailed` is called once)
while the host stays in the deleting status; when `RealDelete` fails with the agent not
ready, the task is completed (`SetStageComplete` is called once) while the host is not
deleted and stays in the deleting status. -/
theorem C16_baremetal_delete_counterexample :
    stageFailedCalls
        (BaremetalDeleteTask.OnInit lateFailEnv (agentEnv true (some (.other "timeout")))
          schedWorld host1).trace = 1
    ∧ stageCompleteCalls
        (BaremetalDeleteTask.OnInit lateFailEnv (agentEnv true (some (.other "timeout")))
          schedWorld host1).trace = 0
    ∧ (BaremetalDeleteTask.OnInit lateFailEnv (agentEnv true (some (.other "timeout")))
          schedWorld host1).statusOf "host-1" = some BAREMETAL_DELETE
    ∧ BAREMETAL_DELETE ≠ BAREMETAL_DELETE_FAIL
    ∧ (BaremetalDeleteTask.OnInit lateFailEnv (agentEnv true (some (.other "timeout")))
          schedWorld host1).trace
        = [.SetStatus "host-1" BAREMETAL_DELETE "", .SetStage "OnDeleteBaremetalComplete",
            .BaremetalSyncRequest "POST" "/baremetals/host-1/delete",
            .SetStatus "host-1" BAREMETAL_DELETE_FAIL "", .SetStageFailed ""]
    ∧ stageCompleteCalls
        (BaremetalDeleteTask.OnInit (schedEnv []) (keptHostEnv false none)
          schedWorld host1).trace = 1
    ∧ stageFailedCalls
        (BaremetalDeleteTask.OnInit (schedEnv []) (keptHostEnv false none)
          schedWorld host1).trace = 0
    ∧ "host-1" ∉ (BaremetalDeleteTask.OnInit (schedEnv []) (keptHostEnv false none)
          schedWorld host1).deleted
    ∧ (BaremetalDeleteTask.OnInit (schedEnv []) (keptHostEnv false none)
          schedWorld host1).statusOf "host-1" = some BAREMETAL_DELETE
    ∧ (BaremetalDeleteTask.OnInit (schedEnv []) (keptHostEnv false none)
          schedWorld host1).trace
        = [.SetStatus "host-1" BAREMETAL_DELETE "", .RealDelete "host-1",
            .SetStageComplete] := by
  refine ⟨by decide, by decide, by decide, by decide, by decide, by decide, by decide,
    by decide, by decide, by decide⟩

open tasks in
/-- C16, amended: outcome of the baremetal delete task. Every run of
`BaremetalDeleteTask.OnInit` first sets the host status to the deleting status. If the
baremetal agent is not ready, or the delete request fails with a JSON client error of code
404, `RealDelete` is called on the host and then `SetStageComplete`; if the request fails
with any other error `SetStatus(BAREMETAL_DELETE_FAIL)` is called on the host and then
`SetStageFailed`; if the request succeeds the task waits in the stage
`OnDeleteBaremetalComplete`. On no path are both `SetStageComplete` and `SetStageFailed`
invoked. The status agrees with the outcome whenever the write in question succeeds (its
error is discarded by the task): a failed task leaves the host in `BAREMETAL_DELETE_FAIL`
when that status write succeeds, a task that is not failed leaves it in the deleting
status when the first status write succeeds, and a completed task has deleted the host
when `RealDelete` succeeds. -/
theorem C16_baremetal_delete_outcome (env : tasks.Env) (benv : BaremetalEnv)
    (w : tasks.World) (baremetal : SHost) :
    let w1 := (baremetal.SetStatus env w BAREMETAL_DELETE "").1
    let url := "/baremetals/" ++ baremetal.Id ++ "/delete"
    let w2 := (w1.emit (.SetStage "OnDeleteBaremetalComplete")).emit
      (.BaremetalSyncRequest "POST" url)
    let out := BaremetalDeleteTask.OnInit env benv w baremetal
    let first : List tasks.Event := [.SetStatus baremetal.Id BAREMETAL_DELETE ""]
    let sent : List tasks.Event :=
      [.SetStage "OnDeleteBaremetalComplete", .BaremetalSyncRequest "POST" url]
    let complete : List tasks.Event := [.RealDelete baremetal.Id, .SetStageComplete]
    let failed : List tasks.Event :=
      [.SetStatus baremetal.Id BAREMETAL_DELETE_FAIL "", .SetStageFailed ""]
    (benv.IsBaremetalAgentReady w1 baremetal = false →
      out.trace = w.trace ++ first ++ complete
      ∧ (benv.RealDeleteErr (w1.emit (.RealDelete baremetal.Id)) baremetal.Id = none →
          baremetal.Id ∈ out.deleted))
    ∧ (benv.IsBaremetalAgentReady w1 baremetal = true →
        ∀ details, benv.BaremetalSyncRequest w2 "POST" url
            = some (.JSONClientError 404 details) →
          out.trace = w.trace ++ first ++ sent ++ complete
          ∧ (benv.RealDeleteErr (w2.emit (.RealDelete baremetal.Id)) baremetal.Id = none →
              baremetal.Id ∈ out.deleted))
    ∧ (benv.IsBaremetalAgentReady w1 baremetal = true →
        ∀ err, benv.BaremetalSyncRequest w2 "POST" url = some err →
          (∀ details, err ≠ .JSONClientError 404 details) →
          out.trace = w.trace ++ first ++ sent ++ failed
          ∧ (env.SetStatusErr (w2.emit (.SetStatus baremetal.Id BAREMETAL_DELETE_FAIL ""))
                baremetal.Id = none →
              out.statusOf baremetal.Id = some BAREMETAL_DELETE_FAIL))
    ∧ (benv.IsBaremetalAgentReady w1 baremetal = true →
        benv.BaremetalSyncRequest w2 "POST" url = none →
          out.trace = w.trace ++ first ++ sent)
    ∧ (∃ evs, out.trace = w.trace ++ first ++ evs
        ∧ stageCompleteCalls evs + stageFailedCalls evs ≤ 1
        ∧ (stageFailedCalls evs = 0 →
            env.SetStatusErr (w.emit (.SetStatus baremetal.Id BAREMETAL_DELETE ""))
                baremetal.Id = none →
              out.statusOf baremetal.Id = some BAREMETAL_DELETE)) := by
  intro w1 url w2 out first sent complete failed
  have hw1 : w1.trace = w.trace ++ first := SHost_SetStatus_trace env w baremetal _ _
  have hw2 : w2.trace = w.trace ++ first ++ sent := by
    show (w1.trace ++ _) ++ _ = _
    rw [hw1]
    simp [sent]
  have hs1 : env.SetStatusErr (w.emit (.SetStatus baremetal.Id BAREMETAL_DELETE ""))
      baremetal.Id = none → w1.statusOf baremetal.Id = some BAREMETAL_DELETE :=
    SHost_SetStatus_statusOf env w baremetal _ _
  have hA : benv.IsBaremetalAgentReady w1 baremetal = false →
      out = BaremetalDeleteTask.OnDeleteBaremetalComplete benv w1 baremetal := by
    intro h
    show BaremetalDeleteTask.OnInit env benv w baremetal = _
    unfold BaremetalDeleteTask.OnInit
    simp [w1, h]
  have hB : benv.IsBaremetalAgentReady w1 baremetal = true →
      ∀ details, benv.BaremetalSyncRequest w2 "POST" url
          = some (.JSONClientError 404 details) →
      out = BaremetalDeleteTask.OnDeleteBaremetalComplete benv w2 baremetal := by
    intro h details hr
    show BaremetalDeleteTask.OnInit env benv w baremetal = _
    unfold BaremetalDeleteTask.OnInit
    simp only [w1, w2, url] at h hr ⊢
    simp [h, hr]
  have hC : benv.IsBaremetalAgentReady w1 baremetal = true →
      ∀ err, benv.BaremetalSyncRequest w2 "POST" url = some err →
      (∀ details, err ≠ .JSONClientError 404 details) →
      out = BaremetalDeleteTask.OnFailure env w2 baremetal := by
    intro h err hr hne
    show BaremetalDeleteTask.OnInit env benv w baremetal = _
    unfold BaremetalDeleteTask.OnInit
    simp only [w1, w2, url] at h hr ⊢
    cases err with
    | JSONClientError code details =>
      have hc : code ≠ 404 := fun hc => hne details (by rw [hc])
      simp [h, hr, hc]
    | other msg => simp [h, hr]
  have hD : benv.IsBaremetalAgentReady w1 baremetal = true →
      benv.BaremetalSyncRequest w2 "POST" url = none → out = w2 := by
    intro h hr
    show BaremetalDeleteTask.OnInit env benv w baremetal = _
    unfold BaremetalDeleteTask.OnInit
    simp only [w1, w2, url] at h hr ⊢
    simp [h, hr]
  have hs2 : w2.statusOf baremetal.Id = w1.statusOf baremetal.Id := rfl
  refine ⟨?_, ?_, ?_, ?_, ?_⟩
  · intro h
    rw [hA h]
    exact ⟨by rw [OnDeleteBaremetalComplete_trace, hw1],
      OnDeleteBaremetalComplete_deleted benv w1 baremetal⟩
  · intro h details hr
    rw [hB h details hr]
    exact ⟨by rw [OnDeleteBaremetalComplete_trace, hw2],
      OnDeleteBaremetalComplete_deleted benv w2 baremetal⟩
  · intro h err hr hne
    rw [hC h err hr hne]
    exact ⟨by rw [OnFailure_trace, hw2], OnFailure_statusOf env w2 baremetal⟩
  · intro h hr
    rw [hD h hr, hw2]
  · cases hready : benv.IsBaremetalAgentReady w1 baremetal with
    | false =>
      refine ⟨complete, ?_, by simp [stageCompleteCalls, stageFailedCalls, sent, complete, failed], fun _ hok => ?_⟩
      · rw [hA hready, OnDeleteBaremetalComplete_trace, hw1]
      · rw [hA hready, OnDeleteBaremetalComplete_statusOf]
        exact hs1 hok
    | true =>
      cases hreq : benv.BaremetalSyncRequest w2 "POST" url with
      | none =>
        refine ⟨sent, ?_, by simp [stageCompleteCalls, stageFailedCalls, sent, complete, failed], fun _ hok => ?_⟩
        · rw [hD hready hreq, hw2]
        · rw [hD hready hreq, hs2]
          exact hs1 hok
      | some err =>
        by_cases hnf : ∃ details, err = .JSONClientError 404 details
        · obtain ⟨details, rfl⟩ := hnf
          refine ⟨sent ++ complete, ?_, by simp [stageCompleteCalls, stageFailedCalls, sent, complete, failed], fun _ hok => ?_⟩
          · rw [hB hready details hreq, OnDeleteBaremetalComplete_trace, hw2]
            simp
          · rw [hB hready details hreq, OnDeleteBaremetalComplete_statusOf, hs2]
            exact hs1 hok
        · have hne : ∀ details, err ≠ .JSONClientError 404 details :=
            fun details hd => hnf ⟨details, hd⟩
          refine ⟨sent ++ failed, ?_, by simp [stageCompleteCalls, stageFailedCalls, sent, complete, failed], fun hz _ => ?_⟩
          · rw [hC hready err hreq hne, OnFailure_trace, hw2]
            simp
          · simp [stageFailedCalls, sent, failed] at hz

open tasks examples in
/-- C16, amended, at the three outcomes on `host1` when every write succeeds: with the
agent not ready and with the answer 404 the host is deleted, with another error of the
request the host is left in `BAREMETAL_DELETE_FAIL`. -/
theorem C16_baremetal_delete_outcome_witness :
    "host-1" ∈ (BaremetalDeleteTask.OnInit (schedEnv []) (agentEnv false none) schedWorld
        host1).deleted
    ∧ "host-1" ∈ (BaremetalDeleteTask.OnInit (schedEnv [])
        (agentEnv true (some (.JSONClientError 404 "not found"))) schedWorld host1).deleted
    ∧ (BaremetalDeleteTask.OnInit (schedEnv []) (agentEnv true (some (.other "timeout")))
        schedWorld host1).statusOf "host-1" = some BAREMETAL_DELETE_FAIL
    ∧ (BaremetalDeleteTask.OnInit (schedEnv []) (agentEnv true none)
        schedWorld host1).statusOf "host-1" = some BAREMETAL_DELETE :=
  ⟨((C16_baremetal_delete_outcome (schedEnv []) (agentEnv false none) schedWorld host1).1
      rfl).2 rfl,
    ((C16_baremetal_delete_outcome (schedEnv [])
      (agentEnv true (some (.JSONClientError 404 "not found"))) schedWorld host1).2.1
      rfl "not found" rfl).2 rfl,
    ((C16_baremetal_delete_outcome (schedEnv []) (agentEnv true (some (.other "timeout")))
      schedWorld host1).2.2.1 rfl (.other "timeout") rfl
      (fun _ h => by cases h)).2 rfl,
    by decide⟩

namespace models

open compare

theorem lockDiscipline_append (own : Bool) (kw : String) (s : LockState)
    (a b : List Event) :
    lockDiscipline own kw s (a ++ b)
      = (lockDiscipline own kw s a).bind (fun t => lockDiscipline own kw t b) := by
  unfold lockDiscipline
  rw [List.foldlM_append]
  rfl

theorem Balanced_nil (own : Bool) (kw : String) : Balanced own kw [] :=
  fun _ _ => rfl

theorem Balanced_append {own : Bool} {kw : String} {a b : List Event}
    (ha : Balanced own kw a) (hb : Balanced own kw b) : Balanced own kw (a ++ b) := by
  intro s hs
  rw [lockDiscipline_append, ha s hs]
  exact hb s hs

theorem BalancedIn_append {own : Bool} {kw id : String} {a b : List Event}
    (ha : BalancedIn own kw id a) (hb : BalancedIn own kw id b) :
    BalancedIn own kw id (a ++ b) := by
  intro s hs hm
  rw [lockDiscipline_append, ha s hs hm]
  exact hb s hs hm

theorem Balanced_toIn {own : Bool} {kw : String} (id : String) {a : List Event}
    (ha : Balanced own kw a) : BalancedIn own kw id a :=
  fun s hs _ => ha s hs

theorem lockStep_neutral (own : Bool) (kw : String) (s : LockState) (e : Event)
    (h : neutral own kw e = true) : lockStep own kw s e = some s := by
  cases e <;> first
    | (simp_all [neutral, lockStep, lockStep.write]; done)
    | (cases own <;> simp_all [neutral, lockStep, lockStep.write])

theorem Balanced_neutral {own : Bool} {kw : String} {evs : List Event}
    (h : ∀ e ∈ evs, neutral own kw e = true) : Balanced own kw evs := by
  induction evs with
  | nil => exact Balanced_nil own kw
  | cons e evs ih =>
    intro s hs
    unfold lockDiscipline
    rw [List.foldlM_cons, lockStep_neutral own kw s e (h e (List.mem_cons_self _ _))]
    exact ih (fun e he => h e (List.mem_cons_of_mem _ he)) s hs

theorem BalancedIn_write (own : Bool) (kw id : String) (e : Event)
    (h : ∀ s, lockStep own kw s e = lockStep.write kw s kw id) :
    BalancedIn own kw id [e] := by
  intro s hs hm
  unfold lockDiscipline
  rw [List.foldlM_cons, h]
  simp [lockStep.write, hs, hm]

theorem BalancedIn_SetStatus (own : Bool) (kw id status reason : String) :
    BalancedIn own kw id [.SetStatus kw id status reason] :=
  BalancedIn_write own kw id _ (fun _ => rfl)

theorem BalancedIn_Update (own : Bool) (kw id : String) :
    BalancedIn own kw id [.Update kw id] :=
  BalancedIn_write own kw id _ (fun _ => rfl)

theorem BalancedIn_Delete (own : Bool) (kw id : String) :
    BalancedIn own kw id [.Delete kw id] :=
  BalancedIn_write own kw id _ (fun _ => rfl)

theorem BalancedIn_SyncCloudProject (own : Bool) (kw id projectId : String) :
    BalancedIn own kw id [.SyncCloudProject kw id projectId] := by
  cases own with
  | true => exact BalancedIn_write true kw id _ (fun _ => rfl)
  | false => exact Balanced_toIn id (Balanced_neutral (by simp [neutral]))

theorem Balanced_locked {own : Bool} {kw id : String} {mid : List Event}
    (h : BalancedIn own kw id mid) :
    Balanced own kw (.LockObject kw id :: mid ++ [.ReleaseObject kw id]) := by
  intro s hs
  have h1 : lockDiscipline own kw s (.LockObject kw id :: mid ++ [.ReleaseObject kw id])
      = (lockDiscipline own kw { s with held := (kw, id) :: s.held } mid).bind
          (fun t => lockDiscipline own kw t [.ReleaseObject kw id]) := by
    rw [← lockDiscipline_append]
    rfl
  rw [h1, h { s with held := (kw, id) :: s.held } hs (List.mem_cons_self _ _)]
  simp [lockDiscipline, lockStep]

theorem Extends_refl (own : Bool) (kw : String) (w : World) : Extends own kw w w :=
  ⟨[], by simp, Balanced_nil own kw⟩

theorem Extends_trans {own : Bool} {kw : String} {w1 w2 w3 : World}
    (h12 : Extends own kw w1 w2) (h23 : Extends own kw w2 w3) : Extends own kw w1 w3 := by
  obtain ⟨a, ha, hba⟩ := h12
  obtain ⟨b, hb, hbb⟩ := h23
  exact ⟨a ++ b, by rw [hb, ha, List.append_assoc], Balanced_append hba hbb⟩

theorem Extends_emit (own : Bool) (kw : String) (w : World) (e : Event)
    (h : neutral own kw e = true) : Extends own kw w (w.emit e) :=
  ⟨[e], rfl, Balanced_neutral (by simpa using h)⟩

theorem Extends_of_trace {own : Bool} {kw : String} {w1 w2 w3 : World}
    (h : Extends own kw w1 w2) (ht : w3.trace = w2.trace) : Extends own kw w1 w3 := by
  obtain ⟨a, ha, hba⟩ := h
  exact ⟨a, by rw [ht, ha], hba⟩

theorem Extends_foldl {own : Bool} {kw : String} {σ α : Type} (f : σ → α → σ)
    (m : σ → World) (h : ∀ s a, Extends own kw (m s) (m (f s a))) (l : List α) (s : σ) :
    Extends own kw (m s) (m (l.foldl f s)) := by
  induction l generalizing s with
  | nil => exact Extends_refl own kw _
  | cons a l ih => exact Extends_trans (h s a) (ih (f s a))

theorem Extends_foldlM {own : Bool} {kw : String} {σ α : Type} (f : σ → α → Option σ)
    (m : σ → World) (h : ∀ s a t, f s a = some t → Extends own kw (m s) (m t))
    (l : List α) (s t : σ) (hs : l.foldlM f s = some t) :
    Extends own kw (m s) (m t) := by
  induction l generalizing s with
  | nil =>
    simp at hs
    subst hs
    exact Extends_refl own kw _
  | cons a l ih =>
    simp only [List.foldlM_cons, Option.bind_eq_bind] at hs
    cases hfa : f s a with
    | none => simp [hfa] at hs
    | some u =>
      rw [hfa] at hs
      exact Extends_trans (h s a u hfa) (ih u hs)

/-- A pass that takes the class lock, continues by balanced events and releases the class
lock passes the lock-discipline check from the state in which nothing is held. -/
theorem lockDiscipline_pass (own : Bool) (kw owner : String) (mid : List Event)
    (h : Balanced own kw mid) :
    lockDiscipline own kw { classHeld := false, held := [] }
        (.LockClass kw owner :: mid ++ [.ReleaseClass kw owner])
      = some { classHeld := false, held := [] } := by
  have h1 : lockDiscipline own kw { classHeld := false, held := [] }
        (.LockClass kw owner :: mid ++ [.ReleaseClass kw owner])
      = (lockDiscipline own kw { classHeld := true, held := [] } mid).bind
          (fun t => lockDiscipline own kw t [.ReleaseClass kw owner]) := by
    rw [← lockDiscipline_append]
    rfl
  rw [h1, h _ rfl]
  rfl


/-- Events made while the lock of a record is held, between taking and releasing it. -/
theorem Extends_locked {own : Bool} {kw id : String} {w w2 : World} {mid : List Event}
    (ht : w2.trace = w.trace ++ (.LockObject kw id :: mid ++ [.ReleaseObject kw id]))
    (h : BalancedIn own kw id mid) : Extends own kw w w2 :=
  ⟨_, ht, Balanced_locked h⟩

/-! ### Lock discipline of `SyncLoadbalancers` -/

theorem SLoadbalancer_SetStatus_trace (env : Env) (w : World) (lb : SLoadbalancer)
    (status reason : String) :
    (lb.SetStatus env w status reason).1.trace
      = w.trace ++ [.SetStatus "loadbalancer" lb.Id status reason] := by
  unfold SLoadbalancer.SetStatus
  dsimp only
  split <;> rfl

theorem syncRemoveCloudLoadbalancer_extends (own : Bool) (env : Env) (w : World)
    (lb : SLoadbalancer) :
    Extends own "loadbalancer" w (lb.syncRemoveCloudLoadbalancer env w).1 := by
  unfold SLoadbalancer.syncRemoveCloudLoadbalancer
  dsimp only
  split
  · refine Extends_locked (?_ : _ = _ ++ (_ :: [_] ++ _))
      (BalancedIn_SetStatus own "loadbalancer" lb.Id LB_STATUS_UNKNOWN "sync to delete")
    simp [World.emit, SLoadbalancer_SetStatus_trace]
  · refine Extends_locked (?_ : _ = _ ++ (_ :: [] ++ _))
      (Balanced_toIn lb.Id (Balanced_nil own "loadbalancer"))
    simp [World.emit, SLoadbalancer.Delete]

theorem SLoadbalancer_dbUpdate_trace (env : Env) (w : World) (lb : SLoadbalancer)
    (f : SLoadbalancer → SLoadbalancer) :
    (lb.dbUpdate env w f).1.trace = w.trace ++ [.Update "loadbalancer" lb.Id]
    ∧ (lb.dbUpdate env w f).2.1 = f lb := by
  unfold SLoadbalancer.dbUpdate
  dsimp only
  split <;> exact ⟨rfl, rfl⟩

theorem SLoadbalancer_SyncCloudProject_trace (env : Env) (w : World) (lb : SLoadbalancer)
    (projectId extProjectId managerId : String) :
    (lb.SyncCloudProject env w projectId extProjectId managerId).1.trace
      = w.trace ++ [.SyncCloudProject "loadbalancer" lb.Id projectId] := by
  unfold SLoadbalancer.SyncCloudProject
  dsimp only
  split <;> rfl

theorem SLoadbalancerNetwork_Delete_extends (own : Bool) (env : Env) (w : World)
    (ln : SLoadbalancerNetwork) : Extends own "loadbalancer" w (ln.Delete env w).1 := by
  refine ⟨[.Delete "loadbalancernetwork" ln.LoadbalancerId], ?_,
    Balanced_neutral (by simp [neutral])⟩
  unfold SLoadbalancerNetwork.Delete
  dsimp only
  split <;> rfl

theorem SLoadbalancernetworkManager_syncLoadbalancerNetwork_extends (own : Bool) (env : Env)
    (w : World) (req : SLoadbalancerNetworkRequestData) :
    Extends own "loadbalancer" w
      (SLoadbalancernetworkManager.syncLoadbalancerNetwork env w req).1 := by
  unfold SLoadbalancernetworkManager.syncLoadbalancerNetwork
  dsimp only
  split
  · exact Extends_refl _ _ _
  · split
    · exact Extends_refl _ _ _
    · split
      · exact Extends_refl _ _ _
      · split
        · exact Extends_refl _ _ _
        · split
          · refine ⟨[.Insert "loadbalancernetwork" req.Loadbalancer.Id], ?_,
              Balanced_neutral (by simp [neutral])⟩
            split <;> rfl
          · rename_i first rest _
            refine Extends_trans (?_ : Extends own "loadbalancer" w _)
              (Extends_foldl (fun w ln => (SLoadbalancerNetwork.Delete env w ln).1)
                (fun w => w) (fun w ln => SLoadbalancerNetwork_Delete_extends own env w ln)
                rest _)
            split
            · refine ⟨[.Update "loadbalancernetwork" first.LoadbalancerId], ?_,
                Balanced_neutral (by simp [neutral])⟩
              split <;> rfl
            · exact Extends_refl _ _ _

theorem SLoadbalancer_syncLoadbalancerNetwork_extends (own : Bool) (env : Env) (w : World)
    (lb : SLoadbalancer) : Extends own "loadbalancer" w (lb.syncLoadbalancerNetwork env w) := by
  unfold SLoadbalancer.syncLoadbalancerNetwork
  split
  · exact SLoadbalancernetworkManager_syncLoadbalancerNetwork_extends own env w _
  · exact Extends_refl _ _ _

theorem SLoadbalancer_SyncCloudProject_Id (env : Env) (w : World) (lb : SLoadbalancer)
    (projectId extProjectId managerId : String) :
    (lb.SyncCloudProject env w projectId extProjectId managerId).2.Id = lb.Id := by
  unfold SLoadbalancer.SyncCloudProject
  dsimp only
  split <;> rfl

theorem SyncWithCloudLoadbalancer_extends (own : Bool) (env : Env) (w : World)
    (lb : SLoadbalancer) (extLb : ICloudLoadbalancer) (projectId : String) :
    Extends own "loadbalancer" w (lb.SyncWithCloudLoadbalancer env w extLb projectId).1 := by
  have hid : (SLoadbalancer.copyFromCloud extLb lb).Id = lb.Id :=
    congrArg (fun t => t.1) (SLoadbalancer.copyFromCloud_frame extLb lb)
  obtain ⟨net, hnet, hbal⟩ := SLoadbalancer_syncLoadbalancerNetwork_extends own env
    ((lb.dbUpdate env (w.emit (.LockObject "loadbalancer" lb.Id))
        (SLoadbalancer.copyFromCloud extLb)).2.1.SyncCloudProject env
      ((lb.dbUpdate env (w.emit (.LockObject "loadbalancer" lb.Id))
        (SLoadbalancer.copyFromCloud extLb)).1.emit (.LogSyncUpdate "loadbalancer" lb.Id))
      projectId extLb.GetProjectId
      (lb.dbUpdate env (w.emit (.LockObject "loadbalancer" lb.Id))
        (SLoadbalancer.copyFromCloud extLb)).2.1.ManagerId).1
    ((lb.dbUpdate env (w.emit (.LockObject "loadbalancer" lb.Id))
        (SLoadbalancer.copyFromCloud extLb)).2.1.SyncCloudProject env
      ((lb.dbUpdate env (w.emit (.LockObject "loadbalancer" lb.Id))
        (SLoadbalancer.copyFromCloud extLb)).1.emit (.LogSyncUpdate "loadbalancer" lb.Id))
      projectId extLb.GetProjectId
      (lb.dbUpdate env (w.emit (.LockObject "loadbalancer" lb.Id))
        (SLoadbalancer.copyFromCloud extLb)).2.1.ManagerId).2
  refine Extends_locked
    (?_ : _ = _ ++ (_ :: ([.Update "loadbalancer" lb.Id]
      ++ ([.LogSyncUpdate "loadbalancer" lb.Id]
      ++ ([.SyncCloudProject "loadbalancer" lb.Id projectId] ++ net))) ++ _))
    (BalancedIn_append (BalancedIn_Update own "loadbalancer" lb.Id)
      (BalancedIn_append (Balanced_toIn lb.Id (Balanced_neutral (by simp [neutral])))
        (BalancedIn_append (BalancedIn_SyncCloudProject own "loadbalancer" lb.Id projectId)
          (Balanced_toIn lb.Id hbal))))
  unfold SLoadbalancer.SyncWithCloudLoadbalancer
  dsimp only
  show (_ ++ [_] : List Event) = _
  rw [hnet, SLoadbalancer_SyncCloudProject_trace]
  simp only [World.emit, (SLoadbalancer_dbUpdate_trace env _ lb _).1,
    (SLoadbalancer_dbUpdate_trace env _ lb _).2, hid]
  simp

theorem SLoadbalancer_SyncCloudProject_extends (env : Env) (w : World) (lb : SLoadbalancer)
    (projectId extProjectId managerId : String) :
    Extends false "loadbalancer" w
      (lb.SyncCloudProject env w projectId extProjectId managerId).1 :=
  ⟨_, SLoadbalancer_SyncCloudProject_trace env w lb projectId extProjectId managerId,
    Balanced_neutral (by simp [neutral])⟩

theorem newFromCloudLoadbalancer_extends (env : Env) (w : World) (provider : SCloudprovider)
    (extLb : ICloudLoadbalancer) (region : SCloudregion) (projectId : String) :
    Extends false "loadbalancer" w
      (newFromCloudLoadbalancer env w provider extLb region projectId).1 := by
  unfold newFromCloudLoadbalancer
  dsimp only
  split
  · exact Extends_emit _ _ _ _ rfl
  · refine Extends_trans ?_ (SLoadbalancer_syncLoadbalancerNetwork_extends false env _ _)
    refine Extends_trans ?_ (Extends_emit _ _ _ _ rfl)
    refine Extends_trans ?_ (SLoadbalancer_SyncCloudProject_extends env _ _ _ _ _)
    exact Extends_of_trace (Extends_emit _ _ w (.Insert "loadbalancer" _) rfl) rfl

theorem SyncLoadbalancers_loops_extends (env : Env) (provider : SCloudprovider)
    (region : SCloudregion) (p : Partition SLoadbalancer ICloudLoadbalancer) (w : World) :
    Extends false "loadbalancer" w (SyncLoadbalancers.loops env provider region p w).w := by
  unfold SyncLoadbalancers.loops
  dsimp only
  refine Extends_trans (Extends_trans
    (Extends_foldl (SyncLoadbalancers.removeStep env) (fun acc => acc.w) ?_ p.removed _)
    (Extends_foldl (SyncLoadbalancers.updateStep env provider) (fun acc => acc.w) ?_
      (p.commondb.zip p.commonext) _))
    (Extends_foldl (SyncLoadbalancers.addStep env provider region) (fun acc => acc.w) ?_
      p.added _)
  · intro acc lb
    have h := syncRemoveCloudLoadbalancer_extends false env acc.w lb
    unfold SyncLoadbalancers.removeStep
    dsimp only
    split <;> exact h
  · intro acc c
    have h := SyncWithCloudLoadbalancer_extends false env acc.w c.1 c.2 provider.ProjectId
    unfold SyncLoadbalancers.updateStep
    dsimp only
    split
    · exact h
    · exact Extends_trans h (Extends_emit _ _ _ _ rfl)
  · intro acc extLb
    have h := newFromCloudLoadbalancer_extends env acc.w provider extLb region
      provider.ProjectId
    unfold SyncLoadbalancers.addStep
    dsimp only
    split
    · exact h
    · exact Extends_trans h (Extends_emit _ _ _ _ rfl)

theorem SyncLoadbalancers_locks (env : Env) (w : World) (provider : SCloudprovider)
    (region : SCloudregion) (lbs : List ICloudLoadbalancer) :
    ∃ mid, (SyncLoadbalancers env w provider region lbs).1.trace
        = w.trace ++ .LockClass "loadbalancer" provider.ProjectId :: mid
          ++ [.ReleaseClass "loadbalancer" provider.ProjectId]
      ∧ Balanced false "loadbalancer" mid
      ∧ (∀ err, env.FetchModelObjectsErr
            (w.emit (.LockClass "loadbalancer" provider.ProjectId)) "loadbalancer" = some err →
          mid = []) := by
  unfold SyncLoadbalancers
  dsimp only
  split
  · exact ⟨[], by simp [World.emit], Balanced_nil _ _, fun _ _ => rfl⟩
  · rename_i dbLbs hfetch
    have hno : ∀ err, env.FetchModelObjectsErr
        (w.emit (.LockClass "loadbalancer" provider.ProjectId)) "loadbalancer" = some err →
        False := by
      intro err herr
      unfold getLoadbalancersByRegion at hfetch
      rw [herr] at hfetch
      simp at hfetch
    split
    · exact ⟨[], by simp [World.emit], Balanced_nil _ _, fun _ _ => rfl⟩
    · rename_i p _
      obtain ⟨mid, hmid, hbal⟩ := SyncLoadbalancers_loops_extends env provider region p
        (w.emit (.LockClass "loadbalancer" provider.ProjectId))
      refine ⟨mid, ?_, hbal, fun err herr => (hno err herr).elim⟩
      show (_ ++ [_] : List Event) = _
      rw [hmid]
      simp [World.emit]

/-! ### Lock discipline of `SyncZones` -/

theorem SZone_SetStatus_trace (env : Env) (w : World) (zone : SZone)
    (status reason : String) :
    (zone.SetStatus env w status reason).1.trace
      = w.trace ++ [.SetStatus "zone" zone.Id status reason] := by
  unfold SZone.SetStatus
  dsimp only
  split <;> rfl

theorem SZone_Delete_trace (env : Env) (w : World) (zone : SZone) :
    (zone.Delete env w).1.trace = w.trace ++ [.Delete "zone" zone.Id] := by
  unfold SZone.Delete
  dsimp only
  split <;> rfl

theorem syncRemoveCloudZone_extends (own : Bool) (env : Env) (w : World) (zone : SZone) :
    Extends own "zone" w (zone.syncRemoveCloudZone env w).1 := by
  unfold SZone.syncRemoveCloudZone
  dsimp only
  split
  · refine Extends_locked (?_ : _ = _ ++ (_ :: [_] ++ _))
      (BalancedIn_SetStatus own "zone" zone.Id ZONE_DISABLE "sync to delete")
    simp [World.emit, SZone_SetStatus_trace]
  · refine Extends_locked (?_ : _ = _ ++ (_ :: [_] ++ _))
      (BalancedIn_Delete own "zone" zone.Id)
    simp [World.emit, SZone_Delete_trace]

theorem SZone_dbUpdateWithLock_extends (own : Bool) (env : Env) (w : World) (zone : SZone)
    (f : SZone → SZone) : Extends own "zone" w (zone.dbUpdateWithLock env w f).1 := by
  refine Extends_locked (?_ : _ = _ ++ (_ :: [_] ++ _)) (BalancedIn_Update own "zone" zone.Id)
  unfold SZone.dbUpdateWithLock
  dsimp only
  split <;> simp [World.emit]

theorem syncWithCloudZone_extends (own : Bool) (env : Env) (w : World) (zone : SZone)
    (extZone : ICloudZone) (region : SCloudregion) :
    Extends own "zone" w (zone.syncWithCloudZone env w extZone region).1 := by
  have h := SZone_dbUpdateWithLock_extends own env w zone (SZone.copyFromCloud extZone region)
  unfold SZone.syncWithCloudZone
  dsimp only
  split
  · exact h
  · exact Extends_trans h (Extends_emit _ _ _ _ rfl)

theorem newFromCloudZone_extends (own : Bool) (env : Env) (w : World) (ownerId : String)
    (extZone : ICloudZone) (region : SCloudregion) :
    Extends own "zone" w (newFromCloudZone env w ownerId extZone region).1 := by
  unfold newFromCloudZone
  dsimp only
  split
  · exact Extends_emit _ _ _ _ rfl
  · refine Extends_trans ?_ (Extends_emit _ _ _ _ rfl)
    exact Extends_of_trace (Extends_emit _ _ w (.Insert "zone" _) rfl) rfl

theorem SyncZones_loops_extends (own : Bool) (env : Env) (ownerId : String)
    (region : SCloudregion) (p : Partition SZone ICloudZone) (w : World) :
    Extends own "zone" w (SyncZones.loops env ownerId region p w).w := by
  unfold SyncZones.loops
  dsimp only
  refine Extends_trans (Extends_trans
    (Extends_foldl (SyncZones.removeStep env) (fun acc => acc.w) ?_ p.removed _)
    (Extends_foldl (SyncZones.updateStep env region) (fun acc => acc.w) ?_
      (p.commondb.zip p.commonext) _))
    (Extends_foldl (SyncZones.addStep env ownerId region) (fun acc => acc.w) ?_ p.added _)
  · intro acc zone
    have h := syncRemoveCloudZone_extends own env acc.w zone
    unfold SyncZones.removeStep
    dsimp only
    split <;> exact h
  · intro acc c
    have h := syncWithCloudZone_extends own env acc.w c.1 c.2 region
    unfold SyncZones.updateStep
    dsimp only
    split
    · exact h
    · exact Extends_trans h (Extends_emit _ _ _ _ rfl)
  · intro acc extZone
    have h := newFromCloudZone_extends own env acc.w ownerId extZone region
    unfold SyncZones.addStep
    dsimp only
    split
    · exact h
    · exact Extends_trans h (Extends_emit _ _ _ _ rfl)

theorem SyncZones_locks (own : Bool) (env : Env) (w : World) (ownerId : String)
    (region : SCloudregion) (zones : List ICloudZone) :
    ∃ mid, (SyncZones env w ownerId region zones).1.trace
        = w.trace ++ .LockClass "zone" ownerId :: mid ++ [.ReleaseClass "zone" ownerId]
      ∧ Balanced own "zone" mid
      ∧ (∀ err, env.FetchModelObjectsErr (w.emit (.LockClass "zone" ownerId)) "zone"
            = some err → mid = []) := by
  unfold SyncZones
  dsimp only
  split
  · exact ⟨[], by simp [World.emit], Balanced_nil _ _, fun _ _ => rfl⟩
  · rename_i dbZones hfetch
    have hno : ∀ err, env.FetchModelObjectsErr (w.emit (.LockClass "zone" ownerId)) "zone"
        = some err → False := by
      intro err herr
      unfold GetZonesByRegion at hfetch
      rw [herr] at hfetch
      simp at hfetch
    split
    · exact ⟨[], by simp [World.emit], Balanced_nil _ _, fun _ _ => rfl⟩
    · rename_i p _
      obtain ⟨mid, hmid, hbal⟩ := SyncZones_loops_extends own env ownerId region p
        (w.emit (.LockClass "zone" ownerId))
      refine ⟨mid, ?_, hbal, fun err herr => (hno err herr).elim⟩
      show (_ ++ [_] : List Event) = _
      rw [hmid]
      simp [World.emit]

/-! ### Lock discipline of `SyncLoadbalancerListenerRules` -/

theorem ListenerRule_SetStatus_trace (env : Env) (w : World)
    (lbr : SLoadbalancerListenerRule) (status reason : String) :
    (lbr.SetStatus env w status reason).1.trace
      = w.trace ++ [.SetStatus "loadbalancerlistenerrule" lbr.Id status reason] := by
  unfold SLoadbalancerListenerRule.SetStatus
  dsimp only
  split <;> rfl

theorem syncRemoveCloudLoadbalancerListenerRule_extends (own : Bool) (env : Env) (w : World)
    (lbr : SLoadbalancerListenerRule) :
    Extends own "loadbalancerlistenerrule" w
      (lbr.syncRemoveCloudLoadbalancerListenerRule env w).1 := by
  unfold SLoadbalancerListenerRule.syncRemoveCloudLoadbalancerListenerRule
  dsimp only
  split
  · refine Extends_locked (?_ : _ = _ ++ (_ :: [_] ++ _))
      (BalancedIn_SetStatus own "loadbalancerlistenerrule" lbr.Id LB_STATUS_UNKNOWN
        "sync to delete")
    simp [World.emit, ListenerRule_SetStatus_trace]
  · refine Extends_locked (?_ : _ = _ ++ (_ :: [] ++ _))
      (Balanced_toIn lbr.Id (Balanced_nil own "loadbalancerlistenerrule"))
    simp [World.emit, SLoadbalancerListenerRule.Delete]

theorem constructFieldsFromCloudListenerRule_extends (own : Bool) (env : Env) (w : World)
    (lbr : SLoadbalancerListenerRule) (extRule : ICloudLoadbalancerListenerRule)
    (out : World × SLoadbalancerListenerRule)
    (h : lbr.constructFieldsFromCloudListenerRule env w extRule = some out) :
    Extends own "loadbalancerlistenerrule" w out.1 := by
  unfold SLoadbalancerListenerRule.constructFieldsFromCloudListenerRule at h
  dsimp only at h
  split at h
  · split at h
    · exact absurd h (by simp)
    · rename_i w2 hr
      have hw2 : Extends own "loadbalancerlistenerrule" w w2 := by
        split at hr
        · split at hr
          · exact absurd hr (by simp)
          · split at hr
            · simp only [Option.some.injEq] at hr
              subst hr
              exact Extends_emit _ _ _ _ rfl
            · simp only [Option.some.injEq] at hr
              subst hr
              exact Extends_refl _ _ _
        · simp only [Option.some.injEq] at hr
          subst hr
          exact Extends_refl _ _ _
      split at h <;>
        (simp only [Option.some.injEq] at h; subst h; exact hw2)
  · simp only [Option.some.injEq] at h
    subst h
    exact Extends_refl _ _ _


theorem ListenerRule_SyncCloudProject_extends (env : Env) (w : World)
    (lbr : SLoadbalancerListenerRule) (projectId extProjectId managerId : String) :
    Extends false "loadbalancerlistenerrule" w
      (lbr.SyncCloudProject env w projectId extProjectId managerId).1 := by
  refine ⟨[.SyncCloudProject "loadbalancerlistenerrule" lbr.Id projectId], ?_,
    Balanced_neutral (by simp [neutral])⟩
  unfold SLoadbalancerListenerRule.SyncCloudProject
  dsimp only
  split <;> rfl

theorem SyncWithCloudLoadbalancerListenerRule_extends (env : Env) (w : World)
    (lbr : SLoadbalancerListenerRule) (extRule : ICloudLoadbalancerListenerRule)
    (projectId : String) (out : World × SLoadbalancerListenerRule × Option Err)
    (h : lbr.SyncWithCloudLoadbalancerListenerRule env w extRule projectId = some out) :
    Extends false "loadbalancerlistenerrule" w out.1 := by
  unfold SLoadbalancerListenerRule.SyncWithCloudLoadbalancerListenerRule at h
  dsimp only at h
  split at h
  · exact absurd h (by simp)
  · rename_i w2 lbr1 hcf
    obtain ⟨cf, hcf1, hcf2⟩ := constructFieldsFromCloudListenerRule_extends false env _ lbr
      extRule (w2, lbr1) hcf
    have hlocked : ∀ w3 : World, w3.trace = w2.trace ++ [.Update "loadbalancerlistenerrule"
        lbr.Id, .ReleaseObject "loadbalancerlistenerrule" lbr.Id] →
        Extends false "loadbalancerlistenerrule" w w3 := by
      intro w3 h3
      refine Extends_locked
        (?_ : _ = _ ++ (_ :: (cf ++ [.Update "loadbalancerlistenerrule" lbr.Id]) ++ _))
        (BalancedIn_append (Balanced_toIn lbr.Id hcf2)
          (BalancedIn_Update false "loadbalancerlistenerrule" lbr.Id))
      rw [h3, hcf1]
      simp [World.emit]
    split at h
    · exact absurd h (by simp)
    · split at h
      · simp only [Option.some.injEq] at h
        subst h
        exact hlocked _ (by simp [World.emit])
      · simp only [Option.some.injEq] at h
        subst h
        refine Extends_trans ?_ (ListenerRule_SyncCloudProject_extends env _ _ _ _ _)
        refine Extends_trans ?_ (Extends_emit _ _ _ _ rfl)
        exact hlocked _ (by simp [World.emit])

theorem newFromCloudLoadbalancerListenerRule_extends (env : Env) (w : World)
    (listener : SLoadbalancerListener) (extRule : ICloudLoadbalancerListenerRule)
    (projectId : String) (out : World × Except Err SLoadbalancerListenerRule)
    (h : newFromCloudLoadbalancerListenerRule env w listener extRule projectId = some out) :
    Extends false "loadbalancerlistenerrule" w out.1 := by
  unfold newFromCloudLoadbalancerListenerRule at h
  dsimp only at h
  split at h
  · exact absurd h (by simp)
  · rename_i w2 lbr1 hcf
    have hcf1 := constructFieldsFromCloudListenerRule_extends false env _ _ extRule
      (w2, lbr1) hcf
    split at h
    · simp only [Option.some.injEq] at h
      subst h
      exact Extends_trans hcf1 (Extends_emit _ _ _ _ rfl)
    · simp only [Option.some.injEq] at h
      subst h
      refine Extends_trans hcf1 ?_
      refine Extends_trans ?_ (Extends_emit _ _ _ _ rfl)
      refine Extends_trans ?_ (ListenerRule_SyncCloudProject_extends env _ _ _ _ _)
      exact Extends_of_trace
        (Extends_emit _ _ w2 (.Insert "loadbalancerlistenerrule" _) rfl) rfl

theorem SyncLoadbalancerListenerRules_loops_extends (env : Env) (provider : SCloudprovider)
    (listener : SLoadbalancerListener)
    (p : Partition SLoadbalancerListenerRule ICloudLoadbalancerListenerRule) (w : World)
    (out : World × SyncResult)
    (h : SyncLoadbalancerListenerRules.loops env provider listener p w = some out) :
    Extends false "loadbalancerlistenerrule" w out.1 := by
  unfold SyncLoadbalancerListenerRules.loops at h
  split at h
  · exact absurd h (by simp)
  · rename_i acc1 h1
    split at h
    · exact absurd h (by simp)
    · rename_i acc2 h2
      refine Extends_trans (Extends_trans
        (Extends_foldlM (SyncLoadbalancerListenerRules.removeStep env) (fun acc => acc.1) ?_
          p.removed _ acc1 h1)
        (Extends_foldlM (SyncLoadbalancerListenerRules.updateStep env provider)
          (fun acc => acc.1) ?_ (p.commondb.zip p.commonext) acc1 acc2 h2))
        (Extends_foldlM (SyncLoadbalancerListenerRules.addStep env provider listener)
          (fun acc => acc.1) ?_ p.added acc2 out h)
      · intro acc lbr t ht
        have hr := syncRemoveCloudLoadbalancerListenerRule_extends false env acc.1 lbr
        unfold SyncLoadbalancerListenerRules.removeStep at ht
        dsimp only at ht
        split at ht <;>
          (simp only [Option.some.injEq] at ht; subst ht; exact hr)
      · intro acc c t ht
        unfold SyncLoadbalancerListenerRules.updateStep at ht
        split at ht
        · exact absurd ht (by simp)
        · rename_i r hr
          have hx := SyncWithCloudLoadbalancerListenerRule_extends env acc.1 c.1 c.2
            provider.ProjectId r hr
          split at ht
          · simp only [Option.some.injEq] at ht
            subst ht
            exact hx
          · simp only [Option.some.injEq] at ht
            subst ht
            exact Extends_trans hx (Extends_emit _ _ _ _ rfl)
      · intro acc extRule t ht
        unfold SyncLoadbalancerListenerRules.addStep at ht
        split at ht
        · exact absurd ht (by simp)
        · rename_i r hr
          have hx := newFromCloudLoadbalancerListenerRule_extends env acc.1 listener extRule
            provider.ProjectId r hr
          split at ht
          · simp only [Option.some.injEq] at ht
            subst ht
            exact hx
          · simp only [Option.some.injEq] at ht
            subst ht
            exact Extends_trans hx (Extends_emit _ _ _ _ rfl)

theorem SyncLoadbalancerListenerRules_locks (env : Env) (w : World)
    (provider : SCloudprovider) (listener : SLoadbalancerListener)
    (rules : List ICloudLoadbalancerListenerRule) (out : World × SyncResult)
    (h : SyncLoadbalancerListenerRules env w provider listener rules = some out) :
    ∃ mid, out.1.trace
        = w.trace ++ .LockClass "loadbalancerlistenerrule" provider.ProjectId :: mid
          ++ [.ReleaseClass "loadbalancerlistenerrule" provider.ProjectId]
      ∧ Balanced false "loadbalancerlistenerrule" mid
      ∧ (∀ err, env.FetchModelObjectsErr
            (w.emit (.LockClass "loadbalancerlistenerrule" provider.ProjectId))
            "loadbalancerlistenerrule" = some err → mid = []) := by
  unfold SyncLoadbalancerListenerRules at h
  dsimp only at h
  split at h
  · simp only [Option.some.injEq] at h
    subst h
    exact ⟨[], by simp [World.emit], Balanced_nil _ _, fun _ _ => rfl⟩
  · rename_i dbRules hfetch
    have hno : ∀ err, env.FetchModelObjectsErr
        (w.emit (.LockClass "loadbalancerlistenerrule" provider.ProjectId))
        "loadbalancerlistenerrule" = some err → False := by
      intro err herr
      unfold getLoadbalancerListenerRulesByListener at hfetch
      rw [herr] at hfetch
      simp at hfetch
    split at h
    · simp only [Option.some.injEq] at h
      subst h
      exact ⟨[], by simp [World.emit], Balanced_nil _ _, fun _ _ => rfl⟩
    · rename_i p _
      split at h
      · exact absurd h (by simp)
      · rename_i acc hacc
        simp only [Option.some.injEq] at h
        subst h
        obtain ⟨mid, hmid, hbal⟩ := SyncLoadbalancerListenerRules_loops_extends env provider
          listener p _ acc hacc
        refine ⟨mid, ?_, hbal, fun err herr => (hno err herr).elim⟩
        show (_ ++ [_] : List Event) = _
        rw [hmid]
        simp [World.emit]

theorem ValidateCreateData_world (venv : RuleCreateEnv) (w : World) (data : JSONDict) :
    (SLoadbalancerListenerRuleManager.ValidateCreateData venv w data).1 = w := by
  unfold SLoadbalancerListenerRuleManager.ValidateCreateData
  dsimp only
  repeat' split
  all_goals rfl

theorem PostCreate_trace (env : Env) (venv : RuleCreateEnv) (w : World)
    (lbr : SLoadbalancerListenerRule) :
    ∃ rest, (lbr.PostCreate env venv w).trace
      = w.trace ++ [.SetStatus "loadbalancerlistenerrule" lbr.Id LB_CREATING "",
          .NewTask "LoadbalancerListenerRuleCreateTask" "loadbalancerlistenerrule" lbr.Id]
        ++ rest
      ∧ (rest = [] ∨ rest = [.ScheduleRun "LoadbalancerListenerRuleCreateTask" lbr.Id]) := by
  unfold SLoadbalancerListenerRule.PostCreate
    SLoadbalancerListenerRule.StartLoadBalancerListenerRuleCreateTask
  dsimp only
  split
  · exact ⟨[], by simp [World.emit, ListenerRule_SetStatus_trace], Or.inl rfl⟩
  · exact ⟨_, by simp [World.emit, ListenerRule_SetStatus_trace], Or.inr rfl⟩

theorem loadbalancerListenerRuleCheckUniqueness_cases (w : World)
    (lbls : SLoadbalancerListener) (domain path : String)
    (hid : ∀ r ∈ w.loadbalancerlistenerrules_tbl, r.Id ≠ "") :
    (loadbalancerListenerRuleCheckUniqueness w lbls domain path = none
      ∧ ¬ ∃ r ∈ w.loadbalancerlistenerrules_tbl, r.Deleted = false ∧ r.PendingDeleted = false
          ∧ r.ListenerId = lbls.Id ∧ r.Domain = domain ∧ r.Path = path)
    ∨ ((∃ err, loadbalancerListenerRuleCheckUniqueness w lbls domain path = some err
          ∧ err.kind = .ConflictError)
      ∧ ∃ r ∈ w.loadbalancerlistenerrules_tbl, r.Deleted = false ∧ r.PendingDeleted = false
          ∧ r.ListenerId = lbls.Id ∧ r.Domain = domain ∧ r.Path = path) := by
  unfold loadbalancerListenerRuleCheckUniqueness
  dsimp only
  cases hq : (w.loadbalancerlistenerrules_tbl.filter (fun r =>
      !r.Deleted && !r.PendingDeleted && r.ListenerId == lbls.Id && r.Domain == domain
        && r.Path == path)).head? with
  | none =>
    left
    refine ⟨by simp [SLoadbalancerListenerRule.zero], ?_⟩
    rintro ⟨r, hr, h1, h2, h3, h4, h5⟩
    rw [List.head?_eq_none_iff] at hq
    have : r ∈ w.loadbalancerlistenerrules_tbl.filter (fun r =>
        !r.Deleted && !r.PendingDeleted && r.ListenerId == lbls.Id && r.Domain == domain
          && r.Path == path) := by
      rw [List.mem_filter]
      exact ⟨hr, by simp [h1, h2, h3, h4, h5]⟩
    rw [hq] at this
    exact absurd this (List.not_mem_nil _)
  | some r =>
    right
    have hmem := List.mem_of_mem_head? hq
    rw [List.mem_filter] at hmem
    have hlen : r.Id.length > 0 := (String_length_pos_iff r.Id).2 (hid r hmem.1)
    refine ⟨⟨_, by simp only [hlen, if_true]; rfl, rfl⟩, r, hmem.1, ?_⟩
    have := hmem.2
    simp only [Bool.and_eq_true, Bool.not_eq_true', beq_iff_eq] at this
    obtain ⟨⟨⟨⟨h1, h2⟩, h3⟩, h4⟩, h5⟩ := this
    exact ⟨h1, h2, h3, h4, h5⟩

end models

open models in
/-- C17: Scenario C, a backend group of another load balancer. For every create request
whose validators resolve a listener and a backend group, if the backend group's
`LoadbalancerId` differs from the listener's, `ValidateCreateData` returns an error and no
validated data: the `InputParameterError` naming both load balancers when the listener
is an http or https listener, and the listener-type error otherwise. `ValidateCreateData`
leaves the world as it was on every path (no task is created); the create task is
started by `PostCreate`. -/
theorem C17_cross_loadbalancer_backend_group (venv : RuleCreateEnv) (w : models.World)
    (data : JSONDict) (input : RuleCreateInput) (lbbg : SLoadbalancerBackendGroup)
    (hv : venv.validators w data = .ok input)
    (hg : input.backendGroup = some lbbg)
    (hne : lbbg.LoadbalancerId ≠ input.listener.LoadbalancerId) :
    (∃ err, (SLoadbalancerListenerRuleManager.ValidateCreateData venv w data).2
          = some (.error err)
        ∧ ((input.listenerType = LB_LISTENER_TYPE_HTTP
              ∨ input.listenerType = LB_LISTENER_TYPE_HTTPS) →
            err.kind = .InputParameterError)
        ∧ (¬ (input.listenerType = LB_LISTENER_TYPE_HTTP
              ∨ input.listenerType = LB_LISTENER_TYPE_HTTPS) →
            err.kind = .GeneralError))
    ∧ (∀ (venv : RuleCreateEnv) (w : models.World) (data : JSONDict),
        (SLoadbalancerListenerRuleManager.ValidateCreateData venv w data).1 = w)
    ∧ (∀ (env : models.Env) (venv : RuleCreateEnv) (w : models.World)
        (lbr : SLoadbalancerListenerRule),
        Event.NewTask "LoadbalancerListenerRuleCreateTask" "loadbalancerlistenerrule" lbr.Id
          ∈ (lbr.PostCreate env venv w).trace) := by
  refine ⟨?_, ValidateCreateData_world, ?_⟩
  · unfold SLoadbalancerListenerRuleManager.ValidateCreateData
    simp only [hv]
    by_cases ht : input.listenerType = LB_LISTENER_TYPE_HTTP
        ∨ input.listenerType = LB_LISTENER_TYPE_HTTPS
    · have hcond : (input.listenerType != LB_LISTENER_TYPE_HTTP
          && input.listenerType != LB_LISTENER_TYPE_HTTPS) = false := by
        rcases ht with ht | ht <;> simp [ht]
      simp only [hcond, hg]
      simp [hne, ht]
    · have hcond : (input.listenerType != LB_LISTENER_TYPE_HTTP
          && input.listenerType != LB_LISTENER_TYPE_HTTPS) = true := by
        simp only [not_or] at ht
        simp [ht.1, ht.2]
      simp only [hcond]
      simp [ht]
  · intro env venv w lbr
    obtain ⟨rest, h, _⟩ := PostCreate_trace env venv w lbr
    rw [h]
    simp

open models examples in
/-- C17 at a request for the http listener `listener1` of the load balancer `lb-1`: with
the backend group `group2` of `lb-2` the request is refused with an input parameter
error; with `group1` of `lb-1` the validated data is returned. -/
theorem C17_cross_loadbalancer_backend_group_witness :
    group2.LoadbalancerId ≠ listener1.LoadbalancerId
    ∧ (∃ err, (SLoadbalancerListenerRuleManager.ValidateCreateData (createEnv group2)
          worldRule1 [("listener", "lis-1"), ("backend_group", "grp-2")]).2
          = some (.error err)
        ∧ err.kind = ErrorClass.InputParameterError)
    ∧ (SLoadbalancerListenerRuleManager.ValidateCreateData (createEnv group1) worldRule1
          [("listener", "lis-1"), ("backend_group", "grp-1")]).2
        = some (.ok [("manager_id", "mgr-1"), ("cloudregion_id", "region-1"),
            ("listener", "lis-1"), ("backend_group", "grp-1")]) := by
  obtain ⟨⟨err, h1, h2, _⟩, _, _⟩ :=
    C17_cross_loadbalancer_backend_group (createEnv group2) worldRule1
      [("listener", "lis-1"), ("backend_group", "grp-2")]
      { listener := listener1, listenerType := "http", providerName := "Aliyun",
        backendGroup := some group2, domain := "example.org", path := "/" } group2 rfl rfl
      (by decide)
  exact ⟨by decide, ⟨err, h1, h2 (Or.inl rfl)⟩, rfl⟩

open models in
/-- C18: uniqueness of a listener rule. On a table whose records all have an id, for
every listener, domain and path, `loadbalancerListenerRuleCheckUniqueness` returns a
`ConflictError` if and only if some rule that is neither deleted nor pending-deleted has
the same listener id, the same domain and the same path; otherwise it returns `nil`. A
pending-deleted rule with the same triple therefore never causes a conflict. -/
theorem C18_rule_uniqueness (w : models.World) (lbls : SLoadbalancerListener)
    (domain path : String)
    (hid : ∀ r ∈ w.loadbalancerlistenerrules_tbl, r.Id ≠ "") :
    ((∃ err, loadbalancerListenerRuleCheckUniqueness w lbls domain path = some err
        ∧ err.kind = .ConflictError)
      ↔ ∃ r ∈ w.loadbalancerlistenerrules_tbl, r.Deleted = false ∧ r.PendingDeleted = false
          ∧ r.ListenerId = lbls.Id ∧ r.Domain = domain ∧ r.Path = path)
    ∧ (loadbalancerListenerRuleCheckUniqueness w lbls domain path = none
      ↔ ¬ ∃ r ∈ w.loadbalancerlistenerrules_tbl, r.Deleted = false ∧ r.PendingDeleted = false
          ∧ r.ListenerId = lbls.Id ∧ r.Domain = domain ∧ r.Path = path) := by
  rcases loadbalancerListenerRuleCheckUniqueness_cases w lbls domain path hid with
    ⟨h1, h2⟩ | ⟨⟨err, h1, hk⟩, h2⟩
  · refine ⟨⟨fun ⟨err, he, _⟩ => ?_, fun h => absurd h h2⟩, ⟨fun _ => h2, fun _ => h1⟩⟩
    rw [h1] at he
    exact absurd he (by simp)
  · refine ⟨⟨fun _ => h2, fun _ => ⟨err, h1, hk⟩⟩, ⟨fun h => ?_, fun h => absurd h2 h⟩⟩
    rw [h1] at h
    exact absurd h (by simp)

open models examples in
/-- C18 at the table whose only rule is `ruleOrg` (`example.org`, `/`, of `listener1`):
the same triple is a conflict, another path is not, and neither is the same triple when
the rule is pending deletion. -/
theorem C18_rule_uniqueness_witness :
    (∀ r ∈ worldRuleOrg.loadbalancerlistenerrules_tbl, r.Id ≠ "")
    ∧ (loadbalancerListenerRuleCheckUniqueness worldRuleOrg listener1 "example.org" "/").map
        (fun err => err.kind) = some .ConflictError
    ∧ loadbalancerListenerRuleCheckUniqueness worldRuleOrg listener1 "example.org" "/api"
        = none
    ∧ loadbalancerListenerRuleCheckUniqueness worldRuleOrgPending listener1 "example.org" "/"
        = none := by
  have hid : ∀ r ∈ worldRuleOrg.loadbalancerlistenerrules_tbl, r.Id ≠ "" := by decide
  have hidp : ∀ r ∈ worldRuleOrgPending.loadbalancerlistenerrules_tbl, r.Id ≠ "" := by decide
  refine ⟨hid, ?_, ?_, ?_⟩
  · obtain ⟨err, he, hk⟩ := (C18_rule_uniqueness worldRuleOrg listener1 "example.org" "/"
      hid).1.2 ⟨ruleOrg, by decide, by decide⟩
    rw [he, Option.map_some', hk]
  · exact (C18_rule_uniqueness worldRuleOrg listener1 "example.org" "/api" hid).2.2
      (by decide)
  · exact (C18_rule_uniqueness worldRuleOrgPending listener1 "example.org" "/" hidp).2.2
      (by decide)

open models compare in
/-- Lock discipline of the passes, the propagation of the owner project (`SyncCloudProject`)
in the passes apart. Every pass of `SyncLoadbalancers`, `SyncZones`
and `SyncLoadbalancerListenerRules` starts by taking the class lock of its manager and
owner scope, reads the local records in the world in which that lock is held, and ends
by releasing the class lock, also on the early aborts (a failed read leaves nothing
between the two events). The events of the pass keep the lock discipline: every status
soft-mark, delete and `db.Update` of a record of the manager is made while the class lock
and the lock of that record are held, and every object lock taken is released before
the class lock is. `SyncLoadbalancers` and `SyncZones` always return;
`SyncLoadbalancerListenerRules` returns whenever its backend-group and listener lookups
succeed. In `SyncWithCloudLoadbalancer` the propagation of the owner project
(`SyncCloudProject`) is made under the object lock as well. -/
theorem reconciler_lock_discipline :
    (∀ (env : models.Env) (w : models.World) (provider : SCloudprovider)
        (region : SCloudregion) (lbs : List ICloudLoadbalancer),
      ∃ mid, (SyncLoadbalancers env w provider region lbs).1.trace
          = w.trace ++ .LockClass "loadbalancer" provider.ProjectId :: mid
            ++ [.ReleaseClass "loadbalancer" provider.ProjectId]
        ∧ lockDiscipline false "loadbalancer" { classHeld := false, held := [] }
            (.LockClass "loadbalancer" provider.ProjectId :: mid
              ++ [.ReleaseClass "loadbalancer" provider.ProjectId])
          = some { classHeld := false, held := [] }
        ∧ (∀ err, env.FetchModelObjectsErr
              (w.emit (.LockClass "loadbalancer" provider.ProjectId)) "loadbalancer"
              = some err → mid = []))
    ∧ (∀ (env : models.Env) (w : models.World) (ownerId : String) (region : SCloudregion)
        (zones : List ICloudZone),
      ∃ mid, (SyncZones env w ownerId region zones).1.trace
          = w.trace ++ .LockClass "zone" ownerId :: mid ++ [.ReleaseClass "zone" ownerId]
        ∧ lockDiscipline false "zone" { classHeld := false, held := [] }
            (.LockClass "zone" ownerId :: mid ++ [.ReleaseClass "zone" ownerId])
          = some { classHeld := false, held := [] }
        ∧ (∀ err, env.FetchModelObjectsErr (w.emit (.LockClass "zone" ownerId)) "zone"
              = some err → mid = []))
    ∧ (∀ (env : models.Env) (w : models.World) (provider : SCloudprovider)
        (listener : SLoadbalancerListener) (rules : List ICloudLoadbalancerListenerRule),
      ((∀ w id, (env.BackendGroupFetchById w id).isSome) →
        (∀ w id, (env.ListenerFetchById w id).isSome) →
        (SyncLoadbalancerListenerRules env w provider listener rules).isSome)
      ∧ ∀ out, SyncLoadbalancerListenerRules env w provider listener rules = some out →
        ∃ mid, out.1.trace
            = w.trace ++ .LockClass "loadbalancerlistenerrule" provider.ProjectId :: mid
              ++ [.ReleaseClass "loadbalancerlistenerrule" provider.ProjectId]
          ∧ lockDiscipline false "loadbalancerlistenerrule" { classHeld := false, held := [] }
              (.LockClass "loadbalancerlistenerrule" provider.ProjectId :: mid
                ++ [.ReleaseClass "loadbalancerlistenerrule" provider.ProjectId])
            = some { classHeld := false, held := [] }
          ∧ (∀ err, env.FetchModelObjectsErr
                (w.emit (.LockClass "loadbalancerlistenerrule" provider.ProjectId))
                "loadbalancerlistenerrule" = some err → mid = []))
    ∧ (∀ (env : models.Env) (w : models.World) (lb : SLoadbalancer)
        (extLb : ICloudLoadbalancer) (projectId : String),
      ∃ events, (lb.SyncWithCloudLoadbalancer env w extLb projectId).1.trace
          = w.trace ++ events
        ∧ ∀ s : LockState, s.classHeld = true →
            lockDiscipline true "loadbalancer" s events = some s) := by
  refine ⟨?_, ?_, ?_, ?_⟩
  · intro env w provider region lbs
    obtain ⟨mid, h1, h2, h3⟩ := SyncLoadbalancers_locks env w provider region lbs
    exact ⟨mid, h1, lockDiscipline_pass false _ _ mid h2, h3⟩
  · intro env w ownerId region zones
    obtain ⟨mid, h1, h2, h3⟩ := SyncZones_locks false env w ownerId region zones
    exact ⟨mid, h1, lockDiscipline_pass false _ _ mid h2, h3⟩
  · intro env w provider listener rules
    refine ⟨fun hg hl => SyncLoadbalancerListenerRules_isSome env hg hl w provider listener
      rules, fun out h => ?_⟩
    obtain ⟨mid, h1, h2, h3⟩ := SyncLoadbalancerListenerRules_locks env w provider listener
      rules out h
    exact ⟨mid, h1, lockDiscipline_pass false _ _ mid h2, h3⟩
  · intro env w lb extLb projectId
    exact SyncWithCloudLoadbalancer_extends true env w lb extLb projectId

open models compare examples in
/-- C19 at a failing input: the pass over the local rule `rule-1` and its remote `ext-r1`,
with `SyncCloudProject` resolving the owner project `proj-2`. The update of the common
record takes the object lock of `rule-1` for `db.UpdateWithLock` only; the owner project
is written to the record by `SyncCloudProject` after that lock has been released (the
row goes from `proj-1` to `proj-2` while only the class lock is held), so the check that
counts the ownership write as an update of the record fails at that event. The pass of
`SyncLoadbalancers` over `lb-1` and `ext-1` makes the same write before the object lock
of `lb-1` is released and passes the check. -/
theorem C19_rule_ownership_written_after_release :
    (SyncLoadbalancerListenerRules rulesOwnerEnv worldRule1 provider1 listener1
        [extRule "ext-r1" ""]).map (fun out => out.1.trace)
      = some [.LockClass "loadbalancerlistenerrule" "proj-1",
          .LockObject "loadbalancerlistenerrule" "rule-1",
          .Update "loadbalancerlistenerrule" "rule-1",
          .ReleaseObject "loadbalancerlistenerrule" "rule-1",
          .LogSyncUpdate "loadbalancerlistenerrule" "rule-1",
          .SyncCloudProject "loadbalancerlistenerrule" "rule-1" "proj-1",
          .syncMetadata "loadbalancerlistenerrule" "rule-1" "ext-r1",
          .ReleaseClass "loadbalancerlistenerrule" "proj-1"]
    ∧ worldRule1.loadbalancerlistenerrules_tbl.map (fun r => (r.Id, r.ProjectId))
      = [("rule-1", "proj-1")]
    ∧ (SyncLoadbalancerListenerRules rulesOwnerEnv worldRule1 provider1 listener1
        [extRule "ext-r1" ""]).map
        (fun out => out.1.loadbalancerlistenerrules_tbl.map (fun r => (r.Id, r.ProjectId)))
      = some [("rule-1", "proj-2")]
    ∧ (SyncLoadbalancerListenerRules rulesOwnerEnv worldRule1 provider1 listener1
        [extRule "ext-r1" ""]).map (fun out => out.2.Updated) = some 1
    ∧ lockDiscipline true "loadbalancerlistenerrule" { classHeld := false, held := [] }
        [.LockClass "loadbalancerlistenerrule" "proj-1",
          .LockObject "loadbalancerlistenerrule" "rule-1",
          .Update "loadbalancerlistenerrule" "rule-1",
          .ReleaseObject "loadbalancerlistenerrule" "rule-1",
          .LogSyncUpdate "loadbalancerlistenerrule" "rule-1"]
      = some { classHeld := true, held := [] }
    ∧ lockStep true "loadbalancerlistenerrule" { classHeld := true, held := [] }
        (.SyncCloudProject "loadbalancerlistenerrule" "rule-1" "proj-1") = none
    ∧ (SyncLoadbalancerListenerRules rulesOwnerEnv worldRule1 provider1 listener1
        [extRule "ext-r1" ""]).bind (fun out =>
          lockDiscipline true "loadbalancerlistenerrule" { classHeld := false, held := [] }
            out.1.trace) = none
    ∧ (SyncLoadbalancers ownerEnv worldLb1 provider1 region1 [extLb "ext-1"]).1.trace
      = [.LockClass "loadbalancer" "proj-1", .LockObject "loadbalancer" "lb-1",
          .Update "loadbalancer" "lb-1", .LogSyncUpdate "loadbalancer" "lb-1",
          .SyncCloudProject "loadbalancer" "lb-1" "proj-1",
          .ReleaseObject "loadbalancer" "lb-1",
          .syncMetadata "loadbalancer" "lb-1" "ext-1",
          .ReleaseClass "loadbalancer" "proj-1"]
    ∧ (SyncLoadbalancers ownerEnv worldLb1 provider1 region1
        [extLb "ext-1"]).1.loadbalancers_tbl.map (fun r => (r.Id, r.ProjectId))
      = [("lb-1", "proj-2")]
    ∧ lockDiscipline true "loadbalancer" { classHeld := false, held := [] }
        (SyncLoadbalancers ownerEnv worldLb1 provider1 region1 [extLb "ext-1"]).1.trace
      = some { classHeld := false, held := [] } := by
  refine ⟨by decide, by decide, by decide, by decide, by decide, by decide, by decide,
    by decide, by decide, by decide⟩

namespace qcloud

theorem World_call_now (env : Env) (w : World) (e : Event) : w.now ≤ (w.call env e).now := by
  unfold World.call
  dsimp only
  omega

theorem World_Sleep_now (env : Env) (w : World) (d : Nat) :
    w.now + d ≤ (w.Sleep env d).now := by
  unfold World.Sleep
  dsimp only
  omega

theorem SRegion_instanceOperation_now (env : Env) (w : World) (instanceId opname : String)
    (params : List (String × String)) :
    w.now ≤ (SRegion.instanceOperation env w instanceId opname params).1.now :=
  World_call_now env w _

theorem SRegion_StartVM_now (env : Env) (w : World) (instanceId : String) :
    w.now ≤ (SRegion.StartVM env w instanceId).1.now := by
  unfold SRegion.StartVM
  dsimp only
  have h1 := World_call_now env w (.GetInstanceStatus instanceId)
  split
  · exact h1
  · split
    · exact h1
    · exact Nat.le_trans h1 (SRegion_instanceOperation_now env _ _ _ _)

theorem SInstance_Refresh_now (env : Env) (w : World) (self : SInstance) :
    w.now ≤ (self.Refresh env w).1.now := by
  have h1 := World_call_now env w (.GetInstances [self.InstanceId])
  unfold SInstance.Refresh SRegion.GetInstance
  dsimp only
  split <;> rename_i heq <;> split at heq <;>
    simp only [Prod.mk.injEq] at heq <;> obtain ⟨rfl, h2⟩ := heq
  all_goals first
    | exact h1
    | (split <;> exact Nat.le_trans h1 (World_call_now env _ _))

/-- With enough fuel for the remaining time the loop of `StartVM` returns, and a `nil`
result means that the instance was seen running. -/
theorem SInstance_StartVM_loop_returns (env : Env) (startTime : Nat) (fuel : Nat) :
    ∀ (w : World) (self : SInstance), startTime ≤ w.now →
      (300 - (w.now - startTime)) + 15 ≤ 15 * fuel →
      ∃ out, SInstance.StartVM.loop env startTime fuel w self = some out
        ∧ (out.2.2 = none → out.2.1.GetStatus = VM_RUNNING) := by
  induction fuel with
  | zero => intro w self _ h; omega
  | succ fuel ih =>
    intro w self hst h
    unfold SInstance.StartVM.loop
    split
    · rename_i hlt
      have hr := SInstance_Refresh_now env w self
      split
      · exact ⟨_, rfl, by simp⟩
      · rename_i w1 self1 heq
        have hw1 : w.now ≤ w1.now := by rw [heq] at hr; exact hr
        split
        · rename_i hrun
          exact ⟨_, rfl, fun _ => by simpa using hrun⟩
        · dsimp only
          split
          · exact ⟨_, rfl, by simp⟩
          · rename_i w2 heq2
            have hw2 : w1.now ≤ w2.now := by
              split at heq2
              · have := SRegion_StartVM_now env w1 self1.InstanceId
                rw [heq2] at this
                exact this
              · simp only [Prod.mk.injEq] at heq2
                rw [heq2.1]
            have hs := World_Sleep_now env w2 15
            exact ih (w2.Sleep env 15) self1 (by omega) (by omega)
    · exact ⟨_, rfl, by simp⟩


theorem SInstance_StartVM_loop_timeout (env : Env) (startTime fuel : Nat) (w : World)
    (self : SInstance) (h : 300 ≤ w.now - startTime) :
    SInstance.StartVM.loop env startTime (fuel + 1) w self = some (w, self, some ErrTimeout) := by
  unfold SInstance.StartVM.loop
  rw [if_neg (by omega)]

/-- While every delete request fails, the loop of `DeleteVM` is still running after any
number of requests. -/
theorem SInstance_DeleteVM_loop_fails (env : Env) (self : SInstance)
    (h : ∀ w, (SRegion.DeleteVM env w self.InstanceId).2 ≠ none) (fuel : Nat) :
    ∀ w, SInstance.DeleteVM.loop env self fuel w = none := by
  induction fuel with
  | zero => intro w; rfl
  | succ fuel ih =>
    intro w
    unfold SInstance.DeleteVM.loop
    split
    · exact ih _
    · rename_i heq
      exact absurd (congrArg Prod.snd heq) (h w)

end qcloud

open qcloud examples in
/-- C21 at a failing input: while the remote delete request keeps failing, the loop of
`SInstance.DeleteVM` repeats it without a bound: for every number of attempts the
function has not returned. When the request fails three times and then succeeds, the
function returns after exactly four requests, and not before. `SInstance.StartVM` is
bounded: for every behaviour of the remote, 21 evaluations of its loop condition are
enough for it to return, a `nil` result means the instance was seen running, and once
300 seconds have passed the loop gives up with `ErrTimeout`. -/
theorem C21_DeleteVM_retries_without_bound :
    (∀ fuel, SInstance.DeleteVM (downEnv []) fuel clock0 ins1 = none)
    ∧ (SInstance.DeleteVM (flakyEnv 3) 4 clock0 ins1).map
        (fun out => (deleteRequests out.1.trace "ins-1", out.2)) = some (4, none)
    ∧ SInstance.DeleteVM (flakyEnv 3) 3 clock0 ins1 = none
    ∧ (∀ (env : qcloud.Env) (w : qcloud.World) (self : SInstance) (fuel : Nat),
        21 ≤ fuel →
        ∃ out, SInstance.StartVM env fuel w self = some out
          ∧ (out.2.2 = none → out.2.1.GetStatus = VM_RUNNING))
    ∧ (∀ (env : qcloud.Env) (startTime fuel : Nat) (w : qcloud.World) (self : SInstance),
        300 ≤ w.now - startTime →
        SInstance.StartVM.loop env startTime (fuel + 1) w self
          = some (w, self, some ErrTimeout)) := by
  refine ⟨fun fuel => ?_, by decide, by decide, ?_, SInstance_StartVM_loop_timeout⟩
  · unfold SInstance.DeleteVM
    rw [SInstance_DeleteVM_loop_fails (downEnv []) ins1 (fun w => by simp [SRegion.DeleteVM, SRegion.doDeleteVM, SRegion.instanceOperation, downEnv]) fuel clock0]
  · intro env w self fuel hf
    exact SInstance_StartVM_loop_returns env w.now fuel w self (Nat.le_refl _) (by omega)

open qcloud examples in
/-- C30 at a failing input: with two matching instance types and a `ResetInstancesType`
request that fails, `SRegion.ChangeVMConfig` returns `nil`, and only the first type was
tried. With no matching type it returns the error. In general, as soon as the list of
matching types is not empty the result is `nil` after exactly one request, for the
first type, whatever that request answered. -/
theorem C30_ChangeVMConfig_reports_success_on_failure :
    (SRegion.ChangeVMConfig
        (downEnv [{ InstanceType := "S2.SMALL1" }, { InstanceType := "S2.MEDIUM2" }])
        clock0 "zone-1" "ins-1" 1 1).2 = none
    ∧ resetTypeRequests (SRegion.ChangeVMConfig
        (downEnv [{ InstanceType := "S2.SMALL1" }, { InstanceType := "S2.MEDIUM2" }])
        clock0 "zone-1" "ins-1" 1 1).1.trace = ["S2.SMALL1"]
    ∧ (SRegion.ChangeVMConfig (downEnv []) clock0 "zone-1" "ins-1" 1 1).2
        = some "Failed to change vm config, specification not supported"
    ∧ (∀ (env : qcloud.Env) (w : qcloud.World) (zoneId instanceId : String) (ncpu vmem : Nat)
        (first : SInstanceType) (rest : List SInstanceType),
        env.GetMatchInstanceTypes (w.call env (.GetMatchInstanceTypes ncpu vmem 0 zoneId))
            ncpu vmem 0 zoneId = .ok (first :: rest) →
        (SRegion.ChangeVMConfig env w zoneId instanceId ncpu vmem).2 = none
        ∧ resetTypeRequests (SRegion.ChangeVMConfig env w zoneId instanceId ncpu vmem).1.trace
          = resetTypeRequests w.trace ++ [first.InstanceType]) := by
  refine ⟨by decide, by decide, by decide, ?_⟩
  intro env w zoneId instanceId ncpu vmem first rest h
  unfold SRegion.ChangeVMConfig
  simp only [h]
  simp [SRegion.ChangeVMConfig.loop, SRegion.instanceOperation, World.call, resetTypeRequests]

open hostdrivers examples in
/-- C25 at a failing input: on a host for which no layout can be computed, a request for
`raid5` makes `GetRaidScheme` return `raid5` without error, and a request for `raid1`
(candidates `raid10`, `raid1`, both without layout) returns `raid1` without error. For the
empty request on the same host it returns the error; when a layout exists for `raid1`
and `raid0`, the empty request returns `raid1`, and a `raid10` request falls back to
`raid1`. -/
theorem C25_GetRaidScheme_returns_unfit_request :
    GetRaidScheme (raidEnv []) raidHost "raid5" = .ok "raid5"
    ∧ layoutFound (raidEnv []) raidHost "raid5" = false
    ∧ GetRaidScheme (raidEnv []) raidHost "raid1" = .ok "raid1"
    ∧ layoutFound (raidEnv []) raidHost "raid1" = false
    ∧ GetRaidScheme (raidEnv []) raidHost "" = .error "Disk misconfiguration"
    ∧ GetRaidScheme (raidEnv ["raid1", "raid0"]) raidHost "" = .ok "raid1"
    ∧ GetRaidScheme (raidEnv ["raid1"]) raidHost "raid10" = .ok "raid1" := by
  refine ⟨rfl, by decide, rfl, by decide, rfl, rfl, rfl⟩

namespace tasks

theorem getNeedScheduleDisks_foldl (objs acc : List SDisk) :
    objs.foldl (fun toSchedDisks disk =>
        if disk.StorageId == "" then toSchedDisks ++ [disk] else toSchedDisks) acc
      = acc ++ objs.filter (fun disk => disk.StorageId == "") := by
  induction objs generalizing acc with
  | nil => simp
  | cons d ds ih =>
    simp only [List.foldl_cons, List.filter_cons]
    rw [ih]
    split <;> simp

theorem getNeedScheduleDisks_eq (objs : List SDisk) :
    DiskBatchCreateTask.getNeedScheduleDisks objs
      = objs.filter (fun disk => disk.StorageId == "") := by
  unfold DiskBatchCreateTask.getNeedScheduleDisks
  rw [getNeedScheduleDisks_foldl]
  simp

end tasks

open tasks examples in
/-- C24 at a failing input: `getNeedScheduleDisks` returns the disks with an empty
`StorageId` in input order, for every batch. In a batch of one disk with a preset storage
(`disk-1`) and one without (`disk-2`), `OnInit` submits `disk-2` to the scheduler and
starts it once bound, but `disk-1` is neither started nor submitted. In a batch in which
every disk has a preset storage each disk is started once. -/
theorem C24_preset_disk_of_mixed_batch_dropped :
    (∀ objs : List SDisk, DiskBatchCreateTask.getNeedScheduleDisks objs
        = objs.filter (fun disk => disk.StorageId == ""))
    ∧ (DiskBatchCreateTask.OnInit (schedEnv [candidateResult "host-1"]) (storageEnv [])
          schedWorld task1 [sdiskOn "disk-1" "disk-one" "sto-9", sdisk "disk-2" "disk-two"]).map
        (fun w => (startedCalls w.trace "disk-1", submittedCalls w.trace "disk-1",
          startedCalls w.trace "disk-2", submittedCalls w.trace "disk-2"))
      = some (0, 0, 1, 1)
    ∧ (DiskBatchCreateTask.OnInit (schedEnv []) (storageEnv [])
          schedWorld task1
          [sdiskOn "disk-1" "disk-one" "sto-9", sdiskOn "disk-2" "disk-two" "sto-9"]).map
        (fun w => (startedCalls w.trace "disk-1", startedCalls w.trace "disk-2"))
      = some (1, 1) := by
  refine ⟨getNeedScheduleDisks_eq, by decide, by decide⟩

open tasks examples in
/-- C22 at a failing input: when `SetStorage` fails for the disk, or `GetFirstDisk` fails,
`SaveScheduleResult` cancels the disk's storage quota (one `CancelPendingUsage` call for
`Storage = DiskSize`) but does not call `SetPendingUsage`; when the binding succeeds it
makes one call of each. After the failed binding of the only disk of a batch,
`onSchedulerResults` ends with `cancelPendingUsage`, which reads the pending usage of the
task, still the whole reservation, and cancels all of it. -/
theorem C22_failed_binding_keeps_pending_usage :
    (DiskBatchCreateTask.SaveScheduleResult (schedEnv []) (storageEnv ["disk-1"]) schedWorld
          (sdisk "disk-1" "disk-one") { HostId := "host-1", Disks := [{ StorageId := "sto-1" }] }).map
        (fun w => (diskCancelCalls w.trace "proj-1" { Cpu := 0, Memory := 0, Storage := 10 },
          setPendingUsageCalls w.trace)) = some (1, 0)
    ∧ (DiskBatchCreateTask.SaveScheduleResult (schedEnv []) noConfigEnv schedWorld
          (sdisk "disk-1" "disk-one") { HostId := "host-1", Disks := [{ StorageId := "sto-1" }] }).map
        (fun w => (diskCancelCalls w.trace "proj-1" { Cpu := 0, Memory := 0, Storage := 10 },
          setPendingUsageCalls w.trace)) = some (1, 0)
    ∧ (DiskBatchCreateTask.SaveScheduleResult (schedEnv []) (storageEnv []) schedWorld
          (sdisk "disk-1" "disk-one") { HostId := "host-1", Disks := [{ StorageId := "sto-1" }] }).map
        (fun w => (diskCancelCalls w.trace "proj-1" { Cpu := 0, Memory := 0, Storage := 10 },
          setPendingUsageCalls w.trace)) = some (1, 1)
    ∧ (DiskBatchCreateTask.onSchedulerResults (schedEnv []) (storageEnv ["disk-1"]) schedWorld
          task1 [sdisk "disk-1" "disk-one"] [candidateResult "host-1"]).map
        (fun w => w.trace.filter (fun e =>
          match e with
          | .CancelDiskPendingUsage _ _ _ => true
          | .SetPendingUsage => true
          | .CancelPendingUsage _ _ => true
          | _ => false))
      = some [.CancelDiskPendingUsage "proj-1" { Cpu := 0, Memory := 0, Storage := 20 }
                { Cpu := 0, Memory := 0, Storage := 10 },
              .CancelPendingUsage "proj-1" { Cpu := 0, Memory := 0, Storage := 20 }] := by
  refine ⟨by decide, by decide, by decide, by decide⟩

open models compare examples in
/-- C23 at a failing input: a pass of `SyncLoadbalancers` against an empty remote set,
over one load balancer whose delete guard passes, reports `Deleted = 1` and leaves the
record in the table, not deleted; the next pass against the same remote set reports
`Deleted = 1` again. The same holds for `SyncLoadbalancerListenerRules` over one rule.
`SyncZones` over one zone reports `Deleted = 1` once and `Deleted = 0` on the next
pass. -/
theorem C23_removed_record_stays_in_inventory :
    (SyncLoadbalancers quietEnv worldLb1 provider1 region1 []).2.2.2.Deleted = 1
    ∧ (SyncLoadbalancers quietEnv worldLb1 provider1 region1 []).1.loadbalancers_tbl = [lb1]
    ∧ lb1.Deleted = false
    ∧ (SyncLoadbalancers quietEnv
        (SyncLoadbalancers quietEnv worldLb1 provider1 region1 []).1 provider1 region1
        []).2.2.2.Deleted = 1
    ∧ (SyncLoadbalancerListenerRules rulesEnv worldRule1 provider1 listener1 []).map
        (fun out => (out.2.Deleted, out.1.loadbalancerlistenerrules_tbl)) = some (1, [rule1])
    ∧ rule1.Deleted = false
    ∧ ((SyncLoadbalancerListenerRules rulesEnv worldRule1 provider1 listener1 []).bind
        (fun out => SyncLoadbalancerListenerRules rulesEnv out.1 provider1 listener1 [])).map
        (fun out => out.2.Deleted) = some 1
    ∧ (SyncZones quietEnv worldZone1 "proj-1" region1 []).2.2.2.Deleted = 1
    ∧ (SyncZones quietEnv (SyncZones quietEnv worldZone1 "proj-1" region1 []).1 "proj-1"
        region1 []).2.2.2.Deleted = 0 := by
  refine ⟨by decide, by decide, by decide, by decide, by decide, by decide, by decide,
    by decide, by decide⟩

open models compare examples in
/-- C27 at a failing input: when `db.Update` fails, `SyncWithCloudLoadbalancer` still
writes the sync-update audit entry, calls `SyncCloudProject` and syncs the network record
of the load balancer (a loadbalancer-network record is inserted), and returns the error
of the update at the end. `SyncWithCloudLoadbalancerListenerRule` and `syncWithCloudZone`
return the error right after the failed update. -/
theorem C27_failed_update_goes_on :
    (lbNet.SyncWithCloudLoadbalancer brokenUpdateEnv
        { models.World.empty with loadbalancers_tbl := [lbNet] } (extLb "ext-1") "proj-1").2.2
      = some "db down"
    ∧ (lbNet.SyncWithCloudLoadbalancer brokenUpdateEnv
        { models.World.empty with loadbalancers_tbl := [lbNet] } (extLb "ext-1") "proj-1").1.trace
      = [.LockObject "loadbalancer" "lb-1", .Update "loadbalancer" "lb-1",
          .LogSyncUpdate "loadbalancer" "lb-1",
          .SyncCloudProject "loadbalancer" "lb-1" "proj-1",
          .Insert "loadbalancernetwork" "lb-1", .ReleaseObject "loadbalancer" "lb-1"]
    ∧ (lbNet.SyncWithCloudLoadbalancer brokenUpdateEnv
        { models.World.empty with loadbalancers_tbl := [lbNet] } (extLb "ext-1")
        "proj-1").1.loadbalancernetworks_tbl
      = [{ RowId := 0, LoadbalancerId := "lb-1", NetworkId := "net-1", IpAddr := "10.0.0.1",
           Deleted := false }]
    ∧ (rule1.SyncWithCloudLoadbalancerListenerRule brokenUpdateEnv worldRule1
        (extRule "ext-r1" "") "proj-1").map (fun out => (out.1.trace, out.2.2))
      = some ([.LockObject "loadbalancerlistenerrule" "rule-1",
          .Update "loadbalancerlistenerrule" "rule-1",
          .ReleaseObject "loadbalancerlistenerrule" "rule-1"], some "db down")
    ∧ (zone1.syncWithCloudZone brokenUpdateEnv worldZone1 (extZone "ext-z1") region1).1.trace
      = [.LockObject "zone" "zone-1", .Update "zone" "zone-1", .ReleaseObject "zone" "zone-1"]
    ∧ (zone1.syncWithCloudZone brokenUpdateEnv worldZone1 (extZone "ext-z1") region1).2.2
      = some "db down" := by
  refine ⟨by decide, by decide, by decide, by decide, by decide, by decide⟩

open models compare examples in
/-- C28 at a failing input: for a rule whose `BackendGroupId` refers to a backend group
that cannot be fetched, and a remote rule that reports a backend group id,
`constructFieldsFromCloudListenerRule` panics (no result). For a rule whose backend group
can be fetched it copies `Domain` and `Path` from the remote. -/
theorem C28_constructFields_panics_on_lost_group :
    ruleLost.BackendGroupId = "grp-gone"
    ∧ lostGroupEnv.BackendGroupFetchById worldTwoRules "grp-gone" = none
    ∧ (extRule "ext-r0" "ext-grp-1").GetBackendGroupId = "ext-grp-1"
    ∧ ruleLost.constructFieldsFromCloudListenerRule lostGroupEnv worldTwoRules
        (extRule "ext-r0" "ext-grp-1") = none
    ∧ (rule1.constructFieldsFromCloudListenerRule lostGroupEnv worldTwoRules
        (extRule "ext-r1" "ext-grp-1")).map (fun out => (out.2.Domain, out.2.Path))
      = some ("example.org", "/") := by
  refine ⟨by decide, by decide, by decide, by decide, by decide⟩

/-- A fold whose steps either keep two parallel lists and a counter, or append one related
pair and count it: the lists grow by related pairs, as many as counted, the second
components in the order of the input. -/
theorem foldl_lists {σ ι α β : Type} (f : σ → ι → σ) (m : σ → List α × List β × Nat)
    (ρ : ι → β) (R : α → β → Prop) (Q : ι → Prop)
    (h : ∀ s x, Q x → m (f s x) = m s
      ∨ ∃ l, R l (ρ x) ∧ m (f s x) = ((m s).1 ++ [l], (m s).2.1 ++ [ρ x], (m s).2.2 + 1))
    (l : List ι) (hQ : ∀ x ∈ l, Q x) (s : σ) :
    ∃ ls rs, List.Forall₂ R ls rs ∧ rs.Sublist (l.map ρ)
      ∧ m (l.foldl f s) = ((m s).1 ++ ls, (m s).2.1 ++ rs, (m s).2.2 + rs.length) := by
  induction l generalizing s with
  | nil => exact ⟨[], [], List.Forall₂.nil, List.Sublist.refl _, by simp⟩
  | cons x xs ih =>
    obtain ⟨ls, rs, h1, h2, h3⟩ := ih (fun y hy => hQ y (List.mem_cons_of_mem _ hy)) (f s x)
    rcases h s x (hQ x (List.mem_cons_self _ _)) with hk | ⟨l0, hR, hk⟩
    · refine ⟨ls, rs, h1, ?_, ?_⟩
      · exact List.Sublist.cons _ h2
      · rw [List.foldl_cons, h3, hk]
    · refine ⟨l0 :: ls, ρ x :: rs, List.Forall₂.cons hR h1, ?_, ?_⟩
      · exact List.Sublist.cons₂ _ h2
      · rw [List.foldl_cons, h3, hk]
        simp only [List.append_assoc, List.singleton_append, List.length_cons, Prod.mk.injEq,
          true_and]
        omega

theorem zip_snd_sublist {α β : Type} (l1 : List α) (l2 : List β) :
    List.Sublist ((l1.zip l2).map (fun c => c.2)) l2 := by
  induction l1 generalizing l2 with
  | nil => simp
  | cons a l1 ih =>
    cases l2 with
    | nil => simp
    | cons b l2 =>
      simp only [List.zip_cons_cons, List.map_cons]
      exact List.Sublist.cons₂ _ (ih l2)

theorem forall2_mem_left {α β : Type} {R : α → β → Prop} {ls : List α} {rs : List β}
    (h : List.Forall₂ R ls rs) {x : α} (hx : x ∈ ls) : ∃ r ∈ rs, R x r := by
  induction h with
  | nil => cases hx
  | cons hab _ ih =>
    rcases List.mem_cons.1 hx with rfl | hx
    · exact ⟨_, List.mem_cons_self _ _, hab⟩
    · obtain ⟨r, hr, hR⟩ := ih hx
      exact ⟨r, List.mem_cons_of_mem _ hr, hR⟩

/-- What a partition guarantees about its outputs: the pairs have equal keys, the remote
outputs are remotes of the input, and no remote of the input has the key of a removed
local. -/
theorem CompareSets_outputs {α β : Type} (dbKey : α → String) (extKey : β → String)
    (dbSet : List α) (extSet : List β) (p : compare.Partition α β)
    (h : compare.CompareSets dbKey extKey dbSet extSet = .ok p) :
    (∀ c ∈ p.commondb.zip p.commonext, dbKey c.1 = extKey c.2)
    ∧ (∀ r ∈ p.commonext ++ p.added, r ∈ extSet)
    ∧ (∀ l ∈ p.removed, ∀ r ∈ extSet, extKey r ≠ dbKey l) := by
  obtain ⟨h1, _, h3, h4⟩ := compare.CompareSets_ok dbKey extKey dbSet extSet p h
  refine ⟨?_, ?_, ?_⟩
  · intro c hc
    rw [compare.CompareSets_zip dbKey extKey dbSet extSet p h] at hc
    exact ((compare.mem_commonPairs dbKey extKey dbSet extSet c.1 c.2).1 hc).2.2
  · intro r hr
    rcases List.mem_append.1 hr with hr | hr
    · rw [h3] at hr
      obtain ⟨c, hc, rfl⟩ := List.mem_map.1 hr
      exact ((compare.mem_commonPairs dbKey extKey dbSet extSet c.1 c.2).1 hc).2.1
    · rw [h4] at hr
      exact (List.mem_filter.1 hr).1
  · intro l hl r hr hk
    rw [h1] at hl
    have := (List.mem_filter.1 hl).2
    simp only [Bool.not_eq_true', List.any_eq_false, beq_iff_eq] at this
    exact this r hr hk

namespace models

open compare

theorem SyncWithCloudLoadbalancer_ExternalId (env : Env) (w : World) (lb : SLoadbalancer)
    (extLb : ICloudLoadbalancer) (projectId : String) :
    (lb.SyncWithCloudLoadbalancer env w extLb projectId).2.1.ExternalId = lb.ExternalId := by
  rw [SLoadbalancer.SyncWithCloudLoadbalancer_record]
  exact congrArg (fun t => t.2.2.1) (SLoadbalancer.copyFromCloud_frame extLb lb)

theorem syncWithCloudZone_ExternalId (env : Env) (w : World) (zone : SZone)
    (extZone : ICloudZone) (region : SCloudregion) :
    (zone.syncWithCloudZone env w extZone region).2.1.ExternalId = zone.ExternalId := by
  unfold SZone.syncWithCloudZone SZone.dbUpdateWithLock
  dsimp only
  split <;> rename_i h <;> split at h <;> rfl

theorem SyncLoadbalancers_loops_lists (env : Env) (provider : SCloudprovider)
    (region : SCloudregion) (p : Partition SLoadbalancer ICloudLoadbalancer) (w : World)
    (hp : ∀ c ∈ p.commondb.zip p.commonext, c.1.ExternalId = c.2.GetGlobalId) :
    ∃ ls rs, List.Forall₂ (fun (l : SLoadbalancer) (r : ICloudLoadbalancer) =>
          l.ExternalId = r.GetGlobalId) ls rs
      ∧ rs.Sublist (p.commonext ++ p.added)
      ∧ (SyncLoadbalancers.loops env provider region p w).localObjs = ls
      ∧ (SyncLoadbalancers.loops env provider region p w).remoteObjs = rs
      ∧ (SyncLoadbalancers.loops env provider region p w).syncResult.Updated
          + (SyncLoadbalancers.loops env provider region p w).syncResult.Added = rs.length := by
  let m : SyncAcc SLoadbalancer ICloudLoadbalancer →
      List SLoadbalancer × List ICloudLoadbalancer × Nat :=
    fun a => (a.localObjs, a.remoteObjs, a.syncResult.Updated + a.syncResult.Added)
  have hrem := foldl_keep (SyncLoadbalancers.removeStep env) m (fun acc lb => by
      unfold SyncLoadbalancers.removeStep
      dsimp only
      split <;> rfl) p.removed
    { w := w, localObjs := [], remoteObjs := [], syncResult := SyncResult.empty }
  obtain ⟨ls1, rs1, hf1, hs1, hm1⟩ := foldl_lists (SyncLoadbalancers.updateStep env provider) m
    (fun c => c.2) (fun (l : SLoadbalancer) (r : ICloudLoadbalancer) =>
      l.ExternalId = r.GetGlobalId)
    (fun c => c.1.ExternalId = c.2.GetGlobalId)
    (fun acc c hc => by
      unfold SyncLoadbalancers.updateStep
      dsimp only
      split
      · exact Or.inl rfl
      · refine Or.inr
          ⟨(c.1.SyncWithCloudLoadbalancer env acc.w c.2 provider.ProjectId).2.1, ?_, ?_⟩
        · exact (SyncWithCloudLoadbalancer_ExternalId env acc.w c.1 c.2 provider.ProjectId).trans hc
        · simp only [m, SyncResult.Update, Prod.mk.injEq, true_and]
          omega)
    (p.commondb.zip p.commonext) hp
    (p.removed.foldl (SyncLoadbalancers.removeStep env)
      { w := w, localObjs := [], remoteObjs := [], syncResult := SyncResult.empty })
  obtain ⟨ls2, rs2, hf2, hs2, hm2⟩ := foldl_lists
    (SyncLoadbalancers.addStep env provider region) m
    (fun x => x) (fun (l : SLoadbalancer) (r : ICloudLoadbalancer) =>
      l.ExternalId = r.GetGlobalId)
    (fun _ => True)
    (fun acc extLb _ => by
      unfold SyncLoadbalancers.addStep
      dsimp only
      split
      · exact Or.inl rfl
      · rename_i new hnew
        refine Or.inr ⟨new, ?_, ?_⟩
        · exact (newFromCloudLoadbalancer_ok env acc.w provider extLb region provider.ProjectId
            _ new (Prod.ext rfl hnew)).1
        · simp only [m, SyncResult.Add, Prod.mk.injEq, true_and]
          omega)
    p.added (fun _ _ => trivial)
    ((p.commondb.zip p.commonext).foldl (SyncLoadbalancers.updateStep env provider)
      (p.removed.foldl (SyncLoadbalancers.removeStep env)
        { w := w, localObjs := [], remoteObjs := [], syncResult := SyncResult.empty }))
  rw [hm1, hrem] at hm2
  have hm : m (SyncLoadbalancers.loops env provider region p w)
      = ([] ++ ls1 ++ ls2, [] ++ rs1 ++ rs2,
          (SyncResult.empty.Updated + SyncResult.empty.Added) + rs1.length + rs2.length) := hm2
  simp only [m, Prod.mk.injEq, List.nil_append] at hm
  refine ⟨ls1 ++ ls2, rs1 ++ rs2, ?_, ?_, hm.1, hm.2.1, ?_⟩
  · exact List.rel_append hf1 hf2
  · exact List.Sublist.append (hs1.trans (zip_snd_sublist p.commondb p.commonext))
      (by simpa using hs2)
  · rw [hm.2.2]
    simp [SyncResult.empty]


theorem SyncZones_loops_lists (env : Env) (ownerId : String)
    (region : SCloudregion) (p : Partition SZone ICloudZone) (w : World)
    (hp : ∀ c ∈ p.commondb.zip p.commonext, c.1.ExternalId = c.2.GetGlobalId) :
    ∃ ls rs, List.Forall₂ (fun (l : SZone) (r : ICloudZone) =>
          l.ExternalId = r.GetGlobalId) ls rs
      ∧ rs.Sublist (p.commonext ++ p.added)
      ∧ (SyncZones.loops env ownerId region p w).localObjs = ls
      ∧ (SyncZones.loops env ownerId region p w).remoteObjs = rs
      ∧ (SyncZones.loops env ownerId region p w).syncResult.Updated
          + (SyncZones.loops env ownerId region p w).syncResult.Added = rs.length := by
  let m : SyncAcc SZone ICloudZone → List SZone × List ICloudZone × Nat :=
    fun a => (a.localObjs, a.remoteObjs, a.syncResult.Updated + a.syncResult.Added)
  have hrem := foldl_keep (SyncZones.removeStep env) m (fun acc zone => by
      unfold SyncZones.removeStep
      dsimp only
      split <;> rfl) p.removed
    { w := w, localObjs := [], remoteObjs := [], syncResult := SyncResult.empty }
  obtain ⟨ls1, rs1, hf1, hs1, hm1⟩ := foldl_lists (SyncZones.updateStep env region) m
    (fun c => c.2) (fun (l : SZone) (r : ICloudZone) => l.ExternalId = r.GetGlobalId)
    (fun c => c.1.ExternalId = c.2.GetGlobalId)
    (fun acc c hc => by
      unfold SyncZones.updateStep
      dsimp only
      split
      · exact Or.inl rfl
      · refine Or.inr ⟨(c.1.syncWithCloudZone env acc.w c.2 region).2.1, ?_, ?_⟩
        · exact (syncWithCloudZone_ExternalId env acc.w c.1 c.2 region).trans hc
        · simp only [m, SyncResult.Update, Prod.mk.injEq, true_and]
          omega)
    (p.commondb.zip p.commonext) hp
    (p.removed.foldl (SyncZones.removeStep env)
      { w := w, localObjs := [], remoteObjs := [], syncResult := SyncResult.empty })
  obtain ⟨ls2, rs2, hf2, hs2, hm2⟩ := foldl_lists (SyncZones.addStep env ownerId region) m
    (fun x => x) (fun (l : SZone) (r : ICloudZone) => l.ExternalId = r.GetGlobalId)
    (fun _ => True)
    (fun acc extZone _ => by
      unfold SyncZones.addStep
      dsimp only
      split
      · exact Or.inl rfl
      · rename_i new hnew
        refine Or.inr ⟨new, ?_, ?_⟩
        · exact (newFromCloudZone_ok env acc.w ownerId extZone region _ new
            (Prod.ext rfl hnew)).1
        · simp only [m, SyncResult.Add, Prod.mk.injEq, true_and]
          omega)
    p.added (fun _ _ => trivial)
    ((p.commondb.zip p.commonext).foldl (SyncZones.updateStep env region)
      (p.removed.foldl (SyncZones.removeStep env)
        { w := w, localObjs := [], remoteObjs := [], syncResult := SyncResult.empty }))
  rw [hm1, hrem] at hm2
  have hm : m (SyncZones.loops env ownerId region p w)
      = ([] ++ ls1 ++ ls2, [] ++ rs1 ++ rs2,
          (SyncResult.empty.Updated + SyncResult.empty.Added) + rs1.length + rs2.length) := hm2
  simp only [m, Prod.mk.injEq, List.nil_append] at hm
  refine ⟨ls1 ++ ls2, rs1 ++ rs2, ?_, ?_, hm.1, hm.2.1, ?_⟩
  · exact List.rel_append hf1 hf2
  · exact List.Sublist.append (hs1.trans (zip_snd_sublist p.commondb p.commonext))
      (by simpa using hs2)
  · rw [hm.2.2]
    simp [SyncResult.empty]

/-- The lists of a pass, from the lists of its loops. -/
theorem lists_of_loops {α β : Type} (key : α → String) (extKey : β → String)
    (dbSet : List α) (extSet : List β) (p : Partition α β)
    (hc : CompareSets key extKey dbSet extSet = .ok p)
    (localObjs : List α) (remoteObjs : List β) (n : Nat)
    (h : ∃ ls rs, List.Forall₂ (fun l r => key l = extKey r) ls rs
      ∧ rs.Sublist (p.commonext ++ p.added) ∧ localObjs = ls ∧ remoteObjs = rs
      ∧ n = rs.length) :
    List.Forall₂ (fun l r => key l = extKey r) localObjs remoteObjs
    ∧ localObjs.length = remoteObjs.length
    ∧ localObjs.length = n
    ∧ remoteObjs.Sublist (p.commonext ++ p.added)
    ∧ (∀ l ∈ p.removed, ∀ x ∈ localObjs, key x ≠ key l) := by
  obtain ⟨ls, rs, hf, hs, rfl, rfl, rfl⟩ := h
  obtain ⟨_, hext, hrem⟩ := CompareSets_outputs key extKey dbSet extSet p hc
  refine ⟨hf, hf.length_eq, hf.length_eq, hs, ?_⟩
  intro l hl x hx hk
  obtain ⟨r, hr, hR⟩ := forall2_mem_left hf hx
  exact hrem l hl r (hext r (hs.subset hr)) (by rw [← hR, hk])

theorem filter_map_single {α : Type} (rowId : α → Nat) (P : α → Bool) (g : α → α)
    (l : List α) (first : α) (hn : (l.map rowId).Nodup) (hf : first ∈ l)
    (h1 : P (g first) = true)
    (h2 : ∀ r ∈ l, rowId r ≠ rowId first → P (g r) = false) :
    (l.map g).filter P = [g first] := by
  induction l with
  | nil => cases hf
  | cons a l ih =>
    simp only [List.map_cons, List.nodup_cons, List.mem_map, not_exists, not_and] at hn
    rcases List.mem_cons.1 hf with rfl | hf
    · have hrest : (l.map g).filter P = [] := by
        rw [List.filter_eq_nil_iff]
        intro y hy
        obtain ⟨r, hr, rfl⟩ := List.mem_map.1 hy
        have := h2 r (List.mem_cons_of_mem _ hr) (fun heq => hn.1 r hr heq)
        simp [this]
      simp [List.filter_cons, h1, hrest]
    · have ha : rowId a ≠ rowId first := fun heq => hn.1 first hf heq.symm
      have := h2 a (List.mem_cons_self _ _) ha
      simp only [List.map_cons, List.filter_cons, this]
      exact ih hn.2 hf (fun r hr => h2 r (List.mem_cons_of_mem _ hr))

theorem SLoadbalancerNetwork_Delete_tbl (env : Env) (w : World) (ln : SLoadbalancerNetwork)
    (hd : ∀ w k id, env.DeleteErr w k id = none) :
    (ln.Delete env w).1.loadbalancernetworks_tbl
      = w.loadbalancernetworks_tbl.map
          (fun r => if r.RowId == ln.RowId then { r with Deleted := true } else r) := by
  unfold SLoadbalancerNetwork.Delete
  simp [hd, World.emit]

theorem SLoadbalancerNetwork_Delete_foldl_tbl (env : Env)
    (hd : ∀ w k id, env.DeleteErr w k id = none) (rest : List SLoadbalancerNetwork) :
    ∀ w : World, (rest.foldl (fun w ln => (SLoadbalancerNetwork.Delete env w ln).1)
        w).loadbalancernetworks_tbl
      = w.loadbalancernetworks_tbl.map
          (fun r => if rest.any (fun ln => r.RowId == ln.RowId) then { r with Deleted := true }
            else r) := by
  induction rest with
  | nil => intro w; simp
  | cons ln rest ih =>
    intro w
    rw [List.foldl_cons, ih, SLoadbalancerNetwork_Delete_tbl env w ln hd, List.map_map]
    apply List.map_congr_left
    intro r _
    simp only [Function.comp, List.any_cons]
    by_cases h1 : r.RowId = ln.RowId
    · simp [h1]
    · simp [h1]


/-- The records of a pair after the first was set to the address and the others were
deleted. -/
theorem pairRecords_after (tbl : List SLoadbalancerNetwork) (lbId netId addr : String)
    (first : SLoadbalancerNetwork) (rest : List SLoadbalancerNetwork)
    (hrow : (tbl.map (fun r => r.RowId)).Nodup)
    (hl : tbl.filter (fun ln => !ln.Deleted && ln.LoadbalancerId == lbId
      && ln.NetworkId == netId) = first :: rest)
    (u : SLoadbalancerNetwork → SLoadbalancerNetwork)
    (hu1 : u first = { first with IpAddr := addr })
    (hu2 : ∀ r, r.RowId ≠ first.RowId → u r = r) :
    ((tbl.map u).map (fun r => if rest.any (fun ln => r.RowId == ln.RowId) then
        { r with Deleted := true } else r)).filter
      (fun ln => !ln.Deleted && ln.LoadbalancerId == lbId && ln.NetworkId == netId)
      = [{ first with IpAddr := addr }] := by
  have hsub : List.Sublist (first :: rest) tbl := hl ▸ List.filter_sublist _
  have hfirst : first ∈ tbl := hsub.subset (List.mem_cons_self _ _)
  have hP : (!first.Deleted && first.LoadbalancerId == lbId && first.NetworkId == netId)
      = true := by
    have : first ∈ tbl.filter (fun ln => !ln.Deleted && ln.LoadbalancerId == lbId
        && ln.NetworkId == netId) := by rw [hl]; exact List.mem_cons_self _ _
    exact (List.mem_filter.1 this).2
  have hnd : ((first :: rest).map (fun r => r.RowId)).Nodup :=
    hrow.sublist (hsub.map _)
  have hnot : ∀ ln ∈ rest, first.RowId ≠ ln.RowId := by
    intro ln hln heq
    simp only [List.map_cons, List.nodup_cons, List.mem_map, not_exists, not_and] at hnd
    exact hnd.1 ln hln heq.symm
  have hany : rest.any (fun ln => first.RowId == ln.RowId) = false := by
    simp only [List.any_eq_false, beq_iff_eq]
    exact hnot
  rw [List.map_map]
  have key := filter_map_single (fun r : SLoadbalancerNetwork => r.RowId)
    (fun ln => !ln.Deleted && ln.LoadbalancerId == lbId && ln.NetworkId == netId)
    ((fun r => if rest.any (fun ln => r.RowId == ln.RowId) then
        { r with Deleted := true } else r) ∘ u) tbl first hrow hfirst
  have hg : ((fun r : SLoadbalancerNetwork => if rest.any (fun ln => r.RowId == ln.RowId) then
        { r with Deleted := true } else r) ∘ u) first = { first with IpAddr := addr } := by
    simp only [Function.comp, hu1, hany]
    rfl
  rw [hg] at key
  refine key (by simpa using hP) ?_
  intro r hr hne
  simp only [Function.comp, hu2 r hne]
  by_cases hin : rest.any (fun ln => r.RowId == ln.RowId) = true
  · simp [hin]
  · rw [if_neg hin]
    by_contra hPr
    have hPr2 : (!r.Deleted && r.LoadbalancerId == lbId && r.NetworkId == netId) = true := by
      rcases Bool.eq_false_or_eq_true
        (!r.Deleted && r.LoadbalancerId == lbId && r.NetworkId == netId) with hb | hb
      · exact hb
      · exact absurd hb hPr
    have hmem : r ∈ tbl.filter (fun ln => !ln.Deleted && ln.LoadbalancerId == lbId
        && ln.NetworkId == netId) := List.mem_filter.2 ⟨hr, hPr2⟩
    rw [hl] at hmem
    rcases List.mem_cons.1 hmem with rfl | hmem
    · exact hne rfl
    · exact hin (List.any_eq_true.2 ⟨r, hmem, by simp⟩)

theorem syncLoadbalancerNetwork_post (env : Env) (w : World)
    (req : SLoadbalancerNetworkRequestData)
    (hrow : (w.loadbalancernetworks_tbl.map (fun r => r.RowId)).Nodup)
    (hu : ∀ w k id, env.UpdateErr w k id = none)
    (hd : ∀ w k id, env.DeleteErr w k id = none)
    (h : (SLoadbalancernetworkManager.syncLoadbalancerNetwork env w req).2 = none) :
    ∃ ln, SLoadbalancernetworkManager.pairRecords
        (SLoadbalancernetworkManager.syncLoadbalancerNetwork env w req).1
        req.Loadbalancer.Id req.NetworkId = [ln] ∧ ln.IpAddr = req.Address := by
  unfold SLoadbalancernetworkManager.syncLoadbalancerNetwork at h ⊢
  dsimp only at h ⊢
  split at h
  · simp at h
  · split at h
    · simp at h
    · split at h
      · simp at h
      · rename_i h1 h2 h3
        split at h
        · cases h
        · split at h
          · rename_i hl
            split at h
            · cases h
            · rw [if_neg h1, if_neg h2, if_neg h3]
              refine ⟨SLoadbalancerNetwork.mk w.loadbalancernetworks_tbl.length
                req.Loadbalancer.Id req.NetworkId req.Address false, ?_, rfl⟩
              unfold SLoadbalancernetworkManager.pairRecords
              rw [List.filter_append]
              have : (w.emit (Event.Insert "loadbalancernetwork"
                  req.Loadbalancer.Id)).loadbalancernetworks_tbl
                  = w.loadbalancernetworks_tbl := rfl
              simp only [this, hl]
              simp
          · rename_i first rest hl
            rw [if_neg h1, if_neg h2, if_neg h3]
            unfold SLoadbalancernetworkManager.pairRecords
            rw [SLoadbalancerNetwork_Delete_foldl_tbl env hd]
            refine ⟨{ first with IpAddr := req.Address }, ?_, rfl⟩
            by_cases hip : first.IpAddr = req.Address
            · have := pairRecords_after w.loadbalancernetworks_tbl req.Loadbalancer.Id
                req.NetworkId req.Address first rest hrow hl id
                (by cases first; simp_all) (fun _ _ => rfl)
              simpa [hip] using this
            · have := pairRecords_after w.loadbalancernetworks_tbl req.Loadbalancer.Id
                req.NetworkId req.Address first rest hrow hl
                (fun r => if r.RowId == first.RowId then { r with IpAddr := req.Address }
                  else r)
                (by simp) (fun r hne => by simp [hne])
              simpa [hip, hu, World.emit] using this

/-- A fold whose steps append to two lists exactly what `outcome` gives: the lists grow by
the pairs `keptPairs` collects. -/
theorem foldl_keptPairs {σ ι α β : Type} (f : σ → ι → σ) (m : σ → List α × List β)
    (outcome : σ → ι → Option (α × β))
    (h0 : ∀ s x, outcome s x = none → m (f s x) = m s)
    (h1 : ∀ s x a b, outcome s x = some (a, b) →
      m (f s x) = ((m s).1 ++ [a], (m s).2 ++ [b]))
    (l : List ι) (s : σ) :
    m (l.foldl f s) = ((m s).1 ++ (keptPairs f outcome s l).map Prod.fst,
      (m s).2 ++ (keptPairs f outcome s l).map Prod.snd) := by
  induction l generalizing s with
  | nil => simp [keptPairs, statesBefore]
  | cons x xs ih =>
    rw [List.foldl_cons, ih]
    unfold keptPairs at *
    simp only [statesBefore, List.filterMap_cons]
    cases ho : outcome s x with
    | none => rw [h0 s x ho]
    | some ab =>
      obtain ⟨a, b⟩ := ab
      rw [h1 s x a b ho]
      simp

theorem SyncLoadbalancers_updateStep_kept (env : Env) (provider : SCloudprovider)
    (acc : SyncAcc SLoadbalancer ICloudLoadbalancer)
    (c : SLoadbalancer × ICloudLoadbalancer) :
    (SyncLoadbalancers.updateOutcome env provider acc c = none →
      (SyncLoadbalancers.updateStep env provider acc c).localObjs = acc.localObjs
      ∧ (SyncLoadbalancers.updateStep env provider acc c).remoteObjs = acc.remoteObjs)
    ∧ (∀ a b, SyncLoadbalancers.updateOutcome env provider acc c = some (a, b) →
      (SyncLoadbalancers.updateStep env provider acc c).localObjs = acc.localObjs ++ [a]
      ∧ (SyncLoadbalancers.updateStep env provider acc c).remoteObjs
          = acc.remoteObjs ++ [b]) := by
  unfold SyncLoadbalancers.updateStep SyncLoadbalancers.updateOutcome
  dsimp only
  split <;> rename_i h <;> simp only [h]
  · simp
  · refine ⟨fun h => by simp at h, fun a b hab => ?_⟩
    simp only [Option.some.injEq, Prod.mk.injEq] at hab
    obtain ⟨rfl, rfl⟩ := hab
    exact ⟨rfl, rfl⟩

theorem SyncLoadbalancers_addStep_kept (env : Env) (provider : SCloudprovider)
    (region : SCloudregion) (acc : SyncAcc SLoadbalancer ICloudLoadbalancer)
    (extLb : ICloudLoadbalancer) :
    (SyncLoadbalancers.addOutcome env provider region acc extLb = none →
      (SyncLoadbalancers.addStep env provider region acc extLb).localObjs = acc.localObjs
      ∧ (SyncLoadbalancers.addStep env provider region acc extLb).remoteObjs
          = acc.remoteObjs)
    ∧ (∀ a b, SyncLoadbalancers.addOutcome env provider region acc extLb = some (a, b) →
      (SyncLoadbalancers.addStep env provider region acc extLb).localObjs
          = acc.localObjs ++ [a]
      ∧ (SyncLoadbalancers.addStep env provider region acc extLb).remoteObjs
          = acc.remoteObjs ++ [b]) := by
  unfold SyncLoadbalancers.addStep SyncLoadbalancers.addOutcome
  dsimp only
  split <;> rename_i h <;> simp only [h]
  · simp
  · refine ⟨fun h => by simp at h, fun a b hab => ?_⟩
    simp only [Option.some.injEq, Prod.mk.injEq] at hab
    obtain ⟨rfl, rfl⟩ := hab
    exact ⟨rfl, rfl⟩

theorem SyncLoadbalancers_afterRemoved_lists (env : Env)
    (p : Partition SLoadbalancer ICloudLoadbalancer) (w : World) :
    (SyncLoadbalancers.afterRemoved env p w).localObjs = []
    ∧ (SyncLoadbalancers.afterRemoved env p w).remoteObjs = [] := by
  have h := foldl_keep (SyncLoadbalancers.removeStep env)
    (fun a : SyncAcc SLoadbalancer ICloudLoadbalancer => (a.localObjs, a.remoteObjs))
    (fun acc lb => by
      unfold SyncLoadbalancers.removeStep
      dsimp only
      split <;> rfl) p.removed
    { w := w, localObjs := [], remoteObjs := [], syncResult := SyncResult.empty }
  exact ⟨congrArg Prod.fst h, congrArg Prod.snd h⟩

theorem SyncLoadbalancers_loops_kept (env : Env) (provider : SCloudprovider)
    (region : SCloudregion) (p : Partition SLoadbalancer ICloudLoadbalancer) (w : World) :
    ((SyncLoadbalancers.loops env provider region p w).localObjs,
      (SyncLoadbalancers.loops env provider region p w).remoteObjs)
      = (((keptPairs (SyncLoadbalancers.updateStep env provider)
              (SyncLoadbalancers.updateOutcome env provider)
              (SyncLoadbalancers.afterRemoved env p w) (p.commondb.zip p.commonext))
            ++ keptPairs (SyncLoadbalancers.addStep env provider region)
              (SyncLoadbalancers.addOutcome env provider region)
              (SyncLoadbalancers.afterCommon env provider p w) p.added).map Prod.fst,
         ((keptPairs (SyncLoadbalancers.updateStep env provider)
              (SyncLoadbalancers.updateOutcome env provider)
              (SyncLoadbalancers.afterRemoved env p w) (p.commondb.zip p.commonext))
            ++ keptPairs (SyncLoadbalancers.addStep env provider region)
              (SyncLoadbalancers.addOutcome env provider region)
              (SyncLoadbalancers.afterCommon env provider p w) p.added).map Prod.snd) := by
  have h1 := foldl_keptPairs (SyncLoadbalancers.updateStep env provider)
    (fun a : SyncAcc SLoadbalancer ICloudLoadbalancer => (a.localObjs, a.remoteObjs))
    (SyncLoadbalancers.updateOutcome env provider)
    (fun s x h => Prod.ext ((SyncLoadbalancers_updateStep_kept env provider s x).1 h).1
      ((SyncLoadbalancers_updateStep_kept env provider s x).1 h).2)
    (fun s x a b h => Prod.ext ((SyncLoadbalancers_updateStep_kept env provider s x).2 a b h).1
      ((SyncLoadbalancers_updateStep_kept env provider s x).2 a b h).2)
    (p.commondb.zip p.commonext)
    (SyncLoadbalancers.afterRemoved env p w)
  have h2 := foldl_keptPairs (SyncLoadbalancers.addStep env provider region)
    (fun a : SyncAcc SLoadbalancer ICloudLoadbalancer => (a.localObjs, a.remoteObjs))
    (SyncLoadbalancers.addOutcome env provider region)
    (fun s x h => Prod.ext ((SyncLoadbalancers_addStep_kept env provider region s x).1 h).1
      ((SyncLoadbalancers_addStep_kept env provider region s x).1 h).2)
    (fun s x a b h =>
      Prod.ext ((SyncLoadbalancers_addStep_kept env provider region s x).2 a b h).1
        ((SyncLoadbalancers_addStep_kept env provider region s x).2 a b h).2)
    p.added
    (SyncLoadbalancers.afterCommon env provider p w)
  obtain ⟨r1, r2⟩ := SyncLoadbalancers_afterRemoved_lists env p w
  have h1' : ((SyncLoadbalancers.afterCommon env provider p w).localObjs,
      (SyncLoadbalancers.afterCommon env provider p w).remoteObjs) = _ := h1
  rw [r1, r2] at h1'
  simp only [Prod.mk.injEq, List.nil_append] at h1'
  have h2' : ((SyncLoadbalancers.loops env provider region p w).localObjs,
      (SyncLoadbalancers.loops env provider region p w).remoteObjs) = _ := h2
  rw [h2', h1'.1, h1'.2]
  simp

theorem SyncZones_updateStep_kept (env : Env) (region : SCloudregion)
    (acc : SyncAcc SZone ICloudZone)
    (c : SZone × ICloudZone) :
    (SyncZones.updateOutcome env region acc c = none →
      (SyncZones.updateStep env region acc c).localObjs = acc.localObjs
      ∧ (SyncZones.updateStep env region acc c).remoteObjs = acc.remoteObjs)
    ∧ (∀ a b, SyncZones.updateOutcome env region acc c = some (a, b) →
      (SyncZones.updateStep env region acc c).localObjs = acc.localObjs ++ [a]
      ∧ (SyncZones.updateStep env region acc c).remoteObjs
          = acc.remoteObjs ++ [b]) := by
  unfold SyncZones.updateStep SyncZones.updateOutcome
  dsimp only
  split <;> rename_i h <;> simp only [h]
  · simp
  · refine ⟨fun h => by simp at h, fun a b hab => ?_⟩
    simp only [Option.some.injEq, Prod.mk.injEq] at hab
    obtain ⟨rfl, rfl⟩ := hab
    exact ⟨rfl, rfl⟩

theorem SyncZones_addStep_kept (env : Env) (ownerId : String)
    (region : SCloudregion) (acc : SyncAcc SZone ICloudZone)
    (extZone : ICloudZone) :
    (SyncZones.addOutcome env ownerId region acc extZone = none →
      (SyncZones.addStep env ownerId region acc extZone).localObjs = acc.localObjs
      ∧ (SyncZones.addStep env ownerId region acc extZone).remoteObjs
          = acc.remoteObjs)
    ∧ (∀ a b, SyncZones.addOutcome env ownerId region acc extZone = some (a, b) →
      (SyncZones.addStep env ownerId region acc extZone).localObjs
          = acc.localObjs ++ [a]
      ∧ (SyncZones.addStep env ownerId region acc extZone).remoteObjs
          = acc.remoteObjs ++ [b]) := by
  unfold SyncZones.addStep SyncZones.addOutcome
  dsimp only
  split <;> rename_i h <;> simp only [h]
  · simp
  · refine ⟨fun h => by simp at h, fun a b hab => ?_⟩
    simp only [Option.some.injEq, Prod.mk.injEq] at hab
    obtain ⟨rfl, rfl⟩ := hab
    exact ⟨rfl, rfl⟩

theorem SyncZones_afterRemoved_lists (env : Env)
    (p : Partition SZone ICloudZone) (w : World) :
    (SyncZones.afterRemoved env p w).localObjs = []
    ∧ (SyncZones.afterRemoved env p w).remoteObjs = [] := by
  have h := foldl_keep (SyncZones.removeStep env)
    (fun a : SyncAcc SZone ICloudZone => (a.localObjs, a.remoteObjs))
    (fun acc lb => by
      unfold SyncZones.removeStep
      dsimp only
      split <;> rfl) p.removed
    { w := w, localObjs := [], remoteObjs := [], syncResult := SyncResult.empty }
  exact ⟨congrArg Prod.fst h, congrArg Prod.snd h⟩

theorem SyncZones_loops_kept (env : Env) (ownerId : String)
    (region : SCloudregion) (p : Partition SZone ICloudZone) (w : World) :
    ((SyncZones.loops env ownerId region p w).localObjs,
      (SyncZones.loops env ownerId region p w).remoteObjs)
      = (((keptPairs (SyncZones.updateStep env region)
              (SyncZones.updateOutcome env region)
              (SyncZones.afterRemoved env p w) (p.commondb.zip p.commonext))
            ++ keptPairs (SyncZones.addStep env ownerId region)
              (SyncZones.addOutcome env ownerId region)
              (SyncZones.afterCommon env region p w) p.added).map Prod.fst,
         ((keptPairs (SyncZones.updateStep env region)
              (SyncZones.updateOutcome env region)
              (SyncZones.afterRemoved env p w) (p.commondb.zip p.commonext))
            ++ keptPairs (SyncZones.addStep env ownerId region)
              (SyncZones.addOutcome env ownerId region)
              (SyncZones.afterCommon env region p w) p.added).map Prod.snd) := by
  have h1 := foldl_keptPairs (SyncZones.updateStep env region)
    (fun a : SyncAcc SZone ICloudZone => (a.localObjs, a.remoteObjs))
    (SyncZones.updateOutcome env region)
    (fun s x h => Prod.ext ((SyncZones_updateStep_kept env region s x).1 h).1
      ((SyncZones_updateStep_kept env region s x).1 h).2)
    (fun s x a b h => Prod.ext ((SyncZones_updateStep_kept env region s x).2 a b h).1
      ((SyncZones_updateStep_kept env region s x).2 a b h).2)
    (p.commondb.zip p.commonext)
    (SyncZones.afterRemoved env p w)
  have h2 := foldl_keptPairs (SyncZones.addStep env ownerId region)
    (fun a : SyncAcc SZone ICloudZone => (a.localObjs, a.remoteObjs))
    (SyncZones.addOutcome env ownerId region)
    (fun s x h => Prod.ext ((SyncZones_addStep_kept env ownerId region s x).1 h).1
      ((SyncZones_addStep_kept env ownerId region s x).1 h).2)
    (fun s x a b h =>
      Prod.ext ((SyncZones_addStep_kept env ownerId region s x).2 a b h).1
        ((SyncZones_addStep_kept env ownerId region s x).2 a b h).2)
    p.added
    (SyncZones.afterCommon env region p w)
  obtain ⟨r1, r2⟩ := SyncZones_afterRemoved_lists env p w
  have h1' : ((SyncZones.afterCommon env region p w).localObjs,
      (SyncZones.afterCommon env region p w).remoteObjs) = _ := h1
  rw [r1, r2] at h1'
  simp only [Prod.mk.injEq, List.nil_append] at h1'
  have h2' : ((SyncZones.loops env ownerId region p w).localObjs,
      (SyncZones.loops env ownerId region p w).remoteObjs) = _ := h2
  rw [h2', h1'.1, h1'.2]
  simp

end models

open models compare examples in
/-- C26: lists returned by a pass. `SyncLoadbalancers` and `SyncZones` return `nil` lists
when the read of the local records fails. Otherwise, with `p` the partition of the local
and the remote set, the local and the remote list have the same length, equal to
`Updated + Added` of the returned `SyncResult`; entry `i` of the local list has the
global id of entry `i` of the remote list as its `ExternalId`; the remote list is a
sublist of the common remotes followed by the added remotes, in that order; no entry of
the local list has the `ExternalId` of a removed item; and the two lists are exactly the
records and the remotes of the common pairs whose update returned no error, followed by
those of the added remotes whose insert returned no error (`keptPairs`), each record
being the one the update or the insert returned. Step by step: an update or an insert
that returns an error, and every removal, leaves both lists as they were. On a pass with
one failed update, one successful and one failed insert, the lists hold the one inserted
record and its remote. -/
theorem C26_lists_returned_by_pass :
    (∀ (env : models.Env) (w : models.World) (provider : SCloudprovider)
        (region : SCloudregion) (lbs : List ICloudLoadbalancer),
      (∀ err, getLoadbalancersByRegion env
            (w.emit (.LockClass "loadbalancer" provider.ProjectId)) region provider
            = .error err →
          (SyncLoadbalancers env w provider region lbs).2.1 = []
          ∧ (SyncLoadbalancers env w provider region lbs).2.2.1 = [])
      ∧ ∀ dbLbs, getLoadbalancersByRegion env
            (w.emit (.LockClass "loadbalancer" provider.ProjectId)) region provider
            = .ok dbLbs →
          ∃ p, CompareSets (fun l : SLoadbalancer => l.ExternalId)
              (fun r : ICloudLoadbalancer => r.GetGlobalId) dbLbs lbs = .ok p
            ∧ List.Forall₂ (fun (l : SLoadbalancer) (r : ICloudLoadbalancer) =>
                l.ExternalId = r.GetGlobalId)
                (SyncLoadbalancers env w provider region lbs).2.1
                (SyncLoadbalancers env w provider region lbs).2.2.1
            ∧ (SyncLoadbalancers env w provider region lbs).2.1.length
                = (SyncLoadbalancers env w provider region lbs).2.2.1.length
            ∧ (SyncLoadbalancers env w provider region lbs).2.1.length
                = (SyncLoadbalancers env w provider region lbs).2.2.2.Updated
                  + (SyncLoadbalancers env w provider region lbs).2.2.2.Added
            ∧ ((SyncLoadbalancers env w provider region lbs).2.2.1).Sublist
                (p.commonext ++ p.added)
            ∧ (∀ l ∈ p.removed, ∀ x ∈ (SyncLoadbalancers env w provider region lbs).2.1,
                x.ExternalId ≠ l.ExternalId)
            ∧ (SyncLoadbalancers env w provider region lbs).2.1
                = ((keptPairs (SyncLoadbalancers.updateStep env provider)
                      (SyncLoadbalancers.updateOutcome env provider)
                      (SyncLoadbalancers.afterRemoved env p
                        (w.emit (.LockClass "loadbalancer" provider.ProjectId)))
                      (p.commondb.zip p.commonext))
                    ++ keptPairs (SyncLoadbalancers.addStep env provider region)
                      (SyncLoadbalancers.addOutcome env provider region)
                      (SyncLoadbalancers.afterCommon env provider p
                        (w.emit (.LockClass "loadbalancer" provider.ProjectId)))
                      p.added).map Prod.fst
            ∧ (SyncLoadbalancers env w provider region lbs).2.2.1
                = ((keptPairs (SyncLoadbalancers.updateStep env provider)
                      (SyncLoadbalancers.updateOutcome env provider)
                      (SyncLoadbalancers.afterRemoved env p
                        (w.emit (.LockClass "loadbalancer" provider.ProjectId)))
                      (p.commondb.zip p.commonext))
                    ++ keptPairs (SyncLoadbalancers.addStep env provider region)
                      (SyncLoadbalancers.addOutcome env provider region)
                      (SyncLoadbalancers.afterCommon env provider p
                        (w.emit (.LockClass "loadbalancer" provider.ProjectId)))
                      p.added).map Prod.snd)
    ∧ (∀ (env : models.Env) (w : models.World) (ownerId : String) (region : SCloudregion)
        (zones : List ICloudZone),
      (∀ err, GetZonesByRegion env (w.emit (.LockClass "zone" ownerId)) region = .error err →
          (SyncZones env w ownerId region zones).2.1 = []
          ∧ (SyncZones env w ownerId region zones).2.2.1 = [])
      ∧ ∀ dbZones, GetZonesByRegion env (w.emit (.LockClass "zone" ownerId)) region
            = .ok dbZones →
          ∃ p, CompareSets (fun l : SZone => l.ExternalId)
              (fun r : ICloudZone => r.GetGlobalId) dbZones zones = .ok p
            ∧ List.Forall₂ (fun (l : SZone) (r : ICloudZone) => l.ExternalId = r.GetGlobalId)
                (SyncZones env w ownerId region zones).2.1
                (SyncZones env w ownerId region zones).2.2.1
            ∧ (SyncZones env w ownerId region zones).2.1.length
                = (SyncZones env w ownerId region zones).2.2.1.length
            ∧ (SyncZones env w ownerId region zones).2.1.length
                = (SyncZones env w ownerId region zones).2.2.2.Updated
                  + (SyncZones env w ownerId region zones).2.2.2.Added
            ∧ ((SyncZones env w ownerId region zones).2.2.1).Sublist (p.commonext ++ p.added)
            ∧ (∀ l ∈ p.removed, ∀ x ∈ (SyncZones env w ownerId region zones).2.1,
                x.ExternalId ≠ l.ExternalId)
            ∧ (SyncZones env w ownerId region zones).2.1
                = ((keptPairs (SyncZones.updateStep env region)
                      (SyncZones.updateOutcome env region)
                      (SyncZones.afterRemoved env p (w.emit (.LockClass "zone" ownerId)))
                      (p.commondb.zip p.commonext))
                    ++ keptPairs (SyncZones.addStep env ownerId region)
                      (SyncZones.addOutcome env ownerId region)
                      (SyncZones.afterCommon env region p
                        (w.emit (.LockClass "zone" ownerId)))
                      p.added).map Prod.fst
            ∧ (SyncZones env w ownerId region zones).2.2.1
                = ((keptPairs (SyncZones.updateStep env region)
                      (SyncZones.updateOutcome env region)
                      (SyncZones.afterRemoved env p (w.emit (.LockClass "zone" ownerId)))
                      (p.commondb.zip p.commonext))
                    ++ keptPairs (SyncZones.addStep env ownerId region)
                      (SyncZones.addOutcome env ownerId region)
                      (SyncZones.afterCommon env region p
                        (w.emit (.LockClass "zone" ownerId)))
                      p.added).map Prod.snd)
    ∧ (∀ (env : models.Env) (provider : SCloudprovider) (region : SCloudregion)
        (acc : SyncAcc SLoadbalancer ICloudLoadbalancer),
      (∀ c err,
          (c.1.SyncWithCloudLoadbalancer env acc.w c.2 provider.ProjectId).2.2 = some err →
          (SyncLoadbalancers.updateStep env provider acc c).localObjs = acc.localObjs
          ∧ (SyncLoadbalancers.updateStep env provider acc c).remoteObjs = acc.remoteObjs)
      ∧ (∀ extLb err,
          (newFromCloudLoadbalancer env acc.w provider extLb region provider.ProjectId).2
            = .error err →
          (SyncLoadbalancers.addStep env provider region acc extLb).localObjs = acc.localObjs
          ∧ (SyncLoadbalancers.addStep env provider region acc extLb).remoteObjs
              = acc.remoteObjs)
      ∧ (∀ lb, (SyncLoadbalancers.removeStep env acc lb).localObjs = acc.localObjs
          ∧ (SyncLoadbalancers.removeStep env acc lb).remoteObjs = acc.remoteObjs))
    ∧ (∀ (env : models.Env) (ownerId : String) (region : SCloudregion)
        (acc : SyncAcc SZone ICloudZone),
      (∀ c err, (c.1.syncWithCloudZone env acc.w c.2 region).2.2 = some err →
          (SyncZones.updateStep env region acc c).localObjs = acc.localObjs
          ∧ (SyncZones.updateStep env region acc c).remoteObjs = acc.remoteObjs)
      ∧ (∀ extZone err, (newFromCloudZone env acc.w ownerId extZone region).2 = .error err →
          (SyncZones.addStep env ownerId region acc extZone).localObjs = acc.localObjs
          ∧ (SyncZones.addStep env ownerId region acc extZone).remoteObjs = acc.remoteObjs)
      ∧ (∀ zone, (SyncZones.removeStep env acc zone).localObjs = acc.localObjs
          ∧ (SyncZones.removeStep env acc zone).remoteObjs = acc.remoteObjs))
    ∧ (SyncLoadbalancers failedWritesEnv worldLb1 provider1 region1
          [extLb "ext-1", extLb "ext-2", extLb "ext-3"]).2.2.1 = [extLb "ext-2"]
    ∧ (SyncLoadbalancers failedWritesEnv worldLb1 provider1 region1
          [extLb "ext-1", extLb "ext-2", extLb "ext-3"]).2.1.map (fun l => l.ExternalId)
        = ["ext-2"]
    ∧ (SyncZones failedWritesEnv worldZone1 "" region1
          [extZone "ext-z1", extZone "ext-2", extZone "ext-3"]).2.2.1 = [extZone "ext-2"]
    ∧ (SyncZones failedWritesEnv worldZone1 "" region1
          [extZone "ext-z1", extZone "ext-2", extZone "ext-3"]).2.1.map (fun l => l.ExternalId)
        = ["ext-2"] := by
  refine ⟨?_, ?_, ?_, ?_, by decide, by decide, by decide, by decide⟩
  · intro env w provider region lbs
    refine ⟨fun err herr => ?_, fun dbLbs hf => ?_⟩
    · unfold SyncLoadbalancers
      simp [herr]
    · obtain ⟨p, hc⟩ := CompareSets_total (fun l : SLoadbalancer => l.ExternalId)
        (fun r : ICloudLoadbalancer => r.GetGlobalId) dbLbs lbs
      refine ⟨p, hc, ?_⟩
      rw [SyncLoadbalancers_eq env w provider region lbs dbLbs p hf hc]
      obtain ⟨ls, rs, h1, h2, h3, h4, h5⟩ := SyncLoadbalancers_loops_lists env provider region p
        (w.emit (.LockClass "loadbalancer" provider.ProjectId))
        (CompareSets_outputs _ _ dbLbs lbs p hc).1
      obtain ⟨g1, g2, g3, g4, g5⟩ :=
        lists_of_loops _ _ dbLbs lbs p hc _ _ _ ⟨ls, rs, h1, h2, h3, h4, h5⟩
      have hk := SyncLoadbalancers_loops_kept env provider region p
        (w.emit (.LockClass "loadbalancer" provider.ProjectId))
      exact ⟨g1, g2, g3, g4, g5, congrArg Prod.fst hk, congrArg Prod.snd hk⟩
  · intro env w ownerId region zones
    refine ⟨fun err herr => ?_, fun dbZones hf => ?_⟩
    · unfold SyncZones
      simp [herr]
    · obtain ⟨p, hc⟩ := CompareSets_total (fun l : SZone => l.ExternalId)
        (fun r : ICloudZone => r.GetGlobalId) dbZones zones
      refine ⟨p, hc, ?_⟩
      rw [SyncZones_eq env w ownerId region zones dbZones p hf hc]
      obtain ⟨ls, rs, h1, h2, h3, h4, h5⟩ := SyncZones_loops_lists env ownerId region p
        (w.emit (.LockClass "zone" ownerId)) (CompareSets_outputs _ _ dbZones zones p hc).1
      obtain ⟨g1, g2, g3, g4, g5⟩ :=
        lists_of_loops _ _ dbZones zones p hc _ _ _ ⟨ls, rs, h1, h2, h3, h4, h5⟩
      have hk := SyncZones_loops_kept env ownerId region p (w.emit (.LockClass "zone" ownerId))
      exact ⟨g1, g2, g3, g4, g5, congrArg Prod.fst hk, congrArg Prod.snd hk⟩
  · intro env provider region acc
    refine ⟨fun c err h => ?_, fun extLb err h => ?_, fun lb => ?_⟩
    · unfold SyncLoadbalancers.updateStep
      simp [h]
    · unfold SyncLoadbalancers.addStep
      simp [h]
    · unfold SyncLoadbalancers.removeStep
      dsimp only
      split <;> exact ⟨rfl, rfl⟩
  · intro env ownerId region acc
    refine ⟨fun c err h => ?_, fun extZone err h => ?_, fun zone => ?_⟩
    · unfold SyncZones.updateStep
      simp [h]
    · unfold SyncZones.addStep
      simp [h]
    · unfold SyncZones.removeStep
      dsimp only
      split <;> exact ⟨rfl, rfl⟩

open models compare examples in
/-- C29, as stated, fails: with one record of the pair whose address differs from the
requested one and a failing `db.Update`, `syncLoadbalancerNetwork` returns `nil` and the
record keeps its old address; with two records of the pair and failing deletes it returns
`nil` and both records remain. -/
theorem C29_syncLoadbalancerNetwork_counterexample :
    netReq.Address = "10.0.0.9"
    ∧ (SLoadbalancernetworkManager.syncLoadbalancerNetwork brokenUpdateEnv
        (worldNets [lbnet 0 "10.0.0.1"]) netReq).2 = none
    ∧ SLoadbalancernetworkManager.pairRecords
        (SLoadbalancernetworkManager.syncLoadbalancerNetwork brokenUpdateEnv
          (worldNets [lbnet 0 "10.0.0.1"]) netReq).1 "lb-1" "net-1" = [lbnet 0 "10.0.0.1"]
    ∧ (SLoadbalancernetworkManager.syncLoadbalancerNetwork
        { networkEnv with DeleteErr := fun _ _ _ => some "db down" }
        (worldNets [lbnet 0 "10.0.0.9", lbnet 1 "10.0.0.2"]) netReq).2 = none
    ∧ SLoadbalancernetworkManager.pairRecords
        (SLoadbalancernetworkManager.syncLoadbalancerNetwork
          { networkEnv with DeleteErr := fun _ _ _ => some "db down" }
          (worldNets [lbnet 0 "10.0.0.9", lbnet 1 "10.0.0.2"]) netReq).1 "lb-1" "net-1"
        = [lbnet 0 "10.0.0.9", lbnet 1 "10.0.0.2"] := by
  refine ⟨rfl, by decide, by decide, by decide, by decide⟩

open models compare in
/-- C29, amended: on a table whose records have distinct row ids, when the update of the
first record and the deletes of the others succeed, a `nil` result of
`syncLoadbalancerNetwork` means that exactly one record exists for the (load balancer,
network) pair and that its `IpAddr` is the requested address. When the network is
missing, the address does not parse or the address is outside the range of the network,
the function returns an error and leaves the world as it was. -/
theorem C29_syncLoadbalancerNetwork_amended (env : models.Env) (w : models.World)
    (req : SLoadbalancerNetworkRequestData)
    (hrow : (w.loadbalancernetworks_tbl.map (fun r => r.RowId)).Nodup)
    (hu : ∀ w k id, env.UpdateErr w k id = none)
    (hd : ∀ w k id, env.DeleteErr w k id = none) :
    ((SLoadbalancernetworkManager.syncLoadbalancerNetwork env w req).2 = none →
      ∃ ln, SLoadbalancernetworkManager.pairRecords
          (SLoadbalancernetworkManager.syncLoadbalancerNetwork env w req).1
          req.Loadbalancer.Id req.NetworkId = [ln] ∧ ln.IpAddr = req.Address)
    ∧ ((env.NetworkExists w req.NetworkId = false ∨ env.ValidIPv4 req.Address = false
          ∨ env.AddressInRange w req.NetworkId req.Address = false) →
        (SLoadbalancernetworkManager.syncLoadbalancerNetwork env w req).2 ≠ none
        ∧ (SLoadbalancernetworkManager.syncLoadbalancerNetwork env w req).1 = w) := by
  refine ⟨syncLoadbalancerNetwork_post env w req hrow hu hd, ?_⟩
  intro h
  unfold SLoadbalancernetworkManager.syncLoadbalancerNetwork
  dsimp only
  by_cases h1 : env.NetworkExists w req.NetworkId = false
  · simp [h1]
  · by_cases h2 : env.ValidIPv4 req.Address = false
    · simp [h1, h2]
    · have h3 : env.AddressInRange w req.NetworkId req.Address = false := by
        rcases h with h | h | h
        · exact absurd h h1
        · exact absurd h h2
        · exact h
      simp [h1, h2, h3]

open models compare examples in
/-- C29, amended, at two records of the pair with other addresses: the result is `nil`,
and one record with the requested address is left. -/
theorem C29_syncLoadbalancerNetwork_amended_witness :
    ((worldNets [lbnet 0 "10.0.0.1", lbnet 1 "10.0.0.2"]).loadbalancernetworks_tbl.map
        (fun r => r.RowId)).Nodup
    ∧ (SLoadbalancernetworkManager.syncLoadbalancerNetwork networkEnv
        (worldNets [lbnet 0 "10.0.0.1", lbnet 1 "10.0.0.2"]) netReq).2 = none
    ∧ ∃ ln, SLoadbalancernetworkManager.pairRecords
          (SLoadbalancernetworkManager.syncLoadbalancerNetwork networkEnv
            (worldNets [lbnet 0 "10.0.0.1", lbnet 1 "10.0.0.2"]) netReq).1 "lb-1" "net-1" = [ln]
        ∧ ln.IpAddr = "10.0.0.9" :=
  ⟨by decide, by decide,
    (C29_syncLoadbalancerNetwork_amended networkEnv
      (worldNets [lbnet 0 "10.0.0.1", lbnet 1 "10.0.0.2"]) netReq (by decide)
      (fun _ _ _ => rfl) (fun _ _ _ => rfl)).1 (by decide)⟩

end Onecloud
